import Mathlib

/-!
# HLDemo: the demo file engine of YaLTeR/DemTools

A shallow embedding of `HLDemo/src/DemoFile.cpp` (constructor, `ReadHeader`,
`ReadDirectory`, `IsValidDemoFile`, `ReadFrames`, `Save`) and of the frame
records of `HLDemo/src/DemoFrame.hpp`, followed by theorems about them.

Conventions of the embedding.

* A file is its content, a `List Byte`.
* Every `int32_t`, `float`, `int16_t`, ... object is kept as its object
  representation, read little-endian: a `Word32`, `Word16` or `Word8`.
  `read_object` and `write_object` copy that representation.  Where the code
  compares or does arithmetic on an `int32_t`, the signed value `int32 x` is
  used.
* The input stream `demo` is modelled by the bytes after its get position;
  `tellg` is the file size minus the number of those bytes, `seekg (p)` is
  `S.drop p`.  A read that asks for more bytes than are left fails (`none`);
  the decoders surface this as `readFailure`, which is proved never to occur.
* `std::string` is a `List Byte`.
-/

set_option linter.dupNamespace false

namespace HLDemo

/-! ## Bytes and scalar objects -/

abbrev Byte := Fin 256
abbrev Word8 := Fin 256
abbrev Word16 := Fin 65536
abbrev Word32 := Fin 4294967296

def toByte (n : Nat) : Byte := ⟨n % 256, Nat.mod_lt _ (by decide)⟩
def toWord16 (n : Nat) : Word16 := ⟨n % 65536, Nat.mod_lt _ (by decide)⟩
def toWord32 (n : Nat) : Word32 := ⟨n % 4294967296, Nat.mod_lt _ (by decide)⟩

/-- Value of a little-endian byte string. -/
def le : List Byte → Nat
  | [] => 0
  | b :: bs => b.val + 256 * le bs

/-- The `w` little-endian bytes of `n` (the low `8 * w` bits). -/
def toLE : Nat → Nat → List Byte
  | 0, _ => []
  | w + 1, n => toByte n :: toLE w (n / 256)

/-- Signed value of an `int32_t` object (two's complement). -/
def int32 (x : Word32) : Int :=
  if x.val < 2147483648 then (x.val : Int) else (x.val : Int) - 4294967296

/-- Conversion `static_cast<int32_t>` of a stream position or container size. -/
def castInt32 (n : Nat) : Word32 := toWord32 n

/-! ## Size constants (the anonymous `enum` of DemoFile.cpp) -/

def HEADER_SIZE : Nat := 544
def HEADER_SIGNATURE_CHECK_SIZE : Nat := 6
def HEADER_SIGNATURE_SIZE : Nat := 8
def HEADER_MAPNAME_SIZE : Nat := 260
def HEADER_GAMEDIR_SIZE : Nat := 260
def MIN_DIR_ENTRY_COUNT : Int := 1
def MAX_DIR_ENTRY_COUNT : Int := 1024
def DIR_ENTRY_SIZE : Nat := 92
def DIR_ENTRY_DESCRIPTION_SIZE : Nat := 64
def MIN_FRAME_SIZE : Nat := 12
def FRAME_CONSOLE_COMMAND_SIZE : Nat := 64
def FRAME_CLIENT_DATA_SIZE : Nat := 32
def FRAME_EVENT_SIZE : Nat := 84
def FRAME_WEAPON_ANIM_SIZE : Nat := 8
def FRAME_SOUND_SIZE_1 : Nat := 8
def FRAME_SOUND_SIZE_2 : Nat := 16
def FRAME_DEMO_BUFFER_SIZE : Nat := 4
def FRAME_NETMSG_SIZE : Nat := 468
def FRAME_NETMSG_DEMOINFO_SIZE : Nat := 436
def FRAME_NETMSG_DEMOINFO_MOVEVARS_SKYNAME_SIZE : Nat := 32
def FRAME_NETMSG_MIN_MESSAGE_LENGTH : Int := 0
def FRAME_NETMSG_MAX_MESSAGE_LENGTH : Int := 65536

/-! ## The input stream -/

/-- A reader consumes bytes from the front of the unread part of the stream;
`none` is a read past the end of the file. -/
def Reader (α : Type) : Type := List Byte → Option (α × List Byte)

@[noinline, irreducible] def Reader.pure {α : Type} (a : α) : Reader α := fun s => some (a, s)

@[noinline, irreducible] def Reader.bind {α β : Type} (m : Reader α) (f : α → Reader β) :
    Reader β := fun s =>
  match m s with
  | none => none
  | some (a, r) => f a r

instance : Monad Reader where
  pure := Reader.pure
  bind := Reader.bind

/-- Stream position `demo.tellg()` when `r` is the unread part of a file of
`demoSize` bytes. -/
def tellg (demoSize : Nat) (r : List Byte) : Int := (demoSize : Int) - (r.length : Int)

/-- The template `read_objects`: `n` raw bytes (`istream::read`). -/
def read_objects (n : Nat) : Reader (List Byte) := fun s =>
  if n ≤ s.length then some (s.take n, s.drop n) else none

/-- The template `read_object` at a 1-byte type. -/
def read_object8 : Reader Word8 := fun s =>
  (read_objects 1 s).bind (fun p => some (toByte (le p.1), p.2))

/-- The template `read_object` at a 2-byte type. -/
def read_object16 : Reader Word16 := fun s =>
  (read_objects 2 s).bind (fun p => some (toWord16 (le p.1), p.2))

/-- The template `read_object` at a 4-byte type (`int32_t`, `float`). -/
def read_object32 : Reader Word32 := fun s =>
  (read_objects 4 s).bind (fun p => some (toWord32 (le p.1), p.2))

/-- The string that `buf.push_back (0); s = buf.data ()` assigns: the bytes
before the first NUL. -/
def cstr (buf : List Byte) : List Byte := buf.takeWhile (fun b => b ≠ 0)

/-- A fixed-size text field: `n` raw bytes read as a C string. -/
def read_text (n : Nat) : Reader (List Byte) := fun s =>
  (read_objects n s).bind (fun p => some (cstr p.1, p.2))

/-! ## The output side -/

def write_object8 (x : Word8) : List Byte := toLE 1 x.val
def write_object16 (x : Word16) : List Byte := toLE 2 x.val
def write_object32 (x : Word32) : List Byte := toLE 4 x.val

/-- The call `std::vector<char>::resize (n)`: cut to `n` elements or fill with zeros. -/
def resize (n : Nat) (l : List Byte) : List Byte :=
  l.take n ++ List.replicate (n - l.length) 0

/-- A fixed-size text field as `Save` writes it: copy the string, push a NUL,
resize to `n`. -/
def write_text (n : Nat) (s : List Byte) : List Byte := resize n (s ++ [0])

/-! ## Header and directory records (DemoFile.hpp) -/

structure DemoHeader where
  netProtocol : Word32
  demoProtocol : Word32
  mapName : List Byte
  gameDir : List Byte
  mapCRC : Word32
  directoryOffset : Word32
deriving DecidableEq, Repr, Inhabited

/-! ## Frame records (DemoFrame.hpp) -/

/-- A C array `float v[3]` (also used for `int32_t` triples). -/
structure Vec3 where
  v0 : Word32
  v1 : Word32
  v2 : Word32
deriving DecidableEq, Repr, Inhabited

/-- A C array `int32_t v[4]`. -/
structure Vec4 where
  v0 : Word32
  v1 : Word32
  v2 : Word32
  v3 : Word32
deriving DecidableEq, Repr, Inhabited

/-- The members that `ConsoleCommandFrame` adds to `DemoFrame`. -/
structure ConsoleCommandFrame where
  command : List Byte
deriving DecidableEq, Repr, Inhabited

/-- The members that `ClientDataFrame` adds to `DemoFrame`. -/
structure ClientDataFrame where
  origin : Vec3
  viewangles : Vec3
  weaponBits : Word32
  fov : Word32
deriving DecidableEq, Repr, Inhabited

/-- The anonymous struct `EventFrame::EventArgs`. -/
structure EventArgs where
  flags : Word32
  entityIndex : Word32
  origin : Vec3
  angles : Vec3
  velocity : Vec3
  ducking : Word32
  fparam1 : Word32
  fparam2 : Word32
  iparam1 : Word32
  iparam2 : Word32
  bparam1 : Word32
  bparam2 : Word32
deriving DecidableEq, Repr, Inhabited

/-- The members that `EventFrame` adds to `DemoFrame`. -/
structure EventFrame where
  flags : Word32
  index : Word32
  delay : Word32
  EventArgs : EventArgs
deriving DecidableEq, Repr, Inhabited

/-- The members that `WeaponAnimFrame` adds to `DemoFrame`. -/
structure WeaponAnimFrame where
  anim : Word32
  body : Word32
deriving DecidableEq, Repr, Inhabited

/-- The members that `SoundFrame` adds to `DemoFrame`. -/
structure SoundFrame where
  channel : Word32
  sample : List Byte
  attenuation : Word32
  volume : Word32
  flags : Word32
  pitch : Word32
deriving DecidableEq, Repr, Inhabited

/-- The members that `DemoBufferFrame` adds to `DemoFrame`. -/
structure DemoBufferFrame where
  buffer : List Byte
deriving DecidableEq, Repr, Inhabited

/-- The anonymous struct `NetMsgFrame::DemoInfo.RefParams`. -/
structure RefParams where
  vieworg : Vec3
  viewangles : Vec3
  forward : Vec3
  right : Vec3
  up : Vec3
  frametime : Word32
  time : Word32
  intermission : Word32
  paused : Word32
  spectator : Word32
  onground : Word32
  waterlevel : Word32
  simorg : Vec3
  simvel : Vec3
  viewheight : Vec3
  idealpitch : Word32
  cl_viewangles : Vec3
  health : Word32
  crosshairangle : Vec3
  viewsize : Word32
  punchangle : Vec3
  maxclients : Word32
  viewentity : Word32
  playernum : Word32
  max_entities : Word32
  demoplayback : Word32
  hardware : Word32
  smoothing : Word32
  ptr_cmd : Word32
  ptr_movevars : Word32
  viewport : Vec4
  nextView : Word32
  onlyClientDraw : Word32
deriving DecidableEq, Repr, Inhabited

/-- The anonymous struct `NetMsgFrame::DemoInfo.UserCmd`. -/
structure UserCmd where
  lerp_msec : Word16
  msec : Word8
  align_1 : Word8
  viewangles : Vec3
  forwardmove : Word32
  sidemove : Word32
  upmove : Word32
  lightlevel : Word8
  align_2 : Word8
  buttons : Word16
  impulse : Word8
  weaponselect : Word8
  align_3 : Word8
  align_4 : Word8
  impact_index : Word32
  impact_position : Vec3
deriving DecidableEq, Repr, Inhabited

/-- The anonymous struct `NetMsgFrame::DemoInfo.MoveVars`. -/
structure MoveVars where
  gravity : Word32
  stopspeed : Word32
  maxspeed : Word32
  spectatormaxspeed : Word32
  accelerate : Word32
  airaccelerate : Word32
  wateraccelerate : Word32
  friction : Word32
  edgefriction : Word32
  waterfriction : Word32
  entgravity : Word32
  bounce : Word32
  stepsize : Word32
  maxvelocity : Word32
  zmax : Word32
  waveHeight : Word32
  footsteps : Word32
  skyName : List Byte
  rollangle : Word32
  rollspeed : Word32
  skycolor_r : Word32
  skycolor_g : Word32
  skycolor_b : Word32
  skyvec_x : Word32
  skyvec_y : Word32
  skyvec_z : Word32
deriving DecidableEq, Repr, Inhabited

/-- The anonymous struct `NetMsgFrame::DemoInfo`. -/
structure DemoInfo where
  timestamp : Word32
  RefParams : RefParams
  UserCmd : UserCmd
  MoveVars : MoveVars
  view : Vec3
  viewmodel : Word32
deriving DecidableEq, Repr, Inhabited

/-- The members that `NetMsgFrame` adds to `DemoFrame`. -/
structure NetMsgFrame where
  DemoInfo : DemoInfo
  incoming_sequence : Word32
  incoming_acknowledged : Word32
  incoming_reliable_acknowledged : Word32
  incoming_reliable_sequence : Word32
  outgoing_sequence : Word32
  reliable_sequence : Word32
  last_reliable_sequence : Word32
  msg : List Byte
deriving DecidableEq, Repr, Inhabited

/-- The dynamic type of the object behind a `shared_ptr<DemoFrame>`: which
struct it was constructed as, with the members that struct adds. -/
inductive FrameObject where
  | DemoFrame
  | ConsoleCommandFrame (f : ConsoleCommandFrame)
  | ClientDataFrame (f : ClientDataFrame)
  | EventFrame (f : EventFrame)
  | WeaponAnimFrame (f : WeaponAnimFrame)
  | SoundFrame (f : SoundFrame)
  | DemoBufferFrame (f : DemoBufferFrame)
  | NetMsgFrame (f : NetMsgFrame)
deriving DecidableEq, Repr, Inhabited

/-- A frame: the three members of the base `struct DemoFrame` (the tag `type`
is a `uint8_t`) and the object they belong to. -/
structure DemoFrame where
  type : Byte
  time : Word32
  frame : Word32
  object : FrameObject
deriving DecidableEq, Repr, Inhabited

/-- The enumerators of `DemoFrameType`. -/
def DemoFrameType.DEMO_START : Byte := 2
def DemoFrameType.CONSOLE_COMMAND : Byte := 3
def DemoFrameType.CLIENT_DATA : Byte := 4
def DemoFrameType.NEXT_SECTION : Byte := 5
def DemoFrameType.EVENT : Byte := 6
def DemoFrameType.WEAPON_ANIM : Byte := 7
def DemoFrameType.SOUND : Byte := 8
def DemoFrameType.DEMO_BUFFER : Byte := 9

structure DemoDirectoryEntry where
  type : Word32
  description : List Byte
  flags : Word32
  CDTrack : Word32
  trackTime : Word32
  frameCount : Word32
  offset : Word32
  fileLength : Word32
  frames : List DemoFrame
deriving DecidableEq, Repr, Inhabited

/-- The state of a `DemoFile` object: the public members, the content of the
file behind the stream `demo` (`demoSize` is its length) and the flag
`readFrames`. -/
structure DemoFile where
  header : DemoHeader
  directoryEntries : List DemoDirectoryEntry
  demo : List Byte
  readFrames : Bool
deriving DecidableEq, Repr, Inhabited

def DemoFile.demoSize (d : DemoFile) : Nat := d.demo.length

/-- What a failing operation throws.  The first four are the
`std::runtime_error`s of the constructor and `ReadDirectory`, the fifth that of
`ReadFrames`; `lengthError` is the `std::length_error` of a
`std::vector::resize` with a negative `int32_t` converted to `size_t`;
`readFailure` stands for a read past the end of the file and `outOfFuel` for a
frame loop that did not stop within its iteration bound. -/
inductive DemoError where
  | sizeTooSmall
  | signatureMismatch
  | invalidDirectoryOffset
  | invalidDirectoryEntryCount
  | unsupportedProtocol
  | lengthError
  | readFailure
  | outOfFuel
deriving DecidableEq, Repr, Inhabited

/-! ## The constructor: `ReadHeader`, `ReadDirectory`, `IsValidDemoFile` -/

/-- The six bytes compared with the start of the file. -/
def HLDEMO : List Byte := [72, 76, 68, 69, 77, 79]

/-- `DemoFile::ReadHeader`, on the stream after `seekg (HEADER_SIGNATURE_SIZE)`. -/
def ReadHeader : Reader DemoHeader := do
  let demoProtocol ← read_object32
  let netProtocol ← read_object32
  let mapName ← read_text HEADER_MAPNAME_SIZE
  let gameDir ← read_text HEADER_GAMEDIR_SIZE
  let mapCRC ← read_object32
  let directoryOffset ← read_object32
  pure { netProtocol := netProtocol, demoProtocol := demoProtocol, mapName := mapName,
         gameDir := gameDir, mapCRC := mapCRC, directoryOffset := directoryOffset }

/-- One pass of the loop body of `ReadDirectory`. -/
def readDirectoryEntry : Reader DemoDirectoryEntry := do
  let type ← read_object32
  let description ← read_text DIR_ENTRY_DESCRIPTION_SIZE
  let flags ← read_object32
  let CDTrack ← read_object32
  let trackTime ← read_object32
  let frameCount ← read_object32
  let offset ← read_object32
  let fileLength ← read_object32
  pure { type := type, description := description, flags := flags, CDTrack := CDTrack,
         trackTime := trackTime, frameCount := frameCount, offset := offset,
         fileLength := fileLength, frames := [] }

/-- The loop `for (i = 0; i < dirEntryCount; ++i)` of `ReadDirectory`. -/
def readDirectoryEntries : Nat → Reader (List DemoDirectoryEntry)
  | 0 => pure []
  | n + 1 => do
    let entry ← readDirectoryEntry
    let entries ← readDirectoryEntries n
    pure (entry :: entries)

/-- `DemoFile::ReadDirectory` on the file `S` with the header just read.  The
product `dirEntryCount * DIR_ENTRY_SIZE` is evaluated only when the count is in
`[1, 1024]` (short-circuit `||`), so it does not overflow. -/
def ReadDirectory (S : List Byte) (header : DemoHeader) :
    Except DemoError (List DemoDirectoryEntry) :=
  let demoSize := S.length
  if int32 header.directoryOffset < 0 ∨
      (demoSize : Int) - 4 < int32 header.directoryOffset then
    .error .invalidDirectoryOffset
  else
    match read_object32 (S.drop (int32 header.directoryOffset).toNat) with
    | none => .error .readFailure
    | some (dirEntryCount, r) =>
      if int32 dirEntryCount < MIN_DIR_ENTRY_COUNT ∨ int32 dirEntryCount > MAX_DIR_ENTRY_COUNT ∨
          (demoSize : Int) - int32 dirEntryCount * (DIR_ENTRY_SIZE : Int) < tellg demoSize r then
        .error .invalidDirectoryEntryCount
      else
        match readDirectoryEntries (int32 dirEntryCount).toNat r with
        | none => .error .readFailure
        | some (entries, _) => .ok entries

/-- The constructor `DemoFile::DemoFile` on a file with content `S` (a file
that cannot be opened is outside the model). -/
def DemoFile.DemoFile (S : List Byte) : Except DemoError DemoFile :=
  let demoSize := S.length
  if demoSize < HEADER_SIZE then .error .sizeTooSmall
  else
    match read_objects HEADER_SIGNATURE_CHECK_SIZE S with
    | none => .error .readFailure
    | some (signature, _) =>
      if signature ≠ HLDEMO then .error .signatureMismatch
      else
        match ReadHeader (S.drop HEADER_SIGNATURE_SIZE) with
        | none => .error .readFailure
        | some (header, _) =>
          match ReadDirectory S header with
          | .error e => .error e
          | .ok entries =>
            .ok { header := header, directoryEntries := entries, demo := S, readFrames := false }

/-- `DemoFile::IsValidDemoFile` on a file with content `S`. -/
def DemoFile.IsValidDemoFile (S : List Byte) : Bool :=
  if S.length < HEADER_SIZE then false
  else
    match read_objects HEADER_SIGNATURE_CHECK_SIZE S with
    | none => false
    | some (signature, _) => if signature ≠ HLDEMO then false else true

/-! ## `ReadFrames` -/

def read_vec3 : Reader Vec3 := do
  let v0 ← read_object32
  let v1 ← read_object32
  let v2 ← read_object32
  pure { v0 := v0, v1 := v1, v2 := v2 }

def read_vec4 : Reader Vec4 := do
  let v0 ← read_object32
  let v1 ← read_object32
  let v2 ← read_object32
  let v3 ← read_object32
  pure { v0 := v0, v1 := v1, v2 := v2, v3 := v3 }

/-- What one pass of the `while (!stop)` loop does: it appends a frame (and
sets `stop` or not), or leaves the loop without a frame (`break`, or
`stop = true; break` out of the `switch`), or throws. -/
inductive FrameStep where
  | appended (f : DemoFrame) (stop : Bool) (r : List Byte)
  | stopped
  | thrown (e : DemoError)
deriving DecidableEq, Repr, Inhabited

def readClientData : Reader ClientDataFrame := do
  let origin ← read_vec3
  let viewangles ← read_vec3
  let weaponBits ← read_object32
  let fov ← read_object32
  pure { origin := origin, viewangles := viewangles, weaponBits := weaponBits, fov := fov }

def readEvent : Reader EventFrame := do
  let flags ← read_object32
  let index ← read_object32
  let delay ← read_object32
  let aflags ← read_object32
  let entityIndex ← read_object32
  let origin ← read_vec3
  let angles ← read_vec3
  let velocity ← read_vec3
  let ducking ← read_object32
  let fparam1 ← read_object32
  let fparam2 ← read_object32
  let iparam1 ← read_object32
  let iparam2 ← read_object32
  let bparam1 ← read_object32
  let bparam2 ← read_object32
  pure { flags := flags, index := index, delay := delay,
         EventArgs := { flags := aflags, entityIndex := entityIndex, origin := origin,
                        angles := angles, velocity := velocity, ducking := ducking,
                        fparam1 := fparam1, fparam2 := fparam2, iparam1 := iparam1,
                        iparam2 := iparam2, bparam1 := bparam1, bparam2 := bparam2 } }

def readWeaponAnim : Reader WeaponAnimFrame := do
  let anim ← read_object32
  let body ← read_object32
  pure { anim := anim, body := body }

/-- The reads of `case SOUND` before its second check: channel and length. -/
def readSoundHead : Reader (Word32 × Word32) := do
  let channel ← read_object32
  let length ← read_object32
  pure (channel, length)

/-- The reads of `case SOUND` after `f.sample.resize (length)`. -/
def readSoundTail (channel : Word32) (length : Nat) : Reader SoundFrame := do
  let sample ← read_objects length
  let attenuation ← read_object32
  let volume ← read_object32
  let flags ← read_object32
  let pitch ← read_object32
  pure { channel := channel, sample := sample, attenuation := attenuation, volume := volume,
         flags := flags, pitch := pitch }

def readRefParams : Reader RefParams := do
  let vieworg ← read_vec3
  let viewangles ← read_vec3
  let forward ← read_vec3
  let right ← read_vec3
  let up ← read_vec3
  let frametime ← read_object32
  let time ← read_object32
  let intermission ← read_object32
  let paused ← read_object32
  let spectator ← read_object32
  let onground ← read_object32
  let waterlevel ← read_object32
  let simorg ← read_vec3
  let simvel ← read_vec3
  let viewheight ← read_vec3
  let idealpitch ← read_object32
  let cl_viewangles ← read_vec3
  let health ← read_object32
  let crosshairangle ← read_vec3
  let viewsize ← read_object32
  let punchangle ← read_vec3
  let maxclients ← read_object32
  let viewentity ← read_object32
  let playernum ← read_object32
  let max_entities ← read_object32
  let demoplayback ← read_object32
  let hardware ← read_object32
  let smoothing ← read_object32
  let ptr_cmd ← read_object32
  let ptr_movevars ← read_object32
  let viewport ← read_vec4
  let nextView ← read_object32
  let onlyClientDraw ← read_object32
  pure { vieworg := vieworg, viewangles := viewangles, forward := forward, right := right,
         up := up, frametime := frametime, time := time, intermission := intermission,
         paused := paused, spectator := spectator, onground := onground,
         waterlevel := waterlevel, simorg := simorg, simvel := simvel,
         viewheight := viewheight, idealpitch := idealpitch, cl_viewangles := cl_viewangles,
         health := health, crosshairangle := crosshairangle, viewsize := viewsize,
         punchangle := punchangle, maxclients := maxclients, viewentity := viewentity,
         playernum := playernum, max_entities := max_entities, demoplayback := demoplayback,
         hardware := hardware, smoothing := smoothing, ptr_cmd := ptr_cmd,
         ptr_movevars := ptr_movevars, viewport := viewport, nextView := nextView,
         onlyClientDraw := onlyClientDraw }

def readUserCmd : Reader UserCmd := do
  let lerp_msec ← read_object16
  let msec ← read_object8
  let align_1 ← read_object8
  let viewangles ← read_vec3
  let forwardmove ← read_object32
  let sidemove ← read_object32
  let upmove ← read_object32
  let lightlevel ← read_object8
  let align_2 ← read_object8
  let buttons ← read_object16
  let impulse ← read_object8
  let weaponselect ← read_object8
  let align_3 ← read_object8
  let align_4 ← read_object8
  let impact_index ← read_object32
  let impact_position ← read_vec3
  pure { lerp_msec := lerp_msec, msec := msec, align_1 := align_1, viewangles := viewangles,
         forwardmove := forwardmove, sidemove := sidemove, upmove := upmove,
         lightlevel := lightlevel, align_2 := align_2, buttons := buttons, impulse := impulse,
         weaponselect := weaponselect, align_3 := align_3, align_4 := align_4,
         impact_index := impact_index, impact_position := impact_position }

def readMoveVars : Reader MoveVars := do
  let gravity ← read_object32
  let stopspeed ← read_object32
  let maxspeed ← read_object32
  let spectatormaxspeed ← read_object32
  let accelerate ← read_object32
  let airaccelerate ← read_object32
  let wateraccelerate ← read_object32
  let friction ← read_object32
  let edgefriction ← read_object32
  let waterfriction ← read_object32
  let entgravity ← read_object32
  let bounce ← read_object32
  let stepsize ← read_object32
  let maxvelocity ← read_object32
  let zmax ← read_object32
  let waveHeight ← read_object32
  let footsteps ← read_object32
  let skyName ← read_text FRAME_NETMSG_DEMOINFO_MOVEVARS_SKYNAME_SIZE
  let rollangle ← read_object32
  let rollspeed ← read_object32
  let skycolor_r ← read_object32
  let skycolor_g ← read_object32
  let skycolor_b ← read_object32
  let skyvec_x ← read_object32
  let skyvec_y ← read_object32
  let skyvec_z ← read_object32
  pure { gravity := gravity, stopspeed := stopspeed, maxspeed := maxspeed,
         spectatormaxspeed := spectatormaxspeed, accelerate := accelerate,
         airaccelerate := airaccelerate, wateraccelerate := wateraccelerate,
         friction := friction, edgefriction := edgefriction, waterfriction := waterfriction,
         entgravity := entgravity, bounce := bounce, stepsize := stepsize,
         maxvelocity := maxvelocity, zmax := zmax, waveHeight := waveHeight,
         footsteps := footsteps, skyName := skyName, rollangle := rollangle,
         rollspeed := rollspeed, skycolor_r := skycolor_r, skycolor_g := skycolor_g,
         skycolor_b := skycolor_b, skyvec_x := skyvec_x, skyvec_y := skyvec_y,
         skyvec_z := skyvec_z }

def readDemoInfo : Reader DemoInfo := do
  let timestamp ← read_object32
  let refParams ← readRefParams
  let userCmd ← readUserCmd
  let moveVars ← readMoveVars
  let view ← read_vec3
  let viewmodel ← read_object32
  pure { timestamp := timestamp, RefParams := refParams, UserCmd := userCmd,
         MoveVars := moveVars, view := view, viewmodel := viewmodel }

/-- The reads of the `default` case up to and including the message length:
the frame without its message, and the length. -/
def readNetMsgHead : Reader (NetMsgFrame × Word32) := do
  let demoInfo ← readDemoInfo
  let incoming_sequence ← read_object32
  let incoming_acknowledged ← read_object32
  let incoming_reliable_acknowledged ← read_object32
  let incoming_reliable_sequence ← read_object32
  let outgoing_sequence ← read_object32
  let reliable_sequence ← read_object32
  let last_reliable_sequence ← read_object32
  let length ← read_object32
  pure ({ DemoInfo := demoInfo, incoming_sequence := incoming_sequence,
          incoming_acknowledged := incoming_acknowledged,
          incoming_reliable_acknowledged := incoming_reliable_acknowledged,
          incoming_reliable_sequence := incoming_reliable_sequence,
          outgoing_sequence := outgoing_sequence, reliable_sequence := reliable_sequence,
          last_reliable_sequence := last_reliable_sequence, msg := [] }, length)

/-- `case DemoFrameType::DEMO_START` of `ReadFrames`; in this and the following cases
`type`, `time`, `frame` are the three common members just read and `r` is the unread part
of the stream. -/
def caseDemoStart (type : Byte) (time frame : Word32) (r : List Byte) : FrameStep :=
  .appended { type := type, time := time, frame := frame, object := .DemoFrame } false r

/-- `case DemoFrameType::CONSOLE_COMMAND` of `ReadFrames`. -/
def caseConsoleCommand (demoSize : Nat) (type : Byte) (time frame : Word32) (r : List Byte) :
    FrameStep :=
  if (demoSize : Int) - (FRAME_CONSOLE_COMMAND_SIZE : Int) < tellg demoSize r then .stopped
  else
    match read_text FRAME_CONSOLE_COMMAND_SIZE r with
    | none => .thrown .readFailure
    | some (command, r) =>
      .appended { type := type, time := time, frame := frame,
                  object := .ConsoleCommandFrame { command := command } } false r

/-- `case DemoFrameType::CLIENT_DATA` of `ReadFrames`. -/
def caseClientData (demoSize : Nat) (type : Byte) (time frame : Word32) (r : List Byte) :
    FrameStep :=
  if (demoSize : Int) - (FRAME_CLIENT_DATA_SIZE : Int) < tellg demoSize r then .stopped
  else
    match readClientData r with
    | none => .thrown .readFailure
    | some (f, r) =>
      .appended { type := type, time := time, frame := frame, object := .ClientDataFrame f }
        false r

/-- `case DemoFrameType::NEXT_SECTION` of `ReadFrames`: the frame is appended and `stop`
is set. -/
def caseNextSection (type : Byte) (time frame : Word32) (r : List Byte) : FrameStep :=
  .appended { type := type, time := time, frame := frame, object := .DemoFrame } true r

/-- `case DemoFrameType::EVENT` of `ReadFrames`. -/
def caseEvent (demoSize : Nat) (type : Byte) (time frame : Word32) (r : List Byte) :
    FrameStep :=
  if (demoSize : Int) - (FRAME_EVENT_SIZE : Int) < tellg demoSize r then .stopped
  else
    match readEvent r with
    | none => .thrown .readFailure
    | some (f, r) =>
      .appended { type := type, time := time, frame := frame, object := .EventFrame f }
        false r

/-- `case DemoFrameType::WEAPON_ANIM` of `ReadFrames`. -/
def caseWeaponAnim (demoSize : Nat) (type : Byte) (time frame : Word32) (r : List Byte) :
    FrameStep :=
  if (demoSize : Int) - (FRAME_WEAPON_ANIM_SIZE : Int) < tellg demoSize r then .stopped
  else
    match readWeaponAnim r with
    | none => .thrown .readFailure
    | some (f, r) =>
      .appended { type := type, time := time, frame := frame, object := .WeaponAnimFrame f }
        false r

/-- `case DemoFrameType::SOUND` of `ReadFrames`.  `f.sample.resize (length)` converts the
`int32_t` to `size_t`; a negative length becomes a size above `max_size ()` and the call
throws `std::length_error`. -/
def caseSound (demoSize : Nat) (type : Byte) (time frame : Word32) (r : List Byte) :
    FrameStep :=
  if (demoSize : Int) - (FRAME_SOUND_SIZE_1 : Int) < tellg demoSize r then .stopped
  else
    match readSoundHead r with
    | none => .thrown .readFailure
    | some ((channel, length), r) =>
      if (demoSize : Int) - int32 length - (FRAME_SOUND_SIZE_2 : Int) < tellg demoSize r then
        .stopped
      else if int32 length < 0 then .thrown .lengthError
      else
        match readSoundTail channel (int32 length).toNat r with
        | none => .thrown .readFailure
        | some (f, r) =>
          .appended { type := type, time := time, frame := frame, object := .SoundFrame f }
            false r

/-- `case DemoFrameType::DEMO_BUFFER` of `ReadFrames`.  `f.buffer.resize (length)` throws
`std::length_error` for a negative length, as in `caseSound`. -/
def caseDemoBuffer (demoSize : Nat) (type : Byte) (time frame : Word32) (r : List Byte) :
    FrameStep :=
  if (demoSize : Int) - (FRAME_DEMO_BUFFER_SIZE : Int) < tellg demoSize r then .stopped
  else
    match read_object32 r with
    | none => .thrown .readFailure
    | some (length, r) =>
      if (demoSize : Int) - int32 length < tellg demoSize r then .stopped
      else if int32 length < 0 then .thrown .lengthError
      else
        match read_objects (int32 length).toNat r with
        | none => .thrown .readFailure
        | some (buffer, r) =>
          .appended { type := type, time := time, frame := frame,
                      object := .DemoBufferFrame { buffer := buffer } } false r

/-- The `default` case of `ReadFrames`: a network message. -/
def caseNetMsg (demoSize : Nat) (type : Byte) (time frame : Word32) (r : List Byte) :
    FrameStep :=
  if (demoSize : Int) - (FRAME_NETMSG_SIZE : Int) < tellg demoSize r then .stopped
  else
    match readNetMsgHead r with
    | none => .thrown .readFailure
    | some ((f, length), r) =>
      if int32 length < FRAME_NETMSG_MIN_MESSAGE_LENGTH ∨
          int32 length > FRAME_NETMSG_MAX_MESSAGE_LENGTH then .stopped
      else if (demoSize : Int) - int32 length < tellg demoSize r then .stopped
      else
        match read_objects (int32 length).toNat r with
        | none => .thrown .readFailure
        | some (msg, r) =>
          .appended { type := type, time := time, frame := frame,
                      object := .NetMsgFrame { f with msg := msg } } false r

/-- The `switch (frame.type)` of `ReadFrames`. -/
def readFrameSwitch (demoSize : Nat) (type : Byte) (time frame : Word32) (r : List Byte) :
    FrameStep :=
  if type = DemoFrameType.DEMO_START then caseDemoStart type time frame r
  else if type = DemoFrameType.CONSOLE_COMMAND then caseConsoleCommand demoSize type time frame r
  else if type = DemoFrameType.CLIENT_DATA then caseClientData demoSize type time frame r
  else if type = DemoFrameType.NEXT_SECTION then caseNextSection type time frame r
  else if type = DemoFrameType.EVENT then caseEvent demoSize type time frame r
  else if type = DemoFrameType.WEAPON_ANIM then caseWeaponAnim demoSize type time frame r
  else if type = DemoFrameType.SOUND then caseSound demoSize type time frame r
  else if type = DemoFrameType.DEMO_BUFFER then caseDemoBuffer demoSize type time frame r
  else caseNetMsg demoSize type time frame r

/-- The three reads at the top of the loop body: `type`, `time`, `frame`. -/
def readFrameHead : Reader (Byte × Word32 × Word32) := do
  let type ← read_object8
  let time ← read_object32
  let frame ← read_object32
  pure (type, time, frame)

/-- One pass of the body of `while (!stop)` with `r` the unread part of the
stream. -/
def readFrame (demoSize : Nat) (r : List Byte) : FrameStep :=
  if (demoSize : Int) - (MIN_FRAME_SIZE : Int) < tellg demoSize r then .stopped
  else
    match readFrameHead r with
    | none => .thrown .readFailure
    | some ((type, time, frame), r) => readFrameSwitch demoSize type time frame r

/-- How the frame loop of one entry ends, with the entry's frame list then. -/
inductive LoopResult where
  | done (frames : List DemoFrame)
  | thrown (e : DemoError) (frames : List DemoFrame)
deriving DecidableEq, Repr, Inhabited

/-- The loop `while (!stop)` of one directory entry; `frames` is
`entry.frames`.  The recursion is bounded by a number of passes; running out of
them is reported as `outOfFuel`. -/
def readFrameLoop (demoSize : Nat) : Nat → List Byte → List DemoFrame → LoopResult
  | 0, _, frames => .thrown .outOfFuel frames
  | fuel + 1, r, frames =>
    match readFrame demoSize r with
    | .stopped => .done frames
    | .appended f true _ => .done (frames ++ [f])
    | .appended f false r => readFrameLoop demoSize fuel r (frames ++ [f])
    | .thrown e => .thrown e frames

/-- The loop `for (auto& entry : directoryEntries)` of `ReadFrames` over the
file `S`: the exception that ended it, if any, and the entries afterwards.
A pass consumes at least one byte, so `S.length + 1` passes are never used up. -/
def readEntries (S : List Byte) : List DemoDirectoryEntry →
    Option DemoError × List DemoDirectoryEntry
  | [] => (none, [])
  | entry :: rest =>
    if int32 entry.offset < 0 ∨ (S.length : Int) < int32 entry.offset then
      ((readEntries S rest).1, entry :: (readEntries S rest).2)
    else
      match readFrameLoop S.length (S.length + 1) (S.drop (int32 entry.offset).toNat)
          entry.frames with
      | .done frames =>
        ((readEntries S rest).1, { entry with frames := frames } :: (readEntries S rest).2)
      | .thrown e frames => (some e, { entry with frames := frames } :: rest)

/-- `DemoFile::ReadFrames`: the exception thrown, if any, and the object
afterwards. -/
def DemoFile.ReadFrames (d : HLDemo.DemoFile) : Option DemoError × HLDemo.DemoFile :=
  if d.readFrames then (none, d)
  else if d.header.demoProtocol ≠ 5 then (some .unsupportedProtocol, d)
  else
    match readEntries d.demo d.directoryEntries with
    | (none, entries) => (none, { d with directoryEntries := entries, readFrames := true })
    | (some e, entries) => (some e, { d with directoryEntries := entries })

/-! ## `Save` -/

def write_vec3 (v : Vec3) : List Byte :=
  write_object32 v.v0 ++ write_object32 v.v1 ++ write_object32 v.v2

def write_vec4 (v : Vec4) : List Byte :=
  write_object32 v.v0 ++ write_object32 v.v1 ++ write_object32 v.v2 ++ write_object32 v.v3

def writeClientData (f : ClientDataFrame) : List Byte :=
  write_vec3 f.origin ++ write_vec3 f.viewangles ++ write_object32 f.weaponBits ++
  write_object32 f.fov

def writeEvent (f : EventFrame) : List Byte :=
  write_object32 f.flags ++ write_object32 f.index ++ write_object32 f.delay ++
  write_object32 f.EventArgs.flags ++ write_object32 f.EventArgs.entityIndex ++
  write_vec3 f.EventArgs.origin ++ write_vec3 f.EventArgs.angles ++
  write_vec3 f.EventArgs.velocity ++ write_object32 f.EventArgs.ducking ++
  write_object32 f.EventArgs.fparam1 ++ write_object32 f.EventArgs.fparam2 ++
  write_object32 f.EventArgs.iparam1 ++ write_object32 f.EventArgs.iparam2 ++
  write_object32 f.EventArgs.bparam1 ++ write_object32 f.EventArgs.bparam2

def writeWeaponAnim (f : WeaponAnimFrame) : List Byte :=
  write_object32 f.anim ++ write_object32 f.body

def writeSound (f : SoundFrame) : List Byte :=
  write_object32 f.channel ++ write_object32 (castInt32 f.sample.length) ++ f.sample ++
  write_object32 f.attenuation ++ write_object32 f.volume ++ write_object32 f.flags ++
  write_object32 f.pitch

def writeDemoBuffer (f : DemoBufferFrame) : List Byte :=
  write_object32 (castInt32 f.buffer.length) ++ f.buffer

def writeRefParams (p : RefParams) : List Byte :=
  write_vec3 p.vieworg ++ write_vec3 p.viewangles ++ write_vec3 p.forward ++
  write_vec3 p.right ++ write_vec3 p.up ++ write_object32 p.frametime ++
  write_object32 p.time ++ write_object32 p.intermission ++ write_object32 p.paused ++
  write_object32 p.spectator ++ write_object32 p.onground ++ write_object32 p.waterlevel ++
  write_vec3 p.simorg ++ write_vec3 p.simvel ++ write_vec3 p.viewheight ++
  write_object32 p.idealpitch ++ write_vec3 p.cl_viewangles ++ write_object32 p.health ++
  write_vec3 p.crosshairangle ++ write_object32 p.viewsize ++ write_vec3 p.punchangle ++
  write_object32 p.maxclients ++ write_object32 p.viewentity ++ write_object32 p.playernum ++
  write_object32 p.max_entities ++ write_object32 p.demoplayback ++
  write_object32 p.hardware ++ write_object32 p.smoothing ++ write_object32 p.ptr_cmd ++
  write_object32 p.ptr_movevars ++ write_vec4 p.viewport ++ write_object32 p.nextView ++
  write_object32 p.onlyClientDraw

def writeUserCmd (c : UserCmd) : List Byte :=
  write_object16 c.lerp_msec ++ write_object8 c.msec ++ write_object8 c.align_1 ++
  write_vec3 c.viewangles ++ write_object32 c.forwardmove ++ write_object32 c.sidemove ++
  write_object32 c.upmove ++ write_object8 c.lightlevel ++ write_object8 c.align_2 ++
  write_object16 c.buttons ++ write_object8 c.impulse ++ write_object8 c.weaponselect ++
  write_object8 c.align_3 ++ write_object8 c.align_4 ++ write_object32 c.impact_index ++
  write_vec3 c.impact_position

def writeMoveVars (m : MoveVars) : List Byte :=
  write_object32 m.gravity ++ write_object32 m.stopspeed ++ write_object32 m.maxspeed ++
  write_object32 m.spectatormaxspeed ++ write_object32 m.accelerate ++
  write_object32 m.airaccelerate ++ write_object32 m.wateraccelerate ++
  write_object32 m.friction ++ write_object32 m.edgefriction ++
  write_object32 m.waterfriction ++ write_object32 m.entgravity ++ write_object32 m.bounce ++
  write_object32 m.stepsize ++ write_object32 m.maxvelocity ++ write_object32 m.zmax ++
  write_object32 m.waveHeight ++ write_object32 m.footsteps ++
  write_text FRAME_NETMSG_DEMOINFO_MOVEVARS_SKYNAME_SIZE m.skyName ++
  write_object32 m.rollangle ++ write_object32 m.rollspeed ++ write_object32 m.skycolor_r ++
  write_object32 m.skycolor_g ++ write_object32 m.skycolor_b ++ write_object32 m.skyvec_x ++
  write_object32 m.skyvec_y ++ write_object32 m.skyvec_z

def writeDemoInfo (i : DemoInfo) : List Byte :=
  write_object32 i.timestamp ++ writeRefParams i.RefParams ++ writeUserCmd i.UserCmd ++
  writeMoveVars i.MoveVars ++ write_vec3 i.view ++ write_object32 i.viewmodel

def writeNetMsg (f : NetMsgFrame) : List Byte :=
  writeDemoInfo f.DemoInfo ++ write_object32 f.incoming_sequence ++
  write_object32 f.incoming_acknowledged ++ write_object32 f.incoming_reliable_acknowledged ++
  write_object32 f.incoming_reliable_sequence ++ write_object32 f.outgoing_sequence ++
  write_object32 f.reliable_sequence ++ write_object32 f.last_reliable_sequence ++
  write_object32 (castInt32 f.msg.length) ++ f.msg

/-- The three writes at the top of the frame loop of `Save`. -/
def writeFrameHead (type : Byte) (time frame : Word32) : List Byte :=
  write_object8 type ++ write_object32 time ++ write_object32 frame

/-- The bytes that one pass of the frame loop of `Save` writes.  In each case
the `reinterpret_cast` to the struct of that case is followed by member
accesses; on an object of another struct this is undefined behaviour, `none`. -/
def writeFrame (frame : DemoFrame) : Option (List Byte) :=
  let head := writeFrameHead frame.type frame.time frame.frame
  if frame.type = DemoFrameType.DEMO_START then some head
  else if frame.type = DemoFrameType.CONSOLE_COMMAND then
    match frame.object with
    | .ConsoleCommandFrame f => some (head ++ write_text FRAME_CONSOLE_COMMAND_SIZE f.command)
    | _ => none
  else if frame.type = DemoFrameType.CLIENT_DATA then
    match frame.object with
    | .ClientDataFrame f => some (head ++ writeClientData f)
    | _ => none
  else if frame.type = DemoFrameType.NEXT_SECTION then some head
  else if frame.type = DemoFrameType.EVENT then
    match frame.object with
    | .EventFrame f => some (head ++ writeEvent f)
    | _ => none
  else if frame.type = DemoFrameType.WEAPON_ANIM then
    match frame.object with
    | .WeaponAnimFrame f => some (head ++ writeWeaponAnim f)
    | _ => none
  else if frame.type = DemoFrameType.SOUND then
    match frame.object with
    | .SoundFrame f => some (head ++ writeSound f)
    | _ => none
  else if frame.type = DemoFrameType.DEMO_BUFFER then
    match frame.object with
    | .DemoBufferFrame f => some (head ++ writeDemoBuffer f)
    | _ => none
  else
    match frame.object with
    | .NetMsgFrame f => some (head ++ writeNetMsg f)
    | _ => none

/-- The loop `for (const auto& frame : entry.frames)` of `Save`: `o` is what
has been written to the output so far, the flag is `wroteNextSection`. -/
def saveFrames : List DemoFrame → List Byte → Bool → Option (List Byte × Bool)
  | [], o, wroteNextSection => some (o, wroteNextSection)
  | frame :: rest, o, wroteNextSection =>
    match writeFrame frame with
    | none => none
    | some bytes =>
      saveFrames rest (o ++ bytes)
        (if frame.type = DemoFrameType.NEXT_SECTION then true else wroteNextSection)

/-- The frame that `Save` writes when `wroteNextSection` is still false. -/
def nextSectionFrame : DemoFrame :=
  { type := DemoFrameType.NEXT_SECTION, time := 0, frame := 0, object := .DemoFrame }

/-- The first loop `for (auto& entry : directoryEntries)` of `Save`: the
output and the entries (with their new offsets) afterwards. -/
def saveEntries : List DemoDirectoryEntry → List Byte →
    Option (List Byte × List DemoDirectoryEntry)
  | [], o => some (o, [])
  | entry :: rest, o =>
    match saveFrames entry.frames o false with
    | none => none
    | some (o1, wroteNextSection) =>
      match saveEntries rest
          (if wroteNextSection then o1
           else o1 ++ writeFrameHead nextSectionFrame.type nextSectionFrame.time
                        nextSectionFrame.frame) with
      | none => none
      | some (o2, entries) => some (o2, { entry with offset := castInt32 o.length } :: entries)

/-- One pass of the second loop of `Save`: a directory entry. -/
def writeDirectoryEntry (entry : DemoDirectoryEntry) : List Byte :=
  write_object32 entry.type ++ write_text DIR_ENTRY_DESCRIPTION_SIZE entry.description ++
  write_object32 entry.flags ++ write_object32 entry.CDTrack ++
  write_object32 entry.trackTime ++ write_object32 entry.frameCount ++
  write_object32 entry.offset ++ write_object32 entry.fileLength

/-- The directory as `Save` writes it: the count and the entries. -/
def writeDirectory (entries : List DemoDirectoryEntry) : List Byte :=
  write_object32 (castInt32 entries.length) ++ (entries.map writeDirectoryEntry).flatten

/-- What `Save` writes before the directory offset. -/
def writeHeader (header : DemoHeader) : List Byte :=
  [72, 76, 68, 69, 77, 79, 0, 0] ++ write_object32 header.demoProtocol ++
  write_object32 header.netProtocol ++ write_text HEADER_MAPNAME_SIZE header.mapName ++
  write_text HEADER_GAMEDIR_SIZE header.gameDir ++ write_object32 header.mapCRC

/-- The effect of `o.seekp (pos); write_object (o, x)` on the output `o`. -/
def patch32 (o : List Byte) (pos : Nat) (x : Word32) : List Byte :=
  o.take pos ++ write_object32 x ++ o.drop (pos + 4)

/-- `DemoFile::Save`: the content of the file written and the object
afterwards (a destination that cannot be created is outside the model); `none`
when a frame's tag selects a cast to a struct that the frame is not.  The four
bytes skipped by `o.seekp (4, std::ios::cur)` are zero until they are patched. -/
def DemoFile.Save (d : HLDemo.DemoFile) : Option (List Byte × HLDemo.DemoFile) :=
  let o := writeHeader d.header
  let dirOffsetPos := o.length
  let o := o ++ [0, 0, 0, 0]
  match saveEntries d.directoryEntries o with
  | none => none
  | some (o, entries) =>
    let dirOffset := o.length
    let o := o ++ writeDirectory entries
    let o := patch32 o dirOffsetPos (castInt32 dirOffset)
    some (o, { d with directoryEntries := entries,
                      header := { d.header with directoryOffset := castInt32 dirOffset } })

/-! ## Notions used in the statements -/

/-- A reader that takes exactly `n` bytes and whose result depends on them only. -/
def Reader.Fixed {α : Type} (R : Reader α) (n : Nat) : Prop :=
  ∃ g : List Byte → α, ∀ r, R r = if n ≤ r.length then some (g (r.take n), r.drop n) else none

/-- A text of at most `n` bytes without NUL: what `cstr` yields on `n` bytes. -/
def CStr (n : Nat) (s : List Byte) : Prop := s.length ≤ n ∧ (0 : Byte) ∉ s

/-- Every result of the reader satisfies `P`. -/
@[irreducible] def Reader.Yields {α : Type} (R : Reader α) (P : α → Prop) : Prop :=
  ∀ s a r, R s = some (a, r) → P a

/-- ASCII text as bytes. -/
def ascii (cs : List Char) : List Byte := cs.map (fun c => toByte c.toNat)

/-- The directory offset stored in bytes 540..543 of a file, as a signed number. -/
def directoryOffsetField (S : List Byte) : Int := int32 (toWord32 (le ((S.drop 540).take 4)))

/-- The entry count: the four bytes at the position `directoryOffsetField`, as a
signed number. -/
def entryCountField (S : List Byte) : Int :=
  int32 (toWord32 (le ((S.drop (directoryOffsetField S).toNat).take 4)))

/-- The errors that the constructor throws for a malformed file. -/
def DemoError.IsFormatError (e : DemoError) : Prop :=
  e = .sizeTooSmall ∨ e = .signatureMismatch ∨ e = .invalidDirectoryOffset ∨
  e = .invalidDirectoryEntryCount

deriving instance DecidableEq for Except

/-- A header for the sample files: demo protocol 5, net protocol 48. -/
def sampleHeader : DemoHeader :=
  { netProtocol := 48, demoProtocol := 5, mapName := ascii ['c', '1', 'a', '0'],
    gameDir := ascii ['v', 'a', 'l', 'v', 'e'], mapCRC := 12345, directoryOffset := 0 }

/-- A file with a proper header whose directory, at offset 544, declares -1 entries. -/
def negativeCountFile : List Byte :=
  writeHeader sampleHeader ++ write_object32 544 ++ write_object32 4294967295

/-- The tag selects the `default` case of the two `switch` statements. -/
def IsNetMsgType (t : Byte) : Prop :=
  t ≠ DemoFrameType.DEMO_START ∧ t ≠ DemoFrameType.CONSOLE_COMMAND ∧
  t ≠ DemoFrameType.CLIENT_DATA ∧ t ≠ DemoFrameType.NEXT_SECTION ∧
  t ≠ DemoFrameType.EVENT ∧ t ≠ DemoFrameType.WEAPON_ANIM ∧ t ≠ DemoFrameType.SOUND ∧
  t ≠ DemoFrameType.DEMO_BUFFER

/-- The shape of the frames that `ReadFrames` builds: the object is the struct of the case
that the tag selects, its texts are C strings that fit their buffers, and its byte vectors
have a length that was read from an `int32_t` (at most 65536 for a network message). -/
def DemoFrame.Canonical (f : DemoFrame) : Prop :=
  match f.object with
  | .DemoFrame =>
    f.type = DemoFrameType.DEMO_START ∨ f.type = DemoFrameType.NEXT_SECTION
  | .ConsoleCommandFrame c =>
    f.type = DemoFrameType.CONSOLE_COMMAND ∧ CStr FRAME_CONSOLE_COMMAND_SIZE c.command
  | .ClientDataFrame _ => f.type = DemoFrameType.CLIENT_DATA
  | .EventFrame _ => f.type = DemoFrameType.EVENT
  | .WeaponAnimFrame _ => f.type = DemoFrameType.WEAPON_ANIM
  | .SoundFrame s => f.type = DemoFrameType.SOUND ∧ s.sample.length < 2147483648
  | .DemoBufferFrame b => f.type = DemoFrameType.DEMO_BUFFER ∧ b.buffer.length < 2147483648
  | .NetMsgFrame m =>
    IsNetMsgType f.type ∧
    CStr FRAME_NETMSG_DEMOINFO_MOVEVARS_SKYNAME_SIZE m.DemoInfo.MoveVars.skyName ∧
    m.msg.length ≤ 65536

/-- What the `switch` can do on the common members `type`, `time`, `frame` and the unread
bytes `r`: stop, throw `std::length_error`, or append a canonical frame with these members
and leave `r` without its first `k` bytes, setting `stop` exactly for NEXT_SECTION. -/
def GoodStep (type : Byte) (time frame : Word32) (r : List Byte) (res : FrameStep) : Prop :=
  res = .stopped ∨ res = .thrown .lengthError ∨
  ∃ f k, res = .appended f (decide (type = DemoFrameType.NEXT_SECTION)) (r.drop k) ∧
    k ≤ r.length ∧ f.Canonical ∧ f.type = type ∧ f.time = time ∧ f.frame = frame

/-- The frame lists that the loop of one entry builds: canonical frames with no NEXT_SECTION
frame before the last position. -/
def EntryFrames (fs : List DemoFrame) : Prop :=
  (∀ f ∈ fs, f.Canonical) ∧ ∀ f ∈ fs.dropLast, f.type ≠ DemoFrameType.NEXT_SECTION

/-- The directory record of an entry: the entry without its frames. -/
def DemoDirectoryEntry.record (e : DemoDirectoryEntry) : DemoDirectoryEntry :=
  { e with frames := [] }

/-- The frame is a segment terminator. -/
def DemoFrame.isNextSection (f : DemoFrame) : Bool := decide (f.type = DemoFrameType.NEXT_SECTION)

/-- The frames whose encodings `Save` writes for an entry with the frame list `fs`: the
list itself, followed by a NEXT_SECTION frame when it holds none. -/
def writtenFrames (fs : List DemoFrame) : List DemoFrame :=
  if fs.any DemoFrame.isNextSection then fs else fs ++ [nextSectionFrame]

/-- The bytes of a frame as `Save` writes it (empty where `writeFrame` is undefined). -/
def frameBytes (f : DemoFrame) : List Byte := (writeFrame f).getD []

/-- The encodings of a list of frames, one after the other. -/
def framesBytes (fs : List DemoFrame) : List Byte := (fs.map frameBytes).flatten

/-- The frame stream that `Save` writes for an entry. -/
def entryStream (e : DemoDirectoryEntry) : List Byte := framesBytes (writtenFrames e.frames)

/-- The entries as `Save` leaves them when the first entry's stream starts at `pos`: each
offset is the position where the entry's stream starts, converted to `int32_t`. -/
def assignOffsets : List DemoDirectoryEntry → Nat → List DemoDirectoryEntry
  | [], _ => []
  | e :: es, pos =>
    { e with offset := castInt32 pos } :: assignOffsets es (pos + (entryStream e).length)

/-- `Save` can write the frame: its tag selects a cast to the struct that the frame is. -/
def DemoFrame.Writable (f : DemoFrame) : Prop := (writeFrame f).isSome = true

/-- The position where the directory starts in the output of `Save`: the header, the four
bytes of the directory offset and the frame streams of all entries come first. -/
def savedDirectoryOffset (d : DemoFile) : Nat :=
  544 + ((d.directoryEntries.map entryStream).flatten).length

/-- The texts of a header fit their buffers and hold no NUL, as after `ReadHeader`. -/
def DemoHeader.Canonical (h : DemoHeader) : Prop :=
  CStr HEADER_MAPNAME_SIZE h.mapName ∧ CStr HEADER_GAMEDIR_SIZE h.gameDir

/-- The layout of a file that `Save` writes: header, directory offset, frame streams `X`,
directory. -/
def savedFile (h : DemoHeader) (X : List Byte) (es : List DemoDirectoryEntry) : List Byte :=
  writeHeader h ++ write_object32 (castInt32 (544 + X.length)) ++ X ++ writeDirectory es

/-- The last frame of the list is a segment terminator. -/
def endsWithNextSection (fs : List DemoFrame) : Bool :=
  match fs.getLast? with
  | some l => l.isNextSection
  | none => false

/-- A raw-buffer frame whose buffer is `L` zero bytes. -/
def bufferFrame (L : Nat) : DemoFrame :=
  { type := DemoFrameType.DEMO_BUFFER, time := 0, frame := 0,
    object := .DemoBufferFrame { buffer := List.replicate L 0 } }

/-- A directory entry that points at offset 544, the first byte after the header. -/
def overflowEntry : DemoDirectoryEntry :=
  { type := 0, description := [], flags := 0, CDTrack := 0, trackTime := 0, frameCount := 2,
    offset := 544, fileLength := 0, frames := [] }

/-- A file with one frame stream (a raw-buffer frame of `L` bytes and a NEXT_SECTION frame)
at offset 544 and a directory of `k` entries that all point at it. -/
def overflowFile (L k : Nat) : List Byte :=
  savedFile sampleHeader (framesBytes [bufferFrame L, nextSectionFrame])
    (List.replicate k overflowEntry)

/-- The object that the constructor builds from `overflowFile L k`. -/
def overflowOpened (L k : Nat) : DemoFile :=
  { header := { sampleHeader with directoryOffset := castInt32 (544 + (L + 22)) },
    directoryEntries := List.replicate k overflowEntry,
    demo := overflowFile L k, readFrames := false }

/-- The entry `overflowEntry` after `ReadFrames`. -/
def overflowEntryRead (L : Nat) : DemoDirectoryEntry :=
  { overflowEntry with frames := [bufferFrame L, nextSectionFrame] }

/-- The object `overflowOpened L k` after `ReadFrames`. -/
def overflowRead (L k : Nat) : DemoFile :=
  { overflowOpened L k with
    directoryEntries := List.replicate k (overflowEntryRead L), readFrames := true }

/-- A sound frame with the four sample bytes 1, 2, 3, 4. -/
def sampleSoundFrame : DemoFrame :=
  { type := DemoFrameType.SOUND, time := 1065353216, frame := 7,
    object := .SoundFrame { channel := 3, sample := [1, 2, 3, 4], attenuation := 1061997773,
                            volume := 1065353216, flags := 0, pitch := 100 } }

/-- A network-message frame (tag 1) with a two-byte message and a sky name. -/
def sampleNetMsgFrame : DemoFrame :=
  { type := 1, time := 1073741824, frame := 8,
    object := .NetMsgFrame
      { (default : NetMsgFrame) with
        DemoInfo := { (default : DemoInfo) with
          MoveVars := { (default : MoveVars) with skyName := ascii ['s', 'k', 'y'] } },
        msg := [7, 7] } }

/-- One frame of each kind, ending with a NEXT_SECTION frame. -/
def sampleFrames : List DemoFrame :=
  [ { type := DemoFrameType.DEMO_START, time := 0, frame := 1, object := .DemoFrame },
    { type := DemoFrameType.CONSOLE_COMMAND, time := 0, frame := 2,
      object := .ConsoleCommandFrame { command := ascii ['h', 'i'] } },
    { type := DemoFrameType.CLIENT_DATA, time := 0, frame := 3,
      object := .ClientDataFrame default },
    { type := DemoFrameType.EVENT, time := 0, frame := 4, object := .EventFrame default },
    { type := DemoFrameType.WEAPON_ANIM, time := 0, frame := 5,
      object := .WeaponAnimFrame { anim := 2, body := 1 } },
    { type := DemoFrameType.DEMO_BUFFER, time := 0, frame := 6,
      object := .DemoBufferFrame { buffer := [9, 9, 9] } },
    sampleSoundFrame, sampleNetMsgFrame,
    { type := DemoFrameType.NEXT_SECTION, time := 1077936128, frame := 9,
      object := .DemoFrame } ]

/-- A directory with two entries: the stream of the first starts right after the directory,
at offset 732, and the stream of the second follows it. -/
def sampleDirectory : List DemoDirectoryEntry :=
  [ { type := 0, description := ascii ['L', 'O', 'A', 'D'], flags := 0, CDTrack := 0,
      trackTime := 0, frameCount := 9, offset := 732, fileLength := 0, frames := [] },
    { type := 1, description := ascii ['P', 'l', 'a', 'y'], flags := 0, CDTrack := 0,
      trackTime := 0, frameCount := 1,
      offset := toWord32 (732 + (framesBytes sampleFrames).length), fileLength := 0,
      frames := [] } ]

/-- A WEAPON_ANIM frame. -/
def sampleWeaponAnimFrame : DemoFrame :=
  { type := DemoFrameType.WEAPON_ANIM, time := 0, frame := 1,
    object := .WeaponAnimFrame { anim := 5, body := 6 } }

/-- A demo file with the header `h`, the directory at offset 544 and two frame streams:
`sampleFrames`, and one WEAPON_ANIM frame with no NEXT_SECTION frame at the end of the
file. -/
def sampleSource (h : DemoHeader) : List Byte :=
  writeHeader h ++ write_object32 544 ++ writeDirectory sampleDirectory ++
    framesBytes sampleFrames ++ framesBytes [sampleWeaponAnimFrame]

/-- The sample file with demo protocol 5. -/
def sampleFile : List Byte := sampleSource sampleHeader

/-- The object that the constructor builds from `sampleFile`. -/
def sampleOpened : DemoFile :=
  match DemoFile.DemoFile sampleFile with
  | .ok m => m
  | .error _ =>
    { header := sampleHeader, directoryEntries := [], demo := [], readFrames := false }

/-- The object `sampleOpened` after `ReadFrames`. -/
def sampleRead : DemoFile := (sampleOpened.ReadFrames).2

/-- The sample file with demo protocol 4. -/
def protocol4File : List Byte := sampleSource { sampleHeader with demoProtocol := 4 }

/-- The object that the constructor builds from `protocol4File`. -/
def protocol4Opened : DemoFile :=
  match DemoFile.DemoFile protocol4File with
  | .ok m => m
  | .error _ =>
    { header := sampleHeader, directoryEntries := [], demo := [], readFrames := false }

/-- The bytes of a sound frame in a file: the tag 8, then the fields `time`, `frame`,
`channel` and the length field, the sample bytes, and the four trailing fields. -/
def soundFrameBytes (time frame channel len sample attenuation volume flags pitch : List Byte) :
    List Byte :=
  [DemoFrameType.SOUND] ++ time ++ frame ++ channel ++ len ++ sample ++ attenuation ++ volume ++
    flags ++ pitch

/-- The sound frame whose scalars are the little-endian values of the given field bytes and
whose sample is `sample`. -/
def soundFrameOf (time frame channel sample attenuation volume flags pitch : List Byte) :
    DemoFrame :=
  { type := DemoFrameType.SOUND, time := toWord32 (le time), frame := toWord32 (le frame),
    object := .SoundFrame
      { channel := toWord32 (le channel), sample := sample,
        attenuation := toWord32 (le attenuation), volume := toWord32 (le volume),
        flags := toWord32 (le flags), pitch := toWord32 (le pitch) } }

instance DemoFrame.decidableWritable (f : DemoFrame) : Decidable f.Writable :=
  inferInstanceAs (Decidable ((writeFrame f).isSome = true))

/-- An object as a tool can leave it: its one entry holds two NEXT_SECTION frames followed
by a WEAPON_ANIM frame. -/
def editedModel : DemoFile :=
  { header := sampleHeader,
    directoryEntries :=
      [ { type := 1, description := ascii ['P', 'l', 'a', 'y'], flags := 0, CDTrack := 0,
          trackTime := 0, frameCount := 3, offset := 0, fileLength := 0,
          frames := [nextSectionFrame, nextSectionFrame, sampleWeaponAnimFrame] } ],
    demo := [], readFrames := true }

/-- The object that the constructor builds from the file `S`, and an object with no
entries when the constructor throws. -/
def opened (S : List Byte) : DemoFile :=
  match DemoFile.DemoFile S with
  | .ok m => m
  | .error _ =>
    { header := sampleHeader, directoryEntries := [], demo := [], readFrames := false }

/-- A raw-buffer frame whose length field holds -1: tag 9, time 0, frame 2, length
FF FF FF FF. -/
def badBufferFrameBytes : List Byte :=
  writeFrameHead DemoFrameType.DEMO_BUFFER 0 2 ++ write_object32 4294967295

/-- The start of a sound frame whose length field holds -1: tag 8, time 0, frame 2,
channel 3, length FF FF FF FF. -/
def badSoundFrameBytes : List Byte :=
  writeFrameHead DemoFrameType.SOUND 0 2 ++ write_object32 3 ++ write_object32 4294967295

/-- A directory entry with the given stream offset. -/
def entryAt (offset : Nat) : DemoDirectoryEntry :=
  { type := 1, description := ascii ['P', 'l', 'a', 'y'], flags := 0, CDTrack := 0,
    trackTime := 0, frameCount := 0, offset := toWord32 offset, fileLength := 0, frames := [] }

/-- A demo file with protocol 5, the directory at offset 544 and two entries.  The stream
of the first entry, at offset 732, is a WEAPON_ANIM frame followed by the bytes `bad`; the
stream of the second entry follows it and is the encoding of `sampleFrames`. -/
def negativeLengthFile (bad : List Byte) : List Byte :=
  writeHeader sampleHeader ++ write_object32 544 ++
    writeDirectory [entryAt 732, entryAt (732 + 17 + bad.length)] ++
    framesBytes [sampleWeaponAnimFrame] ++ bad ++ framesBytes sampleFrames

/-- The start of a sound frame that declares a sample of 1000 bytes, followed by 10
bytes. -/
def truncatedSoundFrameBytes : List Byte :=
  writeFrameHead DemoFrameType.SOUND 0 2 ++ write_object32 3 ++ write_object32 1000 ++
    List.replicate 10 0

/-- A demo file with protocol 5, the directory at offset 544 and four entries.  Three
frame streams follow the directory: at offset 916 a WEAPON_ANIM frame and a raw-buffer frame
with length -1; at offset 946 the encoding of `sampleFrames`; and, up to the end of the
file, a WEAPON_ANIM frame and a sound frame that declares 1000 sample bytes where 10 bytes
remain.  The first and the fourth entry point at the complete stream, the third at the
truncated one, and the second at `second`. -/
def containmentFile (second : Nat) : List Byte :=
  writeHeader sampleHeader ++ write_object32 544 ++
    writeDirectory [entryAt 946, entryAt second,
      entryAt (946 + (framesBytes sampleFrames).length), entryAt 946] ++
    (framesBytes [sampleWeaponAnimFrame] ++ badBufferFrameBytes) ++
    framesBytes sampleFrames ++
    (framesBytes [sampleWeaponAnimFrame] ++ truncatedSoundFrameBytes)

/-- The signed value of the length field of a network message whose 468-byte block starts
`r`: the four bytes at 464..467, after `DemoInfo` (436 bytes) and the seven sequence
numbers. -/
def netMsgLengthField (r : List Byte) : Int := int32 (toWord32 (le ((r.drop 464).take 4)))

/-- A 468-byte block with the length field `L`, followed by `k` zero bytes. -/
def netMsgBlock (L k : Nat) : List Byte :=
  List.replicate 464 0 ++ toLE 4 L ++ List.replicate k 0

/-- The payload layouts of the format, under the names of the specification. -/
inductive Layout where
  | segmentStart
  | consoleCommand
  | clientState
  | segmentTerminator
  | gameEvent
  | weaponAnimation
  | sound
  | rawBuffer
  | networkMessage
deriving DecidableEq, Repr, Inhabited

/-- The layout that the specification assigns to a tag byte: 2..9 are the eight named
kinds, every other value is a network message. -/
def layoutOfTag (t : Byte) : Layout :=
  if t.val = 2 then .segmentStart
  else if t.val = 3 then .consoleCommand
  else if t.val = 4 then .clientState
  else if t.val = 5 then .segmentTerminator
  else if t.val = 6 then .gameEvent
  else if t.val = 7 then .weaponAnimation
  else if t.val = 8 then .sound
  else if t.val = 9 then .rawBuffer
  else .networkMessage

/-- The case of the `switch` of `ReadFrames` that reads the payload of a layout. -/
def decodeLayout (demoSize : Nat) (l : Layout) (type : Byte) (time frame : Word32)
    (r : List Byte) : FrameStep :=
  match l with
  | .segmentStart => caseDemoStart type time frame r
  | .consoleCommand => caseConsoleCommand demoSize type time frame r
  | .clientState => caseClientData demoSize type time frame r
  | .segmentTerminator => caseNextSection type time frame r
  | .gameEvent => caseEvent demoSize type time frame r
  | .weaponAnimation => caseWeaponAnim demoSize type time frame r
  | .sound => caseSound demoSize type time frame r
  | .rawBuffer => caseDemoBuffer demoSize type time frame r
  | .networkMessage => caseNetMsg demoSize type time frame r

/-- The bytes that `Save` writes for a frame in the layout `l`: the common members and the
payload of that layout, read from the struct of that layout. -/
def encodeLayout (l : Layout) (frame : DemoFrame) : Option (List Byte) :=
  match l, frame.object with
  | .segmentStart, _ => some (writeFrameHead frame.type frame.time frame.frame)
  | .segmentTerminator, _ => some (writeFrameHead frame.type frame.time frame.frame)
  | .consoleCommand, .ConsoleCommandFrame f =>
    some (writeFrameHead frame.type frame.time frame.frame ++
      write_text FRAME_CONSOLE_COMMAND_SIZE f.command)
  | .clientState, .ClientDataFrame f =>
    some (writeFrameHead frame.type frame.time frame.frame ++ writeClientData f)
  | .gameEvent, .EventFrame f =>
    some (writeFrameHead frame.type frame.time frame.frame ++ writeEvent f)
  | .weaponAnimation, .WeaponAnimFrame f =>
    some (writeFrameHead frame.type frame.time frame.frame ++ writeWeaponAnim f)
  | .sound, .SoundFrame f =>
    some (writeFrameHead frame.type frame.time frame.frame ++ writeSound f)
  | .rawBuffer, .DemoBufferFrame f =>
    some (writeFrameHead frame.type frame.time frame.frame ++ writeDemoBuffer f)
  | .networkMessage, .NetMsgFrame f =>
    some (writeFrameHead frame.type frame.time frame.frame ++ writeNetMsg f)
  | _, _ => none

/-- A demo file with protocol 5, the directory at offset 544 and five entries, 1812 bytes
long.  Two frame streams follow the directory: at offset 1008 the encoding of
`sampleFrames` (774 bytes), and at offset 1782 a WEAPON_ANIM frame and a raw-buffer frame
with length -1.  The first three entries have the offsets -1, 100000 and 1812 (the file
size), the fourth has the offset `fourth`, and the fifth points at the complete stream. -/
def invalidOffsetFile (fourth : Nat) : List Byte :=
  writeHeader sampleHeader ++ write_object32 544 ++
    writeDirectory [entryAt 4294967295, entryAt 100000, entryAt 1812, entryAt fourth,
      entryAt 1008] ++
    framesBytes sampleFrames ++
    (framesBytes [sampleWeaponAnimFrame] ++ badBufferFrameBytes)

/-- The sample network-message frame with the tag 200. -/
def tag200Frame : DemoFrame := { sampleNetMsgFrame with type := 200 }

/-- A text in a field of `N` bytes, in the words of the specification: followed by zero
bytes up to `N` when it is shorter than `N`, cut to its first `N` bytes otherwise. -/
def fixedText (N : Nat) (s : List Byte) : List Byte :=
  if s.length < N then s ++ List.replicate (N - s.length) 0 else s.take N

/-- The total size of the frame streams that `Save` writes for the first `i` entries. -/
def streamsBefore (es : List DemoDirectoryEntry) (i : Nat) : Nat :=
  ((es.take i).map (fun e => (entryStream e).length)).sum

/-- The position of the frame stream of entry `i` in the output of `Save`: the 544 bytes
of the header and the directory offset, and the streams of the entries before it. -/
def entryPosition (es : List DemoDirectoryEntry) (i : Nat) : Nat := 544 + streamsBefore es i

/-- A directory entry without its stored offset. -/
def DemoDirectoryEntry.withoutOffset (e : DemoDirectoryEntry) : DemoDirectoryEntry :=
  { e with offset := 0 }

/-- A header without its stored directory offset. -/
def DemoHeader.withoutDirectoryOffset (h : DemoHeader) : DemoHeader :=
  { h with directoryOffset := 0 }

/-- The entry with the frames that `Save` writes for it. -/
def DemoDirectoryEntry.written (e : DemoDirectoryEntry) : DemoDirectoryEntry :=
  { e with frames := writtenFrames e.frames }

/-- The header that `Save` leaves in the object: the directory offset is the position of
the directory in the file written. -/
def savedHeader (d : DemoFile) : DemoHeader :=
  { d.header with directoryOffset := castInt32 (savedDirectoryOffset d) }

/-- The file that `Save` writes for an object whose frames it can write. -/
def savedBytes (d : DemoFile) : List Byte :=
  savedFile d.header (d.directoryEntries.map entryStream).flatten
    (assignOffsets d.directoryEntries 544)

/-- The object that the constructor builds from `savedBytes d`. -/
def reopened (d : DemoFile) : DemoFile :=
  DemoFile.mk (savedHeader d)
    ((assignOffsets d.directoryEntries 544).map DemoDirectoryEntry.record) (savedBytes d) false

/-- The object `reopened d` after `ReadFrames`. -/
def reread (d : DemoFile) : DemoFile :=
  DemoFile.mk (savedHeader d)
    ((assignOffsets d.directoryEntries 544).map DemoDirectoryEntry.written) (savedBytes d) true

/-- The result of `Save` on the object read from the sample file. -/
def sampleSaved : List Byte × DemoFile := (sampleRead.Save).getD ([], sampleRead)

/-- A text buffer with every byte after its first NUL replaced by zero (the buffer itself
when it holds no NUL): the text before the first NUL, then zeros. -/
def zeroResidue (b : List Byte) : List Byte :=
  cstr b ++ List.replicate (b.length - (cstr b).length) 0

/-- The console-command frame that the decoder builds from the text buffer `b`. -/
def commandFrame (time frame : Word32) (b : List Byte) : DemoFrame :=
  DemoFrame.mk DemoFrameType.CONSOLE_COMMAND time frame (.ConsoleCommandFrame { command := cstr b })

/-- A stream of two NEXT_SECTION frames (frame numbers 1 and 2) and three more bytes. -/
def twoTerminators : List Byte :=
  [5, 0, 0, 0, 0, 1, 0, 0, 0] ++ [5, 0, 0, 0, 0, 2, 0, 0, 0] ++ [0, 0, 0]

/-- The number of payload bytes of a frame in a file, by the table of the specification:
0 for a frame without payload, 64 for a console command, 32 for client data, 84 for an
event, 8 for a weapon animation, 8 + L + 16 for a sound with L sample bytes, 4 + L for a
raw buffer of L bytes, 468 + L for a network message of L bytes. -/
def payloadSize (f : DemoFrame) : Nat :=
  match f.object with
  | .DemoFrame => 0
  | .ConsoleCommandFrame _ => 64
  | .ClientDataFrame _ => 32
  | .EventFrame _ => 84
  | .WeaponAnimFrame _ => 8
  | .SoundFrame s => 8 + s.sample.length + 16
  | .DemoBufferFrame b => 4 + b.buffer.length
  | .NetMsgFrame m => 468 + m.msg.length

/-- The loops `for (auto& entry : demo.directoryEntries) for (auto& frame : entry.frames)`
of the tools, inner loop: `body` is what one pass does to the frame, `none` when it is
undefined. -/
def forFrames (body : DemoFrame → Option DemoFrame) : List DemoFrame → Option (List DemoFrame)
  | [] => some []
  | frame :: rest =>
    match body frame with
    | none => none
    | some g =>
      match forFrames body rest with
      | none => none
      | some gs => some (g :: gs)

/-- The outer loop of the tools over the directory entries. -/
def forEntries (body : DemoFrame → Option DemoFrame) :
    List DemoDirectoryEntry → Option (List DemoDirectoryEntry)
  | [] => some []
  | entry :: rest =>
    match forFrames body entry.frames with
    | none => none
    | some gs =>
      match forEntries body rest with
      | none => none
      | some es => some ({ entry with frames := gs } :: es)

/-- One pass of the inner loop of `DemoSanitizer.cpp`.  The `reinterpret_cast` to the
struct that the tag selects is followed by a member access; on an object of another struct
this is undefined behaviour, `none`. -/
def sanitizeFrame (frame : DemoFrame) : Option DemoFrame :=
  if frame.type = DemoFrameType.SOUND then
    match frame.object with
    | .SoundFrame f =>
      let s := f.sample.length
      if s > 255 then
        some { frame with object := .SoundFrame { f with sample := resize 255 f.sample } }
      else some frame
    | _ => none
  else if frame.type = DemoFrameType.DEMO_BUFFER then
    match frame.object with
    | .DemoBufferFrame f =>
      let s := f.buffer.length
      if s > 32768 then
        some { frame with object := .DemoBufferFrame { buffer := resize 32768 f.buffer } }
      else some frame
    | _ => none
  else some frame

/-- The sanitizing loop of `DemoSanitizer.cpp` on the object after `ReadFrames`. -/
def sanitizeLoop (d : DemoFile) : Option DemoFile :=
  match forEntries sanitizeFrame d.directoryEntries with
  | none => none
  | some es => some { d with directoryEntries := es }

/-- The three assignments of `FixYaw.cpp`; `yaw` is the `float` that the conversion of
the `double` from `atof` gives. -/
def setYaw (yaw : Word32) (f : NetMsgFrame) : NetMsgFrame :=
  let f1 : NetMsgFrame := { f with DemoInfo.RefParams.viewangles.v1 := yaw }
  let f2 : NetMsgFrame := { f1 with DemoInfo.RefParams.cl_viewangles.v1 := yaw }
  { f2 with DemoInfo.UserCmd.viewangles.v1 := yaw }

/-- One pass of the inner loop of `FixYaw.cpp`: `static_cast<int> (frame->type)` is the
value of the tag; the `static_cast` to `NetMsgFrame*` on another object is undefined,
`none`. -/
def fixYawFrame (yaw : Word32) (frame : DemoFrame) : Option DemoFrame :=
  if frame.type.val < 2 ∨ frame.type.val > 9 then
    match frame.object with
    | .NetMsgFrame f => some { frame with object := .NetMsgFrame (setYaw yaw f) }
    | _ => none
  else some frame

/-- The loop of `FixYaw.cpp` on the object after `ReadFrames`. -/
def fixYawLoop (yaw : Word32) (d : DemoFile) : Option DemoFile :=
  match forEntries (fixYawFrame yaw) d.directoryEntries with
  | none => none
  | some es => some { d with directoryEntries := es }

/-- What one pass of the loop of `DumpFrames.cpp` reads through its two casts: the command
of a frame with tag CONSOLE_COMMAND, then `frametime` and `msec` of a frame whose tag is
below 2 or above 9; `none` when a cast is to a struct that the object is not. -/
def dumpFrame (frame : DemoFrame) : Option (Option (List Byte) × Option (Word32 × Word8)) :=
  match (if frame.type = DemoFrameType.CONSOLE_COMMAND then
      match frame.object with
      | .ConsoleCommandFrame f => some (some f.command)
      | _ => none
    else some none) with
  | none => none
  | some command =>
    if frame.type.val < 2 ∨ frame.type.val > 9 then
      match frame.object with
      | .NetMsgFrame f =>
        some (command, some (f.DemoInfo.RefParams.frametime, f.DemoInfo.UserCmd.msec))
      | _ => none
    else some (command, none)

/-- What one pass of the loop of `Listdemo.cpp` reads through its two casts: `frametime`
and `msec` of a frame whose tag is below 2 or above 9, then the command of a frame with tag
CONSOLE_COMMAND; `none` when a cast is to a struct that the object is not. -/
def listdemoFrame (frame : DemoFrame) :
    Option (Option (Word32 × Word8) × Option (List Byte)) :=
  match (if frame.type.val < 2 ∨ frame.type.val > 9 then
      match frame.object with
      | .NetMsgFrame f =>
        some (some (f.DemoInfo.RefParams.frametime, f.DemoInfo.UserCmd.msec))
      | _ => none
    else some none) with
  | none => none
  | some times =>
    if frame.type = DemoFrameType.CONSOLE_COMMAND then
      match frame.object with
      | .ConsoleCommandFrame f => some (times, some f.command)
      | _ => none
    else some (times, none)

/-- The relation that the sanitizing pass is said to establish between a frame and the
frame in its place afterwards: the common members are the same; the sample of a sound
frame is the prefix of the original of length min (size, 255), the buffer of a raw-buffer
frame the prefix of length min (size, 32768), and the other members are the same; a frame
of another kind, or with a payload within the limit, is the same frame. -/
def SanitizedFrame (f g : DemoFrame) : Prop :=
  g.type = f.type ∧ g.time = f.time ∧ g.frame = f.frame ∧
  match f.object with
  | .SoundFrame s =>
    ∃ t, g.object = .SoundFrame t ∧ t.sample.length ≤ 255 ∧ t.sample <+: s.sample ∧
      t.sample.length = min s.sample.length 255 ∧ t.channel = s.channel ∧
      t.attenuation = s.attenuation ∧ t.volume = s.volume ∧ t.flags = s.flags ∧
      t.pitch = s.pitch ∧ (s.sample.length ≤ 255 → g = f)
  | .DemoBufferFrame b =>
    ∃ t, g.object = .DemoBufferFrame t ∧ t.buffer.length ≤ 32768 ∧ t.buffer <+: b.buffer ∧
      t.buffer.length = min b.buffer.length 32768 ∧ (b.buffer.length ≤ 32768 → g = f)
  | _ => g = f

/-- The payloads of the frame are within the limits of the sanitizer. -/
def DemoFrame.WithinLimits (f : DemoFrame) : Prop :=
  (∀ s, f.object = .SoundFrame s → s.sample.length ≤ 255) ∧
  (∀ b, f.object = .DemoBufferFrame b → b.buffer.length ≤ 32768)

/-- Two `RefParams` with the same members, `viewangles[1]` and `cl_viewangles[1]` apart. -/
def RefParams.EqualExceptYaw (a b : RefParams) : Prop :=
  b.vieworg = a.vieworg ∧ b.viewangles.v0 = a.viewangles.v0 ∧
  b.viewangles.v2 = a.viewangles.v2 ∧ b.forward = a.forward ∧ b.right = a.right ∧
  b.up = a.up ∧ b.frametime = a.frametime ∧ b.time = a.time ∧
  b.intermission = a.intermission ∧ b.paused = a.paused ∧ b.spectator = a.spectator ∧
  b.onground = a.onground ∧ b.waterlevel = a.waterlevel ∧ b.simorg = a.simorg ∧
  b.simvel = a.simvel ∧ b.viewheight = a.viewheight ∧ b.idealpitch = a.idealpitch ∧
  b.cl_viewangles.v0 = a.cl_viewangles.v0 ∧ b.cl_viewangles.v2 = a.cl_viewangles.v2 ∧
  b.health = a.health ∧ b.crosshairangle = a.crosshairangle ∧ b.viewsize = a.viewsize ∧
  b.punchangle = a.punchangle ∧ b.maxclients = a.maxclients ∧
  b.viewentity = a.viewentity ∧ b.playernum = a.playernum ∧
  b.max_entities = a.max_entities ∧ b.demoplayback = a.demoplayback ∧
  b.hardware = a.hardware ∧ b.smoothing = a.smoothing ∧ b.ptr_cmd = a.ptr_cmd ∧
  b.ptr_movevars = a.ptr_movevars ∧ b.viewport = a.viewport ∧ b.nextView = a.nextView ∧
  b.onlyClientDraw = a.onlyClientDraw

/-- Two `UserCmd` with the same members, `viewangles[1]` apart. -/
def UserCmd.EqualExceptYaw (a b : UserCmd) : Prop :=
  b.lerp_msec = a.lerp_msec ∧ b.msec = a.msec ∧ b.align_1 = a.align_1 ∧
  b.viewangles.v0 = a.viewangles.v0 ∧ b.viewangles.v2 = a.viewangles.v2 ∧
  b.forwardmove = a.forwardmove ∧ b.sidemove = a.sidemove ∧ b.upmove = a.upmove ∧
  b.lightlevel = a.lightlevel ∧ b.align_2 = a.align_2 ∧ b.buttons = a.buttons ∧
  b.impulse = a.impulse ∧ b.weaponselect = a.weaponselect ∧ b.align_3 = a.align_3 ∧
  b.align_4 = a.align_4 ∧ b.impact_index = a.impact_index ∧
  b.impact_position = a.impact_position

/-- Two network-message frames with the same members, the three yaw fields apart. -/
def NetMsgFrame.EqualExceptYaw (a b : NetMsgFrame) : Prop :=
  b.DemoInfo.timestamp = a.DemoInfo.timestamp ∧
  a.DemoInfo.RefParams.EqualExceptYaw b.DemoInfo.RefParams ∧
  a.DemoInfo.UserCmd.EqualExceptYaw b.DemoInfo.UserCmd ∧
  b.DemoInfo.MoveVars = a.DemoInfo.MoveVars ∧ b.DemoInfo.view = a.DemoInfo.view ∧
  b.DemoInfo.viewmodel = a.DemoInfo.viewmodel ∧
  b.incoming_sequence = a.incoming_sequence ∧
  b.incoming_acknowledged = a.incoming_acknowledged ∧
  b.incoming_reliable_acknowledged = a.incoming_reliable_acknowledged ∧
  b.incoming_reliable_sequence = a.incoming_reliable_sequence ∧
  b.outgoing_sequence = a.outgoing_sequence ∧ b.reliable_sequence = a.reliable_sequence ∧
  b.last_reliable_sequence = a.last_reliable_sequence ∧ b.msg = a.msg

/-- The relation that the yaw loop is said to establish between a frame and the frame in
its place afterwards: the common members are the same; a frame with a tag in 2..9 is the
same frame; a frame with a tag below 2 or above 9 is a network-message frame before and
after, its three yaw fields are `y` and its other members are the same. -/
def YawPatched (y : Word32) (f g : DemoFrame) : Prop :=
  g.type = f.type ∧ g.time = f.time ∧ g.frame = f.frame ∧
  (2 ≤ f.type.val ∧ f.type.val ≤ 9 → g = f) ∧
  (f.type.val < 2 ∨ 9 < f.type.val →
    ∃ a b, f.object = .NetMsgFrame a ∧ g.object = .NetMsgFrame b ∧
      b.DemoInfo.RefParams.viewangles.v1 = y ∧ b.DemoInfo.RefParams.cl_viewangles.v1 = y ∧
      b.DemoInfo.UserCmd.viewangles.v1 = y ∧ a.EqualExceptYaw b)

/-- The frame is an object of the struct that its tag selects in the `switch` of `Save`
and in the tests of the tools. -/
def DemoFrame.TagVariant (f : DemoFrame) : Prop :=
  (f.type.val = 2 ∨ f.type.val = 5 → f.object = .DemoFrame) ∧
  (f.type.val = 3 → ∃ c, f.object = .ConsoleCommandFrame c) ∧
  (f.type.val = 4 → ∃ c, f.object = .ClientDataFrame c) ∧
  (f.type.val = 6 → ∃ c, f.object = .EventFrame c) ∧
  (f.type.val = 7 → ∃ c, f.object = .WeaponAnimFrame c) ∧
  (f.type.val = 8 → ∃ c, f.object = .SoundFrame c) ∧
  (f.type.val = 9 → ∃ c, f.object = .DemoBufferFrame c) ∧
  (f.type.val < 2 ∨ 9 < f.type.val → ∃ c, f.object = .NetMsgFrame c)

/-- A sound frame with tag SOUND whose sample is `sample`, other members zero. -/
def soundFrameWith (sample : List Byte) : DemoFrame :=
  { type := DemoFrameType.SOUND, time := 0, frame := 0,
    object := .SoundFrame { channel := 0, sample := sample, attenuation := 0, volume := 0,
                            flags := 0, pitch := 0 } }

/-- The step on a stream with the bytes `t` added at its end agrees with the step on the
stream itself, unless that one stopped: it throws the same, or appends the same frame and
leaves the same bytes, followed by `t`. -/
def FrameStep.Extends (t : List Byte) (short long : FrameStep) : Prop :=
  match short with
  | .stopped => True
  | .thrown e => long = .thrown e
  | .appended f stop r => long = .appended f stop (r ++ t)

/-- A stream of three frames, the sound frame and the WEAPON_ANIM frame of the sample and a
NEXT_SECTION frame, and three more bytes. -/
def threeFrames : List Byte :=
  frameBytes sampleSoundFrame ++ frameBytes sampleWeaponAnimFrame ++
    frameBytes nextSectionFrame ++ [0, 0, 0]

/-- An object with one entry, without frames, whose description holds a NUL: the three
bytes `a`, NUL, `b`. -/
def nulDescriptionModel : DemoFile :=
  { header := sampleHeader,
    directoryEntries :=
      [ { type := 1, description := [97, 0, 98], flags := 0, CDTrack := 0, trackTime := 0,
          frameCount := 0, offset := 0, fileLength := 0, frames := [] } ],
    demo := [], readFrames := true }

/-- The result of `Save` on `nulDescriptionModel`. -/
def nulDescriptionSaved : List Byte × DemoFile :=
  (nulDescriptionModel.Save).getD ([], nulDescriptionModel)

/-- The directory record that the constructor reads back from the record that `Save`
writes for the entry `e`: the members of `e`, with the description as `read_text` finds it
in the 64 bytes written, and no frames. -/
def DemoDirectoryEntry.reread (e : DemoDirectoryEntry) : DemoDirectoryEntry :=
  DemoDirectoryEntry.mk e.type (cstr (write_text DIR_ENTRY_DESCRIPTION_SIZE e.description))
    e.flags e.CDTrack e.trackTime e.frameCount e.offset e.fileLength []

/-! # Theorems

## Scalars, texts and the reader monad -/

theorem toLE_length (w n : Nat) : (toLE w n).length = w := by
  induction w generalizing n with
  | zero => rfl
  | succ w ih => simp [toLE, ih]

theorem le_lt (bs : List Byte) : le bs < 256 ^ bs.length := by
  induction bs with
  | nil => simp [le]
  | cons b bs ih =>
    have hb := b.isLt
    simp only [le, List.length_cons, pow_succ]
    omega

theorem le_toLE (w n : Nat) : le (toLE w n) = n % 256 ^ w := by
  induction w generalizing n with
  | zero => simp [toLE, le, Nat.mod_one]
  | succ w ih =>
    simp only [toLE, le, ih, toByte, pow_succ]
    rw [Nat.mul_comm (256 ^ w) 256, Nat.mod_mul]

theorem toLE_le (bs : List Byte) : toLE bs.length (le bs) = bs := by
  induction bs with
  | nil => rfl
  | cons b bs ih =>
    have hb := b.isLt
    simp only [List.length_cons, toLE, le]
    congr 1
    · apply Fin.ext; simp [toByte]
    · have : (b.val + 256 * le bs) / 256 = le bs := by omega
      rw [this, ih]

@[simp] theorem write_object8_length (x : Word8) : (write_object8 x).length = 1 := toLE_length _ _
@[simp] theorem write_object16_length (x : Word16) : (write_object16 x).length = 2 := toLE_length _ _
@[simp] theorem write_object32_length (x : Word32) : (write_object32 x).length = 4 := toLE_length _ _

@[simp] theorem Reader.pure_apply {α : Type} (a : α) (s : List Byte) :
    (Pure.pure a : Reader α) s = some (a, s) := by
  show Reader.pure a s = _
  unfold Reader.pure
  rfl

@[simp] theorem Reader.bind_apply {α β : Type} (m : Reader α) (f : α → Reader β) (s : List Byte) :
    (m >>= f) s = (m s).bind (fun p => f p.1 p.2) := by
  show Reader.bind m f s = _
  unfold Reader.bind
  cases m s with
  | none => rfl
  | some p => rfl

theorem read_objects_append (a r : List Byte) : read_objects a.length (a ++ r) = some (a, r) := by
  simp [read_objects]

theorem read_objects_append_of (n : Nat) (a r : List Byte) (h : a.length = n) :
    read_objects n (a ++ r) = some (a, r) := by
  subst h; exact read_objects_append a r

@[simp] theorem read_object8_write (x : Word8) (r : List Byte) :
    read_object8 (write_object8 x ++ r) = some (x, r) := by
  have h := le_toLE 1 x.val
  have hx := x.isLt
  simp only [read_object8, write_object8, read_objects_append_of 1 _ r (toLE_length 1 _),
    Option.some_bind, h]
  congr 2
  apply Fin.ext
  simp [toByte]

@[simp] theorem read_object16_write (x : Word16) (r : List Byte) :
    read_object16 (write_object16 x ++ r) = some (x, r) := by
  have h := le_toLE 2 x.val
  have hx := x.isLt
  simp only [read_object16, write_object16, read_objects_append_of 2 _ r (toLE_length 2 _),
    Option.some_bind, h]
  congr 2
  apply Fin.ext
  simp [toWord16]

@[simp] theorem read_object32_write (x : Word32) (r : List Byte) :
    read_object32 (write_object32 x ++ r) = some (x, r) := by
  have h := le_toLE 4 x.val
  have hx := x.isLt
  simp only [read_object32, write_object32, read_objects_append_of 4 _ r (toLE_length 4 _),
    Option.some_bind, h]
  congr 2
  apply Fin.ext
  simp [toWord32]

theorem resize_length (n : Nat) (l : List Byte) : (resize n l).length = n := by
  simp [resize]; omega

@[simp] theorem write_text_length (n : Nat) (s : List Byte) : (write_text n s).length = n :=
  resize_length _ _

theorem cstr_write_text (n : Nat) (s : List Byte) (h : CStr n s) : cstr (write_text n s) = s := by
  obtain ⟨hl, h0⟩ := h
  have hp : ∀ a ∈ s, (decide (a ≠ 0)) = true := by
    intro a ha
    simp only [ne_eq, decide_not, Bool.not_eq_true', decide_eq_false_iff_not]
    intro h; subst h; exact h0 ha
  unfold cstr write_text resize
  rcases Nat.lt_or_ge s.length n with hlt | hge
  · have : (s ++ [0]).take n = s ++ [0] := by
      apply List.take_of_length_le; simp; omega
    rw [this, List.append_assoc, List.takeWhile_append_of_pos hp]
    simp
  · have hn : s.length = n := by omega
    have : (s ++ [0]).take n = s := by
      rw [← hn]; simp
    rw [this]
    have : n - (s ++ [0]).length = 0 := by simp; omega
    rw [this]
    simp only [List.replicate_zero, List.append_nil]
    have := @List.takeWhile_append_of_pos _ _ s [] hp
    simpa using this

theorem cstr_CStr (n : Nat) (bs : List Byte) (h : bs.length ≤ n) : CStr n (cstr bs) := by
  constructor
  · exact le_trans (List.takeWhile_sublist _).length_le h
  · intro hm
    have := List.mem_takeWhile_imp hm
    simp at this

@[simp] theorem read_text_write (n : Nat) (s r : List Byte) (h : CStr n s) :
    read_text n (write_text n s ++ r) = some (s, r) := by
  simp only [read_text, read_objects_append_of n _ r (write_text_length n s), Option.some_bind,
    cstr_write_text n s h]


/-! ## Readers of a fixed size -/

theorem Reader.fixed_apply {α : Type} {R : Reader α} {n : Nat} (h : R.Fixed n) (r : List Byte)
    (hr : n ≤ r.length) : ∃ a, R r = some (a, r.drop n) := by
  obtain ⟨g, hg⟩ := h
  exact ⟨g (r.take n), by rw [hg, if_pos hr]⟩

theorem Reader.fixed_eq_some {α : Type} {R : Reader α} {n : Nat} (h : R.Fixed n) {r r' : List Byte}
    {a : α} (hr : R r = some (a, r')) : n ≤ r.length ∧ r' = r.drop n := by
  obtain ⟨g, hg⟩ := h
  rw [hg] at hr
  split at hr
  · rename_i hn
    simp only [Option.some.injEq, Prod.mk.injEq] at hr
    exact ⟨hn, hr.2.symm⟩
  · cases hr

theorem Reader.fixed_ne_none {α : Type} {R : Reader α} {n : Nat} (h : R.Fixed n) (r : List Byte)
    (hr : n ≤ r.length) : R r ≠ none := by
  obtain ⟨a, ha⟩ := Reader.fixed_apply h r hr
  rw [ha]; exact Option.some_ne_none _

theorem Reader.fixed_of_eq {α : Type} {R : Reader α} {n k : Nat} (h : R.Fixed n) (hk : n = k) :
    R.Fixed k := hk ▸ h

theorem Reader.fixed_pure {α : Type} (a : α) : (Pure.pure a : Reader α).Fixed 0 :=
  ⟨fun _ => a, fun r => by simp only [Nat.zero_le, if_true, List.drop_zero, Reader.pure_apply]⟩

theorem Reader.fixed_bind {α β : Type} {R : Reader α} {f : α → Reader β} {n m : Nat}
    (h : R.Fixed n) (hf : ∀ a, (f a).Fixed m) : (R >>= f).Fixed (n + m) := by
  obtain ⟨g, hg⟩ := h
  choose g2 hg2 using hf
  refine ⟨fun bs => g2 (g (bs.take n)) ((bs.drop n).take m), fun r => ?_⟩
  simp only [Reader.bind_apply, hg]
  by_cases h1 : n ≤ r.length
  · rw [if_pos h1, Option.some_bind, hg2]
    by_cases h2 : m ≤ (r.drop n).length
    · have h3 : n + m ≤ r.length := by simp at h2; omega
      rw [if_pos h2, if_pos h3]
      have h4 : (r.take (n + m)).take n = r.take n := by
        rw [List.take_take]; congr 1; omega
      have h5 : ((r.take (n + m)).drop n).take m = (r.drop n).take m := by
        rw [List.drop_take, List.take_take]; congr 1; omega
      simp only [h4, h5, List.drop_drop]
    · have h3 : ¬ n + m ≤ r.length := by simp at h2; omega
      rw [if_neg h2, if_neg h3]
  · have h3 : ¬ n + m ≤ r.length := by omega
    rw [if_neg h1, if_neg h3]; rfl

theorem read_objects_fixed (n : Nat) : (read_objects n).Fixed n :=
  ⟨fun bs => bs, fun _ => rfl⟩

theorem read_object8_fixed : read_object8.Fixed 1 :=
  ⟨fun bs => toByte (le bs), fun r => by
    simp only [read_object8, read_objects]; split <;> rfl⟩

theorem read_object16_fixed : read_object16.Fixed 2 :=
  ⟨fun bs => toWord16 (le bs), fun r => by
    simp only [read_object16, read_objects]; split <;> rfl⟩

theorem read_object32_fixed : read_object32.Fixed 4 :=
  ⟨fun bs => toWord32 (le bs), fun r => by
    simp only [read_object32, read_objects]; split <;> rfl⟩

theorem read_text_fixed (n : Nat) : (read_text n).Fixed n :=
  ⟨fun bs => cstr bs, fun r => by
    simp only [read_text, read_objects]; split <;> rfl⟩

theorem read_vec3_fixed : read_vec3.Fixed 12 := by
  apply Reader.fixed_of_eq
  · unfold read_vec3
    repeat (first
      | exact Reader.fixed_pure _
      | (apply Reader.fixed_bind read_object32_fixed; intro _))
  · rfl

theorem read_vec4_fixed : read_vec4.Fixed 16 := by
  apply Reader.fixed_of_eq
  · unfold read_vec4
    repeat (first
      | exact Reader.fixed_pure _
      | (apply Reader.fixed_bind read_object32_fixed; intro _))
  · rfl

theorem ReadHeader_fixed : ReadHeader.Fixed 536 := by
  apply Reader.fixed_of_eq
  · unfold ReadHeader
    repeat (first
      | exact Reader.fixed_pure _
      | (apply Reader.fixed_bind read_object32_fixed; intro _)
      | (apply Reader.fixed_bind (read_text_fixed _); intro _))
  · rfl

theorem readDirectoryEntry_fixed : readDirectoryEntry.Fixed 92 := by
  apply Reader.fixed_of_eq
  · unfold readDirectoryEntry
    repeat (first
      | exact Reader.fixed_pure _
      | (apply Reader.fixed_bind read_object32_fixed; intro _)
      | (apply Reader.fixed_bind (read_text_fixed _); intro _))
  · rfl

theorem readFrameHead_fixed : readFrameHead.Fixed 9 := by
  apply Reader.fixed_of_eq
  · unfold readFrameHead
    repeat (first
      | exact Reader.fixed_pure _
      | (apply Reader.fixed_bind read_object32_fixed; intro _)
      | (apply Reader.fixed_bind read_object8_fixed; intro _))
  · rfl

theorem readClientData_fixed : readClientData.Fixed 32 := by
  apply Reader.fixed_of_eq
  · unfold readClientData
    repeat (first
      | exact Reader.fixed_pure _
      | (apply Reader.fixed_bind read_object32_fixed; intro _)
      | (apply Reader.fixed_bind read_vec3_fixed; intro _))
  · rfl

theorem readEvent_fixed : readEvent.Fixed 84 := by
  apply Reader.fixed_of_eq
  · unfold readEvent
    repeat (first
      | exact Reader.fixed_pure _
      | (apply Reader.fixed_bind read_object32_fixed; intro _)
      | (apply Reader.fixed_bind read_vec3_fixed; intro _))
  · rfl

theorem readWeaponAnim_fixed : readWeaponAnim.Fixed 8 := by
  apply Reader.fixed_of_eq
  · unfold readWeaponAnim
    repeat (first
      | exact Reader.fixed_pure _
      | (apply Reader.fixed_bind read_object32_fixed; intro _))
  · rfl

theorem readSoundHead_fixed : readSoundHead.Fixed 8 := by
  apply Reader.fixed_of_eq
  · unfold readSoundHead
    repeat (first
      | exact Reader.fixed_pure _
      | (apply Reader.fixed_bind read_object32_fixed; intro _))
  · rfl

theorem readSoundTail_fixed (channel : Word32) (length : Nat) :
    (readSoundTail channel length).Fixed (length + 16) := by
  apply Reader.fixed_of_eq
  · unfold readSoundTail
    repeat (first
      | exact Reader.fixed_pure _
      | (apply Reader.fixed_bind read_object32_fixed; intro _)
      | (apply Reader.fixed_bind (read_objects_fixed _); intro _))
  · rfl

theorem readRefParams_fixed : readRefParams.Fixed 232 := by
  apply Reader.fixed_of_eq
  · unfold readRefParams
    repeat (first
      | exact Reader.fixed_pure _
      | (apply Reader.fixed_bind read_object32_fixed; intro _)
      | (apply Reader.fixed_bind read_vec3_fixed; intro _)
      | (apply Reader.fixed_bind read_vec4_fixed; intro _))
  · rfl

theorem readUserCmd_fixed : readUserCmd.Fixed 52 := by
  apply Reader.fixed_of_eq
  · unfold readUserCmd
    repeat (first
      | exact Reader.fixed_pure _
      | (apply Reader.fixed_bind read_object32_fixed; intro _)
      | (apply Reader.fixed_bind read_object16_fixed; intro _)
      | (apply Reader.fixed_bind read_object8_fixed; intro _)
      | (apply Reader.fixed_bind read_vec3_fixed; intro _))
  · rfl

theorem readMoveVars_fixed : readMoveVars.Fixed 132 := by
  apply Reader.fixed_of_eq
  · unfold readMoveVars
    repeat (first
      | exact Reader.fixed_pure _
      | (apply Reader.fixed_bind read_object32_fixed; intro _)
      | (apply Reader.fixed_bind (read_text_fixed _); intro _))
  · rfl

theorem readDemoInfo_fixed : readDemoInfo.Fixed 436 := by
  apply Reader.fixed_of_eq
  · unfold readDemoInfo
    repeat (first
      | exact Reader.fixed_pure _
      | (apply Reader.fixed_bind read_object32_fixed; intro _)
      | (apply Reader.fixed_bind read_vec3_fixed; intro _)
      | (apply Reader.fixed_bind readRefParams_fixed; intro _)
      | (apply Reader.fixed_bind readUserCmd_fixed; intro _)
      | (apply Reader.fixed_bind readMoveVars_fixed; intro _))
  · rfl

theorem readNetMsgHead_fixed : readNetMsgHead.Fixed 468 := by
  apply Reader.fixed_of_eq
  · unfold readNetMsgHead
    repeat (first
      | exact Reader.fixed_pure _
      | (apply Reader.fixed_bind read_object32_fixed; intro _)
      | (apply Reader.fixed_bind readDemoInfo_fixed; intro _))
  · rfl


/-! ## Reading back what was written -/

/-- A step of a reader on bytes that start with something it reads back. -/
theorem Reader.bind_of_eq {α β : Type} {m : Reader α} (f : α → Reader β) {s r : List Byte} {a : α}
    (h : m s = some (a, r)) : (m >>= f) s = f a r := by
  rw [Reader.bind_apply, h]; rfl

@[simp] theorem bind_read_object8_write {β : Type} (f : Word8 → Reader β) (x : Word8)
    (r : List Byte) : (read_object8 >>= f) (write_object8 x ++ r) = f x r :=
  Reader.bind_of_eq f (read_object8_write x r)

@[simp] theorem bind_read_object16_write {β : Type} (f : Word16 → Reader β) (x : Word16)
    (r : List Byte) : (read_object16 >>= f) (write_object16 x ++ r) = f x r :=
  Reader.bind_of_eq f (read_object16_write x r)

@[simp] theorem bind_read_object32_write {β : Type} (f : Word32 → Reader β) (x : Word32)
    (r : List Byte) : (read_object32 >>= f) (write_object32 x ++ r) = f x r :=
  Reader.bind_of_eq f (read_object32_write x r)

theorem bind_read_text_write {β : Type} (f : List Byte → Reader β) (n : Nat) (s r : List Byte)
    (h : CStr n s) : (read_text n >>= f) (write_text n s ++ r) = f s r :=
  Reader.bind_of_eq f (read_text_write n s r h)

theorem bind_read_objects_append {β : Type} (f : List Byte → Reader β) (n : Nat)
    (a r : List Byte) (h : a.length = n) : (read_objects n >>= f) (a ++ r) = f a r :=
  Reader.bind_of_eq f (read_objects_append_of n a r h)

@[simp] theorem read_vec3_write (v : Vec3) (r : List Byte) :
    read_vec3 (write_vec3 v ++ r) = some (v, r) := by
  simp only [read_vec3, write_vec3, List.append_assoc, bind_read_object32_write,
    Reader.pure_apply]

@[simp] theorem bind_read_vec3_write {β : Type} (f : Vec3 → Reader β) (x : Vec3)
    (r : List Byte) : (read_vec3 >>= f) (write_vec3 x ++ r) = f x r :=
  Reader.bind_of_eq f (read_vec3_write x r)

@[simp] theorem read_vec4_write (v : Vec4) (r : List Byte) :
    read_vec4 (write_vec4 v ++ r) = some (v, r) := by
  simp only [read_vec4, write_vec4, List.append_assoc, bind_read_object32_write,
    Reader.pure_apply]

@[simp] theorem bind_read_vec4_write {β : Type} (f : Vec4 → Reader β) (x : Vec4)
    (r : List Byte) : (read_vec4 >>= f) (write_vec4 x ++ r) = f x r :=
  Reader.bind_of_eq f (read_vec4_write x r)

@[simp] theorem readClientData_write (f : ClientDataFrame) (r : List Byte) :
    readClientData (writeClientData f ++ r) = some (f, r) := by
  simp only [readClientData, writeClientData, List.append_assoc, bind_read_object32_write,
    bind_read_vec3_write, Reader.pure_apply]

@[simp] theorem readEvent_write (f : EventFrame) (r : List Byte) :
    readEvent (writeEvent f ++ r) = some (f, r) := by
  simp only [readEvent, writeEvent, List.append_assoc, bind_read_object32_write,
    bind_read_vec3_write, Reader.pure_apply]

@[simp] theorem readWeaponAnim_write (f : WeaponAnimFrame) (r : List Byte) :
    readWeaponAnim (writeWeaponAnim f ++ r) = some (f, r) := by
  simp only [readWeaponAnim, writeWeaponAnim, List.append_assoc, bind_read_object32_write,
    Reader.pure_apply]

@[simp] theorem readRefParams_write (p : RefParams) (r : List Byte) :
    readRefParams (writeRefParams p ++ r) = some (p, r) := by
  simp only [readRefParams, writeRefParams, List.append_assoc, bind_read_object32_write,
    bind_read_vec3_write, bind_read_vec4_write, Reader.pure_apply]

@[simp] theorem readUserCmd_write (c : UserCmd) (r : List Byte) :
    readUserCmd (writeUserCmd c ++ r) = some (c, r) := by
  simp only [readUserCmd, writeUserCmd, List.append_assoc, bind_read_object32_write,
    bind_read_object16_write, bind_read_object8_write, bind_read_vec3_write, Reader.pure_apply]

theorem readMoveVars_write (m : MoveVars) (r : List Byte)
    (h : CStr FRAME_NETMSG_DEMOINFO_MOVEVARS_SKYNAME_SIZE m.skyName) :
    readMoveVars (writeMoveVars m ++ r) = some (m, r) := by
  simp only [readMoveVars, writeMoveVars, List.append_assoc, bind_read_object32_write,
    bind_read_text_write _ _ _ _ h, Reader.pure_apply]

theorem readDemoInfo_write (i : DemoInfo) (r : List Byte)
    (h : CStr FRAME_NETMSG_DEMOINFO_MOVEVARS_SKYNAME_SIZE i.MoveVars.skyName) :
    readDemoInfo (writeDemoInfo i ++ r) = some (i, r) := by
  simp only [readDemoInfo, writeDemoInfo, List.append_assoc, bind_read_object32_write,
    bind_read_vec3_write, Reader.bind_of_eq _ (readRefParams_write _ _),
    Reader.bind_of_eq _ (readUserCmd_write _ _),
    Reader.bind_of_eq _ (readMoveVars_write _ _ h), Reader.pure_apply]

theorem Reader.yields_intro {α : Type} {R : Reader α} {P : α → Prop}
    (h : ∀ s a r, R s = some (a, r) → P a) : R.Yields P := by
  unfold Reader.Yields; exact h

theorem Reader.yields_elim {α : Type} {R : Reader α} {P : α → Prop} (h : R.Yields P)
    {s r : List Byte} {a : α} (hr : R s = some (a, r)) : P a := by
  unfold Reader.Yields at h; exact h s a r hr

theorem Reader.bind_eq_some {α β : Type} {m : Reader α} {f : α → Reader β} {s r' : List Byte}
    {b : β} : (m >>= f) s = some (b, r') ↔ ∃ a r, m s = some (a, r) ∧ f a r = some (b, r') := by
  rw [Reader.bind_apply]
  cases h : m s with
  | none => simp
  | some p =>
    obtain ⟨a, r⟩ := p
    simp only [Option.some_bind, Option.some.injEq, Prod.mk.injEq]
    constructor
    · intro hf; exact ⟨a, r, ⟨rfl, rfl⟩, hf⟩
    · rintro ⟨a1, r1, ⟨rfl, rfl⟩, hf⟩; exact hf

theorem Reader.yields_bind {α β : Type} {m : Reader α} {f : α → Reader β} {Q : α → Prop}
    {P : β → Prop} (hm : m.Yields Q) (hf : ∀ a, Q a → (f a).Yields P) : (m >>= f).Yields P := by
  refine Reader.yields_intro (fun s b r h => ?_)
  obtain ⟨a, r1, h1, h2⟩ := Reader.bind_eq_some.1 h
  exact Reader.yields_elim (hf a (Reader.yields_elim hm h1)) h2

theorem Reader.yields_pure {α : Type} {a : α} {P : α → Prop} (h : P a) :
    (Pure.pure a : Reader α).Yields P := by
  refine Reader.yields_intro (fun s b r hb => ?_)
  simp only [Reader.pure_apply, Option.some.injEq, Prod.mk.injEq] at hb
  exact hb.1 ▸ h

theorem Reader.yields_bind_any {α β : Type} {m : Reader α} {f : α → Reader β}
    {P : β → Prop} (hf : ∀ a, (f a).Yields P) : (m >>= f).Yields P := by
  refine Reader.yields_intro (fun s b r h => ?_)
  obtain ⟨a, r1, _, h2⟩ := Reader.bind_eq_some.1 h
  exact Reader.yields_elim (hf a) h2

theorem read_objects_yields (n : Nat) : (read_objects n).Yields (fun bs => bs.length = n) := by
  refine Reader.yields_intro (fun s a r h => ?_)
  unfold read_objects at h
  split at h
  · simp only [Option.some.injEq, Prod.mk.injEq] at h
    rw [← h.1, List.length_take]; omega
  · cases h

theorem read_text_yields (n : Nat) : (read_text n).Yields (CStr n) := by
  refine Reader.yields_intro (fun s a r h => ?_)
  unfold read_text read_objects at h
  split at h
  · simp only [Option.some_bind, Option.some.injEq, Prod.mk.injEq] at h
    rw [← h.1]
    exact cstr_CStr n _ (by rw [List.length_take]; omega)
  · cases h

theorem read_objects_eq (n : Nat) (r : List Byte) (h : n ≤ r.length) :
    read_objects n r = some (r.take n, r.drop n) := by
  simp [read_objects, h]

theorem read_object32_eq (r : List Byte) (h : 4 ≤ r.length) :
    read_object32 r = some (toWord32 (le (r.take 4)), r.drop 4) := by
  simp [read_object32, read_objects, h]

theorem read_text_eq (n : Nat) (r : List Byte) (h : n ≤ r.length) :
    read_text n r = some (cstr (r.take n), r.drop n) := by
  simp [read_text, read_objects, h]

theorem readDirectoryEntry_frames : readDirectoryEntry.Yields (fun e => e.frames = []) := by
  unfold readDirectoryEntry
  repeat (first
    | exact Reader.yields_pure rfl
    | (apply Reader.yields_bind_any; intro _))

/-- The directory offset that `ReadHeader` stores is the number in bytes 532..535 after the
signature, that is bytes 540..543 of the file. -/
theorem ReadHeader_eq (r : List Byte) (h : 536 ≤ r.length) :
    ReadHeader r = some (
      { netProtocol := toWord32 (le ((r.drop 4).take 4)),
        demoProtocol := toWord32 (le (r.take 4)),
        mapName := cstr ((r.drop 8).take 260),
        gameDir := cstr ((r.drop 268).take 260),
        mapCRC := toWord32 (le ((r.drop 528).take 4)),
        directoryOffset := toWord32 (le ((r.drop 532).take 4)) }, r.drop 536) := by
  have h1 := read_object32_eq r (by omega)
  have h2 := read_object32_eq (r.drop 4) (by rw [List.length_drop]; omega)
  have h3 := read_text_eq HEADER_MAPNAME_SIZE ((r.drop 4).drop 4)
    (by simp only [List.length_drop, HEADER_MAPNAME_SIZE]; omega)
  have h4 := read_text_eq HEADER_GAMEDIR_SIZE (((r.drop 4).drop 4).drop HEADER_MAPNAME_SIZE)
    (by simp only [List.length_drop, HEADER_MAPNAME_SIZE, HEADER_GAMEDIR_SIZE]; omega)
  have h5 := read_object32_eq
    ((((r.drop 4).drop 4).drop HEADER_MAPNAME_SIZE).drop HEADER_GAMEDIR_SIZE)
    (by simp only [List.length_drop, HEADER_MAPNAME_SIZE, HEADER_GAMEDIR_SIZE]; omega)
  have h6 := read_object32_eq
    (((((r.drop 4).drop 4).drop HEADER_MAPNAME_SIZE).drop HEADER_GAMEDIR_SIZE).drop 4)
    (by simp only [List.length_drop, HEADER_MAPNAME_SIZE, HEADER_GAMEDIR_SIZE]; omega)
  unfold ReadHeader
  rw [Reader.bind_of_eq _ h1, Reader.bind_of_eq _ h2, Reader.bind_of_eq _ h3,
    Reader.bind_of_eq _ h4, Reader.bind_of_eq _ h5, Reader.bind_of_eq _ h6,
    Reader.pure_apply]
  simp only [List.drop_drop, HEADER_MAPNAME_SIZE, HEADER_GAMEDIR_SIZE]

/-! ## The constructor -/

theorem readDirectoryEntries_spec (n : Nat) : ∀ r : List Byte, 92 * n ≤ r.length →
    ∃ es, readDirectoryEntries n r = some (es, r.drop (92 * n)) ∧ es.length = n ∧
      (∀ e ∈ es, e.frames = []) ∧
      ∀ i, i < n → (readDirectoryEntry (r.drop (92 * i))).map Prod.fst = es[i]? := by
  induction n with
  | zero =>
    intro r _
    exact ⟨[], by simp [readDirectoryEntries], rfl, by simp, by intro i hi; omega⟩
  | succ n ih =>
    intro r hr
    obtain ⟨e, he⟩ := Reader.fixed_apply readDirectoryEntry_fixed r (by omega)
    obtain ⟨es, hes, hlen, hfr, hidx⟩ := ih (r.drop 92) (by rw [List.length_drop]; omega)
    refine ⟨e :: es, ?_, by simp [hlen], ?_, ?_⟩
    · unfold readDirectoryEntries
      rw [Reader.bind_of_eq _ he, Reader.bind_of_eq _ hes, Reader.pure_apply, List.drop_drop]
      congr 3
      omega
    · intro x hx
      rcases List.mem_cons.1 hx with rfl | hx
      · exact Reader.yields_elim readDirectoryEntry_frames he
      · exact hfr x hx
    · intro i hi
      cases i with
      | zero => simp [he]
      | succ i =>
        have := hidx i (by omega)
        rw [List.drop_drop] at this
        have e1 : 92 * (i + 1) = 92 * i + 92 := by omega
        have e2 : 92 + 92 * i = 92 * i + 92 := by omega
        rw [e1, ← e2]
        simpa using this

theorem int32_nonneg_toNat (x : Word32) (h : 0 ≤ int32 x) : ((int32 x).toNat : Int) = int32 x :=
  Int.toNat_of_nonneg h

theorem tellg_drop (S : List Byte) (p k : Nat) (h : p + k ≤ S.length) :
    tellg S.length ((S.drop p).drop k) = (p : Int) + k := by
  unfold tellg
  simp only [List.length_drop]
  omega

/-- `ReadDirectory` succeeds exactly when its two checks pass; the entries are then the
`dirEntryCount` records that follow the count. -/
theorem ReadDirectory_ok_iff (S : List Byte) (header : DemoHeader) :
    let d := int32 header.directoryOffset
    let c := int32 (toWord32 (le ((S.drop d.toNat).take 4)))
    ((∃ es, ReadDirectory S header = .ok es) ↔
      (0 ≤ d ∧ d ≤ (S.length : Int) - 4 ∧ 1 ≤ c ∧ c ≤ 1024 ∧ 92 * c ≤ (S.length : Int) - (d + 4))) ∧
    (∀ es, ReadDirectory S header = .ok es →
      (es.length : Int) = c ∧ (∀ e ∈ es, e.frames = []) ∧
      ∀ i, i < es.length →
        (readDirectoryEntry (S.drop (d.toNat + 4 + 92 * i))).map Prod.fst = es[i]?) ∧
    (∀ e, ReadDirectory S header = .error e →
      e = .invalidDirectoryOffset ∨ e = .invalidDirectoryEntryCount) := by
  intro d c
  unfold ReadDirectory
  simp only []
  by_cases h1 : int32 header.directoryOffset < 0 ∨
      (S.length : Int) - 4 < int32 header.directoryOffset
  · rw [if_pos h1]
    refine ⟨⟨?_, ?_⟩, ?_, ?_⟩
    · rintro ⟨es, hes⟩; cases hes
    · rintro ⟨h0, h4, _⟩; exfalso; rcases h1 with h | h <;> omega
    · intro es hes; cases hes
    · intro e he; left; cases he; rfl
  · rw [if_neg h1]
    have hd0 : 0 ≤ d := by
      by_contra hc; exact h1 (Or.inl (by omega))
    have hd4 : d ≤ (S.length : Int) - 4 := by
      by_contra hc; exact h1 (Or.inr (by omega))
    have hdn : (d.toNat : Int) = d := Int.toNat_of_nonneg hd0
    have hlen : 4 ≤ (S.drop d.toNat).length := by rw [List.length_drop]; omega
    rw [read_object32_eq _ hlen]
    simp only []
    have htell : tellg S.length ((S.drop d.toNat).drop 4) = d + 4 := by
      rw [tellg_drop S d.toNat 4 (by omega)]; omega
    rw [htell]
    by_cases h2 : c < MIN_DIR_ENTRY_COUNT ∨ c > MAX_DIR_ENTRY_COUNT ∨
        (S.length : Int) - c * (DIR_ENTRY_SIZE : Int) < d + 4
    · rw [if_pos h2]
      refine ⟨⟨?_, ?_⟩, ?_, ?_⟩
      · rintro ⟨es, hes⟩; cases hes
      · rintro ⟨_, _, hc1, hc2, hc3⟩
        exfalso
        simp only [MIN_DIR_ENTRY_COUNT, MAX_DIR_ENTRY_COUNT, DIR_ENTRY_SIZE] at h2
        rcases h2 with h | h | h <;> omega
      · intro es hes; cases hes
      · intro e he; right; cases he; rfl
    · rw [if_neg h2]
      simp only [MIN_DIR_ENTRY_COUNT, MAX_DIR_ENTRY_COUNT, DIR_ENTRY_SIZE, not_or, not_lt,
        gt_iff_lt] at h2
      obtain ⟨hc1, hc2, hc3⟩ := h2
      have hcn : (c.toNat : Int) = c := Int.toNat_of_nonneg (by omega)
      have hfit : 92 * c.toNat ≤ ((S.drop d.toNat).drop 4).length := by
        simp only [List.length_drop]; omega
      obtain ⟨es, hes, hl, hfr, hidx⟩ := readDirectoryEntries_spec c.toNat _ hfit
      rw [hes]
      simp only []
      refine ⟨⟨fun _ => ⟨hd0, hd4, hc1, hc2, by omega⟩, fun _ => ⟨es, rfl⟩⟩, ?_, ?_⟩
      · intro es' hes'
        simp only [Except.ok.injEq] at hes'
        subst hes'
        refine ⟨by omega, hfr, ?_⟩
        intro i hi
        have := hidx i (by omega)
        rw [List.drop_drop, List.drop_drop] at this
        rw [Nat.add_assoc]
        exact this
      · intro e he; cases he

theorem HLDEMO_eq_ascii : HLDEMO = ascii ['H', 'L', 'D', 'E', 'M', 'O'] := by decide

/-- The three ways the constructor continues after its own two checks. -/
theorem DemoFile_cases (S : List Byte) :
    (S.length < 544 → DemoFile.DemoFile S = .error .sizeTooSmall) ∧
    (544 ≤ S.length → S.take 6 ≠ HLDEMO → DemoFile.DemoFile S = .error .signatureMismatch) ∧
    (544 ≤ S.length → S.take 6 = HLDEMO →
      ∃ header, ReadHeader (S.drop 8) = some (header, S.drop 544) ∧
        header.directoryOffset = toWord32 (le ((S.drop 540).take 4)) ∧
        DemoFile.DemoFile S =
          match ReadDirectory S header with
          | .error e => .error e
          | .ok entries =>
            .ok { header := header, directoryEntries := entries, demo := S,
                  readFrames := false }) := by
  refine ⟨?_, ?_, ?_⟩
  · intro h
    unfold DemoFile.DemoFile
    simp only [HEADER_SIZE]
    rw [if_pos h]
  · intro h hs
    unfold DemoFile.DemoFile
    simp only [HEADER_SIZE, HEADER_SIGNATURE_CHECK_SIZE]
    rw [if_neg (by omega), read_objects_eq 6 S (by omega)]
    simp only []
    rw [if_pos hs]
  · intro h hs
    have hh := ReadHeader_eq (S.drop 8) (by rw [List.length_drop]; omega)
    simp only [List.drop_drop, Nat.reduceAdd] at hh
    refine ⟨_, hh, rfl, ?_⟩
    · unfold DemoFile.DemoFile
      simp only [HEADER_SIZE, HEADER_SIGNATURE_CHECK_SIZE, HEADER_SIGNATURE_SIZE]
      rw [if_neg (by omega), read_objects_eq 6 S (by omega)]
      simp only []
      rw [if_neg (by simpa using hs), hh]
      try rfl

/-- The checks of the constructor: when it succeeds, and what the directory entries of the
object are then. -/
theorem DemoFile_ok_iff (S : List Byte) :
    ((∃ m, DemoFile.DemoFile S = .ok m) ↔
      (544 ≤ S.length ∧ S.take 6 = ascii ['H', 'L', 'D', 'E', 'M', 'O'] ∧
       0 ≤ directoryOffsetField S ∧ directoryOffsetField S ≤ (S.length : Int) - 4 ∧
       1 ≤ entryCountField S ∧ entryCountField S ≤ 1024 ∧
       92 * entryCountField S ≤ (S.length : Int) - (directoryOffsetField S + 4))) ∧
    (∀ m, DemoFile.DemoFile S = .ok m →
       (m.directoryEntries.length : Int) = entryCountField S ∧
       (∀ e ∈ m.directoryEntries, e.frames = []) ∧
       ∀ i, i < m.directoryEntries.length →
         (readDirectoryEntry
            (S.drop ((directoryOffsetField S).toNat + 4 + 92 * i))).map Prod.fst =
           m.directoryEntries[i]?) := by
  obtain ⟨c1, c2, c3⟩ := DemoFile_cases S
  rw [← HLDEMO_eq_ascii]
  by_cases hn : S.length < 544
  · rw [c1 hn]
    refine ⟨⟨?_, ?_⟩, ?_⟩
    · rintro ⟨m, hm⟩; cases hm
    · rintro ⟨h, _⟩; omega
    · intro m hm; cases hm
  · by_cases hs : S.take 6 = HLDEMO
    · obtain ⟨header, _, hoff, hopen⟩ := c3 (by omega) hs
      obtain ⟨d1, d2, _⟩ := ReadDirectory_ok_iff S header
      simp only [hoff] at d1 d2
      rw [hopen]
      unfold entryCountField directoryOffsetField
      refine ⟨⟨?_, ?_⟩, ?_⟩
      · rintro ⟨m, hm⟩
        cases hr : ReadDirectory S header with
        | error e => rw [hr] at hm; cases hm
        | ok es => exact ⟨by omega, hs, d1.1 ⟨es, hr⟩⟩
      · rintro ⟨_, _, hrest⟩
        obtain ⟨es, hes⟩ := d1.2 hrest
        rw [hes]
        exact ⟨_, rfl⟩
      · intro m hm
        cases hr : ReadDirectory S header with
        | error e => rw [hr] at hm; cases hm
        | ok es =>
          rw [hr] at hm
          simp only [Except.ok.injEq] at hm
          subst hm
          exact d2 es hr
    · rw [c2 (by omega) hs]
      refine ⟨⟨?_, ?_⟩, ?_⟩
      · rintro ⟨m, hm⟩; cases hm
      · rintro ⟨_, h, _⟩; exact absurd h hs
      · intro m hm; cases hm

/-- C4. Open (the constructor) succeeds exactly when the file has at least 544 bytes, starts
with the text HLDEMO, the directory offset d in bytes 540..543 satisfies 0 <= d <= n - 4, the
entry count c at position d satisfies 1 <= c <= 1024, and 92 * c <= n - (d + 4) (a table that
ends exactly at the end of the file is accepted).  On success the object has exactly c
directory entries, the i-th being the record decoded from the 92 bytes at d + 4 + 92 * i, each
with an empty frame sequence. -/
theorem DemoFile_succeeds_iff (S : List Byte) :
    ((∃ m, DemoFile.DemoFile S = .ok m) ↔
      (544 ≤ S.length ∧ S.take 6 = ascii ['H', 'L', 'D', 'E', 'M', 'O'] ∧
       0 ≤ directoryOffsetField S ∧ directoryOffsetField S ≤ (S.length : Int) - 4 ∧
       1 ≤ entryCountField S ∧ entryCountField S ≤ 1024 ∧
       92 * entryCountField S ≤ (S.length : Int) - (directoryOffsetField S + 4))) ∧
    (∀ m, DemoFile.DemoFile S = .ok m →
       (m.directoryEntries.length : Int) = entryCountField S ∧
       (∀ e ∈ m.directoryEntries, e.frames = []) ∧
       ∀ i, i < m.directoryEntries.length →
         (readDirectoryEntry
            (S.drop ((directoryOffsetField S).toNat + 4 + 92 * i))).map Prod.fst =
           m.directoryEntries[i]?) :=
  DemoFile_ok_iff S

/-- Whatever the constructor throws is one of its four format errors. -/
theorem DemoFile_error_format (S : List Byte) (e : DemoError)
    (h : DemoFile.DemoFile S = .error e) : e.IsFormatError := by
  obtain ⟨c1, c2, c3⟩ := DemoFile_cases S
  unfold DemoError.IsFormatError
  by_cases hn : S.length < 544
  · rw [c1 hn] at h; cases h; exact Or.inl rfl
  · by_cases hs : S.take 6 = HLDEMO
    · obtain ⟨header, _, _, hopen⟩ := c3 (by omega) hs
      obtain ⟨_, _, d3⟩ := ReadDirectory_ok_iff S header
      rw [hopen] at h
      cases hr : ReadDirectory S header with
      | error e' =>
        rw [hr] at h
        cases h
        rcases d3 e hr with h | h
        · exact Or.inr (Or.inr (Or.inl h))
        · exact Or.inr (Or.inr (Or.inr h))
      | ok es => rw [hr] at h; cases h
    · rw [c2 (by omega) hs] at h; cases h; exact Or.inr (Or.inl rfl)

/-- C5. When the entry count field (the signed 32-bit number at the directory offset) is
outside [1, 1024], the constructor throws a format error and produces no object, whatever
the rest of the file is. -/
theorem DemoFile_entry_count_out_of_range (S : List Byte)
    (h : entryCountField S < 1 ∨ 1024 < entryCountField S) :
    ∃ e, DemoFile.DemoFile S = .error e ∧ e.IsFormatError := by
  cases hr : DemoFile.DemoFile S with
  | error e => exact ⟨e, rfl, DemoFile_error_format S e hr⟩
  | ok m =>
    exfalso
    obtain ⟨_, _, _, _, h1, h2, _⟩ := (DemoFile_ok_iff S).1.1 ⟨m, hr⟩
    omega

/-- C6. `IsValidDemoFile` is true exactly when the file has at least 544 bytes and its first
six bytes are the ASCII text HLDEMO; nothing else in the file enters the result. -/
theorem IsValidDemoFile_iff (S : List Byte) :
    DemoFile.IsValidDemoFile S = true ↔
      544 ≤ S.length ∧ S.take 6 = ascii ['H', 'L', 'D', 'E', 'M', 'O'] := by
  rw [← HLDEMO_eq_ascii]
  unfold DemoFile.IsValidDemoFile
  simp only [HEADER_SIZE, HEADER_SIGNATURE_CHECK_SIZE]
  by_cases hn : S.length < 544
  · rw [if_pos hn]
    constructor
    · intro h; cases h
    · rintro ⟨h, _⟩; omega
  · rw [if_neg hn, read_objects_eq 6 S (by omega)]
    simp only []
    by_cases hs : S.take 6 = HLDEMO
    · rw [if_neg (by simpa using hs)]
      exact ⟨fun _ => ⟨by omega, hs⟩, fun _ => rfl⟩
    · rw [if_pos hs]
      constructor
      · intro h; cases h
      · rintro ⟨_, h⟩; exact absurd h hs

/-- C5, instance: a file whose entry count field holds -1. -/
theorem DemoFile_entry_count_out_of_range_witness :
    (entryCountField negativeCountFile < 1 ∨ 1024 < entryCountField negativeCountFile) ∧
    ∃ e, DemoFile.DemoFile negativeCountFile = .error e ∧ e.IsFormatError :=
  ⟨by decide!, DemoFile_entry_count_out_of_range negativeCountFile (by decide!)⟩

/-! ## One pass of the frame loop -/

theorem guard_iff (n k : Nat) (r : List Byte) :
    ((n : Int) - (k : Int) < tellg n r) ↔ r.length < k := by
  unfold tellg; omega

theorem int32_lt (x : Word32) : int32 x < 2147483648 := by
  unfold int32; have := x.isLt; split <;> omega

theorem int32_ge (x : Word32) : -2147483648 ≤ int32 x := by
  unfold int32; have := x.isLt; split <;> omega

theorem readMoveVars_yields :
    readMoveVars.Yields (fun m => CStr FRAME_NETMSG_DEMOINFO_MOVEVARS_SKYNAME_SIZE m.skyName) := by
  unfold readMoveVars
  repeat (first
    | (apply Reader.yields_pure; assumption)
    | (apply Reader.yields_bind (read_text_yields _); intro _ _)
    | (apply Reader.yields_bind_any; intro _))

theorem readDemoInfo_yields :
    readDemoInfo.Yields
      (fun i => CStr FRAME_NETMSG_DEMOINFO_MOVEVARS_SKYNAME_SIZE i.MoveVars.skyName) := by
  unfold readDemoInfo
  repeat (first
    | (apply Reader.yields_pure; assumption)
    | (apply Reader.yields_bind readMoveVars_yields; intro _ _)
    | (apply Reader.yields_bind_any; intro _))

theorem readNetMsgHead_yields :
    readNetMsgHead.Yields
      (fun p => CStr FRAME_NETMSG_DEMOINFO_MOVEVARS_SKYNAME_SIZE p.1.DemoInfo.MoveVars.skyName) := by
  unfold readNetMsgHead
  repeat (first
    | (apply Reader.yields_pure; assumption)
    | (apply Reader.yields_bind readDemoInfo_yields; intro _ _)
    | (apply Reader.yields_bind_any; intro _))

theorem readSoundTail_yields (channel : Word32) (length : Nat) :
    (readSoundTail channel length).Yields (fun f => f.sample.length = length) := by
  unfold readSoundTail
  repeat (first
    | (apply Reader.yields_pure; assumption)
    | (apply Reader.yields_bind (read_objects_yields _); intro _ _)
    | (apply Reader.yields_bind_any; intro _))

theorem caseDemoStart_good (type : Byte) (time frame : Word32) (r : List Byte)
    (ht : type = DemoFrameType.DEMO_START) :
    GoodStep type time frame r (caseDemoStart type time frame r) := by
  refine Or.inr (Or.inr ⟨DemoFrame.mk type time frame (.DemoFrame),
    0, ?_, Nat.zero_le _, Or.inl ht, rfl, rfl, rfl⟩)
  subst ht
  rfl

theorem caseNextSection_good (type : Byte) (time frame : Word32) (r : List Byte)
    (ht : type = DemoFrameType.NEXT_SECTION) :
    GoodStep type time frame r (caseNextSection type time frame r) := by
  refine Or.inr (Or.inr ⟨DemoFrame.mk type time frame (.DemoFrame),
    0, ?_, Nat.zero_le _, Or.inr ht, rfl, rfl, rfl⟩)
  subst ht
  rfl

theorem caseConsoleCommand_good (n : Nat) (type : Byte) (time frame : Word32) (r : List Byte)
    (ht : type = DemoFrameType.CONSOLE_COMMAND) :
    GoodStep type time frame r (caseConsoleCommand n type time frame r) := by
  unfold caseConsoleCommand
  by_cases hg : r.length < FRAME_CONSOLE_COMMAND_SIZE
  · rw [if_pos ((guard_iff _ _ _).2 hg)]; exact Or.inl rfl
  · rw [if_neg (fun h => hg ((guard_iff _ _ _).1 h))]
    obtain ⟨c, hc⟩ := Reader.fixed_apply (read_text_fixed FRAME_CONSOLE_COMMAND_SIZE) r (by omega)
    rw [hc]
    refine Or.inr (Or.inr ⟨DemoFrame.mk type time frame (.ConsoleCommandFrame { command := c }), FRAME_CONSOLE_COMMAND_SIZE, ?_,
      by omega, ⟨ht, Reader.yields_elim (read_text_yields _) hc⟩, rfl, rfl, rfl⟩)
    subst ht
    rfl

theorem caseClientData_good (n : Nat) (type : Byte) (time frame : Word32) (r : List Byte)
    (ht : type = DemoFrameType.CLIENT_DATA) :
    GoodStep type time frame r (caseClientData n type time frame r) := by
  unfold caseClientData
  by_cases hg : r.length < FRAME_CLIENT_DATA_SIZE
  · rw [if_pos ((guard_iff _ _ _).2 hg)]; exact Or.inl rfl
  · rw [if_neg (fun h => hg ((guard_iff _ _ _).1 h))]
    obtain ⟨c, hc⟩ := Reader.fixed_apply readClientData_fixed r
      (by simp only [FRAME_CLIENT_DATA_SIZE] at hg; omega)
    rw [hc]
    refine Or.inr (Or.inr ⟨DemoFrame.mk type time frame (.ClientDataFrame c), 32, ?_,
      by simp only [FRAME_CLIENT_DATA_SIZE] at hg; omega, ht, rfl, rfl, rfl⟩)
    subst ht
    rfl

theorem caseEvent_good (n : Nat) (type : Byte) (time frame : Word32) (r : List Byte)
    (ht : type = DemoFrameType.EVENT) :
    GoodStep type time frame r (caseEvent n type time frame r) := by
  unfold caseEvent
  by_cases hg : r.length < FRAME_EVENT_SIZE
  · rw [if_pos ((guard_iff _ _ _).2 hg)]; exact Or.inl rfl
  · rw [if_neg (fun h => hg ((guard_iff _ _ _).1 h))]
    obtain ⟨c, hc⟩ := Reader.fixed_apply readEvent_fixed r
      (by simp only [FRAME_EVENT_SIZE] at hg; omega)
    rw [hc]
    refine Or.inr (Or.inr ⟨DemoFrame.mk type time frame (.EventFrame c), 84, ?_,
      by simp only [FRAME_EVENT_SIZE] at hg; omega, ht, rfl, rfl, rfl⟩)
    subst ht
    rfl

theorem caseWeaponAnim_good (n : Nat) (type : Byte) (time frame : Word32) (r : List Byte)
    (ht : type = DemoFrameType.WEAPON_ANIM) :
    GoodStep type time frame r (caseWeaponAnim n type time frame r) := by
  unfold caseWeaponAnim
  by_cases hg : r.length < FRAME_WEAPON_ANIM_SIZE
  · rw [if_pos ((guard_iff _ _ _).2 hg)]; exact Or.inl rfl
  · rw [if_neg (fun h => hg ((guard_iff _ _ _).1 h))]
    obtain ⟨c, hc⟩ := Reader.fixed_apply readWeaponAnim_fixed r
      (by simp only [FRAME_WEAPON_ANIM_SIZE] at hg; omega)
    rw [hc]
    refine Or.inr (Or.inr ⟨DemoFrame.mk type time frame (.WeaponAnimFrame c), 8, ?_,
      by simp only [FRAME_WEAPON_ANIM_SIZE] at hg; omega, ht, rfl, rfl, rfl⟩)
    subst ht
    rfl

theorem guard2_iff (n : Nat) (x : Int) (k : Nat) (r : List Byte) :
    ((n : Int) - x - (k : Int) < tellg n r) ↔ (r.length : Int) < x + k := by
  unfold tellg; omega

theorem guard1_iff (n : Nat) (x : Int) (r : List Byte) :
    ((n : Int) - x < tellg n r) ↔ (r.length : Int) < x := by
  unfold tellg; omega

theorem caseSound_good (n : Nat) (type : Byte) (time frame : Word32) (r : List Byte)
    (ht : type = DemoFrameType.SOUND) :
    GoodStep type time frame r (caseSound n type time frame r) := by
  unfold caseSound
  by_cases hg : r.length < FRAME_SOUND_SIZE_1
  · rw [if_pos ((guard_iff _ _ _).2 hg)]; exact Or.inl rfl
  · rw [if_neg (fun h => hg ((guard_iff _ _ _).1 h))]
    simp only [FRAME_SOUND_SIZE_1] at hg
    obtain ⟨⟨channel, length⟩, hc⟩ := Reader.fixed_apply readSoundHead_fixed r (by omega)
    rw [hc]
    simp only []
    by_cases hg2 : ((r.drop 8).length : Int) < int32 length + (FRAME_SOUND_SIZE_2 : Nat)
    · rw [if_pos ((guard2_iff _ _ _ _).2 hg2)]; exact Or.inl rfl
    · rw [if_neg (fun h => hg2 ((guard2_iff _ _ _ _).1 h))]
      by_cases hneg : int32 length < 0
      · rw [if_pos hneg]; exact Or.inr (Or.inl rfl)
      · rw [if_neg hneg]
        have hl : ((int32 length).toNat : Int) = int32 length := Int.toNat_of_nonneg (by omega)
        simp only [FRAME_SOUND_SIZE_2, List.length_drop] at hg2
        obtain ⟨f, hf⟩ := Reader.fixed_apply
          (readSoundTail_fixed channel (int32 length).toNat) (r.drop 8)
          (by simp only [List.length_drop]; omega)
        rw [hf, List.drop_drop]
        have hlen := Reader.yields_elim (readSoundTail_yields _ _) hf
        have hlt := int32_lt length
        refine Or.inr (Or.inr ⟨DemoFrame.mk type time frame (.SoundFrame f), 8 + ((int32 length).toNat + 16), ?_, by omega,
          ⟨ht, by rw [hlen]; omega⟩, rfl, rfl, rfl⟩)
        subst ht
        rfl

theorem caseDemoBuffer_good (n : Nat) (type : Byte) (time frame : Word32) (r : List Byte)
    (ht : type = DemoFrameType.DEMO_BUFFER) :
    GoodStep type time frame r (caseDemoBuffer n type time frame r) := by
  unfold caseDemoBuffer
  by_cases hg : r.length < FRAME_DEMO_BUFFER_SIZE
  · rw [if_pos ((guard_iff _ _ _).2 hg)]; exact Or.inl rfl
  · rw [if_neg (fun h => hg ((guard_iff _ _ _).1 h))]
    simp only [FRAME_DEMO_BUFFER_SIZE] at hg
    obtain ⟨length, hc⟩ := Reader.fixed_apply read_object32_fixed r (by omega)
    rw [hc]
    simp only []
    by_cases hg2 : ((r.drop 4).length : Int) < int32 length
    · rw [if_pos ((guard1_iff _ _ _).2 hg2)]; exact Or.inl rfl
    · rw [if_neg (fun h => hg2 ((guard1_iff _ _ _).1 h))]
      by_cases hneg : int32 length < 0
      · rw [if_pos hneg]; exact Or.inr (Or.inl rfl)
      · rw [if_neg hneg]
        have hl : ((int32 length).toNat : Int) = int32 length := Int.toNat_of_nonneg (by omega)
        simp only [List.length_drop] at hg2
        obtain ⟨f, hf⟩ := Reader.fixed_apply
          (read_objects_fixed (int32 length).toNat) (r.drop 4)
          (by simp only [List.length_drop]; omega)
        rw [hf, List.drop_drop]
        have hlen := Reader.yields_elim (read_objects_yields _) hf
        have hlt := int32_lt length
        refine Or.inr (Or.inr ⟨DemoFrame.mk type time frame (.DemoBufferFrame { buffer := f }), 4 + (int32 length).toNat, ?_,
          by omega, ⟨ht, ?_⟩, rfl, rfl, rfl⟩)
        · subst ht
          rfl
        · show f.length < 2147483648
          rw [hlen]; omega

theorem caseNetMsg_good (n : Nat) (type : Byte) (time frame : Word32) (r : List Byte)
    (ht : IsNetMsgType type) :
    GoodStep type time frame r (caseNetMsg n type time frame r) := by
  unfold caseNetMsg
  by_cases hg : r.length < FRAME_NETMSG_SIZE
  · rw [if_pos ((guard_iff _ _ _).2 hg)]; exact Or.inl rfl
  · rw [if_neg (fun h => hg ((guard_iff _ _ _).1 h))]
    simp only [FRAME_NETMSG_SIZE] at hg
    obtain ⟨⟨f, length⟩, hc⟩ := Reader.fixed_apply readNetMsgHead_fixed r (by omega)
    rw [hc]
    simp only []
    have hsky := Reader.yields_elim readNetMsgHead_yields hc
    by_cases hrange : int32 length < FRAME_NETMSG_MIN_MESSAGE_LENGTH ∨
        int32 length > FRAME_NETMSG_MAX_MESSAGE_LENGTH
    · rw [if_pos hrange]; exact Or.inl rfl
    · rw [if_neg hrange]
      simp only [FRAME_NETMSG_MIN_MESSAGE_LENGTH, FRAME_NETMSG_MAX_MESSAGE_LENGTH, not_or,
        not_lt, gt_iff_lt] at hrange
      by_cases hg2 : ((r.drop 468).length : Int) < int32 length
      · rw [if_pos ((guard1_iff _ _ _).2 hg2)]; exact Or.inl rfl
      · rw [if_neg (fun h => hg2 ((guard1_iff _ _ _).1 h))]
        have hl : ((int32 length).toNat : Int) = int32 length :=
          Int.toNat_of_nonneg hrange.1
        simp only [List.length_drop] at hg2
        obtain ⟨msg, hf⟩ := Reader.fixed_apply
          (read_objects_fixed (int32 length).toNat) (r.drop 468)
          (by simp only [List.length_drop]; omega)
        rw [hf, List.drop_drop]
        have hlen := Reader.yields_elim (read_objects_yields _) hf
        refine Or.inr (Or.inr ⟨DemoFrame.mk type time frame (.NetMsgFrame { f with msg := msg }), 468 + (int32 length).toNat, ?_,
          by omega, ⟨ht, hsky, ?_⟩, rfl, rfl, rfl⟩)
        · rw [decide_eq_false ht.2.2.2.1]
        · show msg.length ≤ 65536
          rw [hlen]; omega

theorem readFrameSwitch_good (n : Nat) (type : Byte) (time frame : Word32) (r : List Byte) :
    GoodStep type time frame r (readFrameSwitch n type time frame r) := by
  unfold readFrameSwitch
  by_cases h2 : type = DemoFrameType.DEMO_START
  · rw [if_pos h2]; exact caseDemoStart_good _ _ _ _ h2
  rw [if_neg h2]
  by_cases h3 : type = DemoFrameType.CONSOLE_COMMAND
  · rw [if_pos h3]; exact caseConsoleCommand_good _ _ _ _ _ h3
  rw [if_neg h3]
  by_cases h4 : type = DemoFrameType.CLIENT_DATA
  · rw [if_pos h4]; exact caseClientData_good _ _ _ _ _ h4
  rw [if_neg h4]
  by_cases h5 : type = DemoFrameType.NEXT_SECTION
  · rw [if_pos h5]; exact caseNextSection_good _ _ _ _ h5
  rw [if_neg h5]
  by_cases h6 : type = DemoFrameType.EVENT
  · rw [if_pos h6]; exact caseEvent_good _ _ _ _ _ h6
  rw [if_neg h6]
  by_cases h7 : type = DemoFrameType.WEAPON_ANIM
  · rw [if_pos h7]; exact caseWeaponAnim_good _ _ _ _ _ h7
  rw [if_neg h7]
  by_cases h8 : type = DemoFrameType.SOUND
  · rw [if_pos h8]; exact caseSound_good _ _ _ _ _ h8
  rw [if_neg h8]
  by_cases h9 : type = DemoFrameType.DEMO_BUFFER
  · rw [if_pos h9]; exact caseDemoBuffer_good _ _ _ _ _ h9
  rw [if_neg h9]
  exact caseNetMsg_good _ _ _ _ _ ⟨h2, h3, h4, h5, h6, h7, h8, h9⟩

/-- One pass of the loop body stops, throws `std::length_error`, or appends a canonical frame
that took at least the nine bytes of the common members, with `stop` set exactly for a
NEXT_SECTION frame.  It never reads past the end of the file. -/
theorem readFrame_good (n : Nat) (r : List Byte) :
    readFrame n r = .stopped ∨ readFrame n r = .thrown .lengthError ∨
    ∃ f k, readFrame n r = .appended f (decide (f.type = DemoFrameType.NEXT_SECTION)) (r.drop k) ∧
      9 ≤ k ∧ k ≤ r.length ∧ f.Canonical := by
  unfold readFrame
  by_cases hg : r.length < MIN_FRAME_SIZE
  · rw [if_pos ((guard_iff _ _ _).2 hg)]; exact Or.inl rfl
  · rw [if_neg (fun h => hg ((guard_iff _ _ _).1 h))]
    simp only [MIN_FRAME_SIZE] at hg
    obtain ⟨⟨type, time, frame⟩, hc⟩ := Reader.fixed_apply readFrameHead_fixed r (by omega)
    rw [hc]
    simp only []
    rcases readFrameSwitch_good n type time frame (r.drop 9) with h | h | ⟨f, k, h, hk, hcan, ht, _, _⟩
    · exact Or.inl h
    · exact Or.inr (Or.inl h)
    · refine Or.inr (Or.inr ⟨f, 9 + k, ?_, by omega, ?_, hcan⟩)
      · rw [h, ht, List.drop_drop]
      · rw [List.length_drop] at hk; omega

/-- The loop of one entry, given more passes than a ninth of the unread bytes, ends normally
or with `std::length_error`; it never runs out of passes and never reads past the end. -/
theorem readFrameLoop_good (n : Nat) : ∀ (fuel : Nat) (r : List Byte) (acc : List DemoFrame),
    r.length < 9 * fuel →
    ∃ fs, (readFrameLoop n fuel r acc = .done (acc ++ fs) ∨
           readFrameLoop n fuel r acc = .thrown .lengthError (acc ++ fs)) ∧
      (∀ f ∈ fs, f.Canonical) ∧ (∀ f ∈ fs.dropLast, f.type ≠ DemoFrameType.NEXT_SECTION) ∧
      (readFrameLoop n fuel r acc = .thrown .lengthError (acc ++ fs) →
        ∀ f ∈ fs, f.type ≠ DemoFrameType.NEXT_SECTION) := by
  intro fuel
  induction fuel with
  | zero => intro r acc h; omega
  | succ fuel ih =>
    intro r acc hfuel
    unfold readFrameLoop
    rcases readFrame_good n r with h | h | ⟨f, k, h, hk9, hk, hcan⟩
    · rw [h]
      exact ⟨[], Or.inl (by simp), by simp, by simp, by simp⟩
    · rw [h]
      exact ⟨[], Or.inr (by simp), by simp, by simp, by simp⟩
    · rw [h]
      by_cases ht : f.type = DemoFrameType.NEXT_SECTION
      · rw [decide_eq_true ht]
        refine ⟨[f], Or.inl rfl, ?_, by simp, ?_⟩
        · intro g hg; rw [List.mem_singleton.1 hg]; exact hcan
        · intro hc; cases hc
      · rw [decide_eq_false ht]
        simp only []
        obtain ⟨fs, hres, hc, hd, hthrow⟩ := ih (r.drop k) (acc ++ [f])
          (by rw [List.length_drop]; omega)
        refine ⟨f :: fs, ?_, ?_, ?_, ?_⟩
        · simpa [List.append_assoc] using hres
        · intro g hg
          rcases List.mem_cons.1 hg with rfl | hg
          · exact hcan
          · exact hc g hg
        · intro g hg
          cases fs with
          | nil => simp at hg
          | cons x xs =>
            rw [List.dropLast_cons₂] at hg
            rcases List.mem_cons.1 hg with rfl | hg
            · exact ht
            · exact hd g hg
        · intro hthr g hg
          rcases List.mem_cons.1 hg with rfl | hg
          · exact ht
          · exact hthrow (by simpa [List.append_assoc] using hthr) g hg

/-! ## `ReadFrames` as a whole -/

/-- C7. `ReadFrames` is idempotent: after a call that succeeded, a second call changes
nothing; in particular no frame is appended twice. -/
theorem ReadFrames_idempotent (m m' : DemoFile) (h : m.ReadFrames = (none, m')) :
    m'.ReadFrames = (none, m') ∧
    (m'.ReadFrames).2.directoryEntries.map (fun e => e.frames) =
      m'.directoryEntries.map (fun e => e.frames) := by
  have key : m'.readFrames = true := by
    unfold DemoFile.ReadFrames at h
    by_cases h1 : m.readFrames = true
    · rw [if_pos h1] at h
      simp only [Prod.mk.injEq, true_and] at h
      rw [← h]; exact h1
    · rw [if_neg h1] at h
      by_cases h2 : m.header.demoProtocol ≠ 5
      · rw [if_pos h2] at h
        simp only [Prod.mk.injEq] at h
        exact absurd h.1 (by simp)
      · rw [if_neg h2] at h
        rcases hr : readEntries m.demo m.directoryEntries with ⟨err, es⟩
        rw [hr] at h
        cases err with
        | none =>
          simp only [Prod.mk.injEq, true_and] at h
          rw [← h]
        | some e =>
          simp only [Prod.mk.injEq] at h
          exact absurd h.1 (by simp)
  have h2 : m'.ReadFrames = (none, m') := by
    unfold DemoFile.ReadFrames
    rw [if_pos key]
  exact ⟨h2, by rw [h2]⟩

/-- A pass of the loop throws `std::length_error` or nothing. -/
theorem readFrame_thrown (n : Nat) (r : List Byte) (e : DemoError)
    (h : readFrame n r = .thrown e) : e = .lengthError := by
  rcases readFrame_good n r with h1 | h1 | ⟨f, k, h1, _⟩
  · rw [h1] at h; cases h
  · rw [h1] at h; cases h; rfl
  · rw [h1] at h; cases h

/-- The entry loop of `ReadFrames` keeps the number of entries, changes nothing but frame
lists, and ends with no exception or with `std::length_error`. -/
theorem readEntries_shape (S : List Byte) : ∀ es : List DemoDirectoryEntry,
    ((readEntries S es).1 = none ∨ (readEntries S es).1 = some .lengthError) ∧
    (readEntries S es).2.length = es.length ∧
    ∀ i : Nat, ((readEntries S es).2[i]?).map DemoDirectoryEntry.record =
      (es[i]?).map DemoDirectoryEntry.record := by
  intro es
  induction es with
  | nil => simp [readEntries]
  | cons entry rest ih =>
    obtain ⟨ih1, ih2, ih3⟩ := ih
    unfold readEntries
    by_cases hoff : int32 entry.offset < 0 ∨ (S.length : Int) < int32 entry.offset
    · rw [if_pos hoff]
      refine ⟨ih1, by simp [ih2], ?_⟩
      intro i
      cases i with
      | zero => simp [DemoDirectoryEntry.record]
      | succ i => simpa using ih3 i
    · rw [if_neg hoff]
      have hfuel : (S.drop (int32 entry.offset).toNat).length < 9 * (S.length + 1) := by
        rw [List.length_drop]; omega
      obtain ⟨fs, hres, _⟩ := readFrameLoop_good S.length (S.length + 1)
        (S.drop (int32 entry.offset).toNat) entry.frames hfuel
      rcases hres with hres | hres
      · rw [hres]
        refine ⟨ih1, by simp [ih2], ?_⟩
        intro i
        cases i with
        | zero => simp [DemoDirectoryEntry.record]
        | succ i => simpa using ih3 i
      · rw [hres]
        refine ⟨Or.inr rfl, by simp, ?_⟩
        intro i
        cases i with
        | zero => simp [DemoDirectoryEntry.record]
        | succ i => simp

/-- C10. On an object just opened whose header has a demo protocol other than 5,
`ReadFrames` throws and every entry's frame list stays empty; with demo protocol 5 the
protocol check does not throw. -/
theorem ReadFrames_protocol (S : List Byte) (m : DemoFile) (h : DemoFile.DemoFile S = .ok m) :
    (m.header.demoProtocol ≠ 5 →
      (m.ReadFrames).1 = some .unsupportedProtocol ∧
      ∀ e ∈ (m.ReadFrames).2.directoryEntries, e.frames = []) ∧
    (m.header.demoProtocol = 5 → (m.ReadFrames).1 ≠ some .unsupportedProtocol) := by
  have hfresh : m.readFrames = false := by
    obtain ⟨_, _, c3⟩ := DemoFile_cases S
    by_cases hn : S.length < 544
    · rw [(DemoFile_cases S).1 hn] at h; cases h
    · by_cases hs : S.take 6 = HLDEMO
      · obtain ⟨header, _, _, hopen⟩ := c3 (by omega) hs
        rw [hopen] at h
        cases hr : ReadDirectory S header with
        | error e => rw [hr] at h; cases h
        | ok es =>
          rw [hr] at h
          simp only [Except.ok.injEq] at h
          rw [← h]
      · rw [(DemoFile_cases S).2.1 (by omega) hs] at h; cases h
  have hempty := ((DemoFile_ok_iff S).2 m h).2.1
  refine ⟨?_, ?_⟩
  · intro hp
    unfold DemoFile.ReadFrames
    rw [if_neg (by simp [hfresh]), if_pos hp]
    exact ⟨rfl, hempty⟩
  · intro hp
    unfold DemoFile.ReadFrames
    rw [if_neg (by simp [hfresh]), if_neg (by simp [hp])]
    rcases hr : readEntries m.demo m.directoryEntries with ⟨err, es⟩
    have := (readEntries_shape m.demo m.directoryEntries).1
    rw [hr] at this
    rcases this with h1 | h1
    · simp only [] at h1; subst h1; simp
    · simp only [] at h1; subst h1; simp

/-! ## Reading a frame that `Save` wrote -/

theorem int32_castInt32 (n : Nat) (h : n < 2147483648) : int32 (castInt32 n) = n := by
  unfold int32 castInt32 toWord32
  simp only []
  rw [Nat.mod_eq_of_lt (by omega), if_pos h]

theorem writeFrameHead_length (type : Byte) (time frame : Word32) :
    (writeFrameHead type time frame).length = 9 := by
  simp [writeFrameHead]

theorem readFrameHead_write (type : Byte) (time frame : Word32) (r : List Byte) :
    readFrameHead (writeFrameHead type time frame ++ r) = some ((type, time, frame), r) := by
  simp only [readFrameHead, writeFrameHead, List.append_assoc, bind_read_object8_write,
    bind_read_object32_write, Reader.pure_apply]

theorem readFrame_head (n : Nat) (type : Byte) (time frame : Word32) (r : List Byte)
    (h : 3 ≤ r.length) :
    readFrame n (writeFrameHead type time frame ++ r) = readFrameSwitch n type time frame r := by
  unfold readFrame
  rw [if_neg, readFrameHead_write]
  rw [guard_iff]
  simp only [List.length_append, writeFrameHead_length, MIN_FRAME_SIZE]
  omega

theorem readSoundHead_write (channel length : Word32) (r : List Byte) :
    readSoundHead (write_object32 channel ++ (write_object32 length ++ r)) =
      some ((channel, length), r) := by
  simp only [readSoundHead, bind_read_object32_write, Reader.pure_apply]

theorem readSoundTail_write (f : SoundFrame) (r : List Byte) :
    readSoundTail f.channel f.sample.length
      (f.sample ++ (write_object32 f.attenuation ++ (write_object32 f.volume ++
        (write_object32 f.flags ++ (write_object32 f.pitch ++ r))))) = some (f, r) := by
  simp only [readSoundTail, bind_read_objects_append _ _ _ _ rfl, bind_read_object32_write,
    Reader.pure_apply]

theorem caseSound_write (n : Nat) (type : Byte) (time frame : Word32) (f : SoundFrame)
    (r : List Byte) (h : f.sample.length < 2147483648) :
    caseSound n type time frame (writeSound f ++ r) =
      .appended (DemoFrame.mk type time frame (.SoundFrame f)) false r := by
  unfold caseSound writeSound
  simp only [List.append_assoc]
  rw [if_neg, readSoundHead_write]
  · simp only []
    rw [int32_castInt32 _ h, if_neg, if_neg (by omega), Int.toNat_ofNat, readSoundTail_write]
    rw [guard2_iff]
    simp [FRAME_SOUND_SIZE_2]
    omega
  · rw [guard_iff]
    simp [FRAME_SOUND_SIZE_1]
    omega

theorem caseDemoBuffer_write (n : Nat) (type : Byte) (time frame : Word32)
    (f : DemoBufferFrame) (r : List Byte) (h : f.buffer.length < 2147483648) :
    caseDemoBuffer n type time frame (writeDemoBuffer f ++ r) =
      .appended (DemoFrame.mk type time frame (.DemoBufferFrame f)) false r := by
  unfold caseDemoBuffer writeDemoBuffer
  simp only [List.append_assoc]
  rw [if_neg, read_object32_write]
  · simp only []
    rw [int32_castInt32 _ h, if_neg, if_neg (by omega), Int.toNat_ofNat,
      read_objects_append]
    rw [guard1_iff]
    simp
  · rw [guard_iff]
    simp [FRAME_DEMO_BUFFER_SIZE]

theorem readNetMsgHead_write (f : NetMsgFrame) (length : Word32) (r : List Byte)
    (h : CStr FRAME_NETMSG_DEMOINFO_MOVEVARS_SKYNAME_SIZE f.DemoInfo.MoveVars.skyName) :
    readNetMsgHead (writeDemoInfo f.DemoInfo ++ (write_object32 f.incoming_sequence ++
      (write_object32 f.incoming_acknowledged ++
      (write_object32 f.incoming_reliable_acknowledged ++
      (write_object32 f.incoming_reliable_sequence ++ (write_object32 f.outgoing_sequence ++
      (write_object32 f.reliable_sequence ++ (write_object32 f.last_reliable_sequence ++
      (write_object32 length ++ r))))))))) = some (({ f with msg := [] }, length), r) := by
  simp only [readNetMsgHead, Reader.bind_of_eq _ (readDemoInfo_write _ _ h),
    bind_read_object32_write, Reader.pure_apply]

theorem writeDemoInfo_length (i : DemoInfo) : (writeDemoInfo i).length = 436 := by
  simp only [writeDemoInfo, writeRefParams, writeUserCmd, writeMoveVars, write_vec3, write_vec4,
    List.length_append, write_object32_length, write_object16_length, write_object8_length,
    write_text_length, FRAME_NETMSG_DEMOINFO_MOVEVARS_SKYNAME_SIZE]

theorem caseNetMsg_write (n : Nat) (type : Byte) (time frame : Word32) (f : NetMsgFrame)
    (r : List Byte)
    (hs : CStr FRAME_NETMSG_DEMOINFO_MOVEVARS_SKYNAME_SIZE f.DemoInfo.MoveVars.skyName)
    (h : f.msg.length ≤ 65536) :
    caseNetMsg n type time frame (writeNetMsg f ++ r) =
      .appended (DemoFrame.mk type time frame (.NetMsgFrame f)) false r := by
  unfold caseNetMsg writeNetMsg
  simp only [List.append_assoc]
  rw [if_neg, readNetMsgHead_write _ _ _ hs]
  · simp only []
    rw [int32_castInt32 _ (by omega), if_neg, if_neg, Int.toNat_ofNat, read_objects_append]
    · rw [guard1_iff]
      simp
    · simp only [FRAME_NETMSG_MIN_MESSAGE_LENGTH, FRAME_NETMSG_MAX_MESSAGE_LENGTH]
      omega
  · rw [guard_iff]
    simp only [List.length_append, writeDemoInfo_length, write_object32_length,
      FRAME_NETMSG_SIZE]
    omega

theorem caseConsoleCommand_write (n : Nat) (type : Byte) (time frame : Word32)
    (f : ConsoleCommandFrame) (r : List Byte) (h : CStr FRAME_CONSOLE_COMMAND_SIZE f.command) :
    caseConsoleCommand n type time frame (write_text FRAME_CONSOLE_COMMAND_SIZE f.command ++ r) =
      .appended (DemoFrame.mk type time frame (.ConsoleCommandFrame f)) false r := by
  unfold caseConsoleCommand
  rw [if_neg, read_text_write _ _ _ h]
  rw [guard_iff]
  simp

theorem writeClientData_length (f : ClientDataFrame) : (writeClientData f).length = 32 := by
  simp [writeClientData, write_vec3]

theorem writeEvent_length (f : EventFrame) : (writeEvent f).length = 84 := by
  simp [writeEvent, write_vec3]

theorem writeWeaponAnim_length (f : WeaponAnimFrame) : (writeWeaponAnim f).length = 8 := by
  simp [writeWeaponAnim]

theorem caseClientData_write (n : Nat) (type : Byte) (time frame : Word32)
    (f : ClientDataFrame) (r : List Byte) :
    caseClientData n type time frame (writeClientData f ++ r) =
      .appended (DemoFrame.mk type time frame (.ClientDataFrame f)) false r := by
  unfold caseClientData
  rw [if_neg, readClientData_write]
  rw [guard_iff]
  simp [writeClientData_length, FRAME_CLIENT_DATA_SIZE]

theorem caseEvent_write (n : Nat) (type : Byte) (time frame : Word32)
    (f : EventFrame) (r : List Byte) :
    caseEvent n type time frame (writeEvent f ++ r) =
      .appended (DemoFrame.mk type time frame (.EventFrame f)) false r := by
  unfold caseEvent
  rw [if_neg, readEvent_write]
  rw [guard_iff]
  simp [writeEvent_length, FRAME_EVENT_SIZE]

theorem caseWeaponAnim_write (n : Nat) (type : Byte) (time frame : Word32)
    (f : WeaponAnimFrame) (r : List Byte) :
    caseWeaponAnim n type time frame (writeWeaponAnim f ++ r) =
      .appended (DemoFrame.mk type time frame (.WeaponAnimFrame f)) false r := by
  unfold caseWeaponAnim
  rw [if_neg, readWeaponAnim_write]
  rw [guard_iff]
  simp [writeWeaponAnim_length, FRAME_WEAPON_ANIM_SIZE]

theorem readFrameSwitch_demoStart (n : Nat) (type : Byte) (time frame : Word32) (r : List Byte)
    (h : type = DemoFrameType.DEMO_START) :
    readFrameSwitch n type time frame r = caseDemoStart type time frame r := by
  subst h
  unfold readFrameSwitch
  rw [if_pos rfl]

theorem readFrameSwitch_consoleCommand (n : Nat) (type : Byte) (time frame : Word32) (r : List Byte)
    (h : type = DemoFrameType.CONSOLE_COMMAND) :
    readFrameSwitch n type time frame r = caseConsoleCommand n type time frame r := by
  subst h
  unfold readFrameSwitch
  rw [if_neg (by decide), if_pos rfl]

theorem readFrameSwitch_clientData (n : Nat) (type : Byte) (time frame : Word32) (r : List Byte)
    (h : type = DemoFrameType.CLIENT_DATA) :
    readFrameSwitch n type time frame r = caseClientData n type time frame r := by
  subst h
  unfold readFrameSwitch
  rw [if_neg (by decide), if_neg (by decide), if_pos rfl]

theorem readFrameSwitch_nextSection (n : Nat) (type : Byte) (time frame : Word32) (r : List Byte)
    (h : type = DemoFrameType.NEXT_SECTION) :
    readFrameSwitch n type time frame r = caseNextSection type time frame r := by
  subst h
  unfold readFrameSwitch
  rw [if_neg (by decide), if_neg (by decide), if_neg (by decide), if_pos rfl]

theorem readFrameSwitch_event (n : Nat) (type : Byte) (time frame : Word32) (r : List Byte)
    (h : type = DemoFrameType.EVENT) :
    readFrameSwitch n type time frame r = caseEvent n type time frame r := by
  subst h
  unfold readFrameSwitch
  rw [if_neg (by decide), if_neg (by decide), if_neg (by decide), if_neg (by decide), if_pos rfl]

theorem readFrameSwitch_weaponAnim (n : Nat) (type : Byte) (time frame : Word32) (r : List Byte)
    (h : type = DemoFrameType.WEAPON_ANIM) :
    readFrameSwitch n type time frame r = caseWeaponAnim n type time frame r := by
  subst h
  unfold readFrameSwitch
  rw [if_neg (by decide), if_neg (by decide), if_neg (by decide), if_neg (by decide), if_neg (by decide), if_pos rfl]

theorem readFrameSwitch_sound (n : Nat) (type : Byte) (time frame : Word32) (r : List Byte)
    (h : type = DemoFrameType.SOUND) :
    readFrameSwitch n type time frame r = caseSound n type time frame r := by
  subst h
  unfold readFrameSwitch
  rw [if_neg (by decide), if_neg (by decide), if_neg (by decide), if_neg (by decide), if_neg (by decide), if_neg (by decide), if_pos rfl]

theorem readFrameSwitch_demoBuffer (n : Nat) (type : Byte) (time frame : Word32) (r : List Byte)
    (h : type = DemoFrameType.DEMO_BUFFER) :
    readFrameSwitch n type time frame r = caseDemoBuffer n type time frame r := by
  subst h
  unfold readFrameSwitch
  rw [if_neg (by decide), if_neg (by decide), if_neg (by decide), if_neg (by decide), if_neg (by decide), if_neg (by decide), if_neg (by decide), if_pos rfl]

theorem writeFrame_consoleCommand (type : Byte) (time frame : Word32) (f : ConsoleCommandFrame)
    (h : type = DemoFrameType.CONSOLE_COMMAND) :
    writeFrame (DemoFrame.mk type time frame (.ConsoleCommandFrame f)) =
      some (writeFrameHead type time frame ++ write_text FRAME_CONSOLE_COMMAND_SIZE f.command) := by
  subst h
  unfold writeFrame
  simp only []
  rw [if_neg (by decide), if_pos True.intro]

theorem writeFrame_clientData (type : Byte) (time frame : Word32) (f : ClientDataFrame)
    (h : type = DemoFrameType.CLIENT_DATA) :
    writeFrame (DemoFrame.mk type time frame (.ClientDataFrame f)) =
      some (writeFrameHead type time frame ++ writeClientData f) := by
  subst h
  unfold writeFrame
  simp only []
  rw [if_neg (by decide), if_neg (by decide), if_pos True.intro]

theorem writeFrame_event (type : Byte) (time frame : Word32) (f : EventFrame)
    (h : type = DemoFrameType.EVENT) :
    writeFrame (DemoFrame.mk type time frame (.EventFrame f)) =
      some (writeFrameHead type time frame ++ writeEvent f) := by
  subst h
  unfold writeFrame
  simp only []
  rw [if_neg (by decide), if_neg (by decide), if_neg (by decide), if_neg (by decide), if_pos True.intro]

theorem writeFrame_weaponAnim (type : Byte) (time frame : Word32) (f : WeaponAnimFrame)
    (h : type = DemoFrameType.WEAPON_ANIM) :
    writeFrame (DemoFrame.mk type time frame (.WeaponAnimFrame f)) =
      some (writeFrameHead type time frame ++ writeWeaponAnim f) := by
  subst h
  unfold writeFrame
  simp only []
  rw [if_neg (by decide), if_neg (by decide), if_neg (by decide), if_neg (by decide), if_neg (by decide), if_pos True.intro]

theorem writeFrame_sound (type : Byte) (time frame : Word32) (f : SoundFrame)
    (h : type = DemoFrameType.SOUND) :
    writeFrame (DemoFrame.mk type time frame (.SoundFrame f)) =
      some (writeFrameHead type time frame ++ writeSound f) := by
  subst h
  unfold writeFrame
  simp only []
  rw [if_neg (by decide), if_neg (by decide), if_neg (by decide), if_neg (by decide), if_neg (by decide), if_neg (by decide), if_pos True.intro]

theorem writeFrame_demoBuffer (type : Byte) (time frame : Word32) (f : DemoBufferFrame)
    (h : type = DemoFrameType.DEMO_BUFFER) :
    writeFrame (DemoFrame.mk type time frame (.DemoBufferFrame f)) =
      some (writeFrameHead type time frame ++ writeDemoBuffer f) := by
  subst h
  unfold writeFrame
  simp only []
  rw [if_neg (by decide), if_neg (by decide), if_neg (by decide), if_neg (by decide), if_neg (by decide), if_neg (by decide), if_neg (by decide), if_pos True.intro]

theorem writeFrame_demoStart (frame : DemoFrame) (h : frame.type = DemoFrameType.DEMO_START) :
    writeFrame frame = some (writeFrameHead frame.type frame.time frame.frame) := by
  unfold writeFrame
  simp only []
  rw [if_pos h]

theorem writeFrame_nextSection (frame : DemoFrame)
    (h : frame.type = DemoFrameType.NEXT_SECTION) :
    writeFrame frame = some (writeFrameHead frame.type frame.time frame.frame) := by
  unfold writeFrame
  simp only []
  rw [h, if_neg (by decide), if_neg (by decide), if_neg (by decide), if_pos rfl]

theorem readFrameSwitch_netMsg (n : Nat) (type : Byte) (time frame : Word32) (r : List Byte)
    (h : IsNetMsgType type) :
    readFrameSwitch n type time frame r = caseNetMsg n type time frame r := by
  obtain ⟨h2, h3, h4, h5, h6, h7, h8, h9⟩ := h
  unfold readFrameSwitch
  rw [if_neg h2, if_neg h3, if_neg h4, if_neg h5, if_neg h6, if_neg h7, if_neg h8, if_neg h9]

theorem writeFrame_netMsg (type : Byte) (time frame : Word32) (f : NetMsgFrame)
    (h : IsNetMsgType type) :
    writeFrame (DemoFrame.mk type time frame (.NetMsgFrame f)) =
      some (writeFrameHead type time frame ++ writeNetMsg f) := by
  obtain ⟨h2, h3, h4, h5, h6, h7, h8, h9⟩ := h
  unfold writeFrame
  simp only []
  rw [if_neg h2, if_neg h3, if_neg h4, if_neg h5, if_neg h6, if_neg h7, if_neg h8, if_neg h9]

/-- A canonical frame is written by `Save` without undefined behaviour, and one pass of the
loop of `ReadFrames` on the bytes written (followed by at least three more bytes, so that the
twelve-byte check passes) gives the frame back and leaves what follows it. -/
theorem readFrame_writeFrame (n : Nat) (f : DemoFrame) (hc : f.Canonical) (r : List Byte)
    (h : 3 ≤ r.length) :
    ∃ bytes, writeFrame f = some bytes ∧ 9 ≤ bytes.length ∧
      readFrame n (bytes ++ r) =
        .appended f (decide (f.type = DemoFrameType.NEXT_SECTION)) r := by
  obtain ⟨type, time, frame, obj⟩ := f
  cases obj with
  | DemoFrame =>
    refine ⟨writeFrameHead type time frame, ?_, by rw [writeFrameHead_length], ?_⟩
    · rcases hc with hc | hc
      · exact writeFrame_demoStart _ hc
      · exact writeFrame_nextSection _ hc
    · rw [readFrame_head _ _ _ _ _ h]
      rcases hc with hc | hc
      · simp only [] at hc
        rw [readFrameSwitch_demoStart _ _ _ _ _ hc, hc]
        rfl
      · simp only [] at hc
        rw [readFrameSwitch_nextSection _ _ _ _ _ hc, hc]
        rfl
  | ConsoleCommandFrame c =>
    obtain ⟨ht, hs⟩ := hc
    simp only [] at ht hs
    refine ⟨_, writeFrame_consoleCommand _ _ _ _ ht,
      by rw [List.length_append, writeFrameHead_length]; omega, ?_⟩
    rw [List.append_assoc, readFrame_head _ _ _ _ _ (by rw [List.length_append]; omega),
      readFrameSwitch_consoleCommand _ _ _ _ _ ht, caseConsoleCommand_write n _ time frame c r hs,
      ht]
    rfl
  | ClientDataFrame c =>
    have ht : type = DemoFrameType.CLIENT_DATA := hc
    refine ⟨_, writeFrame_clientData _ _ _ _ ht,
      by rw [List.length_append, writeFrameHead_length]; omega, ?_⟩
    rw [List.append_assoc, readFrame_head _ _ _ _ _ (by rw [List.length_append]; omega),
      readFrameSwitch_clientData _ _ _ _ _ ht, caseClientData_write n _ time frame c r, ht]
    rfl
  | EventFrame c =>
    have ht : type = DemoFrameType.EVENT := hc
    refine ⟨_, writeFrame_event _ _ _ _ ht,
      by rw [List.length_append, writeFrameHead_length]; omega, ?_⟩
    rw [List.append_assoc, readFrame_head _ _ _ _ _ (by rw [List.length_append]; omega),
      readFrameSwitch_event _ _ _ _ _ ht, caseEvent_write n _ time frame c r, ht]
    rfl
  | WeaponAnimFrame c =>
    have ht : type = DemoFrameType.WEAPON_ANIM := hc
    refine ⟨_, writeFrame_weaponAnim _ _ _ _ ht,
      by rw [List.length_append, writeFrameHead_length]; omega, ?_⟩
    rw [List.append_assoc, readFrame_head _ _ _ _ _ (by rw [List.length_append]; omega),
      readFrameSwitch_weaponAnim _ _ _ _ _ ht, caseWeaponAnim_write n _ time frame c r, ht]
    rfl
  | SoundFrame c =>
    obtain ⟨ht, hs⟩ := hc
    simp only [] at ht hs
    refine ⟨_, writeFrame_sound _ _ _ _ ht,
      by rw [List.length_append, writeFrameHead_length]; omega, ?_⟩
    rw [List.append_assoc, readFrame_head _ _ _ _ _ (by rw [List.length_append]; omega),
      readFrameSwitch_sound _ _ _ _ _ ht, caseSound_write n _ time frame c r hs, ht]
    rfl
  | DemoBufferFrame c =>
    obtain ⟨ht, hs⟩ := hc
    simp only [] at ht hs
    refine ⟨_, writeFrame_demoBuffer _ _ _ _ ht,
      by rw [List.length_append, writeFrameHead_length]; omega, ?_⟩
    rw [List.append_assoc, readFrame_head _ _ _ _ _ (by rw [List.length_append]; omega),
      readFrameSwitch_demoBuffer _ _ _ _ _ ht, caseDemoBuffer_write n _ time frame c r hs, ht]
    rfl
  | NetMsgFrame c =>
    obtain ⟨ht, hs, hm⟩ := hc
    simp only [] at ht hs hm
    refine ⟨writeFrameHead type time frame ++ writeNetMsg c, writeFrame_netMsg _ _ _ _ ht,
      by rw [List.length_append, writeFrameHead_length]; omega, ?_⟩
    rw [List.append_assoc, readFrame_head _ _ _ _ _ (by rw [List.length_append]; omega),
      readFrameSwitch_netMsg _ _ _ _ _ ht, decide_eq_false ht.2.2.2.1]
    exact caseNetMsg_write n type time frame c r hs hm

/-! ## `Save` -/

theorem framesBytes_cons (f : DemoFrame) (fs : List DemoFrame) :
    framesBytes (f :: fs) = frameBytes f ++ framesBytes fs := by
  simp [framesBytes]

theorem framesBytes_append (fs gs : List DemoFrame) :
    framesBytes (fs ++ gs) = framesBytes fs ++ framesBytes gs := by
  simp [framesBytes]

theorem saveFrames_eq : ∀ (fs : List DemoFrame) (o : List Byte) (w : Bool),
    (∀ f ∈ fs, f.Writable) →
    saveFrames fs o w = some (o ++ framesBytes fs, w || fs.any DemoFrame.isNextSection) := by
  intro fs
  induction fs with
  | nil => intro o w _; simp [saveFrames, framesBytes]
  | cons f fs ih =>
    intro o w h
    have hf : f.Writable := h f (List.mem_cons_self _ _)
    unfold DemoFrame.Writable at hf
    obtain ⟨b, hb⟩ := Option.isSome_iff_exists.1 hf
    unfold saveFrames
    rw [hb]
    simp only []
    rw [ih _ _ (fun g hg => h g (List.mem_cons_of_mem _ hg)), framesBytes_cons]
    have : frameBytes f = b := by unfold frameBytes; rw [hb]; rfl
    rw [this, List.append_assoc]
    congr 2
    by_cases ht : f.type = DemoFrameType.NEXT_SECTION
    · simp [ht, DemoFrame.isNextSection]
    · simp [ht, DemoFrame.isNextSection]

theorem saveFrames_none : ∀ (fs : List DemoFrame) (o : List Byte) (w : Bool),
    (¬ ∀ f ∈ fs, f.Writable) → saveFrames fs o w = none := by
  intro fs
  induction fs with
  | nil => intro o w h; exact absurd (by simp) h
  | cons f fs ih =>
    intro o w h
    unfold saveFrames
    cases hb : writeFrame f with
    | none => rfl
    | some b =>
      simp only []
      apply ih
      intro hall
      apply h
      intro g hg
      rcases List.mem_cons.1 hg with rfl | hg
      · unfold DemoFrame.Writable; rw [hb]; rfl
      · exact hall g hg

theorem nextSectionFrame_bytes :
    frameBytes nextSectionFrame =
      writeFrameHead nextSectionFrame.type nextSectionFrame.time nextSectionFrame.frame := by
  unfold frameBytes
  rw [writeFrame_nextSection _ rfl]
  rfl

theorem entryStream_eq (e : DemoDirectoryEntry) :
    entryStream e = framesBytes e.frames ++
      (if e.frames.any DemoFrame.isNextSection then []
       else writeFrameHead nextSectionFrame.type nextSectionFrame.time nextSectionFrame.frame) := by
  unfold entryStream writtenFrames
  split
  · simp
  · rw [framesBytes_append]
    simp [framesBytes, nextSectionFrame_bytes]

theorem saveEntries_eq : ∀ (es : List DemoDirectoryEntry) (o : List Byte),
    (∀ e ∈ es, ∀ f ∈ e.frames, f.Writable) →
    saveEntries es o =
      some (o ++ (es.map entryStream).flatten, assignOffsets es o.length) := by
  intro es
  induction es with
  | nil => intro o _; simp [saveEntries, assignOffsets]
  | cons e es ih =>
    intro o h
    unfold saveEntries
    rw [saveFrames_eq _ _ _ (h e (List.mem_cons_self _ _))]
    simp only [Bool.false_or]
    have hs := entryStream_eq e
    by_cases ht : e.frames.any DemoFrame.isNextSection = true
    · rw [if_pos ht] at hs
      rw [if_pos ht, ih _ (fun x hx => h x (List.mem_cons_of_mem _ hx))]
      simp only [assignOffsets, List.map_cons, List.flatten_cons, hs, List.append_nil,
        List.append_assoc, List.length_append]
    · rw [if_neg ht] at hs
      rw [if_neg ht, ih _ (fun x hx => h x (List.mem_cons_of_mem _ hx))]
      simp only [assignOffsets, List.map_cons, List.flatten_cons, hs,
        List.append_assoc, List.length_append]

theorem saveEntries_none : ∀ (es : List DemoDirectoryEntry) (o : List Byte),
    (¬ ∀ e ∈ es, ∀ f ∈ e.frames, f.Writable) → saveEntries es o = none := by
  intro es
  induction es with
  | nil => intro o h; exact absurd (by simp) h
  | cons e es ih =>
    intro o h
    unfold saveEntries
    by_cases he : ∀ f ∈ e.frames, f.Writable
    · rw [saveFrames_eq _ _ _ he]
      simp only []
      rw [ih]
      intro hall
      apply h
      intro x hx
      rcases List.mem_cons.1 hx with rfl | hx
      · exact he
      · exact hall x hx
    · rw [saveFrames_none _ _ _ he]

theorem writeHeader_length (h : DemoHeader) : (writeHeader h).length = 540 := by
  simp [writeHeader, HEADER_MAPNAME_SIZE, HEADER_GAMEDIR_SIZE]

theorem patch32_header (h : DemoHeader) (x : Word32) (rest : List Byte) :
    patch32 (writeHeader h ++ [0, 0, 0, 0] ++ rest) (writeHeader h).length x =
      writeHeader h ++ write_object32 x ++ rest := by
  unfold patch32
  have e1 : (writeHeader h ++ [0, 0, 0, 0] ++ rest).take (writeHeader h).length =
      writeHeader h := by
    rw [List.append_assoc, List.take_left]
  have e2 : (writeHeader h ++ [0, 0, 0, 0] ++ rest).drop ((writeHeader h).length + 4) =
      rest := by
    have : (writeHeader h).length + 4 = (writeHeader h ++ [0, 0, 0, 0]).length := by simp
    rw [this, List.drop_left]
  rw [e1, e2, List.append_assoc]

/-- What `Save` does on an object all of whose frames it can write: the file holds the
header, the directory offset, the entries' frame streams and the directory with the new
offsets; the object gets the new offsets. -/
theorem Save_eq (d : DemoFile) (h : ∀ e ∈ d.directoryEntries, ∀ f ∈ e.frames, f.Writable) :
    d.Save = some
      (writeHeader d.header ++ write_object32 (castInt32 (savedDirectoryOffset d)) ++
        (d.directoryEntries.map entryStream).flatten ++
        writeDirectory (assignOffsets d.directoryEntries 544),
       { d with directoryEntries := assignOffsets d.directoryEntries 544,
                header := { d.header with
                  directoryOffset := castInt32 (savedDirectoryOffset d) } }) := by
  unfold DemoFile.Save
  simp only []
  rw [saveEntries_eq _ _ h]
  simp only []
  have hl : (writeHeader d.header ++ [0, 0, 0, 0]).length = 544 := by
    rw [List.length_append, writeHeader_length]; rfl
  have hl2 : (writeHeader d.header ++ [0, 0, 0, 0] ++
      (d.directoryEntries.map entryStream).flatten).length = savedDirectoryOffset d := by
    rw [List.length_append, hl]; rfl
  rw [hl, hl2, List.append_assoc (writeHeader d.header ++ [0, 0, 0, 0]), patch32_header,
    ← List.append_assoc]

theorem Save_none (d : DemoFile) (h : ¬ ∀ e ∈ d.directoryEntries, ∀ f ∈ e.frames, f.Writable) :
    d.Save = none := by
  unfold DemoFile.Save
  simp only []
  rw [saveEntries_none _ _ h]

theorem frameBytes_canonical (n : Nat) (f : DemoFrame) (hc : f.Canonical) (r : List Byte)
    (h : 3 ≤ r.length) :
    f.Writable ∧ 9 ≤ (frameBytes f).length ∧
    readFrame n (frameBytes f ++ r) =
      .appended f (decide (f.type = DemoFrameType.NEXT_SECTION)) r := by
  obtain ⟨bytes, hw, hl, hr⟩ := readFrame_writeFrame n f hc r h
  have : frameBytes f = bytes := by unfold frameBytes; rw [hw]; rfl
  rw [this]
  refine ⟨?_, hl, hr⟩
  unfold DemoFrame.Writable
  rw [hw]; rfl

theorem canonical_writable (f : DemoFrame) (hc : f.Canonical) : f.Writable :=
  (frameBytes_canonical 0 f hc [0, 0, 0] (by simp)).1

theorem nextSectionFrame_canonical : nextSectionFrame.Canonical := Or.inr rfl

/-- The loop of `ReadFrames` on the encodings of canonical frames of which exactly the last
is a NEXT_SECTION frame, followed by at least three more bytes: it appends these frames. -/
theorem readFrameLoop_written (n : Nat) : ∀ (ws : List DemoFrame) (fuel : Nat)
    (rest : List Byte) (acc : List DemoFrame),
    (∀ f ∈ ws, f.Canonical) → (∀ f ∈ ws.dropLast, f.type ≠ DemoFrameType.NEXT_SECTION) →
    (∃ l, ws.getLast? = some l ∧ l.type = DemoFrameType.NEXT_SECTION) →
    ws.length ≤ fuel → 3 ≤ rest.length →
    readFrameLoop n fuel (framesBytes ws ++ rest) acc = .done (acc ++ ws) := by
  intro ws
  induction ws with
  | nil => intro fuel rest acc _ _ hl; obtain ⟨l, hl, _⟩ := hl; simp at hl
  | cons f fs ih =>
    intro fuel rest acc hc hd hl hfuel hrest
    cases fuel with
    | zero => simp at hfuel
    | succ fuel =>
      rw [framesBytes_cons, List.append_assoc]
      unfold readFrameLoop
      obtain ⟨_, _, hr⟩ := frameBytes_canonical n f (hc f (List.mem_cons_self _ _))
        (framesBytes fs ++ rest) (by rw [List.length_append]; omega)
      rw [hr]
      cases fs with
      | nil =>
        obtain ⟨l, hl1, hl2⟩ := hl
        simp only [List.getLast?_singleton, Option.some.injEq] at hl1
        subst hl1
        rw [decide_eq_true hl2]
      | cons g gs =>
        have hf : f.type ≠ DemoFrameType.NEXT_SECTION := by
          apply hd
          rw [List.dropLast_cons₂]
          exact List.mem_cons_self _ _
        rw [decide_eq_false hf]
        simp only []
        rw [ih fuel rest (acc ++ [f]) (fun x hx => hc x (List.mem_cons_of_mem _ hx))
          (fun x hx => hd x (by rw [List.dropLast_cons₂]; exact List.mem_cons_of_mem _ hx))
          (by simpa using hl) (by simpa using hfuel) hrest]
        simp

theorem any_isNextSection_iff (fs : List DemoFrame)
    (hd : ∀ f ∈ fs.dropLast, f.type ≠ DemoFrameType.NEXT_SECTION) :
    fs.any DemoFrame.isNextSection = true ↔
      ∃ l, fs.getLast? = some l ∧ l.type = DemoFrameType.NEXT_SECTION := by
  constructor
  · intro h
    obtain ⟨f, hf, ht⟩ := List.any_eq_true.1 h
    have hne : fs ≠ [] := List.ne_nil_of_mem hf
    refine ⟨fs.getLast hne, List.getLast?_eq_getLast _ hne, ?_⟩
    have hsplit := List.dropLast_append_getLast hne
    rw [← hsplit] at hf
    rcases List.mem_append.1 hf with h1 | h1
    · exact absurd (by simpa [DemoFrame.isNextSection] using ht) (hd f h1)
    · rw [List.mem_singleton] at h1
      rw [← h1]
      simpa [DemoFrame.isNextSection] using ht
  · rintro ⟨l, hl, ht⟩
    apply List.any_eq_true.2
    exact ⟨l, List.mem_of_getLast?_eq_some hl, by simpa [DemoFrame.isNextSection] using ht⟩

/-- What is written for a frame list of the kind `ReadFrames` builds: canonical frames,
exactly the last of which is a NEXT_SECTION frame. -/
theorem writtenFrames_entryFrames (fs : List DemoFrame) (h : EntryFrames fs) :
    (∀ f ∈ writtenFrames fs, f.Canonical) ∧
    (∀ f ∈ (writtenFrames fs).dropLast, f.type ≠ DemoFrameType.NEXT_SECTION) ∧
    (∃ l, (writtenFrames fs).getLast? = some l ∧ l.type = DemoFrameType.NEXT_SECTION) := by
  obtain ⟨hc, hd⟩ := h
  unfold writtenFrames
  by_cases ha : fs.any DemoFrame.isNextSection = true
  · rw [if_pos ha]
    exact ⟨hc, hd, (any_isNextSection_iff fs hd).1 ha⟩
  · rw [if_neg ha]
    refine ⟨?_, ?_, ⟨nextSectionFrame, by simp, rfl⟩⟩
    · intro f hf
      rcases List.mem_append.1 hf with h1 | h1
      · exact hc f h1
      · rw [List.mem_singleton] at h1; rw [h1]; exact nextSectionFrame_canonical
    · intro f hf
      rw [List.dropLast_concat] at hf
      intro ht
      apply ha
      exact List.any_eq_true.2 ⟨f, hf, by simpa [DemoFrame.isNextSection] using ht⟩

/-! ## Opening a file that `Save` wrote -/

theorem ReadHeader_write (h : DemoHeader) (x : Word32) (rest : List Byte)
    (hc : h.Canonical) :
    ReadHeader ((writeHeader h ++ write_object32 x ++ rest).drop 8) =
      some ({ h with directoryOffset := x }, rest) := by
  have e : (writeHeader h ++ write_object32 x ++ rest).drop 8 =
      write_object32 h.demoProtocol ++ (write_object32 h.netProtocol ++
        (write_text HEADER_MAPNAME_SIZE h.mapName ++ (write_text HEADER_GAMEDIR_SIZE h.gameDir ++
          (write_object32 h.mapCRC ++ (write_object32 x ++ rest))))) := by
    simp [writeHeader, List.append_assoc]
  rw [e]
  simp only [ReadHeader, bind_read_object32_write, bind_read_text_write _ _ _ _ hc.1,
    bind_read_text_write _ _ _ _ hc.2, Reader.pure_apply]

theorem readDirectoryEntry_write (e : DemoDirectoryEntry) (r : List Byte)
    (hc : CStr DIR_ENTRY_DESCRIPTION_SIZE e.description) :
    readDirectoryEntry (writeDirectoryEntry e ++ r) = some (e.record, r) := by
  simp only [readDirectoryEntry, writeDirectoryEntry, List.append_assoc,
    bind_read_object32_write, bind_read_text_write _ _ _ _ hc, Reader.pure_apply]
  rfl

theorem readDirectoryEntries_write : ∀ (es : List DemoDirectoryEntry) (r : List Byte),
    (∀ e ∈ es, CStr DIR_ENTRY_DESCRIPTION_SIZE e.description) →
    readDirectoryEntries es.length ((es.map writeDirectoryEntry).flatten ++ r) =
      some (es.map DemoDirectoryEntry.record, r) := by
  intro es
  induction es with
  | nil => intro r _; simp [readDirectoryEntries]
  | cons e es ih =>
    intro r h
    simp only [List.length_cons, List.map_cons, List.flatten_cons, List.append_assoc]
    unfold readDirectoryEntries
    rw [Reader.bind_of_eq _ (readDirectoryEntry_write e _ (h e (List.mem_cons_self _ _))),
      Reader.bind_of_eq _ (ih r (fun x hx => h x (List.mem_cons_of_mem _ hx))),
      Reader.pure_apply]

theorem writeDirectoryEntry_length (e : DemoDirectoryEntry) :
    (writeDirectoryEntry e).length = 92 := by
  simp [writeDirectoryEntry, DIR_ENTRY_DESCRIPTION_SIZE]

theorem flatten_writeDirectoryEntry_length (es : List DemoDirectoryEntry) :
    ((es.map writeDirectoryEntry).flatten).length = 92 * es.length := by
  induction es with
  | nil => rfl
  | cons e es ih =>
    simp only [List.map_cons, List.flatten_cons, List.length_append, List.length_cons, ih,
      writeDirectoryEntry_length]
    omega

theorem writeDirectory_length (es : List DemoDirectoryEntry) :
    (writeDirectory es).length = 4 + 92 * es.length := by
  unfold writeDirectory
  rw [List.length_append, write_object32_length, flatten_writeDirectoryEntry_length]

theorem savedFile_length (h : DemoHeader) (X : List Byte) (es : List DemoDirectoryEntry) :
    (savedFile h X es).length = 544 + X.length + (4 + 92 * es.length) := by
  unfold savedFile
  simp only [List.length_append, writeHeader_length, write_object32_length,
    writeDirectory_length]

theorem drop_append_of_length (a b : List Byte) (n : Nat) (h : a.length = n) :
    (a ++ b).drop n = b := by
  subst h; exact List.drop_left _ _

theorem take_append_of_length (a b : List Byte) (n : Nat) (h : a.length = n) :
    (a ++ b).take n = a := by
  subst h; exact List.take_left _ _

theorem savedFile_drop (h : DemoHeader) (X : List Byte) (es : List DemoDirectoryEntry) :
    (savedFile h X es).drop (544 + X.length) = writeDirectory es := by
  unfold savedFile
  apply drop_append_of_length
  simp only [List.length_append, writeHeader_length, write_object32_length]

/-- The constructor accepts a file of the layout that `Save` writes, when the header texts
and the descriptions are C strings that fit, there are between 1 and 1024 entries and the
directory starts below 2^31; it reads back the header and the directory records. -/
theorem DemoFile_savedFile (h : DemoHeader) (X : List Byte) (es : List DemoDirectoryEntry)
    (hh : h.Canonical) (hes : ∀ e ∈ es, CStr DIR_ENTRY_DESCRIPTION_SIZE e.description)
    (h1 : 1 ≤ es.length) (h2 : es.length ≤ 1024) (hD : 544 + X.length < 2147483648) :
    DemoFile.DemoFile (savedFile h X es) =
      .ok { header := { h with directoryOffset := castInt32 (544 + X.length) },
            directoryEntries := es.map DemoDirectoryEntry.record,
            demo := savedFile h X es, readFrames := false } := by
  obtain ⟨_, _, c3⟩ := DemoFile_cases (savedFile h X es)
  have hlen := savedFile_length h X es
  have hsig : (savedFile h X es).take 6 = HLDEMO := by
    simp [savedFile, writeHeader, HLDEMO, List.append_assoc]
  obtain ⟨header, hrh, _, hopen⟩ := c3 (by omega) hsig
  have hrh2 : ReadHeader ((savedFile h X es).drop 8) =
      some ({ h with directoryOffset := castInt32 (544 + X.length) },
        X ++ writeDirectory es) := by
    unfold savedFile
    rw [List.append_assoc _ X, ReadHeader_write h _ _ hh]
  rw [hrh2] at hrh
  simp only [Option.some.injEq, Prod.mk.injEq] at hrh
  obtain ⟨hheader, _⟩ := hrh
  subst hheader
  rw [hopen]
  have hdir : ReadDirectory (savedFile h X es)
      { h with directoryOffset := castInt32 (544 + X.length) } =
      .ok (es.map DemoDirectoryEntry.record) := by
    unfold ReadDirectory
    simp only []
    rw [int32_castInt32 _ hD, if_neg (by omega), Int.toNat_ofNat, savedFile_drop]
    unfold writeDirectory
    rw [read_object32_write]
    simp only []
    rw [int32_castInt32 _ (by omega), if_neg, Int.toNat_ofNat]
    · have := readDirectoryEntries_write es [] hes
      rw [List.append_nil] at this
      rw [this]
    · simp only [MIN_DIR_ENTRY_COUNT, MAX_DIR_ENTRY_COUNT, DIR_ENTRY_SIZE, tellg,
        flatten_writeDirectoryEntry_length, hlen]
      omega
  rw [hdir]

theorem framesBytes_length_ge : ∀ ws : List DemoFrame, (∀ f ∈ ws, f.Canonical) →
    9 * ws.length ≤ (framesBytes ws).length := by
  intro ws
  induction ws with
  | nil => intro _; simp
  | cons f fs ih =>
    intro h
    have h1 := (frameBytes_canonical 0 f (h f (List.mem_cons_self _ _)) [0, 0, 0] (by simp)).2.1
    have h2 := ih (fun x hx => h x (List.mem_cons_of_mem _ hx))
    rw [framesBytes_cons, List.length_append, List.length_cons]
    omega

/-- `ReadFrames` on a file that holds the frame streams of `es` one after the other from
position `pre.length` on, at least three bytes before the end, and whose entries carry the
offsets that `Save` assigns: every entry gets the frames that were written for it. -/
theorem readEntries_saved (B : List Byte) (hB : B.length < 2147483648) :
    ∀ (es : List DemoDirectoryEntry) (pre post : List Byte),
    B = pre ++ ((es.map entryStream).flatten ++ post) → 3 ≤ post.length →
    (∀ e ∈ es, EntryFrames e.frames) →
    readEntries B ((assignOffsets es pre.length).map DemoDirectoryEntry.record) =
      (none, (assignOffsets es pre.length).map
        (fun e => { e with frames := writtenFrames e.frames })) := by
  intro es
  induction es with
  | nil => intro pre post _ _ _; rfl
  | cons e es ih =>
    intro pre post hB2 hpost hfr
    have hlenB : B.length = pre.length + (((e :: es).map entryStream).flatten ++ post).length := by
      rw [hB2, List.length_append]
    simp only [List.map_cons, List.flatten_cons, List.append_assoc, List.length_append]
      at hlenB
    have hp : pre.length < 2147483648 := by omega
    obtain ⟨hc, hd, hl⟩ := writtenFrames_entryFrames e.frames (hfr e (List.mem_cons_self _ _))
    have hge := framesBytes_length_ge _ hc
    have hdrop : B.drop pre.length =
        framesBytes (writtenFrames e.frames) ++ ((es.map entryStream).flatten ++ post) := by
      rw [hB2, List.drop_left]
      simp only [List.map_cons, List.flatten_cons, List.append_assoc]
      rfl
    have hloop := readFrameLoop_written B.length (writtenFrames e.frames) (B.length + 1)
      ((es.map entryStream).flatten ++ post) [] hc hd hl
      (by unfold entryStream at hlenB; omega) (by rw [List.length_append]; omega)
    have hih := ih (pre ++ entryStream e) post
      (by rw [hB2]; simp only [List.map_cons, List.flatten_cons, List.append_assoc])
      hpost (fun x hx => hfr x (List.mem_cons_of_mem _ hx))
    rw [List.length_append] at hih
    simp only [assignOffsets, List.map_cons]
    unfold readEntries
    simp only [DemoDirectoryEntry.record]
    rw [int32_castInt32 _ hp, if_neg (by omega), Int.toNat_ofNat, hdrop, hloop]
    simp only [List.nil_append]
    rw [hih]

/-! ## The object after the constructor and after `ReadFrames` -/

theorem ReadHeader_yields : ReadHeader.Yields DemoHeader.Canonical := by
  unfold ReadHeader
  apply Reader.yields_bind_any; intro _
  apply Reader.yields_bind_any; intro _
  apply Reader.yields_bind (read_text_yields _); intro _ h1
  apply Reader.yields_bind (read_text_yields _); intro _ h2
  apply Reader.yields_bind_any; intro _
  apply Reader.yields_bind_any; intro _
  exact Reader.yields_pure ⟨h1, h2⟩

theorem readDirectoryEntry_yields :
    readDirectoryEntry.Yields (fun e => CStr DIR_ENTRY_DESCRIPTION_SIZE e.description) := by
  unfold readDirectoryEntry
  apply Reader.yields_bind_any; intro _
  apply Reader.yields_bind (read_text_yields _); intro _ h1
  repeat (first
    | exact Reader.yields_pure h1
    | (apply Reader.yields_bind_any; intro _))

/-- What the constructor establishes. -/
theorem DemoFile_ok_props (S : List Byte) (m : DemoFile) (h : DemoFile.DemoFile S = .ok m) :
    m.demo = S ∧ m.readFrames = false ∧ m.header.Canonical ∧
    (∀ e ∈ m.directoryEntries, e.frames = [] ∧ CStr DIR_ENTRY_DESCRIPTION_SIZE e.description) ∧
    1 ≤ m.directoryEntries.length ∧ m.directoryEntries.length ≤ 1024 := by
  obtain ⟨c1, c2, c3⟩ := DemoFile_cases S
  obtain ⟨_, _, _, _, hc1, hc2, _⟩ := (DemoFile_ok_iff S).1.1 ⟨m, h⟩
  obtain ⟨hcount, hfr, hidx⟩ := (DemoFile_ok_iff S).2 m h
  have hdesc : ∀ e ∈ m.directoryEntries, CStr DIR_ENTRY_DESCRIPTION_SIZE e.description := by
    intro e he
    obtain ⟨i, hi, hie⟩ := List.getElem_of_mem he
    have := hidx i hi
    rw [List.getElem?_eq_getElem hi, hie] at this
    cases hr : readDirectoryEntry
        (S.drop ((directoryOffsetField S).toNat + 4 + 92 * i)) with
    | none => rw [hr] at this; cases this
    | some p =>
      rw [hr] at this
      simp only [Option.map_some', Option.some.injEq] at this
      obtain ⟨e', r'⟩ := p
      simp only [] at this
      subst this
      exact Reader.yields_elim readDirectoryEntry_yields hr
  by_cases hn : S.length < 544
  · rw [c1 hn] at h; cases h
  · by_cases hs : S.take 6 = HLDEMO
    · obtain ⟨header, hrh, _, hopen⟩ := c3 (by omega) hs
      rw [hopen] at h
      cases hr : ReadDirectory S header with
      | error e => rw [hr] at h; cases h
      | ok es =>
        rw [hr] at h
        simp only [Except.ok.injEq] at h
        subst h
        exact ⟨rfl, rfl, Reader.yields_elim ReadHeader_yields hrh,
          fun e he => ⟨hfr e he, hdesc e he⟩, by omega, by omega⟩
    · rw [c2 (by omega) hs] at h; cases h

theorem entryFrames_nil : EntryFrames [] := ⟨by simp, by simp⟩

/-- The entries after the entry loop of `ReadFrames`, started with empty frame lists: the
directory records are unchanged and every frame list is one that the loop builds. -/
theorem readEntries_frames (S : List Byte) : ∀ es : List DemoDirectoryEntry,
    (∀ e ∈ es, e.frames = []) →
    (∀ e ∈ (readEntries S es).2, EntryFrames e.frames) ∧
    (readEntries S es).2.map DemoDirectoryEntry.record = es.map DemoDirectoryEntry.record := by
  intro es
  induction es with
  | nil => intro _; simp [readEntries]
  | cons entry rest ih =>
    intro h
    obtain ⟨ih1, ih2⟩ := ih (fun x hx => h x (List.mem_cons_of_mem _ hx))
    have he : entry.frames = [] := h entry (List.mem_cons_self _ _)
    unfold readEntries
    by_cases hoff : int32 entry.offset < 0 ∨ (S.length : Int) < int32 entry.offset
    · rw [if_pos hoff]
      refine ⟨?_, by simp [ih2]⟩
      intro x hx
      rcases List.mem_cons.1 hx with rfl | hx
      · rw [he]; exact entryFrames_nil
      · exact ih1 x hx
    · rw [if_neg hoff]
      have hfuel : (S.drop (int32 entry.offset).toNat).length < 9 * (S.length + 1) := by
        rw [List.length_drop]; omega
      obtain ⟨fs, hres, hc, hd, _⟩ := readFrameLoop_good S.length (S.length + 1)
        (S.drop (int32 entry.offset).toNat) entry.frames hfuel
      rw [he, List.nil_append] at hres
      rw [he]
      rcases hres with hres | hres
      · rw [hres]
        refine ⟨?_, by simp [ih2, DemoDirectoryEntry.record]⟩
        intro x hx
        rcases List.mem_cons.1 hx with rfl | hx
        · exact ⟨hc, hd⟩
        · exact ih1 x hx
      · rw [hres]
        refine ⟨?_, by simp [DemoDirectoryEntry.record]⟩
        intro x hx
        rcases List.mem_cons.1 hx with rfl | hx
        · exact ⟨hc, hd⟩
        · rw [h x (List.mem_cons_of_mem _ hx)]; exact entryFrames_nil

/-! ## Round trip through `Save` -/

/-- `ReadFrames` on an object with `readFrames` unset and demo protocol 5 is the entry
loop. -/
theorem ReadFrames_eq (m : DemoFile) (h1 : m.readFrames = false)
    (h2 : m.header.demoProtocol = 5) :
    (m.ReadFrames).1 = (readEntries m.demo m.directoryEntries).1 ∧
    (m.ReadFrames).2.header = m.header ∧
    (m.ReadFrames).2.directoryEntries = (readEntries m.demo m.directoryEntries).2 ∧
    (m.ReadFrames).2.demo = m.demo := by
  unfold DemoFile.ReadFrames
  rw [if_neg (by simp [h1]), if_neg (by simp [h2])]
  rcases hr : readEntries m.demo m.directoryEntries with ⟨err, es⟩
  cases err with
  | none => exact ⟨rfl, rfl, rfl, rfl⟩
  | some e => exact ⟨rfl, rfl, rfl, rfl⟩

theorem ReadFrames_of_readEntries (m : DemoFile) (es : List DemoDirectoryEntry)
    (h1 : m.readFrames = false) (h2 : m.header.demoProtocol = 5)
    (h3 : readEntries m.demo m.directoryEntries = (none, es)) :
    m.ReadFrames = (none, { m with directoryEntries := es, readFrames := true }) := by
  unfold DemoFile.ReadFrames
  rw [if_neg (by simp [h1]), if_neg (by simp [h2]), h3]

theorem assignOffsets_length : ∀ (es : List DemoDirectoryEntry) (p : Nat),
    (assignOffsets es p).length = es.length := by
  intro es
  induction es with
  | nil => intro p; rfl
  | cons e es ih => intro p; simp [assignOffsets, ih]

theorem assignOffsets_map_frames : ∀ (es : List DemoDirectoryEntry) (p : Nat),
    (assignOffsets es p).map (fun e => e.frames) = es.map (fun e => e.frames) := by
  intro es
  induction es with
  | nil => intro p; rfl
  | cons e es ih => intro p; simp [assignOffsets, ih]

theorem assignOffsets_map_description : ∀ (es : List DemoDirectoryEntry) (p : Nat),
    (assignOffsets es p).map (fun e => e.description) = es.map (fun e => e.description) := by
  intro es
  induction es with
  | nil => intro p; rfl
  | cons e es ih => intro p; simp [assignOffsets, ih]

theorem writtenFrames_eq (fs : List DemoFrame) (h : EntryFrames fs) :
    writtenFrames fs = if endsWithNextSection fs then fs else fs ++ [nextSectionFrame] := by
  unfold writtenFrames
  have hiff := any_isNextSection_iff fs h.2
  have : endsWithNextSection fs = fs.any DemoFrame.isNextSection := by
    unfold endsWithNextSection
    by_cases ha : fs.any DemoFrame.isNextSection = true
    · obtain ⟨l, hl, ht⟩ := hiff.1 ha
      rw [ha, hl]
      simpa [DemoFrame.isNextSection] using ht
    · have ha' : fs.any DemoFrame.isNextSection = false := by simpa using ha
      rw [ha']
      cases hl : fs.getLast? with
      | none => rfl
      | some l =>
        simp only []
        by_contra hc
        apply ha
        apply hiff.2
        refine ⟨l, hl, ?_⟩
        have : l.isNextSection = true := by simpa using hc
        simpa [DemoFrame.isNextSection] using this
  rw [this]

/-- The round trip for an object with canonical header, between 1 and 1024 entries whose
descriptions are C strings that fit and whose frame lists are of the kind `ReadFrames`
builds, when the file written stays below 2^31 bytes. -/
theorem Save_reopen (d : DemoFile) (hh : d.header.Canonical)
    (hp : d.header.demoProtocol = 5)
    (hes : ∀ e ∈ d.directoryEntries,
      EntryFrames e.frames ∧ CStr DIR_ENTRY_DESCRIPTION_SIZE e.description)
    (h1 : 1 ≤ d.directoryEntries.length) (h2 : d.directoryEntries.length ≤ 1024) :
    ∃ B d', d.Save = some (B, d') ∧
      (B.length < 2147483648 →
        ∃ m2o m2, DemoFile.DemoFile B = .ok m2o ∧ m2o.ReadFrames = (none, m2) ∧
          m2.directoryEntries.map (fun e => e.frames) =
            d.directoryEntries.map (fun e => writtenFrames e.frames) ∧
          m2.header = { d.header with directoryOffset := m2.header.directoryOffset }) := by
  have hw : ∀ e ∈ d.directoryEntries, ∀ f ∈ e.frames, f.Writable :=
    fun e he f hf => canonical_writable f ((hes e he).1.1 f hf)
  refine ⟨_, _, Save_eq d hw, ?_⟩
  intro hB
  have hfile : writeHeader d.header ++ write_object32 (castInt32 (savedDirectoryOffset d)) ++
      (d.directoryEntries.map entryStream).flatten ++
      writeDirectory (assignOffsets d.directoryEntries 544) =
      savedFile d.header (d.directoryEntries.map entryStream).flatten
        (assignOffsets d.directoryEntries 544) := rfl
  rw [hfile] at hB ⊢
  have hlen := savedFile_length d.header (d.directoryEntries.map entryStream).flatten
    (assignOffsets d.directoryEntries 544)
  have hdesc : ∀ e ∈ assignOffsets d.directoryEntries 544,
      CStr DIR_ENTRY_DESCRIPTION_SIZE e.description := by
    intro e he
    have h1 : e.description ∈ (assignOffsets d.directoryEntries 544).map
        (fun e => e.description) := List.mem_map_of_mem _ he
    rw [assignOffsets_map_description] at h1
    obtain ⟨e0, he0, hd0⟩ := List.mem_map.1 h1
    rw [← hd0]
    exact (hes e0 he0).2
  have hopen := DemoFile_savedFile d.header (d.directoryEntries.map entryStream).flatten
    (assignOffsets d.directoryEntries 544) hh hdesc
    (by rw [assignOffsets_length]; exact h1) (by rw [assignOffsets_length]; exact h2)
    (by omega)
  have hpre : (writeHeader d.header ++ write_object32
      (castInt32 (544 + ((d.directoryEntries.map entryStream).flatten).length))).length =
      544 := by
    rw [List.length_append, writeHeader_length, write_object32_length]
  have hread := readEntries_saved _ hB d.directoryEntries
    (writeHeader d.header ++ write_object32
      (castInt32 (544 + ((d.directoryEntries.map entryStream).flatten).length)))
    (writeDirectory (assignOffsets d.directoryEntries 544))
    (by unfold savedFile; simp only [List.append_assoc])
    (by rw [writeDirectory_length]; omega) (fun e he => (hes e he).1)
  rw [hpre] at hread
  refine ⟨_, _, hopen, ReadFrames_of_readEntries _ _ rfl hp hread, ?_, ?_⟩
  · simp only [List.map_map]
    have := assignOffsets_map_frames d.directoryEntries 544
    have h3 : (assignOffsets d.directoryEntries 544).map
        ((fun e => e.frames) ∘ fun e => { e with frames := writtenFrames e.frames }) =
        ((assignOffsets d.directoryEntries 544).map (fun e => e.frames)).map writtenFrames := by
      rw [List.map_map]; rfl
    rw [h3, this, List.map_map]
    rfl
  · rfl

/-- C1 (as amended). Round trip through `Save`.  Let a file be accepted by the constructor
with demo protocol 5, let M1 be the object after `ReadFrames` (whether or not it threw) and
B the file that `Save` writes for M1.  `Save` is defined on M1, and if B is shorter than
2^31 bytes, the constructor accepts B, `ReadFrames` succeeds on it, and in the object M2
so obtained every entry has M1's frame list when that ends with a NEXT_SECTION frame, and
M1's frame list followed by one NEXT_SECTION frame (time 0, frame 0) otherwise; M2's header
is M1's in every member but `directoryOffset`. -/
theorem Save_roundtrip (S : List Byte) (m0 m1 : DemoFile) (err : Option DemoError)
    (hopen : DemoFile.DemoFile S = .ok m0) (hproto : m0.header.demoProtocol = 5)
    (hread : m0.ReadFrames = (err, m1)) :
    ∃ B m1', m1.Save = some (B, m1') ∧
      (B.length < 2147483648 →
        ∃ m2o m2, DemoFile.DemoFile B = .ok m2o ∧ m2o.ReadFrames = (none, m2) ∧
          m2.directoryEntries.map (fun e => e.frames) =
            m1.directoryEntries.map (fun e =>
              if endsWithNextSection e.frames then e.frames
              else e.frames ++ [nextSectionFrame]) ∧
          m2.header = { m1.header with directoryOffset := m2.header.directoryOffset }) := by
  obtain ⟨hdemo, hfresh, hh, hes, h1, h2⟩ := DemoFile_ok_props S m0 hopen
  obtain ⟨_, hhead, hentries, _⟩ := ReadFrames_eq m0 hfresh hproto
  rw [hread] at hhead hentries
  simp only [] at hhead hentries
  obtain ⟨hfr, hrec⟩ := readEntries_frames m0.demo m0.directoryEntries (fun e he => (hes e he).1)
  rw [← hentries] at hfr hrec
  have hlen : m1.directoryEntries.length = m0.directoryEntries.length := by
    have := congrArg List.length hrec
    simpa using this
  have hes1 : ∀ e ∈ m1.directoryEntries,
      EntryFrames e.frames ∧ CStr DIR_ENTRY_DESCRIPTION_SIZE e.description := by
    intro e he
    refine ⟨hfr e he, ?_⟩
    have h3 : e.record ∈ m1.directoryEntries.map DemoDirectoryEntry.record :=
      List.mem_map_of_mem _ he
    rw [hrec] at h3
    obtain ⟨e0, he0, hr0⟩ := List.mem_map.1 h3
    have : e.description = e0.description := by
      have := congrArg (fun x => x.description) hr0
      simpa [DemoDirectoryEntry.record] using this.symm
    rw [this]
    exact (hes e0 he0).2
  obtain ⟨B, d', hsave, hrest⟩ := Save_reopen m1 (by rw [hhead]; exact hh)
    (by rw [hhead]; exact hproto) hes1 (by omega) (by omega)
  refine ⟨B, d', hsave, fun hB => ?_⟩
  obtain ⟨m2o, m2, ho, hr, hf, hhd⟩ := hrest hB
  refine ⟨m2o, m2, ho, hr, ?_, hhd⟩
  rw [hf]
  apply List.map_congr_left
  intro e he
  exact writtenFrames_eq e.frames (hfr e he)

/-! ## A file whose saved copy exceeds 2^31 bytes -/

theorem sampleHeader_canonical : sampleHeader.Canonical := by
  unfold DemoHeader.Canonical CStr
  decide

theorem bufferFrame_canonical (L : Nat) (h : L < 2147483648) : (bufferFrame L).Canonical := by
  refine ⟨rfl, ?_⟩
  show (List.replicate L (0 : Byte)).length < 2147483648
  rw [List.length_replicate]; exact h

theorem overflow_entryFrames (L : Nat) (h : L < 2147483648) :
    EntryFrames [bufferFrame L, nextSectionFrame] := by
  refine ⟨?_, ?_⟩
  · intro f hf
    simp only [List.mem_cons, List.mem_singleton, List.not_mem_nil, or_false] at hf
    rcases hf with rfl | rfl
    · exact bufferFrame_canonical L h
    · exact nextSectionFrame_canonical
  · intro f hf
    simp only [List.dropLast_cons₂, List.dropLast_single, List.mem_singleton] at hf
    subst hf
    show DemoFrameType.DEMO_BUFFER ≠ DemoFrameType.NEXT_SECTION
    decide

theorem overflow_stream_length (L : Nat) :
    (framesBytes [bufferFrame L, nextSectionFrame]).length = L + 22 := by
  have h1 : frameBytes (bufferFrame L) =
      writeFrameHead DemoFrameType.DEMO_BUFFER 0 0 ++
        writeDemoBuffer { buffer := List.replicate L 0 } := by
    unfold frameBytes bufferFrame
    rw [writeFrame_demoBuffer _ _ _ _ rfl]
    rfl
  rw [framesBytes_cons, framesBytes_cons, h1, nextSectionFrame_bytes]
  simp only [framesBytes, List.map_nil, List.flatten_nil, List.length_append,
    writeFrameHead_length, writeDemoBuffer, write_object32_length, List.length_replicate,
    List.length_nil]
  omega

theorem overflow_written (L : Nat) :
    writtenFrames [bufferFrame L, nextSectionFrame] = [bufferFrame L, nextSectionFrame] := by
  unfold writtenFrames
  rw [if_pos]
  simp [DemoFrame.isNextSection, nextSectionFrame]

theorem overflowEntry_replicate_record (k : Nat) :
    (List.replicate k overflowEntry).map DemoDirectoryEntry.record =
      List.replicate k overflowEntry := by
  rw [List.map_replicate]; rfl

theorem overflow_open (L k : Nat) (h1 : 1 ≤ k) (h2 : k ≤ 1024)
    (hD : 544 + (L + 22) < 2147483648) :
    DemoFile.DemoFile (overflowFile L k) = .ok (overflowOpened L k) := by
  have := DemoFile_savedFile sampleHeader (framesBytes [bufferFrame L, nextSectionFrame])
    (List.replicate k overflowEntry) sampleHeader_canonical
    (by intro e he; rw [List.eq_of_mem_replicate he]; exact ⟨by decide, by decide⟩)
    (by rw [List.length_replicate]; exact h1) (by rw [List.length_replicate]; exact h2)
    (by rw [overflow_stream_length]; exact hD)
  rw [overflow_stream_length, overflowEntry_replicate_record] at this
  exact this

theorem overflow_loop (L k : Nat) (hL : L < 2147483648) :
    readFrameLoop (overflowFile L k).length ((overflowFile L k).length + 1)
      ((overflowFile L k).drop (int32 overflowEntry.offset).toNat) overflowEntry.frames =
      .done [bufferFrame L, nextSectionFrame] := by
  have hoff : (int32 overflowEntry.offset).toNat = 544 := by decide
  have hdrop : (overflowFile L k).drop 544 =
      framesBytes [bufferFrame L, nextSectionFrame] ++
        writeDirectory (List.replicate k overflowEntry) := by
    unfold overflowFile savedFile
    rw [List.append_assoc]
    apply drop_append_of_length
    rw [List.length_append, writeHeader_length, write_object32_length]
  obtain ⟨hc, hd⟩ := overflow_entryFrames L hL
  have h544 : 544 ≤ (overflowFile L k).length := by
    unfold overflowFile; rw [savedFile_length]; omega
  rw [hoff, hdrop]
  exact readFrameLoop_written _ [bufferFrame L, nextSectionFrame] _ _ [] hc hd
    ⟨nextSectionFrame, rfl, rfl⟩
    (by rw [List.length_cons, List.length_singleton]; omega)
    (by rw [writeDirectory_length]; omega)

theorem overflow_readEntries (L k : Nat) (hL : L < 2147483648)
    (hlen : (overflowFile L k).length < 2147483648) : ∀ j : Nat,
    readEntries (overflowFile L k) (List.replicate j overflowEntry) =
      (none, List.replicate j (overflowEntryRead L)) := by
  intro j
  induction j with
  | zero => rfl
  | succ j ih =>
    rw [List.replicate_succ]
    unfold readEntries
    have hoff : int32 overflowEntry.offset = 544 := by decide
    have h544 : 544 ≤ (overflowFile L k).length := by
      unfold overflowFile; rw [savedFile_length]; omega
    rw [if_neg (by rw [hoff]; omega), overflow_loop L k hL, ih]
    rfl

theorem overflow_save_length (L : Nat) : ∀ j : Nat,
    (((List.replicate j (overflowEntryRead L)).map entryStream).flatten).length =
      j * (L + 22) := by
  intro j
  induction j with
  | zero => simp
  | succ j ih =>
    rw [List.replicate_succ, List.map_cons, List.flatten_cons, List.length_append, ih]
    have : (entryStream (overflowEntryRead L)).length = L + 22 := by
      unfold entryStream overflowEntryRead
      simp only []
      rw [overflow_written, overflow_stream_length]
    rw [this]
    ring

/-- The constructor rejects a file whose header is intact but whose directory offset, read
as an `int32_t`, is negative. -/
theorem DemoFile_directoryOffset_negative (h : DemoHeader) (x : Word32) (rest : List Byte)
    (hh : h.Canonical) (hx : int32 x < 0) :
    DemoFile.DemoFile (writeHeader h ++ write_object32 x ++ rest) =
      .error .invalidDirectoryOffset := by
  obtain ⟨_, _, c3⟩ := DemoFile_cases (writeHeader h ++ write_object32 x ++ rest)
  have hlen : 544 ≤ (writeHeader h ++ write_object32 x ++ rest).length := by
    simp only [List.length_append, writeHeader_length, write_object32_length]; omega
  have hsig : (writeHeader h ++ write_object32 x ++ rest).take 6 = HLDEMO := by
    simp [writeHeader, HLDEMO, List.append_assoc]
  obtain ⟨header, hrh, _, hopen⟩ := c3 hlen hsig
  rw [ReadHeader_write h x rest hh] at hrh
  simp only [Option.some.injEq, Prod.mk.injEq] at hrh
  obtain ⟨hheader, _⟩ := hrh
  subst hheader
  rw [hopen]
  unfold ReadDirectory
  simp only []
  rw [if_pos (Or.inl hx)]

theorem Save_directoryOffset_negative (d : DemoFile)
    (hw : ∀ e ∈ d.directoryEntries, ∀ f ∈ e.frames, f.Writable)
    (hh : d.header.Canonical) (hneg : int32 (castInt32 (savedDirectoryOffset d)) < 0) :
    ∃ B d', d.Save = some (B, d') ∧ DemoFile.DemoFile B = .error .invalidDirectoryOffset := by
  refine ⟨_, _, Save_eq d hw, ?_⟩
  rw [List.append_assoc]
  exact DemoFile_directoryOffset_negative _ _ _ hh hneg

/-- The file `overflowFile L k` is accepted and read, but when the `k` copies of its stream
that `Save` writes push the directory to a position that is negative as an `int32_t`, the
constructor rejects the saved file. -/
theorem overflow_general (L k : Nat) (h1 : 1 ≤ k) (h2 : k ≤ 1024)
    (hsmall : 544 + (L + 22) + (4 + 92 * k) < 2147483648)
    (hneg : int32 (castInt32 (544 + k * (L + 22))) < 0) :
    ∃ m0 m1 B m1', DemoFile.DemoFile (overflowFile L k) = .ok m0 ∧
      m0.header.demoProtocol = 5 ∧ m0.ReadFrames = (none, m1) ∧ m1.Save = some (B, m1') ∧
      DemoFile.DemoFile B = .error .invalidDirectoryOffset := by
  have hopen := overflow_open L k h1 h2 (by omega)
  have hlen : (overflowFile L k).length < 2147483648 := by
    unfold overflowFile
    rw [savedFile_length, overflow_stream_length, List.length_replicate]
    omega
  have hread := overflow_readEntries L k (by omega) hlen k
  have hw : ∀ e ∈ (overflowRead L k).directoryEntries, ∀ f ∈ e.frames, f.Writable := by
    intro e he f hf
    rw [List.eq_of_mem_replicate he] at hf
    exact canonical_writable f ((overflow_entryFrames L (by omega)).1 f hf)
  have hrf : (overflowOpened L k).ReadFrames = (none, overflowRead L k) :=
    ReadFrames_of_readEntries (overflowOpened L k) _ rfl rfl hread
  have hoff : savedDirectoryOffset (overflowRead L k) = 544 + k * (L + 22) := by
    unfold savedDirectoryOffset
    exact congrArg (fun n => 544 + n) (overflow_save_length L k)
  obtain ⟨B, d', hsave, hre⟩ := Save_directoryOffset_negative (overflowRead L k) hw
    ⟨sampleHeader_canonical.1, sampleHeader_canonical.2⟩ (by rw [hoff]; exact hneg)
  exact ⟨_, _, B, d', hopen, rfl, hrf, hsave, hre⟩

/-- C1, counterexample.  The file `overflowFile 2097152 1024` (about 2.2 MB: one stream with
a raw-buffer frame of 2 MiB and a NEXT_SECTION frame, and 1024 directory entries that all
point at it) is accepted by the constructor, has demo protocol 5 and `ReadFrames` succeeds
on it; `Save` then writes the stream 1024 times, the directory lands at position
2147506720 >= 2^31, the position converted to `int32_t` is negative, and the constructor
rejects the saved file: there is no second object to compare with. -/
theorem Save_roundtrip_counterexample :
    ∃ m0 m1 B m1', DemoFile.DemoFile (overflowFile 2097152 1024) = .ok m0 ∧
      m0.header.demoProtocol = 5 ∧ m0.ReadFrames = (none, m1) ∧ m1.Save = some (B, m1') ∧
      DemoFile.DemoFile B = .error .invalidDirectoryOffset :=
  overflow_general 2097152 1024 (by omega) (by omega) (by omega)
    (by norm_num [int32, castInt32, toWord32])

set_option maxRecDepth 100000

/-- The sample file evaluated: the constructor accepts it with demo protocol 5, and
`ReadFrames` succeeds and decodes the nine frames of the first entry and the one frame of
the second, which does not end with a NEXT_SECTION frame; `Save` can write these frames,
and the file it writes is shorter than 2^31 bytes. -/
theorem sampleFile_facts :
    DemoFile.DemoFile sampleFile = .ok sampleOpened ∧
    sampleOpened.header.demoProtocol = 5 ∧
    sampleOpened.ReadFrames = (none, sampleRead) ∧
    sampleRead.directoryEntries.map (fun e => endsWithNextSection e.frames) = [true, false] ∧
    sampleRead.directoryEntries.map (fun e => e.frames.length) = [9, 1] ∧
    (∀ e ∈ sampleRead.directoryEntries, ∀ f ∈ e.frames, f.Writable) ∧
    sampleRead.directoryEntries.map (fun e => (writtenFrames e.frames).length) = [9, 2] ∧
    sampleRead.Save.map (fun p => decide (p.1.length < 2147483648)) = some true := by
  decide!

/-- The sample file with protocol 4 evaluated: the constructor accepts it. -/
theorem protocol4File_facts :
    DemoFile.DemoFile protocol4File = .ok protocol4Opened ∧
    protocol4Opened.header.demoProtocol ≠ 5 := by
  decide!

/-- C1 (as amended), instance: the sample file is accepted with protocol 5, and reading
it, saving (a file shorter than 2^31 bytes) and reading again gives the frames of the first
read, with a NEXT_SECTION frame appended to the second entry, which had none. -/
theorem Save_roundtrip_witness :
    DemoFile.DemoFile sampleFile = .ok sampleOpened ∧
    sampleOpened.header.demoProtocol = 5 ∧
    sampleOpened.ReadFrames = (none, sampleRead) ∧
    sampleRead.directoryEntries.map (fun e => endsWithNextSection e.frames) = [true, false] ∧
    sampleRead.Save.map (fun p => decide (p.1.length < 2147483648)) = some true ∧
    ∃ B m1', sampleRead.Save = some (B, m1') ∧
      (B.length < 2147483648 →
        ∃ m2o m2, DemoFile.DemoFile B = .ok m2o ∧ m2o.ReadFrames = (none, m2) ∧
          m2.directoryEntries.map (fun e => e.frames) =
            sampleRead.directoryEntries.map (fun e =>
              if endsWithNextSection e.frames then e.frames
              else e.frames ++ [nextSectionFrame]) ∧
          m2.header = { sampleRead.header with directoryOffset := m2.header.directoryOffset }) :=
  ⟨sampleFile_facts.1, sampleFile_facts.2.1, sampleFile_facts.2.2.1, sampleFile_facts.2.2.2.1,
    sampleFile_facts.2.2.2.2.2.2.2,
    Save_roundtrip sampleFile sampleOpened sampleRead none sampleFile_facts.1
      sampleFile_facts.2.1 sampleFile_facts.2.2.1⟩

/-- C7, instance: the first `ReadFrames` call on the opened sample file succeeds and
decodes its nine frames and its one frame; the second call returns the same object. -/
theorem ReadFrames_idempotent_witness :
    sampleOpened.ReadFrames = (none, sampleRead) ∧
    sampleRead.directoryEntries.map (fun e => e.frames.length) = [9, 1] ∧
    sampleRead.ReadFrames = (none, sampleRead) ∧
    (sampleRead.ReadFrames).2.directoryEntries.map (fun e => e.frames) =
      sampleRead.directoryEntries.map (fun e => e.frames) :=
  ⟨sampleFile_facts.2.2.1, sampleFile_facts.2.2.2.2.1,
    ReadFrames_idempotent sampleOpened sampleRead sampleFile_facts.2.2.1⟩

/-- C10, instances: the sample file with protocol 4 is accepted and `ReadFrames` fails on
it, leaving both frame lists empty; the sample file with protocol 5 is accepted and the
protocol check passes. -/
theorem ReadFrames_protocol_witness :
    (DemoFile.DemoFile protocol4File = .ok protocol4Opened ∧
      protocol4Opened.header.demoProtocol ≠ 5 ∧
      (protocol4Opened.ReadFrames).1 = some .unsupportedProtocol ∧
      ∀ e ∈ (protocol4Opened.ReadFrames).2.directoryEntries, e.frames = []) ∧
    (DemoFile.DemoFile sampleFile = .ok sampleOpened ∧
      sampleOpened.header.demoProtocol = 5 ∧
      (sampleOpened.ReadFrames).1 ≠ some .unsupportedProtocol) :=
  ⟨⟨protocol4File_facts.1, protocol4File_facts.2,
      (ReadFrames_protocol protocol4File protocol4Opened protocol4File_facts.1).1
        protocol4File_facts.2⟩,
    ⟨sampleFile_facts.1, sampleFile_facts.2.1,
      (ReadFrames_protocol sampleFile sampleOpened sampleFile_facts.1).2 sampleFile_facts.2.1⟩⟩

theorem write_object32_le (b : List Byte) (h : b.length = 4) :
    write_object32 (toWord32 (le b)) = b := by
  unfold write_object32 toWord32
  simp only []
  have h1 := le_lt b
  rw [h] at h1
  rw [Nat.mod_eq_of_lt (by norm_num at h1; omega)]
  have h2 := toLE_le b
  rw [h] at h2
  exact h2

theorem castInt32_of_int32 (w : Word32) (k : Nat) (h : int32 w = (k : Int)) :
    castInt32 k = w ∧ k < 2147483648 := by
  unfold int32 at h
  have hw := w.isLt
  split at h
  · have hk : w.val = k := by omega
    refine ⟨?_, by omega⟩
    unfold castInt32 toWord32
    apply Fin.ext
    simp only []
    rw [← hk]
    exact Nat.mod_eq_of_lt hw
  · omega

theorem soundFrameBytes_eq (time frame channel len sample attenuation volume flags pitch :
    List Byte)
    (htime : time.length = 4) (hframe : frame.length = 4) (hchannel : channel.length = 4)
    (hlen : len.length = 4) (hL : int32 (toWord32 (le len)) = (sample.length : Int))
    (hattenuation : attenuation.length = 4) (hvolume : volume.length = 4)
    (hflags : flags.length = 4) (hpitch : pitch.length = 4) :
    soundFrameBytes time frame channel len sample attenuation volume flags pitch =
      writeFrameHead DemoFrameType.SOUND (toWord32 (le time)) (toWord32 (le frame)) ++
        writeSound
          { channel := toWord32 (le channel), sample := sample,
            attenuation := toWord32 (le attenuation), volume := toWord32 (le volume),
            flags := toWord32 (le flags), pitch := toWord32 (le pitch) } := by
  unfold soundFrameBytes writeFrameHead writeSound
  simp only []
  rw [(castInt32_of_int32 _ _ hL).1, write_object32_le _ htime, write_object32_le _ hframe,
    write_object32_le _ hchannel, write_object32_le _ hlen, write_object32_le _ hattenuation,
    write_object32_le _ hvolume, write_object32_le _ hflags, write_object32_le _ hpitch]
  have h8 : write_object8 DemoFrameType.SOUND = [DemoFrameType.SOUND] := by decide
  rw [h8]
  simp only [List.append_assoc]

/-- C8. A sound frame that lies in a file as the tag 8, the 4-byte fields `time`, `frame`,
`channel` and a length field with a signed value L, then L sample bytes and the four 4-byte
fields attenuation, volume, flags and pitch, followed by any bytes `rest` (none in the
boundary case), is decoded by one pass of the frame loop into the sound frame whose sample
is those L bytes and whose scalars are the little-endian values of their fields, leaving
`rest` unread; `Save` writes that frame as the original 33 + L bytes. -/
theorem sound_frame_roundtrip (n : Nat)
    (time frame channel len sample attenuation volume flags pitch rest : List Byte)
    (htime : time.length = 4) (hframe : frame.length = 4) (hchannel : channel.length = 4)
    (hlen : len.length = 4) (hL : int32 (toWord32 (le len)) = (sample.length : Int))
    (hattenuation : attenuation.length = 4) (hvolume : volume.length = 4)
    (hflags : flags.length = 4) (hpitch : pitch.length = 4) :
    readFrame n
        (soundFrameBytes time frame channel len sample attenuation volume flags pitch ++ rest) =
      .appended (soundFrameOf time frame channel sample attenuation volume flags pitch)
        false rest ∧
    writeFrame (soundFrameOf time frame channel sample attenuation volume flags pitch) =
      some (soundFrameBytes time frame channel len sample attenuation volume flags pitch) ∧
    (soundFrameBytes time frame channel len sample attenuation volume flags pitch).length =
      9 + 8 + sample.length + 16 := by
  have hb := soundFrameBytes_eq time frame channel len sample attenuation volume flags pitch
    htime hframe hchannel hlen hL hattenuation hvolume hflags hpitch
  refine ⟨?_, ?_, ?_⟩
  · rw [hb, List.append_assoc, readFrame_head, readFrameSwitch_sound _ _ _ _ _ rfl,
      caseSound_write _ _ _ _ _ _ (castInt32_of_int32 _ _ hL).2]
    · rfl
    · simp [writeSound]
      omega
  · rw [hb]
    exact writeFrame_sound _ _ _ _ rfl
  · simp [soundFrameBytes, htime, hframe, hchannel, hlen, hattenuation, hvolume, hflags, hpitch]
    omega

/-- C8, the instance L = 4 with exactly 4 + 16 bytes after the length field: the decoded
frame is `sampleSoundFrame`, with channel 3, sample 1 2 3 4, flags 0 and pitch 100. -/
theorem sound_frame_roundtrip_witness :
    (readFrame 37
        (soundFrameBytes [0, 0, 128, 63] [7, 0, 0, 0] [3, 0, 0, 0] [4, 0, 0, 0] [1, 2, 3, 4]
          [205, 204, 76, 63] [0, 0, 128, 63] [0, 0, 0, 0] [100, 0, 0, 0] ++ []) =
      .appended (soundFrameOf [0, 0, 128, 63] [7, 0, 0, 0] [3, 0, 0, 0] [1, 2, 3, 4]
          [205, 204, 76, 63] [0, 0, 128, 63] [0, 0, 0, 0] [100, 0, 0, 0]) false [] ∧
    writeFrame (soundFrameOf [0, 0, 128, 63] [7, 0, 0, 0] [3, 0, 0, 0] [1, 2, 3, 4]
          [205, 204, 76, 63] [0, 0, 128, 63] [0, 0, 0, 0] [100, 0, 0, 0]) =
      some (soundFrameBytes [0, 0, 128, 63] [7, 0, 0, 0] [3, 0, 0, 0] [4, 0, 0, 0] [1, 2, 3, 4]
          [205, 204, 76, 63] [0, 0, 128, 63] [0, 0, 0, 0] [100, 0, 0, 0]) ∧
    (soundFrameBytes [0, 0, 128, 63] [7, 0, 0, 0] [3, 0, 0, 0] [4, 0, 0, 0] [1, 2, 3, 4]
          [205, 204, 76, 63] [0, 0, 128, 63] [0, 0, 0, 0] [100, 0, 0, 0]).length =
      9 + 8 + [(1 : Byte), 2, 3, 4].length + 16) ∧
    soundFrameOf [0, 0, 128, 63] [7, 0, 0, 0] [3, 0, 0, 0] [1, 2, 3, 4]
      [205, 204, 76, 63] [0, 0, 128, 63] [0, 0, 0, 0] [100, 0, 0, 0] = sampleSoundFrame :=
  ⟨sound_frame_roundtrip 37 [0, 0, 128, 63] [7, 0, 0, 0] [3, 0, 0, 0] [4, 0, 0, 0] [1, 2, 3, 4]
    [205, 204, 76, 63] [0, 0, 128, 63] [0, 0, 0, 0] [100, 0, 0, 0] [] rfl rfl rfl rfl
    (by decide) rfl rfl rfl rfl, by decide⟩

theorem countP_isNextSection (fs : List DemoFrame)
    (hd : ∀ f ∈ fs.dropLast, f.type ≠ DemoFrameType.NEXT_SECTION)
    (hl : ∃ l, fs.getLast? = some l ∧ l.type = DemoFrameType.NEXT_SECTION) :
    fs.countP DemoFrame.isNextSection = 1 := by
  obtain ⟨l, hl, ht⟩ := hl
  have hne : fs ≠ [] := by rintro rfl; simp at hl
  have hsplit := List.dropLast_append_getLast hne
  have hlast : fs.getLast hne = l := by
    have := List.getLast?_eq_getLast _ hne
    rw [hl] at this
    exact (Option.some.inj this).symm
  rw [← hsplit, List.countP_append, hlast]
  have h0 : fs.dropLast.countP DemoFrame.isNextSection = 0 := by
    rw [List.countP_eq_zero]
    intro f hf
    simpa [DemoFrame.isNextSection] using hd f hf
  rw [h0]
  simp [DemoFrame.isNextSection, ht]

theorem writtenFrames_terminator (fs : List DemoFrame) :
    1 ≤ (writtenFrames fs).countP DemoFrame.isNextSection ∧
    ((∀ f ∈ fs.dropLast, f.type ≠ DemoFrameType.NEXT_SECTION) →
      endsWithNextSection (writtenFrames fs) = true ∧
      (writtenFrames fs).countP DemoFrame.isNextSection = 1) := by
  constructor
  · unfold writtenFrames
    by_cases ha : fs.any DemoFrame.isNextSection = true
    · rw [if_pos ha]
      obtain ⟨f, hf, ht⟩ := List.any_eq_true.1 ha
      exact List.countP_pos_iff.2 ⟨f, hf, ht⟩
    · rw [if_neg ha, List.countP_append]
      have : [nextSectionFrame].countP DemoFrame.isNextSection = 1 := by decide
      omega
  · intro hd
    have key : (∀ f ∈ (writtenFrames fs).dropLast, f.type ≠ DemoFrameType.NEXT_SECTION) ∧
        ∃ l, (writtenFrames fs).getLast? = some l ∧ l.type = DemoFrameType.NEXT_SECTION := by
      unfold writtenFrames
      by_cases ha : fs.any DemoFrame.isNextSection = true
      · rw [if_pos ha]
        exact ⟨hd, (any_isNextSection_iff fs hd).1 ha⟩
      · rw [if_neg ha]
        refine ⟨?_, ⟨nextSectionFrame, by simp, rfl⟩⟩
        intro f hf
        rw [List.dropLast_concat] at hf
        intro ht
        apply ha
        exact List.any_eq_true.2 ⟨f, hf, by simpa [DemoFrame.isNextSection] using ht⟩
    refine ⟨?_, countP_isNextSection _ key.1 key.2⟩
    obtain ⟨l, hl, ht⟩ := key.2
    unfold endsWithNextSection
    rw [hl]
    simpa [DemoFrame.isNextSection] using ht

/-- C3 (as amended). For an object whose frames `Save` can write (each frame's object is
the struct that its tag selects), the output of `Save` is the header, the directory offset,
the frame streams of the entries in order and the directory, each stream starts at the
offset recorded for its entry, and the stream of an entry is the encoding of its frames
followed by one NEXT_SECTION frame exactly when the entry holds none.  Every stream
therefore holds at least one NEXT_SECTION frame; it ends with one and holds exactly one
when no frame before the entry's last one is a NEXT_SECTION frame. -/
theorem Save_terminator (d : DemoFile)
    (hw : ∀ e ∈ d.directoryEntries, ∀ f ∈ e.frames, f.Writable) :
    ∃ B d', d.Save = some (B, d') ∧
      B = writeHeader d.header ++ write_object32 d'.header.directoryOffset ++
          (d.directoryEntries.map (fun e => framesBytes (writtenFrames e.frames))).flatten ++
          writeDirectory d'.directoryEntries ∧
      d'.directoryEntries = assignOffsets d.directoryEntries 544 ∧
      ∀ e ∈ d.directoryEntries,
        1 ≤ (writtenFrames e.frames).countP DemoFrame.isNextSection ∧
        ((∀ f ∈ e.frames.dropLast, f.type ≠ DemoFrameType.NEXT_SECTION) →
          endsWithNextSection (writtenFrames e.frames) = true ∧
          (writtenFrames e.frames).countP DemoFrame.isNextSection = 1) := by
  refine ⟨_, _, Save_eq d hw, rfl, rfl, fun e _ => writtenFrames_terminator e.frames⟩

/-- C3 (as amended), instance: the object read from the sample file, whose second entry
holds no NEXT_SECTION frame. -/
theorem Save_terminator_witness :
    (∀ e ∈ sampleRead.directoryEntries, ∀ f ∈ e.frames, f.Writable) ∧
    sampleRead.directoryEntries.map (fun e => (writtenFrames e.frames).length) = [9, 2] ∧
    ∃ B d', sampleRead.Save = some (B, d') ∧
      B = writeHeader sampleRead.header ++ write_object32 d'.header.directoryOffset ++
          (sampleRead.directoryEntries.map
            (fun e => framesBytes (writtenFrames e.frames))).flatten ++
          writeDirectory d'.directoryEntries ∧
      d'.directoryEntries = assignOffsets sampleRead.directoryEntries 544 ∧
      ∀ e ∈ sampleRead.directoryEntries,
        1 ≤ (writtenFrames e.frames).countP DemoFrame.isNextSection ∧
        ((∀ f ∈ e.frames.dropLast, f.type ≠ DemoFrameType.NEXT_SECTION) →
          endsWithNextSection (writtenFrames e.frames) = true ∧
          (writtenFrames e.frames).countP DemoFrame.isNextSection = 1) :=
  ⟨sampleFile_facts.2.2.2.2.2.1, sampleFile_facts.2.2.2.2.2.2.1,
    Save_terminator sampleRead sampleFile_facts.2.2.2.2.2.1⟩

/-- C3, counterexample: `Save` writes the one entry of `editedModel` as the 35 bytes from
offset 544 up to the directory at offset 579; they are the encodings of the entry's three
frames, two NEXT_SECTION frames and then a WEAPON_ANIM frame, so the stream holds two
terminators and does not end with one. -/
theorem Save_terminator_counterexample :
    ∃ B d', editedModel.Save = some (B, d') ∧
      d'.directoryEntries.map (fun e => e.offset) = [544] ∧
      d'.header.directoryOffset = 579 ∧
      (B.take 579).drop 544 =
        framesBytes [nextSectionFrame, nextSectionFrame, sampleWeaponAnimFrame] ∧
      (B.take 579).drop 544 =
        [5, 0, 0, 0, 0, 0, 0, 0, 0, 5, 0, 0, 0, 0, 0, 0, 0, 0,
         7, 0, 0, 0, 0, 1, 0, 0, 0, 5, 0, 0, 0, 6, 0, 0, 0] ∧
      endsWithNextSection [nextSectionFrame, nextSectionFrame, sampleWeaponAnimFrame] = false ∧
      [nextSectionFrame, nextSectionFrame, sampleWeaponAnimFrame].countP
        DemoFrame.isNextSection = 2 :=
  ⟨(editedModel.Save.getD default).1, (editedModel.Save.getD default).2, by decide!⟩

/-- C2, failing inputs.  Both files are accepted by the constructor and have demo protocol
5.  The first entry's stream holds a WEAPON_ANIM frame and then a raw-buffer frame (first
file) or a sound frame (second file) whose length field is -1.  `ReadFrames` throws
`std::length_error` from `resize`; the first entry keeps its WEAPON_ANIM frame, the second
entry is never decoded, and `readFrames` stays false. -/
theorem ReadFrames_negative_length :
    (DemoFile.DemoFile (negativeLengthFile badBufferFrameBytes) =
        .ok (opened (negativeLengthFile badBufferFrameBytes)) ∧
      (opened (negativeLengthFile badBufferFrameBytes)).header.demoProtocol = 5 ∧
      ((opened (negativeLengthFile badBufferFrameBytes)).ReadFrames).1 = some .lengthError ∧
      ((opened (negativeLengthFile badBufferFrameBytes)).ReadFrames).2.directoryEntries.map
        (fun e => e.frames) = [[sampleWeaponAnimFrame], []] ∧
      ((opened (negativeLengthFile badBufferFrameBytes)).ReadFrames).2.readFrames = false) ∧
    (DemoFile.DemoFile (negativeLengthFile badSoundFrameBytes) =
        .ok (opened (negativeLengthFile badSoundFrameBytes)) ∧
      (opened (negativeLengthFile badSoundFrameBytes)).header.demoProtocol = 5 ∧
      ((opened (negativeLengthFile badSoundFrameBytes)).ReadFrames).1 = some .lengthError ∧
      ((opened (negativeLengthFile badSoundFrameBytes)).ReadFrames).2.directoryEntries.map
        (fun e => e.frames) = [[sampleWeaponAnimFrame], []] ∧
      ((opened (negativeLengthFile badSoundFrameBytes)).ReadFrames).2.readFrames = false) :=
  by decide!

/-- C9, failing input.  The file `containmentFile 916` is accepted and has demo protocol 5.
Its second entry points at the stream with the raw-buffer frame of length -1, its third
entry at the truncated stream, its first and fourth entry at the complete stream.
`ReadFrames` decodes the first entry in full, throws `std::length_error` in the second
entry, and leaves the third and the fourth entry without frames: the truncated entry does
not get the WEAPON_ANIM frame that precedes its truncated frame, and the fourth entry,
with the offset of the first, is not decoded.  In `containmentFile 4294967295` the second
entry has the offset -1 and is skipped; there `ReadFrames` succeeds, the truncated entry
gets its WEAPON_ANIM frame and the fourth entry is decoded in full. -/
theorem ReadFrames_containment_fails :
    (DemoFile.DemoFile (containmentFile 916) = .ok (opened (containmentFile 916)) ∧
      (opened (containmentFile 916)).header.demoProtocol = 5 ∧
      ((opened (containmentFile 916)).ReadFrames).1 = some .lengthError ∧
      ((opened (containmentFile 916)).ReadFrames).2.directoryEntries.map (fun e => e.frames) =
        [sampleFrames, [sampleWeaponAnimFrame], [], []]) ∧
    (DemoFile.DemoFile (containmentFile 4294967295) =
        .ok (opened (containmentFile 4294967295)) ∧
      ((opened (containmentFile 4294967295)).ReadFrames).1 = none ∧
      ((opened (containmentFile 4294967295)).ReadFrames).2.directoryEntries.map
        (fun e => e.frames) = [sampleFrames, [], [sampleWeaponAnimFrame], sampleFrames]) :=
  by decide!

theorem read_object8_eq (r : List Byte) (h : 1 ≤ r.length) :
    read_object8 r = some (toByte (le (r.take 1)), r.drop 1) := by
  simp [read_object8, read_objects, h]

theorem readNetMsgHead_length (r : List Byte) (h : 468 ≤ r.length) :
    ∃ f, readNetMsgHead r = some ((f, toWord32 (le ((r.drop 464).take 4))), r.drop 468) ∧
      f.msg = [] := by
  obtain ⟨d, hd⟩ := Reader.fixed_apply readDemoInfo_fixed r (by omega)
  unfold readNetMsgHead
  rw [Reader.bind_of_eq _ hd]
  rw [Reader.bind_of_eq _ (read_object32_eq _ (by simp only [List.length_drop]; omega))]
  rw [Reader.bind_of_eq _ (read_object32_eq _ (by simp only [List.length_drop]; omega))]
  rw [Reader.bind_of_eq _ (read_object32_eq _ (by simp only [List.length_drop]; omega))]
  rw [Reader.bind_of_eq _ (read_object32_eq _ (by simp only [List.length_drop]; omega))]
  rw [Reader.bind_of_eq _ (read_object32_eq _ (by simp only [List.length_drop]; omega))]
  rw [Reader.bind_of_eq _ (read_object32_eq _ (by simp only [List.length_drop]; omega))]
  rw [Reader.bind_of_eq _ (read_object32_eq _ (by simp only [List.length_drop]; omega))]
  rw [Reader.bind_of_eq _ (read_object32_eq _ (by simp only [List.length_drop]; omega))]
  rw [Reader.pure_apply]
  simp only [List.drop_drop]
  exact ⟨_, rfl, rfl⟩

/-- The `default` case on a stream that holds the 468-byte block: the frame is appended
exactly when the length field L is in [0, 65536] and at most the number of bytes after
it; the message is then the next L bytes.  Otherwise the loop stops. -/
theorem caseNetMsg_eq (n : Nat) (type : Byte) (time frame : Word32) (r : List Byte)
    (h : 468 ≤ r.length) :
    (0 ≤ netMsgLengthField r ∧ netMsgLengthField r ≤ 65536 ∧
        netMsgLengthField r ≤ (r.length : Int) - 468 →
      ∃ m, caseNetMsg n type time frame r =
          .appended (DemoFrame.mk type time frame (.NetMsgFrame m)) false
            (r.drop (468 + (netMsgLengthField r).toNat)) ∧
        m.msg = (r.drop 468).take (netMsgLengthField r).toNat ∧
        (m.msg.length : Int) = netMsgLengthField r) ∧
    (¬ (0 ≤ netMsgLengthField r ∧ netMsgLengthField r ≤ 65536 ∧
        netMsgLengthField r ≤ (r.length : Int) - 468) →
      caseNetMsg n type time frame r = .stopped) := by
  obtain ⟨f, hf, _⟩ := readNetMsgHead_length r h
  unfold caseNetMsg
  rw [if_neg (fun hg => by
    have := (guard_iff _ _ _).1 hg
    simp only [FRAME_NETMSG_SIZE] at this
    omega), hf]
  simp only [FRAME_NETMSG_MIN_MESSAGE_LENGTH, FRAME_NETMSG_MAX_MESSAGE_LENGTH]
  have hL : int32 (toWord32 (le ((r.drop 464).take 4))) = netMsgLengthField r := rfl
  rw [hL]
  constructor
  · rintro ⟨h0, h1, h2⟩
    rw [if_neg (by omega), if_neg (fun hg => by
      have := (guard1_iff _ _ _).1 hg
      simp only [List.length_drop] at this
      omega)]
    have hk : (netMsgLengthField r).toNat ≤ (r.drop 468).length := by
      simp only [List.length_drop]; omega
    rw [read_objects_eq _ _ hk]
    simp only [List.drop_drop]
    refine ⟨_, rfl, rfl, ?_⟩
    simp only [List.length_take, List.length_drop]
    omega
  · intro hn
    by_cases hr : netMsgLengthField r < 0 ∨ netMsgLengthField r > 65536
    · rw [if_pos hr]
    · rw [if_neg hr, if_pos]
      rw [guard1_iff]
      simp only [List.length_drop]
      omega

theorem ReadFrames_entryFrames (S : List Byte) (m : DemoFile)
    (h : DemoFile.DemoFile S = .ok m) :
    ∀ e ∈ (m.ReadFrames).2.directoryEntries, EntryFrames e.frames := by
  obtain ⟨_, hfresh, _, hes, _, _⟩ := DemoFile_ok_props S m h
  by_cases hp : m.header.demoProtocol = 5
  · obtain ⟨_, _, hentries, _⟩ := ReadFrames_eq m hfresh hp
    rw [hentries]
    exact (readEntries_frames m.demo m.directoryEntries (fun e he => (hes e he).1)).1
  · intro e he
    have : (m.ReadFrames).2 = m := by
      unfold DemoFile.ReadFrames
      rw [if_neg (by simp [hfresh]), if_pos hp]
    rw [this] at he
    rw [(hes e he).1]
    exact entryFrames_nil

/-- C11. In the `default` case of the `switch` (every tag other than 2..9), on a stream
that holds the fixed 468-byte block, the frame is appended if and only if the length field
L satisfies 0 <= L <= 65536 and L is at most the number of bytes after the field; its
message is then exactly the next L bytes.  In every other case (L negative, L > 65536, or
fewer than L bytes left) the loop of the entry stops and nothing is appended.  Hence every
network-message frame in an object after `ReadFrames` has a message of at most 65536
bytes. -/
theorem netmsg_length_bounds :
    (∀ (n : Nat) (type : Byte) (time frame : Word32) (r : List Byte),
      IsNetMsgType type → 468 ≤ r.length →
      (0 ≤ netMsgLengthField r ∧ netMsgLengthField r ≤ 65536 ∧
          netMsgLengthField r ≤ (r.length : Int) - 468 →
        ∃ m, readFrameSwitch n type time frame r =
            .appended (DemoFrame.mk type time frame (.NetMsgFrame m)) false
              (r.drop (468 + (netMsgLengthField r).toNat)) ∧
          m.msg = (r.drop 468).take (netMsgLengthField r).toNat ∧
          (m.msg.length : Int) = netMsgLengthField r) ∧
      (¬ (0 ≤ netMsgLengthField r ∧ netMsgLengthField r ≤ 65536 ∧
          netMsgLengthField r ≤ (r.length : Int) - 468) →
        readFrameSwitch n type time frame r = .stopped)) ∧
    (∀ (S : List Byte) (m0 : DemoFile), DemoFile.DemoFile S = .ok m0 →
      ∀ e ∈ (m0.ReadFrames).2.directoryEntries, ∀ f ∈ e.frames, ∀ m : NetMsgFrame,
        f.object = .NetMsgFrame m → m.msg.length ≤ 65536) := by
  constructor
  · intro n type time frame r ht h
    rw [readFrameSwitch_netMsg n type time frame r ht]
    exact caseNetMsg_eq n type time frame r h
  · intro S m0 h e he f hf m hm
    have hc := (ReadFrames_entryFrames S m0 h e he).1 f hf
    unfold DemoFrame.Canonical at hc
    rw [hm] at hc
    exact hc.2.2

theorem netMsgBlock_length (L k : Nat) : (netMsgBlock L k).length = 468 + k := by
  unfold netMsgBlock
  rw [List.length_append, List.length_append, List.length_replicate, List.length_replicate,
    toLE_length]

theorem netMsgLengthField_block (L k : Nat) (hL : L < 2147483648) :
    netMsgLengthField (netMsgBlock L k) = (L : Int) := by
  unfold netMsgLengthField netMsgBlock
  have h1 : (List.replicate 464 (0 : Byte) ++ toLE 4 L ++ List.replicate k 0).drop 464 =
      toLE 4 L ++ List.replicate k 0 := by
    rw [List.append_assoc]
    exact drop_append_of_length _ _ _ (List.length_replicate _ _)
  rw [h1, take_append_of_length _ _ _ (toLE_length 4 L), le_toLE]
  have h2 : L % 256 ^ 4 = L := Nat.mod_eq_of_lt (by norm_num; omega)
  rw [h2]
  exact int32_castInt32 L hL

/-- C11, the boundary: a block that declares 65536 message bytes and is followed by 65536
bytes gives a frame with a message of 65536 bytes; a block that declares 65537 bytes and is
followed by 65537 bytes stops the loop. -/
theorem netmsg_length_bounds_witness :
    (∃ m r', readFrameSwitch 0 1 0 0 (netMsgBlock 65536 65536) =
        .appended (DemoFrame.mk 1 0 0 (.NetMsgFrame m)) false r' ∧
      (m.msg.length : Int) = 65536) ∧
    readFrameSwitch 0 1 0 0 (netMsgBlock 65537 65537) = .stopped := by
  have hL1 := netMsgLengthField_block 65536 65536 (by omega)
  have hL2 := netMsgLengthField_block 65537 65537 (by omega)
  have hn1 := netMsgBlock_length 65536 65536
  have hn2 := netMsgBlock_length 65537 65537
  have ht : IsNetMsgType 1 := by unfold IsNetMsgType; decide
  constructor
  · obtain ⟨m, h1, _, h3⟩ := (netmsg_length_bounds.1 0 1 0 0 (netMsgBlock 65536 65536) ht
      (by rw [hn1]; omega)).1 (by rw [hL1, hn1]; omega)
    rw [hL1] at h3
    exact ⟨m, _, h1, h3⟩
  · exact (netmsg_length_bounds.1 0 1 0 0 (netMsgBlock 65537 65537) ht
      (by rw [hn2]; omega)).2 (by rw [hL2, hn2]; omega)

/-- One pass of the loop on a stream of at least 12 bytes: the first 9 bytes are the
members `type`, `time` and `frame`, and the `switch` goes on behind them. -/
theorem readFrame_eq (n : Nat) (r : List Byte) (h : 12 ≤ r.length) :
    readFrame n r =
      readFrameSwitch n (toByte (le (r.take 1))) (toWord32 (le ((r.drop 1).take 4)))
        (toWord32 (le ((r.drop 5).take 4))) (r.drop 9) := by
  unfold readFrame
  rw [if_neg (fun hg => by
    have := (guard_iff _ _ _).1 hg
    simp only [MIN_FRAME_SIZE] at this
    omega)]
  unfold readFrameHead
  rw [Reader.bind_of_eq _ (read_object8_eq r (by omega))]
  rw [Reader.bind_of_eq _ (read_object32_eq _ (by simp only [List.length_drop]; omega))]
  rw [Reader.bind_of_eq _ (read_object32_eq _ (by simp only [List.length_drop]; omega))]
  rw [Reader.pure_apply]
  simp only [List.drop_drop]

theorem readFrame_short (n : Nat) (r : List Byte) (h : r.length < 12) :
    readFrame n r = .stopped := by
  unfold readFrame
  rw [if_pos ((guard_iff _ _ _).2 (by simp only [MIN_FRAME_SIZE]; exact h))]

/-- C19. When fewer than 12 bytes of the file are left at the top of the frame loop, the
pass ends the loop of the entry: no frame is appended and nothing is thrown, whatever the
bytes are (a complete 9-byte NEXT_SECTION frame included).  When at least 12 bytes are
left, the pass reads exactly 9 bytes, the tag, the time and the frame index, and enters the
`switch` with the rest. -/
theorem twelve_byte_margin (n : Nat) (r : List Byte) :
    (r.length < 12 →
      readFrame n r = .stopped ∧
      ∀ (fuel : Nat) (frames : List DemoFrame),
        readFrameLoop n (fuel + 1) r frames = .done frames) ∧
    (12 ≤ r.length →
      readFrame n r =
        readFrameSwitch n (toByte (le (r.take 1))) (toWord32 (le ((r.drop 1).take 4)))
          (toWord32 (le ((r.drop 5).take 4))) (r.drop 9) ∧
      (r.drop 9).length + 9 = r.length) := by
  constructor
  · intro h
    refine ⟨readFrame_short n r h, fun fuel frames => ?_⟩
    unfold readFrameLoop
    rw [readFrame_short n r h]
  · intro h
    refine ⟨readFrame_eq n r h, ?_⟩
    rw [List.length_drop]
    omega

/-- C19, instances: a NEXT_SECTION frame in the last 9, 10 or 11 bytes of a file is not
read; with 12 bytes left it is. -/
theorem twelve_byte_margin_witness :
    readFrameLoop 9 10 [5, 0, 0, 0, 0, 0, 0, 0, 0] [] = .done [] ∧
    readFrameLoop 10 11 [5, 0, 0, 0, 0, 0, 0, 0, 0, 0] [] = .done [] ∧
    readFrameLoop 11 12 [5, 0, 0, 0, 0, 0, 0, 0, 0, 0, 0] [] = .done [] ∧
    readFrameLoop 12 13 [5, 0, 0, 0, 0, 0, 0, 0, 0, 0, 0, 0] [] = .done [nextSectionFrame] :=
  ⟨((twelve_byte_margin 9 [5, 0, 0, 0, 0, 0, 0, 0, 0]).1 (by decide)).2 9 [],
    ((twelve_byte_margin 10 [5, 0, 0, 0, 0, 0, 0, 0, 0, 0]).1 (by decide)).2 10 [],
    ((twelve_byte_margin 11 [5, 0, 0, 0, 0, 0, 0, 0, 0, 0, 0]).1 (by decide)).2 11 [],
    by decide!⟩

theorem layoutOfTag_netMsg (t : Byte) (h : IsNetMsgType t) : layoutOfTag t = .networkMessage := by
  obtain ⟨h2, h3, h4, h5, h6, h7, h8, h9⟩ := h
  have e2 : t.val ≠ 2 := fun e => h2 (Fin.ext e)
  have e3 : t.val ≠ 3 := fun e => h3 (Fin.ext e)
  have e4 : t.val ≠ 4 := fun e => h4 (Fin.ext e)
  have e5 : t.val ≠ 5 := fun e => h5 (Fin.ext e)
  have e6 : t.val ≠ 6 := fun e => h6 (Fin.ext e)
  have e7 : t.val ≠ 7 := fun e => h7 (Fin.ext e)
  have e8 : t.val ≠ 8 := fun e => h8 (Fin.ext e)
  have e9 : t.val ≠ 9 := fun e => h9 (Fin.ext e)
  unfold layoutOfTag
  rw [if_neg e2, if_neg e3, if_neg e4, if_neg e5, if_neg e6, if_neg e7, if_neg e8, if_neg e9]

theorem tag_cases (t : Byte) :
    t = DemoFrameType.DEMO_START ∨ t = DemoFrameType.CONSOLE_COMMAND ∨
    t = DemoFrameType.CLIENT_DATA ∨ t = DemoFrameType.NEXT_SECTION ∨
    t = DemoFrameType.EVENT ∨ t = DemoFrameType.WEAPON_ANIM ∨ t = DemoFrameType.SOUND ∨
    t = DemoFrameType.DEMO_BUFFER ∨ IsNetMsgType t := by
  unfold IsNetMsgType
  tauto

theorem readFrameSwitch_layout (n : Nat) (t : Byte) (time frame : Word32) (r : List Byte) :
    readFrameSwitch n t time frame r = decodeLayout n (layoutOfTag t) t time frame r := by
  rcases tag_cases t with h | h | h | h | h | h | h | h | h
  · rw [readFrameSwitch_demoStart _ _ _ _ _ h, h]; rfl
  · rw [readFrameSwitch_consoleCommand _ _ _ _ _ h, h]; rfl
  · rw [readFrameSwitch_clientData _ _ _ _ _ h, h]; rfl
  · rw [readFrameSwitch_nextSection _ _ _ _ _ h, h]; rfl
  · rw [readFrameSwitch_event _ _ _ _ _ h, h]; rfl
  · rw [readFrameSwitch_weaponAnim _ _ _ _ _ h, h]; rfl
  · rw [readFrameSwitch_sound _ _ _ _ _ h, h]; rfl
  · rw [readFrameSwitch_demoBuffer _ _ _ _ _ h, h]; rfl
  · rw [readFrameSwitch_netMsg _ _ _ _ _ h, layoutOfTag_netMsg t h]; rfl

theorem writeFrame_layout (f : DemoFrame) : writeFrame f = encodeLayout (layoutOfTag f.type) f := by
  obtain ⟨type, time, frame, obj⟩ := f
  rcases tag_cases type with h | h | h | h | h | h | h | h | h
  · subst h; cases obj <;> rfl
  · subst h; cases obj <;> rfl
  · subst h; cases obj <;> rfl
  · subst h; cases obj <;> rfl
  · subst h; cases obj <;> rfl
  · subst h; cases obj <;> rfl
  · subst h; cases obj <;> rfl
  · subst h; cases obj <;> rfl
  · have hl := layoutOfTag_netMsg type h
    obtain ⟨h2, h3, h4, h5, h6, h7, h8, h9⟩ := h
    simp only [hl]
    unfold writeFrame encodeLayout
    simp only []
    rw [if_neg h2, if_neg h3, if_neg h4, if_neg h5, if_neg h6, if_neg h7, if_neg h8, if_neg h9]
    cases obj <;> rfl

theorem writeFrameHead_cons (t : Byte) (time frame : Word32) :
    writeFrameHead t time frame = t :: (write_object32 time ++ write_object32 frame) := by
  unfold writeFrameHead write_object8 toLE toLE toByte
  have : t.val % 256 = t.val := Nat.mod_eq_of_lt t.isLt
  simp only [this]
  rfl

theorem writeFrame_head (f : DemoFrame) (b : List Byte) (h : writeFrame f = some b) :
    b.head? = some f.type := by
  rw [writeFrame_layout] at h
  unfold encodeLayout at h
  split at h
  all_goals first
    | (cases h; done)
    | (simp only [Option.some.injEq] at h
       rw [← h, writeFrameHead_cons]
       rfl)

theorem readFrame_type (n : Nat) (r : List Byte) (f : DemoFrame) (stop : Bool)
    (r' : List Byte) (h : readFrame n r = .appended f stop r') :
    r.head? = some f.type ∧ f.Canonical := by
  by_cases hs : r.length < 12
  · rw [readFrame_short n r hs] at h; cases h
  · rw [readFrame_eq n r (by omega)] at h
    rcases readFrameSwitch_good n (toByte (le (r.take 1))) (toWord32 (le ((r.drop 1).take 4)))
      (toWord32 (le ((r.drop 5).take 4))) (r.drop 9) with hg | hg | ⟨g, k, hg, _, hc, ht, _, _⟩
    · rw [hg] at h; cases h
    · rw [hg] at h; cases h
    · rw [hg] at h
      simp only [FrameStep.appended.injEq] at h
      rw [← h.1]
      refine ⟨?_, hc⟩
      rw [ht]
      cases r with
      | nil => simp at hs
      | cons a rest =>
        have : a.val % 256 = a.val := Nat.mod_eq_of_lt a.isLt
        simp [le, toByte, this]

/-- C17. The decoder and the encoder select the payload layout from the tag byte by the
same table: 2 segment start, 3 console command, 4 client state, 5 segment terminator,
6 game event, 7 weapon animation, 8 sound, 9 raw buffer, and every other value (0, 1,
10..255) network message.  A decoded frame keeps the tag byte of the file, and `Save`
writes that byte back as the first byte of the frame. -/
theorem kind_dispatch :
    (∀ (n : Nat) (t : Byte) (time frame : Word32) (r : List Byte),
      readFrameSwitch n t time frame r = decodeLayout n (layoutOfTag t) t time frame r) ∧
    (∀ f : DemoFrame, writeFrame f = encodeLayout (layoutOfTag f.type) f) ∧
    (∀ t : Byte, layoutOfTag t = .networkMessage ↔ (t.val < 2 ∨ 9 < t.val)) ∧
    (∀ (n : Nat) (r : List Byte) (f : DemoFrame) (stop : Bool) (r' : List Byte),
      readFrame n r = .appended f stop r' →
      r.head? = some f.type ∧ ∃ b, writeFrame f = some b ∧ b.head? = some f.type) := by
  refine ⟨readFrameSwitch_layout, writeFrame_layout, ?_, ?_⟩
  · intro t
    unfold layoutOfTag
    constructor
    · intro h
      by_contra hc
      have : t.val = 2 ∨ t.val = 3 ∨ t.val = 4 ∨ t.val = 5 ∨ t.val = 6 ∨ t.val = 7 ∨
          t.val = 8 ∨ t.val = 9 := by omega
      rcases this with e | e | e | e | e | e | e | e <;> simp [e] at h
    · intro h
      have e2 : t.val ≠ 2 := by omega
      have e3 : t.val ≠ 3 := by omega
      have e4 : t.val ≠ 4 := by omega
      have e5 : t.val ≠ 5 := by omega
      have e6 : t.val ≠ 6 := by omega
      have e7 : t.val ≠ 7 := by omega
      have e8 : t.val ≠ 8 := by omega
      have e9 : t.val ≠ 9 := by omega
      rw [if_neg e2, if_neg e3, if_neg e4, if_neg e5, if_neg e6, if_neg e7, if_neg e8, if_neg e9]
  · intro n r f stop r' h
    obtain ⟨h1, hc⟩ := readFrame_type n r f stop r' h
    obtain ⟨b, hb⟩ := Option.isSome_iff_exists.1 (canonical_writable f hc)
    exact ⟨h1, b, hb, writeFrame_head f b hb⟩

/-- C17, instances: a network-message frame with the tag 200 in a file is decoded as a
network message that keeps the tag 200, and is written back with the tag 200. -/
theorem kind_dispatch_witness :
    layoutOfTag 200 = .networkMessage ∧ layoutOfTag 7 = .weaponAnimation ∧
    readFrame 0 (frameBytes tag200Frame ++ [0, 0, 0]) =
      .appended tag200Frame false [0, 0, 0] ∧
    (frameBytes tag200Frame ++ [0, 0, 0]).head? = some 200 ∧
    ∃ b, writeFrame tag200Frame = some b ∧ b.head? = some 200 :=
  have h : readFrame 0 (frameBytes tag200Frame ++ [0, 0, 0]) =
      .appended tag200Frame false [0, 0, 0] := by decide!
  ⟨by decide, by decide, h, (kind_dispatch.2.2.2 0 _ _ _ _ h).1,
    (kind_dispatch.2.2.2 0 _ _ _ _ h).2⟩

/-- An entry whose offset is negative or beyond the end of the file is skipped: the entry
loop ends as it does without that entry (with the same exception, if any), the entry itself
is left as it was, and the other entries come out as they do without it. -/
theorem readEntries_skip (S : List Byte) (e : DemoDirectoryEntry)
    (h : int32 e.offset < 0 ∨ (S.length : Int) < int32 e.offset) :
    ∀ pre post : List DemoDirectoryEntry,
      (readEntries S (pre ++ e :: post)).1 = (readEntries S (pre ++ post)).1 ∧
      (readEntries S (pre ++ e :: post)).2 =
        (readEntries S (pre ++ post)).2.take pre.length ++
          e :: (readEntries S (pre ++ post)).2.drop pre.length := by
  intro pre
  induction pre with
  | nil =>
    intro post
    simp only [List.nil_append, List.length_nil, List.take_zero, List.drop_zero]
    rw [readEntries, if_pos h]
    exact ⟨rfl, rfl⟩
  | cons p pre ih =>
    intro post
    obtain ⟨ih1, ih2⟩ := ih post
    simp only [List.cons_append, List.length_cons]
    rw [readEntries, readEntries]
    by_cases hp : int32 p.offset < 0 ∨ (S.length : Int) < int32 p.offset
    · rw [if_pos hp, if_pos hp]
      simp only [List.take_succ_cons, List.drop_succ_cons, List.cons_append]
      exact ⟨ih1, by rw [ih2]⟩
    · rw [if_neg hp, if_neg hp]
      cases readFrameLoop S.length (S.length + 1) (S.drop (int32 p.offset).toNat) p.frames with
      | done frames =>
        simp only [List.take_succ_cons, List.drop_succ_cons, List.cons_append]
        exact ⟨ih1, by rw [ih2]⟩
      | thrown err frames =>
        simp only [List.take_succ_cons, List.drop_succ_cons, List.cons_append]
        refine ⟨trivial, ?_⟩
        rw [List.take_left, List.drop_left]

/-- C18, failing input.  The file `invalidOffsetFile 1782` has 1812 bytes, is accepted and
has demo protocol 5.  Its first three entries have the offsets -1, 100000 and 1812 (the
file size); they are skipped or stop at once and stay empty.  Its fourth entry points at a
stream with a raw-buffer frame of length -1: `ReadFrames` throws `std::length_error`
there, and the fifth entry, which points at a complete stream of nine frames, is not
decoded.  In `invalidOffsetFile 4294967295` the fourth entry has the offset -1 as well;
there `ReadFrames` succeeds and the fifth entry is decoded in full. -/
theorem ReadFrames_invalid_offset_fails :
    ((invalidOffsetFile 1782).length = 1812 ∧
      DemoFile.DemoFile (invalidOffsetFile 1782) = .ok (opened (invalidOffsetFile 1782)) ∧
      (opened (invalidOffsetFile 1782)).header.demoProtocol = 5 ∧
      (opened (invalidOffsetFile 1782)).directoryEntries.map (fun e => int32 e.offset) =
        [-1, 100000, 1812, 1782, 1008] ∧
      ((opened (invalidOffsetFile 1782)).ReadFrames).1 = some .lengthError ∧
      ((opened (invalidOffsetFile 1782)).ReadFrames).2.directoryEntries.map
        (fun e => e.frames) = [[], [], [], [sampleWeaponAnimFrame], []]) ∧
    (DemoFile.DemoFile (invalidOffsetFile 4294967295) =
        .ok (opened (invalidOffsetFile 4294967295)) ∧
      ((opened (invalidOffsetFile 4294967295)).ReadFrames).1 = none ∧
      ((opened (invalidOffsetFile 4294967295)).ReadFrames).2.directoryEntries.map
        (fun e => e.frames) = [[], [], [], [], sampleFrames]) := by
  decide!

theorem write_text_eq (N : Nat) (s : List Byte) : write_text N s = fixedText N s := by
  unfold write_text resize fixedText
  by_cases h : s.length < N
  · rw [if_pos h]
    have h1 : (s ++ [0]).take N = s ++ [0] := by
      apply List.take_of_length_le
      rw [List.length_append, List.length_singleton]
      omega
    rw [h1, List.append_assoc]
    congr 1
    have h2 : N - s.length = (N - (s ++ [0]).length) + 1 := by
      rw [List.length_append, List.length_singleton]
      omega
    rw [h2, List.replicate_succ]
    rfl
  · rw [if_neg h]
    have h1 : (s ++ [0]).take N = s.take N := List.take_append_of_le_length (by omega)
    have h2 : N - (s ++ [0]).length = 0 := by
      rw [List.length_append, List.length_singleton]
      omega
    rw [h1, h2, List.replicate_zero, List.append_nil]

theorem fixedText_length (N : Nat) (s : List Byte) : (fixedText N s).length = N := by
  rw [← write_text_eq, write_text_length]

theorem cstr_of_not_mem (t : List Byte) (h : (0 : Byte) ∉ t) : cstr t = t := by
  unfold cstr
  rw [List.takeWhile_eq_self_iff]
  intro a ha
  simp only [ne_eq, decide_not, Bool.not_eq_true', decide_eq_false_iff_not]
  intro h0
  subst h0
  exact h ha

theorem cstr_append_zero (a b : List Byte) (h : (0 : Byte) ∉ a) : cstr (a ++ 0 :: b) = a := by
  unfold cstr
  have hp : ∀ x ∈ a, (decide (x ≠ 0)) = true := by
    intro x hx
    simp only [ne_eq, decide_not, Bool.not_eq_true', decide_eq_false_iff_not]
    intro h0; subst h0; exact h hx
  rw [List.takeWhile_append_of_pos hp]
  simp

theorem cstr_write_text_take (N : Nat) (s : List Byte) (h : (0 : Byte) ∉ s) :
    cstr (write_text N s) = s.take N := by
  by_cases hl : s.length ≤ N
  · rw [cstr_write_text N s ⟨hl, h⟩, List.take_of_length_le hl]
  · rw [write_text_eq]
    unfold fixedText
    rw [if_neg (by omega)]
    exact cstr_of_not_mem _ (fun hm => h (List.mem_of_mem_take hm))

/-- C16. A text field of `N` bytes (260 for the map name and the game directory, 64 for
an entry description and a console command, 32 for the sky name).  The encoder writes
exactly `N` bytes for a string; for a string `s` without NUL the decoder reads back the
first min(|s|, N) bytes of `s`, so `s` itself when |s| <= N.  On any buffer of `N` bytes
the decoder yields the bytes before the first NUL, or the whole buffer when it holds no
NUL, so a decoded text has at most `N` bytes and no NUL. -/
theorem text_field_roundtrip (N : Nat) (s buf r : List Byte) (hs : (0 : Byte) ∉ s)
    (hbuf : buf.length = N) :
    (write_text N s).length = N ∧
    read_text N (write_text N s ++ r) = some (s.take N, r) ∧
    (s.take N).length = min s.length N ∧
    (s.length ≤ N → read_text N (write_text N s ++ r) = some (s, r)) ∧
    (∃ t, read_text N (buf ++ r) = some (t, r) ∧ t.length ≤ N ∧ (0 : Byte) ∉ t ∧
      ((0 : Byte) ∉ buf → t = buf) ∧
      (∀ a b, buf = a ++ 0 :: b → (0 : Byte) ∉ a → t = a)) ∧
    (HEADER_MAPNAME_SIZE = 260 ∧ HEADER_GAMEDIR_SIZE = 260 ∧ DIR_ENTRY_DESCRIPTION_SIZE = 64 ∧
      FRAME_CONSOLE_COMMAND_SIZE = 64 ∧ FRAME_NETMSG_DEMOINFO_MOVEVARS_SKYNAME_SIZE = 32) := by
  have hw := write_text_length N s
  have h1 : read_text N (write_text N s ++ r) = some (s.take N, r) := by
    rw [read_text_eq N _ (by rw [List.length_append, hw]; omega),
      take_append_of_length _ _ _ hw, drop_append_of_length _ _ _ hw,
      cstr_write_text_take N s hs]
  refine ⟨hw, h1, by rw [List.length_take, Nat.min_comm], ?_, ?_, ⟨rfl, rfl, rfl, rfl, rfl⟩⟩
  · intro hl
    rw [h1, List.take_of_length_le hl]
  · refine ⟨cstr buf, ?_, ?_, ?_, ?_, ?_⟩
    · rw [read_text_eq N _ (by rw [List.length_append, hbuf]; omega),
        take_append_of_length _ _ _ hbuf, drop_append_of_length _ _ _ hbuf]
    · exact (cstr_CStr N buf (by omega)).1
    · exact (cstr_CStr N buf (by omega)).2
    · exact cstr_of_not_mem buf
    · intro a b hab ha
      rw [hab]
      exact cstr_append_zero a b ha

/-- C16, instances: a sky name of three bytes in its field of 32 bytes; a string of 40
bytes in the same field is cut to 32 bytes; a buffer with a NUL at position 2 yields its
first two bytes. -/
theorem text_field_roundtrip_witness :
    read_text 32 (write_text 32 (ascii ['s', 'k', 'y']) ++ [7]) =
      some (ascii ['s', 'k', 'y'], [7]) ∧
    read_text 32 (write_text 32 (List.replicate 40 65) ++ [7]) =
      some (List.replicate 32 65, [7]) ∧
    read_text 4 ([65, 66, 0, 67] ++ [7]) = some ([65, 66], [7]) :=
  ⟨((text_field_roundtrip 32 (ascii ['s', 'k', 'y']) (List.replicate 32 0) [7] (by decide)
      (by decide)).2.2.2.1) (by decide),
    (text_field_roundtrip 32 (List.replicate 40 65) (List.replicate 32 0) [7] (by decide)
      (by decide)).2.1,
    by decide⟩

/-- C15. For an object that `Save` can write, the first 544 bytes of the output are: the
eight bytes H L D E M O 0 0, the demo protocol and the net protocol (4 bytes each, little
endian), the map name in 260 bytes and the game directory in 260 bytes (each followed by
zero bytes up to 260 when shorter, cut to its first 260 bytes otherwise), the map checksum
(4 bytes) and the directory offset (4 bytes), which is the offset that `Save` stores in
the object. -/
theorem Save_header (d : DemoFile)
    (hw : ∀ e ∈ d.directoryEntries, ∀ f ∈ e.frames, f.Writable) :
    ∃ B d', d.Save = some (B, d') ∧
      B.take 544 =
        ascii ['H', 'L', 'D', 'E', 'M', 'O'] ++ [0, 0] ++
          toLE 4 d.header.demoProtocol.val ++ toLE 4 d.header.netProtocol.val ++
          fixedText 260 d.header.mapName ++ fixedText 260 d.header.gameDir ++
          toLE 4 d.header.mapCRC.val ++ toLE 4 d'.header.directoryOffset.val ∧
      (B.take 544).length = 544 ∧
      (fixedText 260 d.header.mapName).length = 260 ∧
      (fixedText 260 d.header.gameDir).length = 260 := by
  refine ⟨_, _, Save_eq d hw, ?_, ?_, fixedText_length _ _, fixedText_length _ _⟩
  · have hl : (writeHeader d.header ++
        write_object32 (castInt32 (savedDirectoryOffset d))).length = 544 := by
      rw [List.length_append, writeHeader_length, write_object32_length]
    rw [List.append_assoc (writeHeader d.header ++ _), take_append_of_length _ _ _ hl]
    unfold writeHeader write_object32
    rw [write_text_eq, write_text_eq]
    rfl
  · have hl : (writeHeader d.header ++
        write_object32 (castInt32 (savedDirectoryOffset d))).length = 544 := by
      rw [List.length_append, writeHeader_length, write_object32_length]
    rw [List.append_assoc (writeHeader d.header ++ _), take_append_of_length _ _ _ hl, hl]

/-- C13. For an object that `Save` can write, the frame stream written for an entry is the
encodings of the entry's frames in their order, followed by the nine bytes 5 0 0 0 0 0 0 0
0 (a NEXT_SECTION frame with time 0 and frame 0) if and only if no frame of the entry has
the tag NEXT_SECTION; the streams follow the 544 header bytes in the order of the entries
and precede the directory.  The frame lists of the object are the same after `Save`. -/
theorem Save_synthesis (d : DemoFile)
    (hw : ∀ e ∈ d.directoryEntries, ∀ f ∈ e.frames, f.Writable) :
    ∃ B d', d.Save = some (B, d') ∧
      B = writeHeader d.header ++ write_object32 d'.header.directoryOffset ++
          (d.directoryEntries.map (fun e =>
            (e.frames.map frameBytes).flatten ++
              if e.frames.any (fun f => decide (f.type = DemoFrameType.NEXT_SECTION)) then []
              else [5, 0, 0, 0, 0, 0, 0, 0, 0])).flatten ++
          writeDirectory d'.directoryEntries ∧
      (∀ e ∈ d.directoryEntries, ∀ f ∈ e.frames, writeFrame f = some (frameBytes f)) ∧
      d'.directoryEntries.map (fun e => e.frames) =
        d.directoryEntries.map (fun e => e.frames) := by
  refine ⟨_, _, Save_eq d hw, ?_, ?_, assignOffsets_map_frames _ _⟩
  · have : d.directoryEntries.map entryStream = d.directoryEntries.map (fun e =>
        (e.frames.map frameBytes).flatten ++
          if e.frames.any (fun f => decide (f.type = DemoFrameType.NEXT_SECTION)) then []
          else [5, 0, 0, 0, 0, 0, 0, 0, 0]) := by
      apply List.map_congr_left
      intro e _
      rw [entryStream_eq]
      rfl
    rw [this]
  · intro e he f hf
    obtain ⟨b, hb⟩ := Option.isSome_iff_exists.1 (hw e he f hf)
    unfold frameBytes
    rw [hb]
    rfl

/-- Facts of the object read from the sample file, by evaluation: its map name, which
entries hold a NEXT_SECTION frame, the offsets it carries from the source, the positions
where `Save` writes its streams and its directory, and the result of `Save`. -/
theorem sampleRead_facts :
    sampleRead.header.mapName = ascii ['c', '1', 'a', '0'] ∧
    sampleRead.directoryEntries.map (fun e =>
      e.frames.any (fun f => decide (f.type = DemoFrameType.NEXT_SECTION))) = [true, false] ∧
    sampleRead.directoryEntries.map (fun e => int32 e.offset) = [732, 1506] ∧
    [entryPosition sampleRead.directoryEntries 0, entryPosition sampleRead.directoryEntries 1,
      entryPosition sampleRead.directoryEntries 2] = [544, 1318, 1344] ∧
    sampleRead.Save = some sampleSaved ∧
    sampleSaved.2.directoryEntries.map (fun e => int32 e.offset) = [544, 1318] ∧
    sampleSaved.1.length = 1532 := by
  decide!

/-- C15, instance: the object read from the sample file; its header has the map name c1a0
and the game directory valve. -/
theorem Save_header_witness :
    (∀ e ∈ sampleRead.directoryEntries, ∀ f ∈ e.frames, f.Writable) ∧
    sampleRead.header.mapName = ascii ['c', '1', 'a', '0'] ∧
    ∃ B d', sampleRead.Save = some (B, d') ∧
      B.take 544 =
        ascii ['H', 'L', 'D', 'E', 'M', 'O'] ++ [0, 0] ++
          toLE 4 sampleRead.header.demoProtocol.val ++
          toLE 4 sampleRead.header.netProtocol.val ++
          fixedText 260 sampleRead.header.mapName ++ fixedText 260 sampleRead.header.gameDir ++
          toLE 4 sampleRead.header.mapCRC.val ++ toLE 4 d'.header.directoryOffset.val ∧
      (B.take 544).length = 544 ∧
      (fixedText 260 sampleRead.header.mapName).length = 260 ∧
      (fixedText 260 sampleRead.header.gameDir).length = 260 :=
  ⟨sampleFile_facts.2.2.2.2.2.1, sampleRead_facts.1,
    Save_header sampleRead sampleFile_facts.2.2.2.2.2.1⟩

/-- C13, instance: the object read from the sample file; its first entry ends with a
NEXT_SECTION frame, its second entry holds none. -/
theorem Save_synthesis_witness :
    (∀ e ∈ sampleRead.directoryEntries, ∀ f ∈ e.frames, f.Writable) ∧
    sampleRead.directoryEntries.map (fun e =>
      e.frames.any (fun f => decide (f.type = DemoFrameType.NEXT_SECTION))) = [true, false] ∧
    ∃ B d', sampleRead.Save = some (B, d') ∧
      B = writeHeader sampleRead.header ++ write_object32 d'.header.directoryOffset ++
          (sampleRead.directoryEntries.map (fun e =>
            (e.frames.map frameBytes).flatten ++
              if e.frames.any (fun f => decide (f.type = DemoFrameType.NEXT_SECTION)) then []
              else [5, 0, 0, 0, 0, 0, 0, 0, 0])).flatten ++
          writeDirectory d'.directoryEntries ∧
      (∀ e ∈ sampleRead.directoryEntries, ∀ f ∈ e.frames,
        writeFrame f = some (frameBytes f)) ∧
      d'.directoryEntries.map (fun e => e.frames) =
        sampleRead.directoryEntries.map (fun e => e.frames) :=
  ⟨sampleFile_facts.2.2.2.2.2.1, sampleRead_facts.2.1,
    Save_synthesis sampleRead sampleFile_facts.2.2.2.2.2.1⟩

theorem blocks_at {α : Type} (g : α → List Byte) : ∀ (l : List α) (i : Nat) (x : α),
    l[i]? = some x → ∀ rest : List Byte,
    (((l.map g).flatten ++ rest).drop (((l.take i).map (fun a => (g a).length)).sum)).take
      (g x).length = g x := by
  intro l
  induction l with
  | nil => intro i x h; simp at h
  | cons a l ih =>
    intro i x h rest
    cases i with
    | zero =>
      simp only [List.getElem?_cons_zero, Option.some.injEq] at h
      subst h
      simp only [List.take_zero, List.map_nil, List.sum_nil, List.drop_zero, List.map_cons,
        List.flatten_cons, List.append_assoc]
      exact List.take_left _ _
    | succ i =>
      simp only [List.getElem?_cons_succ] at h
      simp only [List.take_succ_cons, List.map_cons, List.sum_cons, List.flatten_cons,
        List.append_assoc]
      rw [← List.drop_drop, List.drop_left]
      exact ih i x h rest

theorem prefix_sum_le {α : Type} (g : α → Nat) : ∀ (l : List α) (i : Nat),
    ((l.take i).map g).sum ≤ (l.map g).sum := by
  intro l
  induction l with
  | nil => intro i; simp
  | cons a l ih =>
    intro i
    cases i with
    | zero => simp
    | succ i =>
      simp only [List.take_succ_cons, List.map_cons, List.sum_cons]
      have := ih i
      omega

theorem flatten_length_sum {α : Type} (g : α → List Byte) : ∀ l : List α,
    ((l.map g).flatten).length = (l.map (fun a => (g a).length)).sum := by
  intro l
  induction l with
  | nil => rfl
  | cons a l ih =>
    simp only [List.map_cons, List.flatten_cons, List.length_append, List.sum_cons, ih]

theorem sum_take_const {α : Type} (g : α → Nat) (c : Nat) (hg : ∀ a, g a = c) :
    ∀ (l : List α) (i : Nat), i ≤ l.length → ((l.take i).map g).sum = c * i := by
  intro l
  induction l with
  | nil => intro i hi; simp at hi; subst hi; simp
  | cons a l ih =>
    intro i hi
    cases i with
    | zero => simp
    | succ i =>
      simp only [List.length_cons] at hi
      simp only [List.take_succ_cons, List.map_cons, List.sum_cons, hg a, ih i (by omega)]
      ring

theorem assignOffsets_getElem : ∀ (es : List DemoDirectoryEntry) (p i : Nat)
    (e : DemoDirectoryEntry), es[i]? = some e →
    (assignOffsets es p)[i]? = some { e with offset := castInt32 (p + streamsBefore es i) } := by
  intro es
  induction es with
  | nil => intro p i e h; simp at h
  | cons a es ih =>
    intro p i e h
    cases i with
    | zero =>
      simp only [List.getElem?_cons_zero, Option.some.injEq] at h
      subst h
      simp [assignOffsets, streamsBefore]
    | succ i =>
      simp only [List.getElem?_cons_succ] at h
      simp only [assignOffsets, List.getElem?_cons_succ, streamsBefore, List.take_succ_cons,
        List.map_cons, List.sum_cons]
      rw [ih (p + (entryStream a).length) i e h, Nat.add_assoc]
      rfl

theorem word_of_write (x : Word32) (r : List Byte) :
    toWord32 (le ((write_object32 x ++ r).take 4)) = x := by
  have h1 := read_object32_eq (write_object32 x ++ r)
    (by rw [List.length_append, write_object32_length]; omega)
  rw [read_object32_write] at h1
  simp only [Option.some.injEq, Prod.mk.injEq] at h1
  exact h1.1.symm

theorem writeDirectoryEntry_tail (e : DemoDirectoryEntry) :
    (writeDirectoryEntry e).drop 80 =
      toLE 4 e.frameCount.val ++ toLE 4 e.offset.val ++ toLE 4 e.fileLength.val := by
  unfold writeDirectoryEntry
  have hl : (write_object32 e.type ++ write_text DIR_ENTRY_DESCRIPTION_SIZE e.description ++
      write_object32 e.flags ++ write_object32 e.CDTrack ++
      write_object32 e.trackTime).length = 80 := by
    simp [DIR_ENTRY_DESCRIPTION_SIZE]
  rw [List.append_assoc (_ ++ write_object32 e.trackTime),
    List.append_assoc (_ ++ write_object32 e.trackTime),
    drop_append_of_length _ _ _ hl]
  simp only [write_object32, List.append_assoc]

theorem streamsBefore_all (es : List DemoDirectoryEntry) :
    streamsBefore es es.length = ((es.map entryStream).flatten).length := by
  unfold streamsBefore
  rw [List.take_length, flatten_length_sum]

theorem streamsBefore_le (es : List DemoDirectoryEntry) (i : Nat) :
    streamsBefore es i ≤ ((es.map entryStream).flatten).length := by
  rw [flatten_length_sum]
  exact prefix_sum_le _ es i

/-- The output of `Save` in the layout `savedFile`. -/
theorem Save_savedFile (d : DemoFile)
    (hw : ∀ e ∈ d.directoryEntries, ∀ f ∈ e.frames, f.Writable) :
    d.Save = some
      (savedFile d.header (d.directoryEntries.map entryStream).flatten
        (assignOffsets d.directoryEntries 544),
       { d with directoryEntries := assignOffsets d.directoryEntries 544,
                header := { d.header with
                  directoryOffset := castInt32 (savedDirectoryOffset d) } }) :=
  Save_eq d hw

theorem savedFile_directoryOffsetField (h : DemoHeader) (X : List Byte)
    (es : List DemoDirectoryEntry) (hX : 544 + X.length < 2147483648) :
    directoryOffsetField (savedFile h X es) = ((544 + X.length : Nat) : Int) := by
  unfold directoryOffsetField savedFile
  rw [List.append_assoc, List.append_assoc, drop_append_of_length _ _ _ (writeHeader_length h),
    word_of_write, int32_castInt32 _ hX]

theorem savedFile_entryCountField (h : DemoHeader) (X : List Byte)
    (es : List DemoDirectoryEntry) (hX : 544 + X.length < 2147483648)
    (hn : es.length < 2147483648) :
    entryCountField (savedFile h X es) = (es.length : Int) := by
  unfold entryCountField
  rw [savedFile_directoryOffsetField h X es hX, Int.toNat_ofNat, savedFile_drop]
  unfold writeDirectory
  rw [word_of_write, int32_castInt32 _ hn]

theorem savedFile_stream (h : DemoHeader) (es es' : List DemoDirectoryEntry) (i : Nat)
    (e : DemoDirectoryEntry) (he : es[i]? = some e) :
    ((savedFile h (es.map entryStream).flatten es').drop (entryPosition es i)).take
      (entryStream e).length = entryStream e := by
  unfold savedFile entryPosition
  have hl : (writeHeader h ++
      write_object32 (castInt32 (544 + ((es.map entryStream).flatten).length))).length =
      544 := by
    rw [List.length_append, writeHeader_length, write_object32_length]
  rw [List.append_assoc (writeHeader h ++ _), ← List.drop_drop,
    drop_append_of_length _ _ _ hl]
  exact blocks_at entryStream es i e he _

theorem savedFile_record (h : DemoHeader) (X : List Byte) (es : List DemoDirectoryEntry)
    (i : Nat) (e : DemoDirectoryEntry) (he : es[i]? = some e) :
    ((savedFile h X es).drop (544 + X.length + 4 + 92 * i)).take 92 = writeDirectoryEntry e := by
  have hi : i < es.length := by
    by_contra hc
    rw [List.getElem?_eq_none (by omega)] at he
    cases he
  have h1 : 544 + X.length + 4 + 92 * i = (544 + X.length) + (4 + 92 * i) := by omega
  rw [h1, ← List.drop_drop, savedFile_drop]
  unfold writeDirectory
  rw [← List.drop_drop, drop_append_of_length _ _ _ (write_object32_length _)]
  have h2 := blocks_at writeDirectoryEntry es i e he []
  rw [List.append_nil, sum_take_const _ 92 writeDirectoryEntry_length es i (by omega),
    writeDirectoryEntry_length] at h2
  exact h2

/-- C14. For an object that `Save` can write and an output below 2^31 bytes: the directory
offset in bytes 540..543 of the output is 544 plus the total size of the frame streams
(terminators that `Save` adds included), the entry count stands at that position, and for
every i the i-th directory record, at 92 * i behind the count, is the i-th entry of the
object with all its members (`frameCount` and `fileLength` included) unchanged except
`offset`, which is 544 plus the total size of the streams of the entries before it; the
stream of the entry starts at that position of the output. -/
theorem Save_offsets (d : DemoFile)
    (hw : ∀ e ∈ d.directoryEntries, ∀ f ∈ e.frames, f.Writable) :
    ∃ B d', d.Save = some (B, d') ∧
      d'.directoryEntries.length = d.directoryEntries.length ∧
      (B.length < 2147483648 →
        directoryOffsetField B =
          (entryPosition d.directoryEntries d.directoryEntries.length : Nat) ∧
        int32 d'.header.directoryOffset =
          (entryPosition d.directoryEntries d.directoryEntries.length : Nat) ∧
        entryCountField B = (d.directoryEntries.length : Nat) ∧
        ∀ (i : Nat) (e : DemoDirectoryEntry), d.directoryEntries[i]? = some e →
          ∃ e', d'.directoryEntries[i]? = some e' ∧
            e' = { e with offset := e'.offset } ∧
            int32 e'.offset = (entryPosition d.directoryEntries i : Nat) ∧
            (B.drop (entryPosition d.directoryEntries i)).take (entryStream e).length =
              entryStream e ∧
            (B.drop (entryPosition d.directoryEntries d.directoryEntries.length + 4 +
              92 * i)).take 92 = writeDirectoryEntry e' ∧
            (writeDirectoryEntry e').drop 80 =
              toLE 4 e.frameCount.val ++ toLE 4 e'.offset.val ++ toLE 4 e.fileLength.val) := by
  refine ⟨_, _, Save_savedFile d hw, assignOffsets_length _ _, fun hB => ?_⟩
  have hlen := savedFile_length d.header (d.directoryEntries.map entryStream).flatten
    (assignOffsets d.directoryEntries 544)
  rw [assignOffsets_length] at hlen
  have hpos : entryPosition d.directoryEntries d.directoryEntries.length =
      544 + ((d.directoryEntries.map entryStream).flatten).length := by
    unfold entryPosition
    rw [streamsBefore_all]
  rw [hpos]
  have hsdo : savedDirectoryOffset d =
      544 + ((d.directoryEntries.map entryStream).flatten).length := rfl
  refine ⟨savedFile_directoryOffsetField _ _ _ (by omega),
    by rw [← hsdo]; exact int32_castInt32 _ (by omega), ?_, ?_⟩
  · have := savedFile_entryCountField d.header (d.directoryEntries.map entryStream).flatten
      (assignOffsets d.directoryEntries 544) (by omega)
      (by rw [assignOffsets_length]; omega)
    rw [assignOffsets_length] at this
    exact this
  · intro i e he
    have he' := assignOffsets_getElem d.directoryEntries 544 i e he
    refine ⟨_, he', rfl, ?_, savedFile_stream _ _ _ i e he,
      savedFile_record _ _ _ i _ he', writeDirectoryEntry_tail _⟩
    have := streamsBefore_le d.directoryEntries i
    exact int32_castInt32 _ (by omega)

/-- C14, instance: the object read from the sample file.  Its entries carry the offsets
732 and 1506 of the source; `Save` writes the streams at 544 and 1318 and the directory at
1344, and stores these numbers. -/
theorem Save_offsets_witness :
    (∀ e ∈ sampleRead.directoryEntries, ∀ f ∈ e.frames, f.Writable) ∧
    sampleRead.directoryEntries.map (fun e => int32 e.offset) = [732, 1506] ∧
    [entryPosition sampleRead.directoryEntries 0, entryPosition sampleRead.directoryEntries 1,
      entryPosition sampleRead.directoryEntries 2] = [544, 1318, 1344] ∧
    ∃ B d', sampleRead.Save = some (B, d') ∧
      d'.directoryEntries.length = sampleRead.directoryEntries.length ∧
      (B.length < 2147483648 →
        directoryOffsetField B =
          (entryPosition sampleRead.directoryEntries sampleRead.directoryEntries.length :
            Nat) ∧
        int32 d'.header.directoryOffset =
          (entryPosition sampleRead.directoryEntries sampleRead.directoryEntries.length :
            Nat) ∧
        entryCountField B = (sampleRead.directoryEntries.length : Nat) ∧
        ∀ (i : Nat) (e : DemoDirectoryEntry), sampleRead.directoryEntries[i]? = some e →
          ∃ e', d'.directoryEntries[i]? = some e' ∧
            e' = { e with offset := e'.offset } ∧
            int32 e'.offset = (entryPosition sampleRead.directoryEntries i : Nat) ∧
            (B.drop (entryPosition sampleRead.directoryEntries i)).take
              (entryStream e).length = entryStream e ∧
            (B.drop (entryPosition sampleRead.directoryEntries
              sampleRead.directoryEntries.length + 4 + 92 * i)).take 92 =
                writeDirectoryEntry e' ∧
            (writeDirectoryEntry e').drop 80 =
              toLE 4 e.frameCount.val ++ toLE 4 e'.offset.val ++ toLE 4 e.fileLength.val) :=
  ⟨sampleFile_facts.2.2.2.2.2.1, sampleRead_facts.2.2.1, sampleRead_facts.2.2.2.1,
    Save_offsets sampleRead sampleFile_facts.2.2.2.2.2.1⟩

theorem writeHeader_withoutDirectoryOffset (h : DemoHeader) :
    writeHeader h.withoutDirectoryOffset = writeHeader h := rfl

theorem entryStream_withoutOffset (e : DemoDirectoryEntry) :
    entryStream e.withoutOffset = entryStream e := rfl

/-- `assignOffsets` keeps whatever does not depend on the offsets. -/
theorem assignOffsets_map {β : Type} (F : DemoDirectoryEntry → β)
    (hF : ∀ (e : DemoDirectoryEntry) (x : Word32), F { e with offset := x } = F e) :
    ∀ (es : List DemoDirectoryEntry) (p : Nat), (assignOffsets es p).map F = es.map F := by
  intro es
  induction es with
  | nil => intro p; rfl
  | cons e es ih =>
    intro p
    simp only [assignOffsets, List.map_cons, hF, ih]

/-- The entries that `Save` leaves do not depend on the offsets stored before. -/
theorem assignOffsets_congr : ∀ (l1 l2 : List DemoDirectoryEntry) (p : Nat),
    l1.map DemoDirectoryEntry.withoutOffset = l2.map DemoDirectoryEntry.withoutOffset →
    assignOffsets l1 p = assignOffsets l2 p := by
  intro l1
  induction l1 with
  | nil =>
    intro l2 p h
    cases l2 with
    | nil => rfl
    | cons b l2 => simp at h
  | cons a l1 ih =>
    intro l2 p h
    cases l2 with
    | nil => simp at h
    | cons b l2 =>
      simp only [List.map_cons, List.cons.injEq] at h
      obtain ⟨hab, hl⟩ := h
      have hs : entryStream a = entryStream b := by
        rw [← entryStream_withoutOffset a, ← entryStream_withoutOffset b, hab]
      have he : ∀ x : Word32, ({ a with offset := x } : DemoDirectoryEntry) =
          { b with offset := x } := by
        intro x
        have := congrArg (fun e : DemoDirectoryEntry => ({ e with offset := x } :
          DemoDirectoryEntry)) hab
        exact this
      simp only [assignOffsets, he, hs, ih l2 _ hl]

theorem writable_congr (l1 l2 : List DemoDirectoryEntry)
    (h : l1.map (fun e => e.frames) = l2.map (fun e => e.frames))
    (hw : ∀ e ∈ l1, ∀ f ∈ e.frames, f.Writable) : ∀ e ∈ l2, ∀ f ∈ e.frames, f.Writable := by
  intro e he f hf
  have h1 : e.frames ∈ l2.map (fun e => e.frames) := List.mem_map_of_mem _ he
  rw [← h] at h1
  obtain ⟨e0, he0, hfr⟩ := List.mem_map.1 h1
  exact hw e0 he0 f (by rw [hfr]; exact hf)

theorem withoutOffset_frames (l1 l2 : List DemoDirectoryEntry)
    (h : l1.map DemoDirectoryEntry.withoutOffset = l2.map DemoDirectoryEntry.withoutOffset) :
    l1.map (fun e => e.frames) = l2.map (fun e => e.frames) := by
  have := congrArg (List.map (fun e : DemoDirectoryEntry => e.frames)) h
  simpa [List.map_map, Function.comp_def, DemoDirectoryEntry.withoutOffset] using this

/-- The output of `Save` is determined by the header without its directory offset and the
entries without their offsets. -/
theorem Save_congr (d1 d2 : DemoFile)
    (hh : d1.header.withoutDirectoryOffset = d2.header.withoutDirectoryOffset)
    (he : d1.directoryEntries.map DemoDirectoryEntry.withoutOffset =
      d2.directoryEntries.map DemoDirectoryEntry.withoutOffset) :
    (d1.Save).map Prod.fst = (d2.Save).map Prod.fst := by
  have hfr := withoutOffset_frames _ _ he
  by_cases hw : ∀ e ∈ d1.directoryEntries, ∀ f ∈ e.frames, f.Writable
  · rw [Save_eq d1 hw, Save_eq d2 (writable_congr _ _ hfr hw)]
    have hs : d1.directoryEntries.map entryStream = d2.directoryEntries.map entryStream := by
      have := congrArg (List.map entryStream) he
      simpa [List.map_map, Function.comp_def, entryStream_withoutOffset] using this
    simp only [Option.map_some', savedDirectoryOffset, hs,
      assignOffsets_congr _ _ 544 he, ← writeHeader_withoutDirectoryOffset d1.header, hh,
      writeHeader_withoutDirectoryOffset d2.header]
  · rw [Save_none d1 hw, Save_none d2 (fun h2 => hw (writable_congr _ _ hfr.symm h2))]

/-- C20. The bytes that `Save` writes are determined by the header without
`directoryOffset`, the entries without `offset`, and the frame lists: two objects that
differ in the stored offsets only are written as the same file (or `Save` is undefined on
both).  After a `Save`, a second `Save` writes the same bytes and leaves the object, with
the offsets the first call stored, as it is. -/
theorem Save_repeat :
    (∀ d1 d2 : DemoFile,
      d1.header.withoutDirectoryOffset = d2.header.withoutDirectoryOffset →
      d1.directoryEntries.map DemoDirectoryEntry.withoutOffset =
        d2.directoryEntries.map DemoDirectoryEntry.withoutOffset →
      (d1.Save).map Prod.fst = (d2.Save).map Prod.fst) ∧
    (∀ (d : DemoFile) (B : List Byte) (d' : DemoFile),
      d.Save = some (B, d') → d'.Save = some (B, d')) := by
  refine ⟨Save_congr, ?_⟩
  intro d B d' h
  by_cases hw : ∀ e ∈ d.directoryEntries, ∀ f ∈ e.frames, f.Writable
  · rw [Save_eq d hw] at h
    simp only [Option.some.injEq, Prod.mk.injEq] at h
    obtain ⟨hB, hd⟩ := h
    have he : d'.directoryEntries.map DemoDirectoryEntry.withoutOffset =
        d.directoryEntries.map DemoDirectoryEntry.withoutOffset := by
      rw [← hd]
      exact assignOffsets_map DemoDirectoryEntry.withoutOffset (fun _ _ => rfl) _ _
    have hw' : ∀ e ∈ d'.directoryEntries, ∀ f ∈ e.frames, f.Writable :=
      writable_congr _ _ (withoutOffset_frames _ _ he).symm hw
    have hs : d'.directoryEntries.map entryStream = d.directoryEntries.map entryStream := by
      have := congrArg (List.map entryStream) he
      simpa [List.map_map, Function.comp_def, entryStream_withoutOffset] using this
    have ha : assignOffsets d'.directoryEntries 544 = d'.directoryEntries := by
      rw [assignOffsets_congr _ _ 544 he, ← hd]
    have hhd : writeHeader d'.header = writeHeader d.header := by rw [← hd]; rfl
    have hso : savedDirectoryOffset d' = savedDirectoryOffset d := by
      unfold savedDirectoryOffset; rw [hs]
    rw [Save_eq d' hw', hhd, hso, hs, ha]
    simp only [Option.some.injEq, Prod.mk.injEq]
    refine ⟨?_, ?_⟩
    · rw [← hB, ← hd]
    · rw [← hd]
  · rw [Save_none d hw] at h
    cases h

theorem writtenFrames_any (fs : List DemoFrame) :
    (writtenFrames fs).any DemoFrame.isNextSection = true := by
  unfold writtenFrames
  by_cases h : fs.any DemoFrame.isNextSection = true
  · rw [if_pos h]; exact h
  · rw [if_neg h, List.any_append]
    simp [nextSectionFrame, DemoFrame.isNextSection]

theorem writtenFrames_of_any (fs : List DemoFrame)
    (h : fs.any DemoFrame.isNextSection = true) : writtenFrames fs = fs := by
  unfold writtenFrames
  rw [if_pos h]

theorem writtenFrames_idem (fs : List DemoFrame) :
    writtenFrames (writtenFrames fs) = writtenFrames fs :=
  writtenFrames_of_any _ (writtenFrames_any fs)

theorem entryStream_written (e : DemoDirectoryEntry) : entryStream e.written = entryStream e := by
  unfold entryStream DemoDirectoryEntry.written
  simp only []
  rw [writtenFrames_idem]

theorem writeDirectory_record (es : List DemoDirectoryEntry) :
    writeDirectory (es.map DemoDirectoryEntry.record) = writeDirectory es := by
  unfold writeDirectory
  rw [List.length_map, List.map_map]
  rfl

/-- The directory records that `Save` writes depend on the records without their offsets
and on the sizes of the frame streams only. -/
theorem assignOffsets_record_congr : ∀ (l1 l2 : List DemoDirectoryEntry) (p : Nat),
    l1.map (fun e => e.withoutOffset.record) = l2.map (fun e => e.withoutOffset.record) →
    l1.map entryStream = l2.map entryStream →
    (assignOffsets l1 p).map DemoDirectoryEntry.record =
      (assignOffsets l2 p).map DemoDirectoryEntry.record := by
  intro l1
  induction l1 with
  | nil =>
    intro l2 p h _
    cases l2 with
    | nil => rfl
    | cons b l2 => simp at h
  | cons a l1 ih =>
    intro l2 p h hs
    cases l2 with
    | nil => simp at h
    | cons b l2 =>
      simp only [List.map_cons, List.cons.injEq] at h hs
      obtain ⟨hab, hl⟩ := h
      obtain ⟨hsab, hsl⟩ := hs
      have he : ∀ x : Word32, ({ a with offset := x } : DemoDirectoryEntry).record =
          ({ b with offset := x } : DemoDirectoryEntry).record := by
        intro x
        have := congrArg (fun e : DemoDirectoryEntry => ({ e with offset := x } :
          DemoDirectoryEntry)) hab
        exact this
      simp only [assignOffsets, List.map_cons, he, hsab, ih l2 _ hl hsl]

/-- The object that reading a saved file gives, and what `Save` writes for it: the same
file. -/
theorem Save_reopen_save (d : DemoFile) (hh : d.header.Canonical)
    (hp : d.header.demoProtocol = 5)
    (hes : ∀ e ∈ d.directoryEntries,
      EntryFrames e.frames ∧ CStr DIR_ENTRY_DESCRIPTION_SIZE e.description)
    (h1 : 1 ≤ d.directoryEntries.length) (h2 : d.directoryEntries.length ≤ 1024) :
    ∃ B d', d.Save = some (B, d') ∧
      (B.length < 2147483648 →
        ∃ m2o m2 m2', DemoFile.DemoFile B = .ok m2o ∧ m2o.ReadFrames = (none, m2) ∧
          m2.Save = some (B, m2')) := by
  have hw : ∀ e ∈ d.directoryEntries, ∀ f ∈ e.frames, f.Writable :=
    fun e he f hf => canonical_writable f ((hes e he).1.1 f hf)
  refine ⟨_, _, Save_eq d hw, ?_⟩
  intro hB
  have hfile : writeHeader d.header ++ write_object32 (castInt32 (savedDirectoryOffset d)) ++
      (d.directoryEntries.map entryStream).flatten ++
      writeDirectory (assignOffsets d.directoryEntries 544) =
      savedFile d.header (d.directoryEntries.map entryStream).flatten
        (assignOffsets d.directoryEntries 544) := rfl
  rw [hfile] at hB ⊢
  have hlen := savedFile_length d.header (d.directoryEntries.map entryStream).flatten
    (assignOffsets d.directoryEntries 544)
  have hdesc : ∀ e ∈ assignOffsets d.directoryEntries 544,
      CStr DIR_ENTRY_DESCRIPTION_SIZE e.description := by
    intro e he
    have h1 : e.description ∈ (assignOffsets d.directoryEntries 544).map
        (fun e => e.description) := List.mem_map_of_mem _ he
    rw [assignOffsets_map_description] at h1
    obtain ⟨e0, he0, hd0⟩ := List.mem_map.1 h1
    rw [← hd0]
    exact (hes e0 he0).2
  have hopen := DemoFile_savedFile d.header (d.directoryEntries.map entryStream).flatten
    (assignOffsets d.directoryEntries 544) hh hdesc
    (by rw [assignOffsets_length]; exact h1) (by rw [assignOffsets_length]; exact h2)
    (by omega)
  have hpre : (writeHeader d.header ++ write_object32
      (castInt32 (544 + ((d.directoryEntries.map entryStream).flatten).length))).length =
      544 := by
    rw [List.length_append, writeHeader_length, write_object32_length]
  have hread := readEntries_saved _ hB d.directoryEntries
    (writeHeader d.header ++ write_object32
      (castInt32 (544 + ((d.directoryEntries.map entryStream).flatten).length)))
    (writeDirectory (assignOffsets d.directoryEntries 544))
    (by unfold savedFile; simp only [List.append_assoc])
    (by rw [writeDirectory_length]; omega) (fun e he => (hes e he).1)
  rw [hpre] at hread
  have hrf : (reopened d).ReadFrames = (none, reread d) :=
    ReadFrames_of_readEntries (reopened d) _ rfl hp hread
  have hopen' : DemoFile.DemoFile (savedBytes d) = .ok (reopened d) := hopen
  have hw2 : ∀ e ∈ (assignOffsets d.directoryEntries 544).map DemoDirectoryEntry.written,
      ∀ f ∈ e.frames, f.Writable := by
    intro e he f hf
    obtain ⟨e1, he1, hr1⟩ := List.mem_map.1 he
    have h3 : e1.frames ∈ (assignOffsets d.directoryEntries 544).map (fun e => e.frames) :=
      List.mem_map_of_mem _ he1
    rw [assignOffsets_map_frames] at h3
    obtain ⟨e0, he0, hr0⟩ := List.mem_map.1 h3
    rw [← hr1] at hf
    have hf' : f ∈ writtenFrames e0.frames := by
      rw [hr0]; exact hf
    exact canonical_writable f ((writtenFrames_entryFrames e0.frames (hes e0 he0).1).1 f hf')
  have hs : ((assignOffsets d.directoryEntries 544).map DemoDirectoryEntry.written).map
      entryStream = d.directoryEntries.map entryStream := by
    rw [List.map_map]
    exact assignOffsets_map (entryStream ∘ DemoDirectoryEntry.written) (fun _ _ => rfl) _ _
      |>.trans (List.map_congr_left (fun e _ => entryStream_written e))
  have hrec : ((assignOffsets d.directoryEntries 544).map DemoDirectoryEntry.written).map
      (fun e => e.withoutOffset.record) =
      d.directoryEntries.map (fun e => e.withoutOffset.record) := by
    rw [List.map_map]
    exact assignOffsets_map
      ((fun e : DemoDirectoryEntry => e.withoutOffset.record) ∘ DemoDirectoryEntry.written)
      (fun _ _ => rfl) _ _
  have hsave := Save_eq (reread d) hw2
  have hs' : (reread d).directoryEntries.map entryStream =
      d.directoryEntries.map entryStream := hs
  simp only [savedDirectoryOffset, hs'] at hsave
  have hdir : writeDirectory (assignOffsets (reread d).directoryEntries 544) =
      writeDirectory (assignOffsets d.directoryEntries 544) := by
    have h3 := assignOffsets_record_congr (reread d).directoryEntries d.directoryEntries 544
      hrec hs
    rw [← writeDirectory_record (assignOffsets (reread d).directoryEntries 544), h3,
      writeDirectory_record]
  rw [hdir] at hsave
  exact ⟨_, _, _, hopen', hrf, hsave⟩

/-- C12 (as amended). Let a file be accepted by the constructor with demo protocol 5, let
M1 be the object after `ReadFrames` and B1 the file that `Save` writes for M1.  If B1 is
shorter than 2^31 bytes, the constructor accepts B1, `ReadFrames` succeeds on it, and
`Save` on the object so obtained writes B1 again, byte for byte. -/
theorem Save_resave (S : List Byte) (m0 m1 : DemoFile) (err : Option DemoError)
    (hopen : DemoFile.DemoFile S = .ok m0) (hproto : m0.header.demoProtocol = 5)
    (hread : m0.ReadFrames = (err, m1)) :
    ∃ B1 m1', m1.Save = some (B1, m1') ∧
      (B1.length < 2147483648 →
        ∃ m2o m2 m2', DemoFile.DemoFile B1 = .ok m2o ∧ m2o.ReadFrames = (none, m2) ∧
          m2.Save = some (B1, m2')) := by
  obtain ⟨hdemo, hfresh, hh, hes, h1, h2⟩ := DemoFile_ok_props S m0 hopen
  obtain ⟨_, hhead, hentries, _⟩ := ReadFrames_eq m0 hfresh hproto
  rw [hread] at hhead hentries
  simp only [] at hhead hentries
  obtain ⟨hfr, hrec⟩ := readEntries_frames m0.demo m0.directoryEntries (fun e he => (hes e he).1)
  rw [← hentries] at hfr hrec
  have hlen : m1.directoryEntries.length = m0.directoryEntries.length := by
    have := congrArg List.length hrec
    simpa using this
  have hes1 : ∀ e ∈ m1.directoryEntries,
      EntryFrames e.frames ∧ CStr DIR_ENTRY_DESCRIPTION_SIZE e.description := by
    intro e he
    refine ⟨hfr e he, ?_⟩
    have h3 : e.record ∈ m1.directoryEntries.map DemoDirectoryEntry.record :=
      List.mem_map_of_mem _ he
    rw [hrec] at h3
    obtain ⟨e0, he0, hr0⟩ := List.mem_map.1 h3
    have : e.description = e0.description := by
      have := congrArg (fun x => x.description) hr0
      simpa [DemoDirectoryEntry.record] using this.symm
    rw [this]
    exact (hes e0 he0).2
  exact Save_reopen_save m1 (by rw [hhead]; exact hh) (by rw [hhead]; exact hproto) hes1
    (by omega) (by omega)

/-- C12, counterexample.  The file `overflowFile 2097152 1024` (about 2.2 MB, 1024 entries
that point at one stream with a raw-buffer frame of 2 MiB) is accepted with demo protocol
5 and read without error; `Save` writes more than 2^31 bytes for it, stores a negative
directory offset, and the constructor rejects the file written: it cannot be read and saved
a second time. -/
theorem Save_resave_counterexample :
    ∃ m0 m1 B1 m1', DemoFile.DemoFile (overflowFile 2097152 1024) = .ok m0 ∧
      m0.header.demoProtocol = 5 ∧ m0.ReadFrames = (none, m1) ∧ m1.Save = some (B1, m1') ∧
      ∀ m2, DemoFile.DemoFile B1 ≠ .ok m2 := by
  obtain ⟨m0, m1, B, m1', h1, h2, h3, h4, h5⟩ :=
    overflow_general 2097152 1024 (by omega) (by omega) (by omega)
      (by norm_num [int32, castInt32, toWord32])
  refine ⟨m0, m1, B, m1', h1, h2, h3, h4, fun m2 hm => ?_⟩
  rw [h5] at hm
  cases hm

/-- C12 (as amended), instance: the sample file. -/
theorem Save_resave_witness :
    DemoFile.DemoFile sampleFile = .ok sampleOpened ∧
    sampleOpened.header.demoProtocol = 5 ∧
    sampleOpened.ReadFrames = (none, sampleRead) ∧
    sampleRead.Save.map (fun p => decide (p.1.length < 2147483648)) = some true ∧
    ∃ B1 m1', sampleRead.Save = some (B1, m1') ∧
      (B1.length < 2147483648 →
        ∃ m2o m2 m2', DemoFile.DemoFile B1 = .ok m2o ∧ m2o.ReadFrames = (none, m2) ∧
          m2.Save = some (B1, m2')) :=
  ⟨sampleFile_facts.1, sampleFile_facts.2.1, sampleFile_facts.2.2.1,
    sampleFile_facts.2.2.2.2.2.2.2,
    Save_resave sampleFile sampleOpened sampleRead none sampleFile_facts.1
      sampleFile_facts.2.1 sampleFile_facts.2.2.1⟩

/-- C20, instance: `Save` on the object read from the sample file moves the streams from
the offsets 732 and 1506 to 544 and 1318; a second `Save` gives the same result. -/
theorem Save_repeat_witness :
    sampleRead.Save = some sampleSaved ∧
    sampleSaved.2.Save = some sampleSaved ∧
    sampleSaved.2.directoryEntries.map (fun e => int32 e.offset) = [544, 1318] ∧
    sampleRead.directoryEntries.map (fun e => int32 e.offset) = [732, 1506] :=
  ⟨sampleRead_facts.2.2.2.2.1,
    Save_repeat.2 sampleRead sampleSaved.1 sampleSaved.2 sampleRead_facts.2.2.2.2.1,
    sampleRead_facts.2.2.2.2.2.1, sampleRead_facts.2.2.1⟩

theorem cstr_prefix (b : List Byte) : cstr b <+: b := List.takeWhile_prefix _

theorem write_text_cstr (b : List Byte) : write_text b.length (cstr b) = zeroResidue b := by
  have hc := cstr_CStr b.length b (le_refl _)
  rw [write_text_eq]
  unfold fixedText zeroResidue
  by_cases h : (cstr b).length < b.length
  · rw [if_pos h]
  · rw [if_neg h]
    have : b.length - (cstr b).length = 0 := by have := hc.1; omega
    rw [this, List.replicate_zero, List.append_nil, List.take_of_length_le hc.1]

theorem zeroResidue_eq_iff (b : List Byte) :
    zeroResidue b = b ↔ ∀ x ∈ b.drop (cstr b).length, x = 0 := by
  obtain ⟨t, ht⟩ := cstr_prefix b
  unfold zeroResidue
  generalize cstr b = s at ht ⊢
  subst ht
  have hl : (s ++ t).length - s.length = t.length := by
    rw [List.length_append]
    omega
  rw [List.drop_left, hl]
  constructor
  · intro h x hx
    have h2 : List.replicate t.length (0 : Byte) = t := List.append_cancel_left h
    rw [← h2] at hx
    exact List.eq_of_mem_replicate hx
  · intro h
    have h2 : t = List.replicate t.length 0 := List.eq_replicate_iff.2 ⟨rfl, h⟩
    rw [← h2]

theorem zeroResidue_length (b : List Byte) : (zeroResidue b).length = b.length := by
  rw [← write_text_cstr, write_text_length]

theorem writeHeader_texts (h : DemoHeader) :
    ((writeHeader h).drop 16).take 260 = write_text HEADER_MAPNAME_SIZE h.mapName ∧
    ((writeHeader h).drop 276).take 260 = write_text HEADER_GAMEDIR_SIZE h.gameDir := by
  have e1 : writeHeader h =
      ([72, 76, 68, 69, 77, 79, 0, 0] ++ write_object32 h.demoProtocol ++
        write_object32 h.netProtocol) ++
      (write_text HEADER_MAPNAME_SIZE h.mapName ++
        (write_text HEADER_GAMEDIR_SIZE h.gameDir ++ write_object32 h.mapCRC)) := by
    unfold writeHeader
    simp only [List.append_assoc]
  have e2 : writeHeader h =
      ([72, 76, 68, 69, 77, 79, 0, 0] ++ write_object32 h.demoProtocol ++
        write_object32 h.netProtocol ++ write_text HEADER_MAPNAME_SIZE h.mapName) ++
      (write_text HEADER_GAMEDIR_SIZE h.gameDir ++ write_object32 h.mapCRC) := by
    unfold writeHeader
    simp only [List.append_assoc]
  have l1 : ([72, 76, 68, 69, 77, 79, 0, 0] ++ write_object32 h.demoProtocol ++
      write_object32 h.netProtocol).length = 16 := by
    rw [List.length_append, List.length_append, write_object32_length, write_object32_length]
    rfl
  have l2 : ([72, 76, 68, 69, 77, 79, 0, 0] ++ write_object32 h.demoProtocol ++
      write_object32 h.netProtocol ++ write_text HEADER_MAPNAME_SIZE h.mapName).length =
      276 := by
    rw [List.length_append, l1, write_text_length]
    rfl
  have l3 : (write_text HEADER_MAPNAME_SIZE h.mapName).length = 260 := write_text_length _ _
  have l4 : (write_text HEADER_GAMEDIR_SIZE h.gameDir).length = 260 := write_text_length _ _
  constructor
  · rw [e1, drop_append_of_length _ _ _ l1, take_append_of_length _ _ _ l3]
  · rw [e2, drop_append_of_length _ _ _ l2, take_append_of_length _ _ _ l4]

/-- C30. Encoding the string decoded from a text buffer `b` gives `b` with every byte after
its first NUL replaced by zero, and `b` itself when it holds no NUL; so the buffer is
reproduced exactly if and only if all bytes after its first NUL are zero.  A console-command
frame with the 64-byte text buffer `b` is decoded to the command `cstr b` and written back
with the buffer `zeroResidue b`: `Save` reproduces its bytes exactly when the bytes after
the first NUL are zero.  In the same way the map name and the game directory that
`ReadHeader` decodes from the buffers at bytes 8 and 268 behind the signature are written
back as these buffers with the bytes after the first NUL zeroed. -/
theorem text_residue (b : List Byte) :
    write_text b.length (cstr b) = zeroResidue b ∧
    (zeroResidue b).length = b.length ∧
    ((0 : Byte) ∉ b → zeroResidue b = b) ∧
    (∀ a c : List Byte, b = a ++ 0 :: c → (0 : Byte) ∉ a →
      zeroResidue b = a ++ 0 :: List.replicate c.length 0) ∧
    (zeroResidue b = b ↔ ∀ x ∈ b.drop (cstr b).length, x = 0) ∧
    (∀ (n : Nat) (time frame : Word32) (rest : List Byte),
      b.length = FRAME_CONSOLE_COMMAND_SIZE →
      readFrame n (writeFrameHead DemoFrameType.CONSOLE_COMMAND time frame ++ b ++ rest) =
        .appended (commandFrame time frame b) false rest ∧
      writeFrame (commandFrame time frame b) =
        some (writeFrameHead DemoFrameType.CONSOLE_COMMAND time frame ++ zeroResidue b)) ∧
    (∀ (r : List Byte) (h : DemoHeader), b.length = HEADER_MAPNAME_SIZE → 536 ≤ r.length →
      ReadHeader r = some (h, r.drop 536) →
      ((r.drop 8).take 260 = b → ((writeHeader h).drop 16).take 260 = zeroResidue b) ∧
      ((r.drop 268).take 260 = b → ((writeHeader h).drop 276).take 260 = zeroResidue b)) := by
  refine ⟨write_text_cstr b, zeroResidue_length b, ?_, ?_, zeroResidue_eq_iff b, ?_, ?_⟩
  · intro h
    unfold zeroResidue
    rw [cstr_of_not_mem b h, Nat.sub_self, List.replicate_zero, List.append_nil]
  · intro a c hb ha
    unfold zeroResidue
    rw [hb, cstr_append_zero a c ha]
    have : (a ++ 0 :: c).length - a.length = c.length + 1 := by
      rw [List.length_append, List.length_cons]; omega
    rw [this, List.replicate_succ]
  · intro n time frame rest hb
    have hlen : 3 ≤ (b ++ rest).length := by
      rw [List.length_append, hb]
      simp only [FRAME_CONSOLE_COMMAND_SIZE]
      omega
    constructor
    · rw [List.append_assoc, readFrame_head _ _ _ _ _ hlen,
        readFrameSwitch_consoleCommand _ _ _ _ _ rfl]
      unfold caseConsoleCommand
      rw [if_neg (fun hg => by
        have := (guard_iff _ _ _).1 hg
        rw [List.length_append, hb] at this
        omega),
        read_text_eq _ _ (by rw [List.length_append, hb]; omega),
        take_append_of_length _ _ _ hb, drop_append_of_length _ _ _ hb]
      rfl
    · unfold commandFrame
      rw [writeFrame_consoleCommand _ _ _ _ rfl, ← hb, write_text_cstr]
  · intro r h hb hlen hr
    rw [ReadHeader_eq r hlen] at hr
    simp only [Option.some.injEq, Prod.mk.injEq, and_true] at hr
    obtain ⟨t1, t2⟩ := writeHeader_texts h
    rw [t1, t2, ← hr]
    simp only []
    constructor
    · intro h1
      rw [h1, ← hb, write_text_cstr]
    · intro h2
      have : HEADER_GAMEDIR_SIZE = b.length := by rw [hb]; rfl
      rw [h2, this, write_text_cstr]

/-- C30, instance: the console-command buffer that starts with h i NUL j u n k is decoded
to the command h i and written back with zeros in place of j u n k. -/
theorem text_residue_witness :
    zeroResidue ([104, 105, 0, 106, 117, 110, 107] ++ List.replicate 57 0) =
      [104, 105] ++ List.replicate 62 0 ∧
    zeroResidue ([104, 105, 0, 106, 117, 110, 107] ++ List.replicate 57 0) ≠
      [104, 105, 0, 106, 117, 110, 107] ++ List.replicate 57 0 ∧
    readFrame 0 (writeFrameHead DemoFrameType.CONSOLE_COMMAND 0 1 ++
        ([104, 105, 0, 106, 117, 110, 107] ++ List.replicate 57 0) ++ [0, 0, 0]) =
      .appended (commandFrame 0 1 ([104, 105, 0, 106, 117, 110, 107] ++ List.replicate 57 0))
        false [0, 0, 0] ∧
    writeFrame (commandFrame 0 1 ([104, 105, 0, 106, 117, 110, 107] ++ List.replicate 57 0)) =
      some (writeFrameHead DemoFrameType.CONSOLE_COMMAND 0 1 ++
        zeroResidue ([104, 105, 0, 106, 117, 110, 107] ++ List.replicate 57 0)) :=
  ⟨by decide, by decide,
    ((text_residue ([104, 105, 0, 106, 117, 110, 107] ++ List.replicate 57 0)).2.2.2.2.2.1 0 0 1
      [0, 0, 0] (by decide)).1,
    ((text_residue ([104, 105, 0, 106, 117, 110, 107] ++ List.replicate 57 0)).2.2.2.2.2.1 0 0 1
      [0, 0, 0] (by decide)).2⟩

/-- The loop of an entry with enough passes: it ends, normally or with
`std::length_error`, and every frame it appends takes at least 9 bytes of the stream. -/
theorem readFrameLoop_count (n : Nat) : ∀ (fuel : Nat) (r : List Byte) (acc : List DemoFrame),
    r.length < 9 * fuel →
    ∃ fs, (readFrameLoop n fuel r acc = .done (acc ++ fs) ∨
           readFrameLoop n fuel r acc = .thrown .lengthError (acc ++ fs)) ∧
      9 * fs.length ≤ r.length := by
  intro fuel
  induction fuel with
  | zero => intro r acc h; omega
  | succ fuel ih =>
    intro r acc hfuel
    unfold readFrameLoop
    rcases readFrame_good n r with h | h | ⟨f, k, h, hk9, hk, _⟩
    · rw [h]
      exact ⟨[], Or.inl (by simp), by simp⟩
    · rw [h]
      exact ⟨[], Or.inr (by simp), by simp⟩
    · rw [h]
      by_cases ht : f.type = DemoFrameType.NEXT_SECTION
      · rw [decide_eq_true ht]
        exact ⟨[f], Or.inl rfl, by simp only [List.length_singleton]; omega⟩
      · rw [decide_eq_false ht]
        simp only []
        obtain ⟨fs, hres, hc⟩ := ih (r.drop k) (acc ++ [f])
          (by rw [List.length_drop]; omega)
        refine ⟨f :: fs, by simpa [List.append_assoc] using hres, ?_⟩
        rw [List.length_drop] at hc
        simp only [List.length_cons]
        omega

/-- With enough passes the result of the loop does not depend on their number. -/
theorem readFrameLoop_fuel (n : Nat) : ∀ (fuel fuel' : Nat) (r : List Byte)
    (acc : List DemoFrame), r.length < 9 * fuel → r.length < 9 * fuel' →
    readFrameLoop n fuel r acc = readFrameLoop n fuel' r acc := by
  intro fuel
  induction fuel with
  | zero => intro fuel' r acc h; omega
  | succ fuel ih =>
    intro fuel' r acc h h'
    cases fuel' with
    | zero => omega
    | succ fuel' =>
      unfold readFrameLoop
      rcases readFrame_good n r with hs | hs | ⟨f, k, hs, hk9, hk, _⟩
      · rw [hs]
      · rw [hs]
      · rw [hs]
        by_cases ht : f.type = DemoFrameType.NEXT_SECTION
        · rw [decide_eq_true ht]
        · rw [decide_eq_false ht]
          simp only []
          exact ih fuel' (r.drop k) (acc ++ [f]) (by rw [List.length_drop]; omega)
            (by rw [List.length_drop]; omega)

/-- C27. Every pass of the frame loop stops the loop, throws, or appends a frame and moves
the read position forward by at least 9 bytes.  The loop of an entry that starts at offset
`o` of the file `S` therefore ends (normally or with `std::length_error`) within the
`S.length + 1` passes of the model, with the same result for any larger number of passes,
and appends at most (S.length - o) / 9 frames. -/
theorem frame_loop_terminates (S : List Byte) (o : Nat) (acc : List DemoFrame) :
    (∀ (n : Nat) (r : List Byte),
      readFrame n r = .stopped ∨ readFrame n r = .thrown .lengthError ∨
      ∃ f stop k, readFrame n r = .appended f stop (r.drop k) ∧ 9 ≤ k ∧ k ≤ r.length) ∧
    (∃ fs, (readFrameLoop S.length (S.length + 1) (S.drop o) acc = .done (acc ++ fs) ∨
          readFrameLoop S.length (S.length + 1) (S.drop o) acc =
            .thrown .lengthError (acc ++ fs)) ∧
      fs.length ≤ (S.length - o) / 9) ∧
    (∀ fuel, S.length + 1 ≤ fuel →
      readFrameLoop S.length fuel (S.drop o) acc =
        readFrameLoop S.length (S.length + 1) (S.drop o) acc) := by
  refine ⟨?_, ?_, ?_⟩
  · intro n r
    rcases readFrame_good n r with h | h | ⟨f, k, h, hk9, hk, _⟩
    · exact Or.inl h
    · exact Or.inr (Or.inl h)
    · exact Or.inr (Or.inr ⟨f, _, k, h, hk9, hk⟩)
  · obtain ⟨fs, hres, hc⟩ := readFrameLoop_count S.length (S.length + 1) (S.drop o) acc
      (by rw [List.length_drop]; omega)
    refine ⟨fs, hres, ?_⟩
    rw [List.length_drop] at hc
    rw [Nat.le_div_iff_mul_le (by omega)]
    omega
  · intro fuel hf
    exact readFrameLoop_fuel S.length fuel (S.length + 1) (S.drop o) acc
      (by rw [List.length_drop]; omega) (by rw [List.length_drop]; omega)

theorem countP_le_one (fs : List DemoFrame)
    (hd : ∀ f ∈ fs.dropLast, f.type ≠ DemoFrameType.NEXT_SECTION) :
    fs.countP DemoFrame.isNextSection ≤ 1 := by
  by_cases hne : fs = []
  · rw [hne]; simp
  · have hsplit := List.dropLast_append_getLast hne
    rw [← hsplit, List.countP_append]
    have h0 : fs.dropLast.countP DemoFrame.isNextSection = 0 := by
      rw [List.countP_eq_zero]
      intro f hf
      simpa [DemoFrame.isNextSection] using hd f hf
    rw [h0]
    have : [fs.getLast hne].countP DemoFrame.isNextSection ≤ [fs.getLast hne].length :=
      List.countP_le_length _
    simpa using this

theorem endsWithNextSection_of_any (fs : List DemoFrame)
    (hd : ∀ f ∈ fs.dropLast, f.type ≠ DemoFrameType.NEXT_SECTION)
    (h : fs.any DemoFrame.isNextSection = true) : endsWithNextSection fs = true := by
  obtain ⟨l, hl, ht⟩ := (any_isNextSection_iff fs hd).1 h
  unfold endsWithNextSection
  rw [hl]
  simpa [DemoFrame.isNextSection] using ht

/-- C22. After a `ReadFrames` that succeeded on a file just opened, the frame list of every
entry holds at most one NEXT_SECTION frame, no frame before the last one is a NEXT_SECTION
frame, and a list that holds one ends with it.  A pass of the loop sets `stop` exactly
when the frame it appends has the tag NEXT_SECTION, and the loop then ends with that frame,
whatever bytes follow it in the stream. -/
theorem terminator_last (S : List Byte) (m0 m1 : DemoFile)
    (hopen : DemoFile.DemoFile S = .ok m0) (hread : m0.ReadFrames = (none, m1)) :
    (∀ e ∈ m1.directoryEntries,
      e.frames.countP DemoFrame.isNextSection ≤ 1 ∧
      (∀ f ∈ e.frames.dropLast, f.type ≠ DemoFrameType.NEXT_SECTION) ∧
      (e.frames.any DemoFrame.isNextSection = true → endsWithNextSection e.frames = true)) ∧
    (∀ (n : Nat) (r : List Byte) (f : DemoFrame) (stop : Bool) (r' : List Byte),
      readFrame n r = .appended f stop r' →
      (stop = true ↔ f.type = DemoFrameType.NEXT_SECTION) ∧
      (stop = true → ∀ (fuel : Nat) (acc : List DemoFrame),
        readFrameLoop n (fuel + 1) r acc = .done (acc ++ [f]))) := by
  constructor
  · intro e he
    have hef := ReadFrames_entryFrames S m0 hopen e (by rw [hread]; exact he)
    exact ⟨countP_le_one _ hef.2, hef.2, endsWithNextSection_of_any _ hef.2⟩
  · intro n r f stop r' h
    constructor
    · rcases readFrame_good n r with hs | hs | ⟨g, k, hs, _, _, _⟩
      · rw [hs] at h; cases h
      · rw [hs] at h; cases h
      · rw [hs] at h
        simp only [FrameStep.appended.injEq] at h
        rw [← h.1, ← h.2.1]
        simp
    · intro hstop fuel acc
      subst hstop
      unfold readFrameLoop
      rw [h]

/-- C22, instance: the sample file; its first entry ends with its one NEXT_SECTION frame,
its second entry holds none. -/
theorem terminator_last_witness :
    DemoFile.DemoFile sampleFile = .ok sampleOpened ∧
    sampleOpened.ReadFrames = (none, sampleRead) ∧
    sampleRead.directoryEntries.map (fun e => endsWithNextSection e.frames) = [true, false] ∧
    ((∀ e ∈ sampleRead.directoryEntries,
      e.frames.countP DemoFrame.isNextSection ≤ 1 ∧
      (∀ f ∈ e.frames.dropLast, f.type ≠ DemoFrameType.NEXT_SECTION) ∧
      (e.frames.any DemoFrame.isNextSection = true → endsWithNextSection e.frames = true)) ∧
    (∀ (n : Nat) (r : List Byte) (f : DemoFrame) (stop : Bool) (r' : List Byte),
      readFrame n r = .appended f stop r' →
      (stop = true ↔ f.type = DemoFrameType.NEXT_SECTION) ∧
      (stop = true → ∀ (fuel : Nat) (acc : List DemoFrame),
        readFrameLoop n (fuel + 1) r acc = .done (acc ++ [f])))) :=
  ⟨sampleFile_facts.1, sampleFile_facts.2.2.1, sampleFile_facts.2.2.2.1,
    terminator_last sampleFile sampleOpened sampleRead sampleFile_facts.1
      sampleFile_facts.2.2.1⟩

/-- C27, instance: a stream of two NEXT_SECTION frames and three more bytes; the loop ends
after the first frame, within the bound of 21 / 9 = 2 frames. -/
theorem frame_loop_terminates_witness :
    twoTerminators.length = 21 ∧
    readFrameLoop twoTerminators.length (twoTerminators.length + 1) (twoTerminators.drop 0) [] =
      .done [DemoFrame.mk 5 0 1 .DemoFrame] ∧
    ∃ fs, (readFrameLoop twoTerminators.length (twoTerminators.length + 1)
            (twoTerminators.drop 0) [] = .done ([] ++ fs) ∨
        readFrameLoop twoTerminators.length (twoTerminators.length + 1)
            (twoTerminators.drop 0) [] = .thrown .lengthError ([] ++ fs)) ∧
      fs.length ≤ (twoTerminators.length - 0) / 9 :=
  ⟨by decide, by decide!, (frame_loop_terminates twoTerminators 0 []).2.1⟩

theorem Reader.fixed_length {α : Type} {R : Reader α} {n : Nat} (h : R.Fixed n)
    {r r' : List Byte} {a : α} (hr : R r = some (a, r')) : r.length = n + r'.length := by
  obtain ⟨h1, h2⟩ := Reader.fixed_eq_some h hr
  rw [h2, List.length_drop]
  omega

theorem caseConsoleCommand_size (n : Nat) (type : Byte) (time frame : Word32) (r : List Byte)
    (f : DemoFrame) (stop : Bool) (r' : List Byte)
    (h : caseConsoleCommand n type time frame r = .appended f stop r') :
    r.length = payloadSize f + r'.length := by
  unfold caseConsoleCommand at h
  split at h
  · cases h
  · cases hr : read_text FRAME_CONSOLE_COMMAND_SIZE r with
    | none => rw [hr] at h; cases h
    | some p =>
      rw [hr] at h
      simp only [FrameStep.appended.injEq] at h
      rw [← h.1, ← h.2.2]
      exact Reader.fixed_length (read_text_fixed _) hr

theorem caseClientData_size (n : Nat) (type : Byte) (time frame : Word32) (r : List Byte)
    (f : DemoFrame) (stop : Bool) (r' : List Byte)
    (h : caseClientData n type time frame r = .appended f stop r') :
    r.length = payloadSize f + r'.length := by
  unfold caseClientData at h
  split at h
  · cases h
  · cases hr : readClientData r with
    | none => rw [hr] at h; cases h
    | some p =>
      rw [hr] at h
      simp only [FrameStep.appended.injEq] at h
      rw [← h.1, ← h.2.2]
      exact Reader.fixed_length readClientData_fixed hr

theorem caseEvent_size (n : Nat) (type : Byte) (time frame : Word32) (r : List Byte)
    (f : DemoFrame) (stop : Bool) (r' : List Byte)
    (h : caseEvent n type time frame r = .appended f stop r') :
    r.length = payloadSize f + r'.length := by
  unfold caseEvent at h
  split at h
  · cases h
  · cases hr : readEvent r with
    | none => rw [hr] at h; cases h
    | some p =>
      rw [hr] at h
      simp only [FrameStep.appended.injEq] at h
      rw [← h.1, ← h.2.2]
      exact Reader.fixed_length readEvent_fixed hr

theorem caseWeaponAnim_size (n : Nat) (type : Byte) (time frame : Word32) (r : List Byte)
    (f : DemoFrame) (stop : Bool) (r' : List Byte)
    (h : caseWeaponAnim n type time frame r = .appended f stop r') :
    r.length = payloadSize f + r'.length := by
  unfold caseWeaponAnim at h
  split at h
  · cases h
  · cases hr : readWeaponAnim r with
    | none => rw [hr] at h; cases h
    | some p =>
      rw [hr] at h
      simp only [FrameStep.appended.injEq] at h
      rw [← h.1, ← h.2.2]
      exact Reader.fixed_length readWeaponAnim_fixed hr

theorem caseSound_size (n : Nat) (type : Byte) (time frame : Word32) (r : List Byte)
    (f : DemoFrame) (stop : Bool) (r' : List Byte)
    (h : caseSound n type time frame r = .appended f stop r') :
    r.length = payloadSize f + r'.length := by
  unfold caseSound at h
  split at h
  · cases h
  · cases hr : readSoundHead r with
    | none => rw [hr] at h; cases h
    | some p =>
      obtain ⟨⟨channel, length⟩, r1⟩ := p
      rw [hr] at h
      simp only [] at h
      split at h
      · cases h
      · split at h
        · cases h
        · cases ht : readSoundTail channel (int32 length).toNat r1 with
          | none => rw [ht] at h; cases h
          | some q =>
            rw [ht] at h
            simp only [FrameStep.appended.injEq] at h
            rw [← h.1, ← h.2.2]
            have h1 := Reader.fixed_length readSoundHead_fixed hr
            have h2 := Reader.fixed_length (readSoundTail_fixed _ _) ht
            have h3 := Reader.yields_elim (readSoundTail_yields _ _) ht
            show r.length = 8 + q.1.sample.length + 16 + q.2.length
            omega

theorem caseDemoBuffer_size (n : Nat) (type : Byte) (time frame : Word32) (r : List Byte)
    (f : DemoFrame) (stop : Bool) (r' : List Byte)
    (h : caseDemoBuffer n type time frame r = .appended f stop r') :
    r.length = payloadSize f + r'.length := by
  unfold caseDemoBuffer at h
  split at h
  · cases h
  · cases hr : read_object32 r with
    | none => rw [hr] at h; cases h
    | some p =>
      obtain ⟨length, r1⟩ := p
      rw [hr] at h
      simp only [] at h
      split at h
      · cases h
      · split at h
        · cases h
        · cases ht : read_objects (int32 length).toNat r1 with
          | none => rw [ht] at h; cases h
          | some q =>
            rw [ht] at h
            simp only [FrameStep.appended.injEq] at h
            rw [← h.1, ← h.2.2]
            have h1 := Reader.fixed_length read_object32_fixed hr
            have h2 := Reader.fixed_length (read_objects_fixed _) ht
            have h3 := Reader.yields_elim (read_objects_yields _) ht
            show r.length = 4 + q.1.length + q.2.length
            omega

theorem caseNetMsg_size (n : Nat) (type : Byte) (time frame : Word32) (r : List Byte)
    (f : DemoFrame) (stop : Bool) (r' : List Byte)
    (h : caseNetMsg n type time frame r = .appended f stop r') :
    r.length = payloadSize f + r'.length := by
  unfold caseNetMsg at h
  split at h
  · cases h
  · cases hr : readNetMsgHead r with
    | none => rw [hr] at h; cases h
    | some p =>
      obtain ⟨⟨g, length⟩, r1⟩ := p
      rw [hr] at h
      simp only [] at h
      split at h
      · cases h
      · split at h
        · cases h
        · cases ht : read_objects (int32 length).toNat r1 with
          | none => rw [ht] at h; cases h
          | some q =>
            rw [ht] at h
            simp only [FrameStep.appended.injEq] at h
            rw [← h.1, ← h.2.2]
            have h1 := Reader.fixed_length readNetMsgHead_fixed hr
            have h2 := Reader.fixed_length (read_objects_fixed _) ht
            have h3 := Reader.yields_elim (read_objects_yields _) ht
            show r.length = 468 + q.1.length + q.2.length
            omega

theorem readFrameSwitch_size (n : Nat) (type : Byte) (time frame : Word32) (r : List Byte)
    (f : DemoFrame) (stop : Bool) (r' : List Byte)
    (h : readFrameSwitch n type time frame r = .appended f stop r') :
    r.length = payloadSize f + r'.length := by
  rcases tag_cases type with t | t | t | t | t | t | t | t | t
  · rw [readFrameSwitch_demoStart _ _ _ _ _ t] at h
    unfold caseDemoStart at h
    simp only [FrameStep.appended.injEq] at h
    rw [← h.1, ← h.2.2]
    show r.length = 0 + r.length
    omega
  · rw [readFrameSwitch_consoleCommand _ _ _ _ _ t] at h
    exact caseConsoleCommand_size _ _ _ _ _ _ _ _ h
  · rw [readFrameSwitch_clientData _ _ _ _ _ t] at h
    exact caseClientData_size _ _ _ _ _ _ _ _ h
  · rw [readFrameSwitch_nextSection _ _ _ _ _ t] at h
    unfold caseNextSection at h
    simp only [FrameStep.appended.injEq] at h
    rw [← h.1, ← h.2.2]
    show r.length = 0 + r.length
    omega
  · rw [readFrameSwitch_event _ _ _ _ _ t] at h
    exact caseEvent_size _ _ _ _ _ _ _ _ h
  · rw [readFrameSwitch_weaponAnim _ _ _ _ _ t] at h
    exact caseWeaponAnim_size _ _ _ _ _ _ _ _ h
  · rw [readFrameSwitch_sound _ _ _ _ _ t] at h
    exact caseSound_size _ _ _ _ _ _ _ _ h
  · rw [readFrameSwitch_demoBuffer _ _ _ _ _ t] at h
    exact caseDemoBuffer_size _ _ _ _ _ _ _ _ h
  · rw [readFrameSwitch_netMsg _ _ _ _ _ t] at h
    exact caseNetMsg_size _ _ _ _ _ _ _ _ h

/-- A pass of the loop that appends a frame reads the 9 bytes of the common members and
the payload bytes of the frame. -/
theorem readFrame_size (n : Nat) (r : List Byte) (f : DemoFrame) (stop : Bool)
    (r' : List Byte) (h : readFrame n r = .appended f stop r') :
    r.length = 9 + payloadSize f + r'.length := by
  by_cases hs : r.length < 12
  · rw [readFrame_short n r hs] at h; cases h
  · rw [readFrame_eq n r (by omega)] at h
    have := readFrameSwitch_size _ _ _ _ _ _ _ _ h
    rw [List.length_drop] at this
    omega

theorem writeNetMsg_length (f : NetMsgFrame) : (writeNetMsg f).length = 468 + f.msg.length := by
  simp only [writeNetMsg, List.length_append, writeDemoInfo_length, write_object32_length]

theorem writeSound_length (f : SoundFrame) :
    (writeSound f).length = 8 + f.sample.length + 16 := by
  simp only [writeSound, List.length_append, write_object32_length]

theorem writeDemoBuffer_length (f : DemoBufferFrame) :
    (writeDemoBuffer f).length = 4 + f.buffer.length := by
  simp only [writeDemoBuffer, List.length_append, write_object32_length]

/-- `Save` writes a canonical frame as 9 bytes and the payload bytes of the table. -/
theorem writeFrame_size (f : DemoFrame) (hc : f.Canonical) :
    ∃ b, writeFrame f = some b ∧ b.length = 9 + payloadSize f := by
  obtain ⟨type, time, frame, obj⟩ := f
  cases obj with
  | DemoFrame =>
    refine ⟨writeFrameHead type time frame, ?_, by rw [writeFrameHead_length]; rfl⟩
    rcases hc with hc | hc
    · exact writeFrame_demoStart _ hc
    · exact writeFrame_nextSection _ hc
  | ConsoleCommandFrame c =>
    exact ⟨_, writeFrame_consoleCommand _ _ _ _ hc.1, by
      rw [List.length_append, writeFrameHead_length, write_text_length]; rfl⟩
  | ClientDataFrame c =>
    exact ⟨_, writeFrame_clientData _ _ _ _ hc, by
      rw [List.length_append, writeFrameHead_length, writeClientData_length]; rfl⟩
  | EventFrame c =>
    exact ⟨_, writeFrame_event _ _ _ _ hc, by
      rw [List.length_append, writeFrameHead_length, writeEvent_length]; rfl⟩
  | WeaponAnimFrame c =>
    exact ⟨_, writeFrame_weaponAnim _ _ _ _ hc, by
      rw [List.length_append, writeFrameHead_length, writeWeaponAnim_length]; rfl⟩
  | SoundFrame c =>
    exact ⟨_, writeFrame_sound _ _ _ _ hc.1, by
      rw [List.length_append, writeFrameHead_length, writeSound_length]; rfl⟩
  | DemoBufferFrame c =>
    exact ⟨_, writeFrame_demoBuffer _ _ _ _ hc.1, by
      rw [List.length_append, writeFrameHead_length, writeDemoBuffer_length]; rfl⟩
  | NetMsgFrame c =>
    exact ⟨_, writeFrame_netMsg _ _ _ _ hc.1, by
      rw [List.length_append, writeFrameHead_length, writeNetMsg_length]; rfl⟩

/-- For a canonical frame, the payload that `Save` writes has the size of the table, and
the `switch` of `ReadFrames` reads the frame back from exactly these bytes, whatever
follows them (nothing included). -/
theorem readFrameSwitch_payload (f : DemoFrame) (hc : f.Canonical) :
    ∃ p, writeFrame f = some (writeFrameHead f.type f.time f.frame ++ p) ∧
      p.length = payloadSize f ∧
      ∀ (n : Nat) (rest : List Byte),
        readFrameSwitch n f.type f.time f.frame (p ++ rest) =
          .appended f (decide (f.type = DemoFrameType.NEXT_SECTION)) rest := by
  obtain ⟨type, time, frame, obj⟩ := f
  cases obj with
  | DemoFrame =>
    refine ⟨[], ?_, rfl, fun n rest => ?_⟩
    · rw [List.append_nil]
      rcases hc with hc | hc
      · exact writeFrame_demoStart _ hc
      · exact writeFrame_nextSection _ hc
    · rcases hc with hc | hc
      · simp only [] at hc
        rw [List.nil_append, readFrameSwitch_demoStart _ _ _ _ _ hc, hc]
        rfl
      · simp only [] at hc
        rw [List.nil_append, readFrameSwitch_nextSection _ _ _ _ _ hc, hc]
        rfl
  | ConsoleCommandFrame c =>
    obtain ⟨ht, hs⟩ := hc
    simp only [] at ht hs
    refine ⟨_, writeFrame_consoleCommand _ _ _ _ ht, write_text_length _ _, fun n rest => ?_⟩
    rw [readFrameSwitch_consoleCommand _ _ _ _ _ ht, caseConsoleCommand_write n _ time frame c
      rest hs, ht]
    rfl
  | ClientDataFrame c =>
    have ht : type = DemoFrameType.CLIENT_DATA := hc
    refine ⟨_, writeFrame_clientData _ _ _ _ ht, writeClientData_length _, fun n rest => ?_⟩
    rw [readFrameSwitch_clientData _ _ _ _ _ ht, caseClientData_write n _ time frame c rest, ht]
    rfl
  | EventFrame c =>
    have ht : type = DemoFrameType.EVENT := hc
    refine ⟨_, writeFrame_event _ _ _ _ ht, writeEvent_length _, fun n rest => ?_⟩
    rw [readFrameSwitch_event _ _ _ _ _ ht, caseEvent_write n _ time frame c rest, ht]
    rfl
  | WeaponAnimFrame c =>
    have ht : type = DemoFrameType.WEAPON_ANIM := hc
    refine ⟨_, writeFrame_weaponAnim _ _ _ _ ht, writeWeaponAnim_length _, fun n rest => ?_⟩
    rw [readFrameSwitch_weaponAnim _ _ _ _ _ ht, caseWeaponAnim_write n _ time frame c rest, ht]
    rfl
  | SoundFrame c =>
    obtain ⟨ht, hs⟩ := hc
    simp only [] at ht hs
    refine ⟨_, writeFrame_sound _ _ _ _ ht, writeSound_length _, fun n rest => ?_⟩
    rw [readFrameSwitch_sound _ _ _ _ _ ht, caseSound_write n _ time frame c rest hs, ht]
    rfl
  | DemoBufferFrame c =>
    obtain ⟨ht, hs⟩ := hc
    simp only [] at ht hs
    refine ⟨_, writeFrame_demoBuffer _ _ _ _ ht, writeDemoBuffer_length _, fun n rest => ?_⟩
    rw [readFrameSwitch_demoBuffer _ _ _ _ _ ht, caseDemoBuffer_write n _ time frame c rest hs,
      ht]
    rfl
  | NetMsgFrame c =>
    obtain ⟨ht, hs, hm⟩ := hc
    simp only [] at ht hs hm
    refine ⟨_, writeFrame_netMsg _ _ _ _ ht, writeNetMsg_length _, fun n rest => ?_⟩
    rw [readFrameSwitch_netMsg _ _ _ _ _ ht, decide_eq_false ht.2.2.2.1]
    exact caseNetMsg_write n type time frame c rest hs hm

/-- C23. The size constants of the guards, and the readers behind the guards: each reads
exactly the number of bytes that its guard requires.  A pass of the loop that appends a
frame has read the 9 bytes of the common members and the payload bytes of the table (0 for
DEMO_START and NEXT_SECTION, 64, 32, 84, 8, 8 + L + 16 for a sound, 4 + L for a raw buffer,
468 + L for a network message, with 468 = 436 + 7 * 4 + 4); `Save` writes the frame with a
payload of the same size, and the `switch` reads the frame back from exactly these payload
bytes, with nothing behind them. -/
theorem guard_sizes :
    (FRAME_CONSOLE_COMMAND_SIZE = 64 ∧ FRAME_CLIENT_DATA_SIZE = 32 ∧ FRAME_EVENT_SIZE = 84 ∧
      FRAME_WEAPON_ANIM_SIZE = 8 ∧ FRAME_SOUND_SIZE_1 = 8 ∧ FRAME_SOUND_SIZE_2 = 16 ∧
      FRAME_DEMO_BUFFER_SIZE = 4 ∧ FRAME_NETMSG_SIZE = 468 ∧ FRAME_NETMSG_DEMOINFO_SIZE = 436 ∧
      FRAME_NETMSG_SIZE = FRAME_NETMSG_DEMOINFO_SIZE + 7 * 4 + 4) ∧
    ((read_text FRAME_CONSOLE_COMMAND_SIZE).Fixed FRAME_CONSOLE_COMMAND_SIZE ∧
      readClientData.Fixed FRAME_CLIENT_DATA_SIZE ∧ readEvent.Fixed FRAME_EVENT_SIZE ∧
      readWeaponAnim.Fixed FRAME_WEAPON_ANIM_SIZE ∧ readSoundHead.Fixed FRAME_SOUND_SIZE_1 ∧
      (∀ (c : Word32) (L : Nat), (readSoundTail c L).Fixed (L + FRAME_SOUND_SIZE_2)) ∧
      read_object32.Fixed FRAME_DEMO_BUFFER_SIZE ∧ (∀ L : Nat, (read_objects L).Fixed L) ∧
      readNetMsgHead.Fixed FRAME_NETMSG_SIZE ∧ readDemoInfo.Fixed FRAME_NETMSG_DEMOINFO_SIZE) ∧
    (∀ (n : Nat) (r : List Byte) (f : DemoFrame) (stop : Bool) (r' : List Byte),
      readFrame n r = .appended f stop r' →
      r.length = 9 + payloadSize f + r'.length ∧
      ∃ p, writeFrame f = some (writeFrameHead f.type f.time f.frame ++ p) ∧
        p.length = payloadSize f ∧
        ∀ (k : Nat) (rest : List Byte),
          readFrameSwitch k f.type f.time f.frame (p ++ rest) = .appended f stop rest) := by
  refine ⟨⟨rfl, rfl, rfl, rfl, rfl, rfl, rfl, rfl, rfl, rfl⟩,
    ⟨read_text_fixed _, readClientData_fixed, readEvent_fixed, readWeaponAnim_fixed,
      readSoundHead_fixed, readSoundTail_fixed, read_object32_fixed, read_objects_fixed,
      readNetMsgHead_fixed, readDemoInfo_fixed⟩, ?_⟩
  intro n r f stop r' h
  refine ⟨readFrame_size n r f stop r' h, ?_⟩
  obtain ⟨_, hc⟩ := readFrame_type n r f stop r' h
  obtain ⟨p, h1, h2, h3⟩ := readFrameSwitch_payload f hc
  refine ⟨p, h1, h2, ?_⟩
  have hstop : stop = decide (f.type = DemoFrameType.NEXT_SECTION) := by
    rcases readFrame_good n r with hs | hs | ⟨g, k, hs, _, _, _⟩
    · rw [hs] at h; cases h
    · rw [hs] at h; cases h
    · rw [hs] at h
      simp only [FrameStep.appended.injEq] at h
      rw [← h.1, ← h.2.1]
  rw [hstop]
  exact h3

/-- C23, instance: the sound frame of the sample, with 4 sample bytes, takes 9 + 28 bytes
of a file and is written as 9 + 28 bytes. -/
theorem guard_sizes_witness :
    payloadSize sampleSoundFrame = 8 + 4 + 16 ∧
    readFrame 0 (frameBytes sampleSoundFrame ++ [0, 0, 0]) =
      .appended sampleSoundFrame false [0, 0, 0] ∧
    (frameBytes sampleSoundFrame ++ [0, 0, 0]).length =
      9 + payloadSize sampleSoundFrame + [(0 : Byte), 0, 0].length ∧
    ∃ p, writeFrame sampleSoundFrame =
        some (writeFrameHead sampleSoundFrame.type sampleSoundFrame.time
          sampleSoundFrame.frame ++ p) ∧
      p.length = payloadSize sampleSoundFrame ∧
      ∀ (k : Nat) (rest : List Byte),
        readFrameSwitch k sampleSoundFrame.type sampleSoundFrame.time sampleSoundFrame.frame
          (p ++ rest) = .appended sampleSoundFrame false rest :=
  have h : readFrame 0 (frameBytes sampleSoundFrame ++ [0, 0, 0]) =
      .appended sampleSoundFrame false [0, 0, 0] := by decide!
  ⟨by decide, h, (guard_sizes.2.2 0 _ _ _ _ h).1, (guard_sizes.2.2 0 _ _ _ _ h).2⟩

/-- C21. No reader of the constructor or of `ReadFrames` ever asks for more bytes than
the file holds behind the read position: the constructor never fails for a read past the
end, `ReadFrames` on an opened file never does (and the loop of the model never runs out
of passes), and no pass of the frame loop does, on any stream and for any lengths and
offsets in it.  The seeks go to positions in the file: the directory offset is in
[0, size - 4], and an entry whose offset is not in [0, size] is passed over without a seek
or a read. -/
theorem no_over_read (S : List Byte) :
    DemoFile.DemoFile S ≠ .error .readFailure ∧
    (∀ m : DemoFile, DemoFile.DemoFile S = .ok m →
      (m.ReadFrames).1 ≠ some .readFailure ∧ (m.ReadFrames).1 ≠ some .outOfFuel ∧
      0 ≤ int32 m.header.directoryOffset ∧
      int32 m.header.directoryOffset ≤ (S.length : Int) - 4) ∧
    (∀ (n : Nat) (r : List Byte), readFrame n r ≠ .thrown .readFailure) ∧
    (∀ r : List Byte, 12 ≤ r.length → readFrameHead r ≠ none) ∧
    (∀ (o : Nat) (acc fs : List DemoFrame) (e : DemoError),
      readFrameLoop S.length (S.length + 1) (S.drop o) acc = .thrown e fs →
      e = .lengthError) ∧
    (∀ e : DemoDirectoryEntry,
      int32 e.offset < 0 ∨ (S.length : Int) < int32 e.offset →
      readEntries S [e] = (none, [e])) := by
  refine ⟨?_, ?_, ?_, ?_, ?_, ?_⟩
  rotate_left 5
  · intro e h
    unfold readEntries
    rw [if_pos h]
    rfl
  · intro h
    have := DemoFile_error_format S _ h
    unfold DemoError.IsFormatError at this
    rcases this with h1 | h1 | h1 | h1 <;> cases h1
  · intro m hm
    obtain ⟨_, hfresh, _, _, _, _⟩ := DemoFile_ok_props S m hm
    have hoff : 0 ≤ int32 m.header.directoryOffset ∧
        int32 m.header.directoryOffset ≤ (S.length : Int) - 4 := by
      obtain ⟨_, _, h3, h4, _⟩ := (DemoFile_ok_iff S).1.1 ⟨m, hm⟩
      obtain ⟨_, _, c3⟩ := DemoFile_cases S
      have h544 : 544 ≤ S.length := ((DemoFile_ok_iff S).1.1 ⟨m, hm⟩).1
      have hsig : S.take 6 = HLDEMO := by
        rw [HLDEMO_eq_ascii]; exact ((DemoFile_ok_iff S).1.1 ⟨m, hm⟩).2.1
      obtain ⟨header, _, hdo, hopen⟩ := c3 h544 hsig
      rw [hm] at hopen
      cases hr : ReadDirectory S header with
      | error e => rw [hr] at hopen; cases hopen
      | ok es =>
        rw [hr] at hopen
        simp only [Except.ok.injEq] at hopen
        rw [hopen]
        simp only []
        rw [hdo]
        exact ⟨h3, h4⟩
    by_cases hp : m.header.demoProtocol = 5
    · obtain ⟨h1, _, _, _⟩ := ReadFrames_eq m hfresh hp
      rw [h1]
      rcases (readEntries_shape m.demo m.directoryEntries).1 with h2 | h2
      · rw [h2]; exact ⟨by simp, by simp, hoff⟩
      · rw [h2]; exact ⟨by simp, by simp, hoff⟩
    · have : (m.ReadFrames).1 = some .unsupportedProtocol := by
        unfold DemoFile.ReadFrames
        rw [if_neg (by simp [hfresh]), if_pos hp]
      rw [this]
      exact ⟨by simp, by simp, hoff⟩
  · intro n r h
    have := readFrame_thrown n r _ h
    cases this
  · intro r h
    exact Reader.fixed_ne_none readFrameHead_fixed r (by omega)
  · intro o acc fs e h
    obtain ⟨gs, hres, _⟩ := readFrameLoop_count S.length (S.length + 1) (S.drop o) acc
      (by rw [List.length_drop]; omega)
    rcases hres with h1 | h1
    · rw [h1] at h; cases h
    · rw [h1] at h
      simp only [LoopResult.thrown.injEq] at h
      exact h.1.symm

/-! ## The loops of the tools -/

theorem isNetMsgType_iff (t : Byte) : IsNetMsgType t ↔ (t.val < 2 ∨ 9 < t.val) := by
  unfold IsNetMsgType DemoFrameType.DEMO_START DemoFrameType.CONSOLE_COMMAND
    DemoFrameType.CLIENT_DATA DemoFrameType.NEXT_SECTION DemoFrameType.EVENT
    DemoFrameType.WEAPON_ANIM DemoFrameType.SOUND DemoFrameType.DEMO_BUFFER
  simp only [ne_eq, Fin.ext_iff]
  have e2 : ((2 : Byte) : Nat) = 2 := rfl
  have e3 : ((3 : Byte) : Nat) = 3 := rfl
  have e4 : ((4 : Byte) : Nat) = 4 := rfl
  have e5 : ((5 : Byte) : Nat) = 5 := rfl
  have e6 : ((6 : Byte) : Nat) = 6 := rfl
  have e7 : ((7 : Byte) : Nat) = 7 := rfl
  have e8 : ((8 : Byte) : Nat) = 8 := rfl
  have e9 : ((9 : Byte) : Nat) = 9 := rfl
  rw [e2, e3, e4, e5, e6, e7, e8, e9]
  omega

theorem tag_val (t c : Byte) : t = c ↔ t.val = c.val := Fin.ext_iff

theorem forFrames_forall₂ (body : DemoFrame → Option DemoFrame) (P : DemoFrame → Prop)
    (R : DemoFrame → DemoFrame → Prop) (h : ∀ f, P f → ∃ g, body f = some g ∧ R f g) :
    ∀ fs : List DemoFrame, (∀ f ∈ fs, P f) →
      ∃ gs, forFrames body fs = some gs ∧ List.Forall₂ R fs gs := by
  intro fs
  induction fs with
  | nil => intro _; exact ⟨[], rfl, List.Forall₂.nil⟩
  | cons f fs ih =>
    intro hp
    obtain ⟨g, hg, hr⟩ := h f (hp f (List.mem_cons_self _ _))
    obtain ⟨gs, hgs, hrs⟩ := ih (fun x hx => hp x (List.mem_cons_of_mem _ hx))
    refine ⟨g :: gs, ?_, List.Forall₂.cons hr hrs⟩
    unfold forFrames
    rw [hg]
    simp only []
    rw [hgs]

theorem forEntries_forall₂ (body : DemoFrame → Option DemoFrame) (P : DemoFrame → Prop)
    (R : DemoFrame → DemoFrame → Prop) (h : ∀ f, P f → ∃ g, body f = some g ∧ R f g) :
    ∀ es : List DemoDirectoryEntry, (∀ e ∈ es, ∀ f ∈ e.frames, P f) →
      ∃ es', forEntries body es = some es' ∧
        List.Forall₂ (fun e e' => e'.record = e.record ∧ List.Forall₂ R e.frames e'.frames)
          es es' := by
  intro es
  induction es with
  | nil => intro _; exact ⟨[], rfl, List.Forall₂.nil⟩
  | cons e es ih =>
    intro hp
    obtain ⟨gs, hgs, hr⟩ := forFrames_forall₂ body P R h e.frames
      (hp e (List.mem_cons_self _ _))
    obtain ⟨es', hes, hrs⟩ := ih (fun x hx => hp x (List.mem_cons_of_mem _ hx))
    refine ⟨{ e with frames := gs } :: es', ?_, List.Forall₂.cons ⟨rfl, hr⟩ hrs⟩
    unfold forEntries
    rw [hgs]
    simp only []
    rw [hes]

theorem forall₂_right {α : Type} (R : α → α → Prop) (Q : α → Prop)
    (h : ∀ a b, R a b → Q b) : ∀ (l l' : List α), List.Forall₂ R l l' → ∀ b ∈ l', Q b := by
  intro l l' hl
  induction hl with
  | nil => intro b hb; cases hb
  | cons hab _ ih =>
    intro b hb
    rcases List.mem_cons.1 hb with rfl | hb
    · exact h _ _ hab
    · exact ih b hb

/-- What the loops leave: in every entry of the result every frame has the property that
the body establishes. -/
theorem forEntries_right (R : DemoFrame → DemoFrame → Prop) (Q : DemoFrame → Prop)
    (h : ∀ a b, R a b → Q b) (es es' : List DemoDirectoryEntry)
    (hr : List.Forall₂
      (fun e e' => e'.record = e.record ∧ List.Forall₂ R e.frames e'.frames) es es') :
    ∀ e ∈ es', ∀ f ∈ e.frames, Q f := by
  induction hr with
  | nil => intro e he; cases he
  | cons hab _ ih =>
    intro e he
    rcases List.mem_cons.1 he with rfl | he
    · exact forall₂_right R Q h _ _ hab.2
    · exact ih e he

theorem forFrames_fix (body : DemoFrame → Option DemoFrame) :
    ∀ fs : List DemoFrame, (∀ f ∈ fs, body f = some f) → forFrames body fs = some fs := by
  intro fs
  induction fs with
  | nil => intro _; rfl
  | cons f fs ih =>
    intro h
    unfold forFrames
    rw [h f (List.mem_cons_self _ _)]
    simp only []
    rw [ih (fun x hx => h x (List.mem_cons_of_mem _ hx))]

theorem forEntries_fix (body : DemoFrame → Option DemoFrame) :
    ∀ es : List DemoDirectoryEntry, (∀ e ∈ es, ∀ f ∈ e.frames, body f = some f) →
      forEntries body es = some es := by
  intro es
  induction es with
  | nil => intro _; rfl
  | cons e es ih =>
    intro h
    unfold forEntries
    rw [forFrames_fix body e.frames (h e (List.mem_cons_self _ _))]
    simp only []
    rw [ih (fun x hx => h x (List.mem_cons_of_mem _ hx))]

theorem resize_of_le (n : Nat) (l : List Byte) (h : n ≤ l.length) : resize n l = l.take n := by
  unfold resize
  simp [Nat.sub_eq_zero_of_le h]

/-- The sanitizer's pass on a frame of the shape that `ReadFrames` builds. -/
theorem sanitizeFrame_canonical (f : DemoFrame) (hc : f.Canonical) :
    ∃ g, sanitizeFrame f = some g ∧
      (SanitizedFrame f g ∧ g.Canonical ∧ g.WithinLimits ∧ sanitizeFrame g = some g) := by
  obtain ⟨type, time, frame, obj⟩ := f
  have hns : ∀ t : Byte, IsNetMsgType t →
      t ≠ DemoFrameType.SOUND ∧ t ≠ DemoFrameType.DEMO_BUFFER :=
    fun t ht => ⟨ht.2.2.2.2.2.2.1, ht.2.2.2.2.2.2.2⟩
  have other : ∀ o : FrameObject, (DemoFrame.mk type time frame o).Canonical →
      type ≠ DemoFrameType.SOUND → type ≠ DemoFrameType.DEMO_BUFFER →
      (∀ s, o ≠ .SoundFrame s) → (∀ b, o ≠ .DemoBufferFrame b) →
      (match o with
        | .SoundFrame _ => False
        | .DemoBufferFrame _ => False
        | _ => True) →
      ∃ g, sanitizeFrame (DemoFrame.mk type time frame o) = some g ∧
        (SanitizedFrame (DemoFrame.mk type time frame o) g ∧ g.Canonical ∧ g.WithinLimits ∧
          sanitizeFrame g = some g) := by
    intro o hco h1 h2 h3 h4 h5
    have hs : sanitizeFrame (DemoFrame.mk type time frame o) =
        some (DemoFrame.mk type time frame o) := by
      unfold sanitizeFrame
      simp only []
      rw [if_neg h1, if_neg h2]
    refine ⟨_, hs, ⟨rfl, rfl, rfl, ?_⟩, hco, ⟨fun s h => absurd h (h3 s),
      fun b h => absurd h (h4 b)⟩, hs⟩
    cases o <;> first | rfl | exact h5.elim
  cases obj with
  | DemoFrame =>
    refine other _ hc ?_ ?_ (fun s h => by cases h) (fun b h => by cases h) trivial
    · rcases hc with h | h
      · simp only [] at h; rw [h]; decide
      · simp only [] at h; rw [h]; decide
    · rcases hc with h | h
      · simp only [] at h; rw [h]; decide
      · simp only [] at h; rw [h]; decide
  | ConsoleCommandFrame c =>
    have h : type = DemoFrameType.CONSOLE_COMMAND := hc.1
    refine other _ hc ?_ ?_ (fun s h => by cases h) (fun b h => by cases h) trivial
    · rw [h]; decide
    · rw [h]; decide
  | ClientDataFrame c =>
    have h : type = DemoFrameType.CLIENT_DATA := hc
    refine other _ hc ?_ ?_ (fun s h => by cases h) (fun b h => by cases h) trivial
    · rw [h]; decide
    · rw [h]; decide
  | EventFrame c =>
    have h : type = DemoFrameType.EVENT := hc
    refine other _ hc ?_ ?_ (fun s h => by cases h) (fun b h => by cases h) trivial
    · rw [h]; decide
    · rw [h]; decide
  | WeaponAnimFrame c =>
    have h : type = DemoFrameType.WEAPON_ANIM := hc
    refine other _ hc ?_ ?_ (fun s h => by cases h) (fun b h => by cases h) trivial
    · rw [h]; decide
    · rw [h]; decide
  | NetMsgFrame c =>
    have h : IsNetMsgType type := hc.1
    exact other _ hc (hns _ h).1 (hns _ h).2 (fun s h => by cases h) (fun b h => by cases h)
      trivial
  | SoundFrame c =>
    obtain ⟨ht, hl⟩ := hc
    simp only [] at ht hl
    subst ht
    by_cases hs : c.sample.length > 255
    · have e : sanitizeFrame (DemoFrame.mk DemoFrameType.SOUND time frame (.SoundFrame c)) =
          some (DemoFrame.mk DemoFrameType.SOUND time frame
            (.SoundFrame { c with sample := resize 255 c.sample })) := by
        unfold sanitizeFrame
        simp only [↓reduceIte, hs]
      have hr : resize 255 c.sample = c.sample.take 255 := resize_of_le _ _ (by omega)
      have hlen : (resize 255 c.sample).length = 255 := resize_length _ _
      refine ⟨_, e, ⟨rfl, rfl, rfl, ⟨_, rfl, ?_, ?_, ?_, rfl, rfl, rfl, rfl, rfl, ?_⟩⟩,
        ⟨rfl, ?_⟩, ⟨?_, ?_⟩, ?_⟩
      · simp only []; omega
      · simp only []; rw [hr]; exact List.take_prefix _ _
      · simp only []; omega
      · intro h; omega
      · simp only []; omega
      · intro s h
        simp only [FrameObject.SoundFrame.injEq] at h
        rw [← h]; simp only []; omega
      · intro b h; cases h
      · have hs' : ¬ (255 > 255) := by omega
        unfold sanitizeFrame
        simp only [↓reduceIte, hlen, hs']
    · have e : sanitizeFrame (DemoFrame.mk DemoFrameType.SOUND time frame (.SoundFrame c)) =
          some (DemoFrame.mk DemoFrameType.SOUND time frame (.SoundFrame c)) := by
        unfold sanitizeFrame
        simp only [↓reduceIte, hs]
      refine ⟨_, e, ⟨rfl, rfl, rfl, ⟨c, rfl, by omega, List.prefix_refl _, by omega, rfl, rfl,
        rfl, rfl, rfl, fun _ => rfl⟩⟩, ⟨rfl, hl⟩, ⟨?_, ?_⟩, e⟩
      · intro s h
        simp only [FrameObject.SoundFrame.injEq] at h
        rw [← h]; omega
      · intro b h; cases h
  | DemoBufferFrame c =>
    obtain ⟨ht, hl⟩ := hc
    simp only [] at ht hl
    subst ht
    have hne : DemoFrameType.DEMO_BUFFER ≠ DemoFrameType.SOUND := by decide
    by_cases hs : c.buffer.length > 32768
    · have e : sanitizeFrame
          (DemoFrame.mk DemoFrameType.DEMO_BUFFER time frame (.DemoBufferFrame c)) =
          some (DemoFrame.mk DemoFrameType.DEMO_BUFFER time frame
            (.DemoBufferFrame { buffer := resize 32768 c.buffer })) := by
        unfold sanitizeFrame
        simp only [↓reduceIte, hs, hne]
      have hr : resize 32768 c.buffer = c.buffer.take 32768 := resize_of_le _ _ (by omega)
      have hlen : (resize 32768 c.buffer).length = 32768 := resize_length _ _
      refine ⟨_, e, ⟨rfl, rfl, rfl, ⟨_, rfl, ?_, ?_, ?_, ?_⟩⟩, ⟨rfl, ?_⟩, ⟨?_, ?_⟩, ?_⟩
      · simp only []; omega
      · simp only []; rw [hr]; exact List.take_prefix _ _
      · simp only []; omega
      · intro h; omega
      · simp only []; omega
      · intro s h; cases h
      · intro b h
        simp only [FrameObject.DemoBufferFrame.injEq] at h
        rw [← h]; simp only []; omega
      · have hs' : ¬ (32768 > 32768) := by omega
        unfold sanitizeFrame
        simp only [↓reduceIte, hlen, hs', hne]
    · have e : sanitizeFrame
          (DemoFrame.mk DemoFrameType.DEMO_BUFFER time frame (.DemoBufferFrame c)) =
          some (DemoFrame.mk DemoFrameType.DEMO_BUFFER time frame (.DemoBufferFrame c)) := by
        unfold sanitizeFrame
        simp only [↓reduceIte, hs, hne]
      refine ⟨_, e, ⟨rfl, rfl, rfl, ⟨c, rfl, by omega, List.prefix_refl _, by omega,
        fun _ => rfl⟩⟩, ⟨rfl, hl⟩, ⟨?_, ?_⟩, e⟩
      · intro s h; cases h
      · intro b h
        simp only [FrameObject.DemoBufferFrame.injEq] at h
        rw [← h]; omega

/-- The yaw pass on a frame of the shape that `ReadFrames` builds. -/
theorem fixYawFrame_canonical (y : Word32) (f : DemoFrame) (hc : f.Canonical) :
    ∃ g, fixYawFrame y f = some g ∧ (YawPatched y f g ∧ g.Canonical) := by
  obtain ⟨type, time, frame, obj⟩ := f
  by_cases ht : type.val < 2 ∨ type.val > 9
  · have hn : IsNetMsgType type := (isNetMsgType_iff type).2 ht
    obtain ⟨h2, h3, h4, h5, h6, h7, h8, h9⟩ := hn
    cases obj with
    | NetMsgFrame c =>
      refine ⟨DemoFrame.mk type time frame (.NetMsgFrame (setYaw y c)), ?_,
        ⟨rfl, rfl, rfl, ?_, ?_⟩, ?_⟩
      · unfold fixYawFrame
        simp only []
        rw [if_pos ht]
      · intro h; simp only [] at h; omega
      · intro _
        exact ⟨c, setYaw y c, rfl, rfl, rfl, rfl, rfl,
          ⟨rfl, ⟨rfl, rfl, rfl, rfl, rfl, rfl, rfl, rfl, rfl, rfl, rfl, rfl, rfl, rfl, rfl, rfl,
            rfl, rfl, rfl, rfl, rfl, rfl, rfl, rfl, rfl, rfl, rfl, rfl, rfl, rfl, rfl, rfl, rfl,
            rfl, rfl⟩,
           ⟨rfl, rfl, rfl, rfl, rfl, rfl, rfl, rfl, rfl, rfl, rfl, rfl, rfl, rfl, rfl, rfl, rfl⟩,
           rfl, rfl, rfl, rfl, rfl, rfl, rfl, rfl, rfl, rfl, rfl⟩⟩
      · exact hc
    | DemoFrame =>
      rcases hc with h | h
      · exact absurd h h2
      · exact absurd h h5
    | ConsoleCommandFrame c => exact absurd hc.1 h3
    | ClientDataFrame c => exact absurd hc h4
    | EventFrame c => exact absurd hc h6
    | WeaponAnimFrame c => exact absurd hc h7
    | SoundFrame c => exact absurd hc.1 h8
    | DemoBufferFrame c => exact absurd hc.1 h9
  · refine ⟨DemoFrame.mk type time frame obj, ?_, ⟨rfl, rfl, rfl, fun _ => rfl, ?_⟩, hc⟩
    · unfold fixYawFrame
      simp only []
      rw [if_neg ht]
    · intro h; simp only [] at h; exact absurd h (by omega)

/-- A frame of the shape that `ReadFrames` builds is of the struct that its tag selects. -/
theorem tagVariant_of_canonical (f : DemoFrame) (hc : f.Canonical) : f.TagVariant := by
  obtain ⟨type, time, frame, obj⟩ := f
  unfold DemoFrame.TagVariant
  simp only []
  cases obj with
  | DemoFrame =>
    have hv : type.val = 2 ∨ type.val = 5 := by
      rcases hc with h | h
      · left; simp only [] at h; rw [h]; rfl
      · right; simp only [] at h; rw [h]; rfl
    refine ⟨fun _ => rfl, ?_, ?_, ?_, ?_, ?_, ?_, ?_⟩ <;> intro h <;> exfalso <;> omega
  | ConsoleCommandFrame c =>
    have hv : type.val = 3 := by
      have h : type = DemoFrameType.CONSOLE_COMMAND := hc.1
      rw [h]; rfl
    refine ⟨?_, ?_, ?_, ?_, ?_, ?_, ?_, ?_⟩ <;> intro h <;>
      first | exact ⟨_, rfl⟩ | (exfalso; omega)
  | ClientDataFrame c =>
    have hv : type.val = 4 := by
      have h : type = DemoFrameType.CLIENT_DATA := hc
      rw [h]; rfl
    refine ⟨?_, ?_, ?_, ?_, ?_, ?_, ?_, ?_⟩ <;> intro h <;>
      first | exact ⟨_, rfl⟩ | (exfalso; omega)
  | EventFrame c =>
    have hv : type.val = 6 := by
      have h : type = DemoFrameType.EVENT := hc
      rw [h]; rfl
    refine ⟨?_, ?_, ?_, ?_, ?_, ?_, ?_, ?_⟩ <;> intro h <;>
      first | exact ⟨_, rfl⟩ | (exfalso; omega)
  | WeaponAnimFrame c =>
    have hv : type.val = 7 := by
      have h : type = DemoFrameType.WEAPON_ANIM := hc
      rw [h]; rfl
    refine ⟨?_, ?_, ?_, ?_, ?_, ?_, ?_, ?_⟩ <;> intro h <;>
      first | exact ⟨_, rfl⟩ | (exfalso; omega)
  | SoundFrame c =>
    have hv : type.val = 8 := by
      have h : type = DemoFrameType.SOUND := hc.1
      rw [h]; rfl
    refine ⟨?_, ?_, ?_, ?_, ?_, ?_, ?_, ?_⟩ <;> intro h <;>
      first | exact ⟨_, rfl⟩ | (exfalso; omega)
  | DemoBufferFrame c =>
    have hv : type.val = 9 := by
      have h : type = DemoFrameType.DEMO_BUFFER := hc.1
      rw [h]; rfl
    refine ⟨?_, ?_, ?_, ?_, ?_, ?_, ?_, ?_⟩ <;> intro h <;>
      first | exact ⟨_, rfl⟩ | (exfalso; omega)
  | NetMsgFrame c =>
    have hv : type.val < 2 ∨ 9 < type.val := (isNetMsgType_iff type).1 hc.1
    refine ⟨?_, ?_, ?_, ?_, ?_, ?_, ?_, ?_⟩ <;> intro h <;>
      first | exact ⟨_, rfl⟩ | (exfalso; omega)

/-- On a frame of the struct that its tag selects, every tag-guided cast of `Save` and of
the four tools is to the struct that the frame is. -/
theorem tagVariant_casts (f : DemoFrame) (h : f.TagVariant) :
    (writeFrame f).isSome = true ∧ (sanitizeFrame f).isSome = true ∧
    (∀ y, (fixYawFrame y f).isSome = true) ∧ (dumpFrame f).isSome = true ∧
    (listdemoFrame f).isSome = true := by
  obtain ⟨type, time, frame, obj⟩ := f
  obtain ⟨h25, h3, h4, h6, h7, h8, h9, hn⟩ := h
  simp only [] at h25 h3 h4 h6 h7 h8 h9 hn
  rcases tag_cases type with h | h | h | h | h | h | h | h | h
  · subst h
    have ho := h25 (Or.inl rfl)
    subst ho
    exact ⟨rfl, rfl, fun _ => rfl, rfl, rfl⟩
  · subst h
    obtain ⟨c, ho⟩ := h3 rfl
    subst ho
    exact ⟨rfl, rfl, fun _ => rfl, rfl, rfl⟩
  · subst h
    obtain ⟨c, ho⟩ := h4 rfl
    subst ho
    exact ⟨rfl, rfl, fun _ => rfl, rfl, rfl⟩
  · subst h
    have ho := h25 (Or.inr rfl)
    subst ho
    exact ⟨rfl, rfl, fun _ => rfl, rfl, rfl⟩
  · subst h
    obtain ⟨c, ho⟩ := h6 rfl
    subst ho
    exact ⟨rfl, rfl, fun _ => rfl, rfl, rfl⟩
  · subst h
    obtain ⟨c, ho⟩ := h7 rfl
    subst ho
    exact ⟨rfl, rfl, fun _ => rfl, rfl, rfl⟩
  · subst h
    obtain ⟨c, ho⟩ := h8 rfl
    subst ho
    refine ⟨rfl, ?_, fun _ => rfl, rfl, rfl⟩
    unfold sanitizeFrame
    simp only [↓reduceIte]
    split <;> rfl
  · subst h
    obtain ⟨c, ho⟩ := h9 rfl
    subst ho
    refine ⟨rfl, ?_, fun _ => rfl, rfl, rfl⟩
    have hne : DemoFrameType.DEMO_BUFFER ≠ DemoFrameType.SOUND := by decide
    unfold sanitizeFrame
    simp only [↓reduceIte, hne]
    split <;> rfl
  · have hv := (isNetMsgType_iff type).1 h
    obtain ⟨c, ho⟩ := hn hv
    subst ho
    have hw := writeFrame_netMsg type time frame c h
    obtain ⟨_, n3, _, _, _, _, n8, n9⟩ := h
    refine ⟨?_, ?_, fun y => ?_, ?_, ?_⟩
    · rw [hw]; rfl
    · unfold sanitizeFrame
      simp only []
      rw [if_neg n8, if_neg n9]; rfl
    · unfold fixYawFrame
      simp only []
      rw [if_pos hv]; rfl
    · unfold dumpFrame
      simp only []
      rw [if_neg n3]
      simp only []
      rw [if_pos hv]; rfl
    · unfold listdemoFrame
      simp only []
      rw [if_pos hv]
      simp only []
      rw [if_neg n3]; rfl

theorem sanitizeLoop_eq (d : DemoFile)
    (h : ∀ e ∈ d.directoryEntries, ∀ f ∈ e.frames, f.Canonical) :
    ∃ es, sanitizeLoop d = some { d with directoryEntries := es } ∧
      List.Forall₂ (fun e e' => e'.record = e.record ∧
        List.Forall₂ (fun f g => SanitizedFrame f g ∧ g.Canonical ∧ g.WithinLimits ∧
          sanitizeFrame g = some g) e.frames e'.frames) d.directoryEntries es := by
  obtain ⟨es, h1, h2⟩ := forEntries_forall₂ sanitizeFrame DemoFrame.Canonical _
    sanitizeFrame_canonical d.directoryEntries h
  refine ⟨es, ?_, h2⟩
  unfold sanitizeLoop
  rw [h1]

theorem fixYawLoop_eq (y : Word32) (d : DemoFile)
    (h : ∀ e ∈ d.directoryEntries, ∀ f ∈ e.frames, f.Canonical) :
    ∃ es, fixYawLoop y d = some { d with directoryEntries := es } ∧
      List.Forall₂ (fun e e' => e'.record = e.record ∧
        List.Forall₂ (fun f g => YawPatched y f g ∧ g.Canonical) e.frames e'.frames)
        d.directoryEntries es := by
  obtain ⟨es, h1, h2⟩ := forEntries_forall₂ (fixYawFrame y) DemoFrame.Canonical _
    (fixYawFrame_canonical y) d.directoryEntries h
  refine ⟨es, ?_, h2⟩
  unfold fixYawLoop
  rw [h1]

theorem forall₂_entries_imp (R R' : DemoFrame → DemoFrame → Prop)
    (h : ∀ a b, R a b → R' a b) (es es' : List DemoDirectoryEntry)
    (hr : List.Forall₂
      (fun e e' => e'.record = e.record ∧ List.Forall₂ R e.frames e'.frames) es es') :
    List.Forall₂
      (fun e e' => e'.record = e.record ∧ List.Forall₂ R' e.frames e'.frames) es es' :=
  List.Forall₂.imp (fun _ _ hab => ⟨hab.1, List.Forall₂.imp (fun _ _ => h _ _) hab.2⟩) hr

/-- The frames of an object after a successful `ReadFrames` have the shape that the
`switch` builds. -/
theorem ReadFrames_canonical (S : List Byte) (m0 m1 : DemoFile)
    (hopen : DemoFile.DemoFile S = .ok m0) (hread : m0.ReadFrames = (none, m1)) :
    ∀ e ∈ m1.directoryEntries, ∀ f ∈ e.frames, f.Canonical := by
  intro e he f hf
  have h := ReadFrames_entryFrames S m0 hopen
  rw [hread] at h
  exact (h e he).1 f hf

/-- C24. For an object after a successful `ReadFrames`, the loop of the sanitizer is
defined and changes only the frames of the entries: the header, the directory records and
the number and order of entries and of frames are the same.  Frame by frame, the common
members are the same, the sample of a sound frame becomes its prefix of length
min (size, 255) and the buffer of a raw-buffer frame its prefix of length
min (size, 32768), with the other members unchanged; a payload within the limit and a
frame of another kind are unchanged.  Afterwards every sample has at most 255 and every
buffer at most 32768 bytes, and a second pass changes nothing. -/
theorem sanitizer_effect (S : List Byte) (m0 m1 : DemoFile)
    (hopen : DemoFile.DemoFile S = .ok m0) (hread : m0.ReadFrames = (none, m1)) :
    ∃ m2, sanitizeLoop m1 = some m2 ∧
      m2.header = m1.header ∧ m2.demo = m1.demo ∧ m2.readFrames = m1.readFrames ∧
      m2.directoryEntries.length = m1.directoryEntries.length ∧
      List.Forall₂ (fun e e' => e'.record = e.record ∧
          e'.frames.length = e.frames.length ∧
          List.Forall₂ SanitizedFrame e.frames e'.frames)
        m1.directoryEntries m2.directoryEntries ∧
      (∀ e ∈ m2.directoryEntries, ∀ f ∈ e.frames, f.WithinLimits) ∧
      sanitizeLoop m2 = some m2 := by
  obtain ⟨es, h1, h2⟩ := sanitizeLoop_eq m1 (ReadFrames_canonical S m0 m1 hopen hread)
  refine ⟨_, h1, rfl, rfl, rfl, h2.length_eq.symm, ?_, ?_, ?_⟩
  · exact List.Forall₂.imp
      (fun _ _ hab => ⟨hab.1, hab.2.length_eq.symm, List.Forall₂.imp (fun _ _ h => h.1) hab.2⟩)
      h2
  · exact forEntries_right _ _ (fun _ _ h => h.2.2.1) _ _ h2
  · unfold sanitizeLoop
    simp only []
    rw [forEntries_fix sanitizeFrame es (forEntries_right _ _ (fun _ _ h => h.2.2.2) _ _ h2)]

/-- C25. For an object after a successful `ReadFrames` and every yaw value `y`, the loop
of `FixYaw` is defined and changes only the frames of the entries: the header, the
directory records and the number and order of entries and of frames are the same.  Frame
by frame, the common members are the same; a frame with a tag in 2..9 is unchanged; a frame
with a tag below 2 or above 9 is a network-message frame whose `RefParams.viewangles[1]`,
`RefParams.cl_viewangles[1]` and `UserCmd.viewangles[1]` are `y` afterwards and whose
other members are unchanged. -/
theorem fixYaw_effect (S : List Byte) (m0 m1 : DemoFile) (y : Word32)
    (hopen : DemoFile.DemoFile S = .ok m0) (hread : m0.ReadFrames = (none, m1)) :
    ∃ m2, fixYawLoop y m1 = some m2 ∧
      m2.header = m1.header ∧ m2.demo = m1.demo ∧ m2.readFrames = m1.readFrames ∧
      m2.directoryEntries.length = m1.directoryEntries.length ∧
      List.Forall₂ (fun e e' => e'.record = e.record ∧
          e'.frames.length = e.frames.length ∧
          List.Forall₂ (YawPatched y) e.frames e'.frames)
        m1.directoryEntries m2.directoryEntries := by
  obtain ⟨es, h1, h2⟩ := fixYawLoop_eq y m1 (ReadFrames_canonical S m0 m1 hopen hread)
  refine ⟨_, h1, rfl, rfl, rfl, h2.length_eq.symm, ?_⟩
  exact List.Forall₂.imp
    (fun _ _ hab => ⟨hab.1, hab.2.length_eq.symm, List.Forall₂.imp (fun _ _ h => h.1) hab.2⟩)
    h2

/-- C29. For an object after a successful `ReadFrames`, every frame of every entry is an
object of the struct that its tag selects (tag 3 `ConsoleCommandFrame`, 4
`ClientDataFrame`, 6 `EventFrame`, 7 `WeaponAnimFrame`, 8 `SoundFrame`, 9
`DemoBufferFrame`, tags below 2 or above 9 `NetMsgFrame`, tags 2 and 5 the base struct), so
the tag-guided casts of `Save`, the sanitizer, `FixYaw`, `DumpFrames` and `Listdemo` are
all defined on it, and `Save` is defined on the object; the frames that the sanitizer's
loop and the loop of `FixYaw` leave have the same property, and `Save` is defined on the
objects that they leave. -/
theorem tag_variant_consistency (S : List Byte) (m0 m1 : DemoFile)
    (hopen : DemoFile.DemoFile S = .ok m0) (hread : m0.ReadFrames = (none, m1)) :
    (∀ e ∈ m1.directoryEntries, ∀ f ∈ e.frames,
      f.TagVariant ∧ (writeFrame f).isSome = true ∧ (sanitizeFrame f).isSome = true ∧
      (∀ y, (fixYawFrame y f).isSome = true) ∧ (dumpFrame f).isSome = true ∧
      (listdemoFrame f).isSome = true ∧
      (∀ g, sanitizeFrame f = some g → g.TagVariant) ∧
      (∀ y g, fixYawFrame y f = some g → g.TagVariant)) ∧
    (m1.Save).isSome = true ∧
    (∃ m2, sanitizeLoop m1 = some m2 ∧ (m2.Save).isSome = true ∧
      ∀ e ∈ m2.directoryEntries, ∀ f ∈ e.frames, f.TagVariant) ∧
    (∀ y, ∃ m2, fixYawLoop y m1 = some m2 ∧ (m2.Save).isSome = true ∧
      ∀ e ∈ m2.directoryEntries, ∀ f ∈ e.frames, f.TagVariant) := by
  have hcan := ReadFrames_canonical S m0 m1 hopen hread
  have hsave : ∀ d : DemoFile, (∀ e ∈ d.directoryEntries, ∀ f ∈ e.frames, f.Canonical) →
      (d.Save).isSome = true := by
    intro d hd
    rw [Save_eq d (fun e he f hf => canonical_writable f (hd e he f hf))]
    rfl
  refine ⟨?_, hsave m1 hcan, ?_, ?_⟩
  · intro e he f hf
    have hc := hcan e he f hf
    have hv := tagVariant_of_canonical f hc
    obtain ⟨c1, c2, c3, c4, c5⟩ := tagVariant_casts f hv
    refine ⟨hv, c1, c2, c3, c4, c5, ?_, ?_⟩
    · intro g hg
      obtain ⟨g', hg', _, hcg, _⟩ := sanitizeFrame_canonical f hc
      rw [hg] at hg'
      simp only [Option.some.injEq] at hg'
      rw [hg']
      exact tagVariant_of_canonical _ hcg
    · intro y g hg
      obtain ⟨g', hg', _, hcg⟩ := fixYawFrame_canonical y f hc
      rw [hg] at hg'
      simp only [Option.some.injEq] at hg'
      rw [hg']
      exact tagVariant_of_canonical _ hcg
  · obtain ⟨es, h1, h2⟩ := sanitizeLoop_eq m1 hcan
    have hc2 : ∀ e ∈ es, ∀ f ∈ e.frames, f.Canonical :=
      forEntries_right _ _ (fun _ _ h => h.2.1) _ _ h2
    exact ⟨_, h1, hsave _ hc2, fun e he f hf => tagVariant_of_canonical f (hc2 e he f hf)⟩
  · intro y
    obtain ⟨es, h1, h2⟩ := fixYawLoop_eq y m1 hcan
    have hc2 : ∀ e ∈ es, ∀ f ∈ e.frames, f.Canonical :=
      forEntries_right _ _ (fun _ _ h => h.2) _ _ h2
    exact ⟨_, h1, hsave _ hc2, fun e he f hf => tagVariant_of_canonical f (hc2 e he f hf)⟩

/-- C24, instance: the sample file is opened and read, and the sanitizer's loop on the
object has the effect stated; a sound frame with a sample of 300 bytes is cut to the first
255 bytes, and one with 255 bytes is left as it is. -/
theorem sanitizer_effect_witness :
    DemoFile.DemoFile sampleFile = .ok sampleOpened ∧
    sampleOpened.ReadFrames = (none, sampleRead) ∧
    (∃ m2, sanitizeLoop sampleRead = some m2 ∧
      m2.header = sampleRead.header ∧ m2.demo = sampleRead.demo ∧
      m2.readFrames = sampleRead.readFrames ∧
      m2.directoryEntries.length = sampleRead.directoryEntries.length ∧
      List.Forall₂ (fun e e' => e'.record = e.record ∧
          e'.frames.length = e.frames.length ∧
          List.Forall₂ SanitizedFrame e.frames e'.frames)
        sampleRead.directoryEntries m2.directoryEntries ∧
      (∀ e ∈ m2.directoryEntries, ∀ f ∈ e.frames, f.WithinLimits) ∧
      sanitizeLoop m2 = some m2) ∧
    sanitizeFrame (soundFrameWith (List.replicate 200 7 ++ List.replicate 100 8)) =
      some (soundFrameWith (List.replicate 200 7 ++ List.replicate 55 8)) ∧
    sanitizeFrame (soundFrameWith (List.replicate 255 7)) =
      some (soundFrameWith (List.replicate 255 7)) :=
  ⟨sampleFile_facts.1, sampleFile_facts.2.2.1,
    sanitizer_effect sampleFile sampleOpened sampleRead sampleFile_facts.1
      sampleFile_facts.2.2.1, by decide, by decide⟩

/-- C25, instance: the sample file is opened and read, and the loop of `FixYaw` with the
yaw 90.0 (as a `float`, 0x42B40000) on the object has the effect stated; on the
network-message frame of the sample the three fields are set. -/
theorem fixYaw_effect_witness :
    DemoFile.DemoFile sampleFile = .ok sampleOpened ∧
    sampleOpened.ReadFrames = (none, sampleRead) ∧
    (∃ m2, fixYawLoop 1119092736 sampleRead = some m2 ∧
      m2.header = sampleRead.header ∧ m2.demo = sampleRead.demo ∧
      m2.readFrames = sampleRead.readFrames ∧
      m2.directoryEntries.length = sampleRead.directoryEntries.length ∧
      List.Forall₂ (fun e e' => e'.record = e.record ∧
          e'.frames.length = e.frames.length ∧
          List.Forall₂ (YawPatched 1119092736) e.frames e'.frames)
        sampleRead.directoryEntries m2.directoryEntries) ∧
    (fixYawFrame 1119092736 sampleNetMsgFrame).map
        (fun g => match g.object with
          | .NetMsgFrame n =>
            [n.DemoInfo.RefParams.viewangles.v1, n.DemoInfo.RefParams.cl_viewangles.v1,
              n.DemoInfo.UserCmd.viewangles.v1]
          | _ => []) = some [1119092736, 1119092736, 1119092736] ∧
    fixYawFrame 1119092736 sampleSoundFrame = some sampleSoundFrame :=
  ⟨sampleFile_facts.1, sampleFile_facts.2.2.1,
    fixYaw_effect sampleFile sampleOpened sampleRead 1119092736 sampleFile_facts.1
      sampleFile_facts.2.2.1, by decide, by decide⟩

/-- C29, instance: the sample file is opened and read, and every frame of the object is of
the struct that its tag selects, before and after the loops of the sanitizer and of
`FixYaw`. -/
theorem tag_variant_consistency_witness :
    DemoFile.DemoFile sampleFile = .ok sampleOpened ∧
    sampleOpened.ReadFrames = (none, sampleRead) ∧
    ((∀ e ∈ sampleRead.directoryEntries, ∀ f ∈ e.frames,
      f.TagVariant ∧ (writeFrame f).isSome = true ∧ (sanitizeFrame f).isSome = true ∧
      (∀ y, (fixYawFrame y f).isSome = true) ∧ (dumpFrame f).isSome = true ∧
      (listdemoFrame f).isSome = true ∧
      (∀ g, sanitizeFrame f = some g → g.TagVariant) ∧
      (∀ y g, fixYawFrame y f = some g → g.TagVariant)) ∧
    (sampleRead.Save).isSome = true ∧
    (∃ m2, sanitizeLoop sampleRead = some m2 ∧ (m2.Save).isSome = true ∧
      ∀ e ∈ m2.directoryEntries, ∀ f ∈ e.frames, f.TagVariant) ∧
    (∀ y, ∃ m2, fixYawLoop y sampleRead = some m2 ∧ (m2.Save).isSome = true ∧
      ∀ e ∈ m2.directoryEntries, ∀ f ∈ e.frames, f.TagVariant)) :=
  ⟨sampleFile_facts.1, sampleFile_facts.2.2.1,
    tag_variant_consistency sampleFile sampleOpened sampleRead sampleFile_facts.1
      sampleFile_facts.2.2.1⟩

/-! ## Truncation -/

theorem Reader.fixed_append {α : Type} {R : Reader α} {n : Nat} (h : R.Fixed n)
    (r t : List Byte) (hr : n ≤ r.length) :
    ∃ a, R r = some (a, r.drop n) ∧ R (r ++ t) = some (a, r.drop n ++ t) := by
  obtain ⟨g, hg⟩ := h
  refine ⟨g (r.take n), by rw [hg, if_pos hr], ?_⟩
  rw [hg, if_pos (by rw [List.length_append]; omega), List.take_append_of_le_length hr,
    List.drop_append_of_le_length hr]

theorem caseConsoleCommand_extends (n n' : Nat) (type : Byte) (time frame : Word32)
    (r t : List Byte) :
    FrameStep.Extends t (caseConsoleCommand n' type time frame r)
      (caseConsoleCommand n type time frame (r ++ t)) := by
  unfold caseConsoleCommand
  by_cases hg : r.length < FRAME_CONSOLE_COMMAND_SIZE
  · rw [if_pos ((guard_iff _ _ _).2 hg)]; exact True.intro
  · have hg' : ¬ (r ++ t).length < FRAME_CONSOLE_COMMAND_SIZE := by
      rw [List.length_append]; omega
    rw [if_neg (fun h => hg ((guard_iff _ _ _).1 h)),
      if_neg (fun h => hg' ((guard_iff _ _ _).1 h))]
    obtain ⟨a, h1, h2⟩ := Reader.fixed_append (read_text_fixed FRAME_CONSOLE_COMMAND_SIZE) r t
      (by omega)
    rw [h1, h2]
    rfl

theorem caseClientData_extends (n n' : Nat) (type : Byte) (time frame : Word32)
    (r t : List Byte) :
    FrameStep.Extends t (caseClientData n' type time frame r)
      (caseClientData n type time frame (r ++ t)) := by
  unfold caseClientData
  by_cases hg : r.length < FRAME_CLIENT_DATA_SIZE
  · rw [if_pos ((guard_iff _ _ _).2 hg)]; exact True.intro
  · have hg' : ¬ (r ++ t).length < FRAME_CLIENT_DATA_SIZE := by
      rw [List.length_append]; omega
    rw [if_neg (fun h => hg ((guard_iff _ _ _).1 h)),
      if_neg (fun h => hg' ((guard_iff _ _ _).1 h))]
    simp only [FRAME_CLIENT_DATA_SIZE] at hg
    obtain ⟨a, h1, h2⟩ := Reader.fixed_append readClientData_fixed r t (by omega)
    rw [h1, h2]
    rfl

theorem caseEvent_extends (n n' : Nat) (type : Byte) (time frame : Word32)
    (r t : List Byte) :
    FrameStep.Extends t (caseEvent n' type time frame r)
      (caseEvent n type time frame (r ++ t)) := by
  unfold caseEvent
  by_cases hg : r.length < FRAME_EVENT_SIZE
  · rw [if_pos ((guard_iff _ _ _).2 hg)]; exact True.intro
  · have hg' : ¬ (r ++ t).length < FRAME_EVENT_SIZE := by
      rw [List.length_append]; omega
    rw [if_neg (fun h => hg ((guard_iff _ _ _).1 h)),
      if_neg (fun h => hg' ((guard_iff _ _ _).1 h))]
    simp only [FRAME_EVENT_SIZE] at hg
    obtain ⟨a, h1, h2⟩ := Reader.fixed_append readEvent_fixed r t (by omega)
    rw [h1, h2]
    rfl

theorem caseWeaponAnim_extends (n n' : Nat) (type : Byte) (time frame : Word32)
    (r t : List Byte) :
    FrameStep.Extends t (caseWeaponAnim n' type time frame r)
      (caseWeaponAnim n type time frame (r ++ t)) := by
  unfold caseWeaponAnim
  by_cases hg : r.length < FRAME_WEAPON_ANIM_SIZE
  · rw [if_pos ((guard_iff _ _ _).2 hg)]; exact True.intro
  · have hg' : ¬ (r ++ t).length < FRAME_WEAPON_ANIM_SIZE := by
      rw [List.length_append]; omega
    rw [if_neg (fun h => hg ((guard_iff _ _ _).1 h)),
      if_neg (fun h => hg' ((guard_iff _ _ _).1 h))]
    simp only [FRAME_WEAPON_ANIM_SIZE] at hg
    obtain ⟨a, h1, h2⟩ := Reader.fixed_append readWeaponAnim_fixed r t (by omega)
    rw [h1, h2]
    rfl

theorem caseSound_extends (n n' : Nat) (type : Byte) (time frame : Word32)
    (r t : List Byte) :
    FrameStep.Extends t (caseSound n' type time frame r)
      (caseSound n type time frame (r ++ t)) := by
  unfold caseSound
  by_cases hg : r.length < FRAME_SOUND_SIZE_1
  · rw [if_pos ((guard_iff _ _ _).2 hg)]; exact True.intro
  · have hg' : ¬ (r ++ t).length < FRAME_SOUND_SIZE_1 := by
      rw [List.length_append]; omega
    rw [if_neg (fun h => hg ((guard_iff _ _ _).1 h)),
      if_neg (fun h => hg' ((guard_iff _ _ _).1 h))]
    simp only [FRAME_SOUND_SIZE_1] at hg
    obtain ⟨⟨channel, length⟩, h1, h2⟩ := Reader.fixed_append readSoundHead_fixed r t
      (by omega)
    rw [h1, h2]
    simp only []
    by_cases hg2 : ((r.drop 8).length : Int) < int32 length + (FRAME_SOUND_SIZE_2 : Nat)
    · rw [if_pos ((guard2_iff _ _ _ _).2 hg2)]; exact True.intro
    · have hg2' : ¬ ((r.drop 8 ++ t).length : Int) < int32 length + (FRAME_SOUND_SIZE_2 : Nat) := by
        rw [List.length_append]; push_cast; omega
      rw [if_neg (fun h => hg2 ((guard2_iff _ _ _ _).1 h)),
        if_neg (fun h => hg2' ((guard2_iff _ _ _ _).1 h))]
      by_cases hneg : int32 length < 0
      · rw [if_pos hneg, if_pos hneg]; rfl
      · rw [if_neg hneg, if_neg hneg]
        have hl : ((int32 length).toNat : Int) = int32 length :=
          Int.toNat_of_nonneg (by omega)
        simp only [FRAME_SOUND_SIZE_2, List.length_drop] at hg2
        obtain ⟨a, h3, h4⟩ := Reader.fixed_append
          (readSoundTail_fixed channel (int32 length).toNat) (r.drop 8) t
          (by simp only [List.length_drop]; omega)
        rw [h3, h4]
        rfl

theorem caseDemoBuffer_extends (n n' : Nat) (type : Byte) (time frame : Word32)
    (r t : List Byte) :
    FrameStep.Extends t (caseDemoBuffer n' type time frame r)
      (caseDemoBuffer n type time frame (r ++ t)) := by
  unfold caseDemoBuffer
  by_cases hg : r.length < FRAME_DEMO_BUFFER_SIZE
  · rw [if_pos ((guard_iff _ _ _).2 hg)]; exact True.intro
  · have hg' : ¬ (r ++ t).length < FRAME_DEMO_BUFFER_SIZE := by
      rw [List.length_append]; omega
    rw [if_neg (fun h => hg ((guard_iff _ _ _).1 h)),
      if_neg (fun h => hg' ((guard_iff _ _ _).1 h))]
    simp only [FRAME_DEMO_BUFFER_SIZE] at hg
    obtain ⟨length, h1, h2⟩ := Reader.fixed_append read_object32_fixed r t (by omega)
    rw [h1, h2]
    simp only []
    by_cases hg2 : ((r.drop 4).length : Int) < int32 length
    · rw [if_pos ((guard1_iff _ _ _).2 hg2)]; exact True.intro
    · have hg2' : ¬ ((r.drop 4 ++ t).length : Int) < int32 length := by
        rw [List.length_append]; push_cast; omega
      rw [if_neg (fun h => hg2 ((guard1_iff _ _ _).1 h)),
        if_neg (fun h => hg2' ((guard1_iff _ _ _).1 h))]
      by_cases hneg : int32 length < 0
      · rw [if_pos hneg, if_pos hneg]; rfl
      · rw [if_neg hneg, if_neg hneg]
        have hl : ((int32 length).toNat : Int) = int32 length :=
          Int.toNat_of_nonneg (by omega)
        simp only [List.length_drop] at hg2
        obtain ⟨a, h3, h4⟩ := Reader.fixed_append
          (read_objects_fixed (int32 length).toNat) (r.drop 4) t
          (by simp only [List.length_drop]; omega)
        rw [h3, h4]
        rfl

theorem caseNetMsg_extends (n n' : Nat) (type : Byte) (time frame : Word32)
    (r t : List Byte) :
    FrameStep.Extends t (caseNetMsg n' type time frame r)
      (caseNetMsg n type time frame (r ++ t)) := by
  unfold caseNetMsg
  by_cases hg : r.length < FRAME_NETMSG_SIZE
  · rw [if_pos ((guard_iff _ _ _).2 hg)]; exact True.intro
  · have hg' : ¬ (r ++ t).length < FRAME_NETMSG_SIZE := by
      rw [List.length_append]; omega
    rw [if_neg (fun h => hg ((guard_iff _ _ _).1 h)),
      if_neg (fun h => hg' ((guard_iff _ _ _).1 h))]
    simp only [FRAME_NETMSG_SIZE] at hg
    obtain ⟨⟨f, length⟩, h1, h2⟩ := Reader.fixed_append readNetMsgHead_fixed r t (by omega)
    rw [h1, h2]
    simp only []
    by_cases hrange : int32 length < FRAME_NETMSG_MIN_MESSAGE_LENGTH ∨
        int32 length > FRAME_NETMSG_MAX_MESSAGE_LENGTH
    · rw [if_pos hrange]; exact True.intro
    · rw [if_neg hrange, if_neg hrange]
      simp only [FRAME_NETMSG_MIN_MESSAGE_LENGTH, FRAME_NETMSG_MAX_MESSAGE_LENGTH, not_or,
        not_lt, gt_iff_lt] at hrange
      by_cases hg2 : ((r.drop 468).length : Int) < int32 length
      · rw [if_pos ((guard1_iff _ _ _).2 hg2)]; exact True.intro
      · have hg2' : ¬ ((r.drop 468 ++ t).length : Int) < int32 length := by
          rw [List.length_append]; push_cast; omega
        rw [if_neg (fun h => hg2 ((guard1_iff _ _ _).1 h)),
          if_neg (fun h => hg2' ((guard1_iff _ _ _).1 h))]
        have hl : ((int32 length).toNat : Int) = int32 length :=
          Int.toNat_of_nonneg hrange.1
        simp only [List.length_drop] at hg2
        obtain ⟨a, h3, h4⟩ := Reader.fixed_append
          (read_objects_fixed (int32 length).toNat) (r.drop 468) t
          (by simp only [List.length_drop]; omega)
        rw [h3, h4]
        rfl

theorem readFrameSwitch_extends (n n' : Nat) (type : Byte) (time frame : Word32)
    (r t : List Byte) :
    FrameStep.Extends t (readFrameSwitch n' type time frame r)
      (readFrameSwitch n type time frame (r ++ t)) := by
  rcases tag_cases type with h | h | h | h | h | h | h | h | h
  · rw [readFrameSwitch_demoStart _ _ _ _ _ h, readFrameSwitch_demoStart _ _ _ _ _ h]; rfl
  · rw [readFrameSwitch_consoleCommand _ _ _ _ _ h, readFrameSwitch_consoleCommand _ _ _ _ _ h]
    exact caseConsoleCommand_extends _ _ _ _ _ _ _
  · rw [readFrameSwitch_clientData _ _ _ _ _ h, readFrameSwitch_clientData _ _ _ _ _ h]
    exact caseClientData_extends _ _ _ _ _ _ _
  · rw [readFrameSwitch_nextSection _ _ _ _ _ h, readFrameSwitch_nextSection _ _ _ _ _ h]; rfl
  · rw [readFrameSwitch_event _ _ _ _ _ h, readFrameSwitch_event _ _ _ _ _ h]
    exact caseEvent_extends _ _ _ _ _ _ _
  · rw [readFrameSwitch_weaponAnim _ _ _ _ _ h, readFrameSwitch_weaponAnim _ _ _ _ _ h]
    exact caseWeaponAnim_extends _ _ _ _ _ _ _
  · rw [readFrameSwitch_sound _ _ _ _ _ h, readFrameSwitch_sound _ _ _ _ _ h]
    exact caseSound_extends _ _ _ _ _ _ _
  · rw [readFrameSwitch_demoBuffer _ _ _ _ _ h, readFrameSwitch_demoBuffer _ _ _ _ _ h]
    exact caseDemoBuffer_extends _ _ _ _ _ _ _
  · rw [readFrameSwitch_netMsg _ _ _ _ _ h, readFrameSwitch_netMsg _ _ _ _ _ h]
    exact caseNetMsg_extends _ _ _ _ _ _ _

/-- One pass of the loop on a stream and on the stream with more bytes behind it. -/
theorem readFrame_extends (n n' : Nat) (r t : List Byte) :
    FrameStep.Extends t (readFrame n' r) (readFrame n (r ++ t)) := by
  unfold readFrame
  by_cases hg : r.length < MIN_FRAME_SIZE
  · rw [if_pos ((guard_iff _ _ _).2 hg)]; exact True.intro
  · have hg' : ¬ (r ++ t).length < MIN_FRAME_SIZE := by
      rw [List.length_append]; omega
    rw [if_neg (fun h => hg ((guard_iff _ _ _).1 h)),
      if_neg (fun h => hg' ((guard_iff _ _ _).1 h))]
    simp only [MIN_FRAME_SIZE] at hg
    obtain ⟨⟨type, time, frame⟩, h1, h2⟩ := Reader.fixed_append readFrameHead_fixed r t
      (by omega)
    rw [h1, h2]
    simp only []
    exact readFrameSwitch_extends _ _ _ _ _ _ _

/-- The loop of an entry on a stream and on the stream with more bytes behind it: when the
longer one ends normally, so does the shorter one, with a prefix of the frames. -/
theorem readFrameLoop_extends (n n' : Nat) : ∀ (fuel' fuel : Nat) (r t : List Byte)
    (acc fs : List DemoFrame), r.length < 9 * fuel' → (r ++ t).length < 9 * fuel →
    readFrameLoop n fuel (r ++ t) acc = .done fs →
    ∃ fs', readFrameLoop n' fuel' r acc = .done fs' ∧ fs' <+: fs := by
  intro fuel'
  induction fuel' with
  | zero => intro fuel r t acc fs h; omega
  | succ fuel' ih =>
    intro fuel r t acc fs hf' hf hlong
    cases fuel with
    | zero => omega
    | succ fuel =>
      have hext := readFrame_extends n n' r t
      unfold readFrameLoop at hlong ⊢
      rcases readFrame_good n' r with hs | hs | ⟨f, k, hs, hk9, hk, _⟩
      · rw [hs]
        simp only []
        refine ⟨acc, rfl, ?_⟩
        obtain ⟨gs, hres, _⟩ := readFrameLoop_count n (fuel + 1) (r ++ t) acc hf
        unfold readFrameLoop at hres
        rw [hlong] at hres
        rcases hres with hres | hres
        · simp only [LoopResult.done.injEq] at hres
          rw [hres]; exact List.prefix_append _ _
        · cases hres
      · rw [hs] at hext
        have hl : readFrame n (r ++ t) = .thrown .lengthError := hext
        rw [hl] at hlong
        cases hlong
      · rw [hs] at hext
        have hl : readFrame n (r ++ t) =
            .appended f (decide (f.type = DemoFrameType.NEXT_SECTION)) (r.drop k ++ t) := hext
        rw [hl] at hlong
        rw [hs]
        by_cases ht : f.type = DemoFrameType.NEXT_SECTION
        · rw [decide_eq_true ht] at hlong ⊢
          simp only [LoopResult.done.injEq] at hlong
          exact ⟨_, rfl, by rw [hlong]⟩
        · rw [decide_eq_false ht] at hlong ⊢
          simp only [] at hlong ⊢
          exact ih fuel (r.drop k) t (acc ++ [f]) fs (by rw [List.length_drop]; omega)
            (by rw [List.length_append, List.length_drop]
                rw [List.length_append] at hf
                omega) hlong

/-- The loop over the entries on a file and on the file with more bytes behind it: when
nothing is thrown on the longer file, nothing is thrown on the shorter one, and every entry
of the shorter one has the directory record of, and a prefix of the frames of, the entry in
its place on the longer one. -/
theorem readEntries_extends (S' t : List Byte) : ∀ es : List DemoDirectoryEntry,
    (readEntries (S' ++ t) es).1 = none →
    (readEntries S' es).1 = none ∧
    List.Forall₂ (fun e' e => e'.record = e.record ∧ e'.frames <+: e.frames)
      (readEntries S' es).2 (readEntries (S' ++ t) es).2 := by
  intro es
  induction es with
  | nil => intro _; exact ⟨rfl, List.Forall₂.nil⟩
  | cons entry rest ih =>
    intro h
    have hlen : (S' ++ t).length = S'.length + t.length := List.length_append _ _
    by_cases hneg : int32 entry.offset < 0
    · have c1 : int32 entry.offset < 0 ∨ (S'.length : Int) < int32 entry.offset := Or.inl hneg
      have c2 : int32 entry.offset < 0 ∨ ((S' ++ t).length : Int) < int32 entry.offset :=
        Or.inl hneg
      unfold readEntries at h ⊢
      rw [if_pos c2] at h ⊢
      rw [if_pos c1]
      simp only [] at h ⊢
      obtain ⟨i1, i2⟩ := ih h
      exact ⟨i1, List.Forall₂.cons ⟨rfl, List.prefix_refl _⟩ i2⟩
    · by_cases hbig : ((S' ++ t).length : Int) < int32 entry.offset
      · have c1 : int32 entry.offset < 0 ∨ (S'.length : Int) < int32 entry.offset :=
          Or.inr (by rw [hlen] at hbig; push_cast at hbig; omega)
        have c2 : int32 entry.offset < 0 ∨ ((S' ++ t).length : Int) < int32 entry.offset :=
          Or.inr hbig
        unfold readEntries at h ⊢
        rw [if_pos c2] at h ⊢
        rw [if_pos c1]
        simp only [] at h ⊢
        obtain ⟨i1, i2⟩ := ih h
        exact ⟨i1, List.Forall₂.cons ⟨rfl, List.prefix_refl _⟩ i2⟩
      · have c2 : ¬ (int32 entry.offset < 0 ∨
            ((S' ++ t).length : Int) < int32 entry.offset) := by
          rintro (c | c)
          · exact hneg c
          · exact hbig c
        obtain ⟨gs, hres, _⟩ := readFrameLoop_count (S' ++ t).length ((S' ++ t).length + 1)
          ((S' ++ t).drop (int32 entry.offset).toNat) entry.frames
          (by rw [List.length_drop]; omega)
        unfold readEntries at h ⊢
        rw [if_neg c2] at h ⊢
        rcases hres with hres | hres
        · rw [hres] at h ⊢
          simp only [] at h ⊢
          obtain ⟨i1, i2⟩ := ih h
          by_cases hmid : (S'.length : Int) < int32 entry.offset
          · rw [if_pos (Or.inr hmid)]
            exact ⟨i1, List.Forall₂.cons ⟨rfl, List.prefix_append _ _⟩ i2⟩
          · have c1 : ¬ (int32 entry.offset < 0 ∨ (S'.length : Int) < int32 entry.offset) := by
              rintro (c | c)
              · exact hneg c
              · exact hmid c
            rw [if_neg c1]
            have ho : (int32 entry.offset).toNat ≤ S'.length := by omega
            rw [List.drop_append_of_le_length ho] at hres
            obtain ⟨fs', hs', hpre⟩ := readFrameLoop_extends (S' ++ t).length S'.length
              (S'.length + 1) ((S' ++ t).length + 1) (S'.drop (int32 entry.offset).toNat) t
              entry.frames _ (by rw [List.length_drop]; omega)
              (by rw [List.length_append, List.length_drop]; omega) hres
            rw [hs']
            simp only []
            exact ⟨i1, List.Forall₂.cons ⟨rfl, hpre⟩ i2⟩
        · rw [hres] at h
          cases h

/-- C28. For a byte sequence S, a prefix S' of S and an offset o: when the frame loop of
an entry at offset o of S ends without an exception, the frame loop at offset o of S' also
ends without an exception, and its frames are a prefix of the frames from S.  (For
o <= |S'| the loops read S.drop o and S'.drop o; the statement holds for every o.)  The
same holds for the loop of `ReadFrames` over all entries: when nothing is thrown on S,
nothing is thrown on S', and every entry from S' has a prefix of the frames of the entry in
its place from S. -/
theorem truncation_monotone (S S' : List Byte) (o : Nat) (fs : List DemoFrame)
    (hpre : S' <+: S) (ho : o ≤ S'.length)
    (h : readFrameLoop S.length (S.length + 1) (S.drop o) [] = .done fs) :
    (∃ fs', readFrameLoop S'.length (S'.length + 1) (S'.drop o) [] = .done fs' ∧
      fs' <+: fs) ∧
    (∀ es : List DemoDirectoryEntry, (readEntries S es).1 = none →
      (readEntries S' es).1 = none ∧
      List.Forall₂ (fun e' e => e'.record = e.record ∧ e'.frames <+: e.frames)
        (readEntries S' es).2 (readEntries S es).2) := by
  obtain ⟨t, rfl⟩ := hpre
  refine ⟨?_, readEntries_extends S' t⟩
  have hlen : (S' ++ t).length = S'.length + t.length := List.length_append _ _
  rw [List.drop_append_of_le_length ho] at h
  exact readFrameLoop_extends (S' ++ t).length S'.length (S'.length + 1)
    ((S' ++ t).length + 1) (S'.drop o) t [] fs (by rw [List.length_drop]; omega)
    (by rw [List.length_append, List.length_drop]; omega) h

/-- C28, instance: a stream of three frames (37, 17 and 9 bytes) and three more bytes, read
from offset 0, gives the three frames; cut after 50 of its 66 bytes, the loop still ends
without an exception and gives the first frame only. -/
theorem truncation_monotone_witness :
    threeFrames.take 50 <+: threeFrames ∧ 0 ≤ (threeFrames.take 50).length ∧
    readFrameLoop threeFrames.length (threeFrames.length + 1) (threeFrames.drop 0) [] =
      .done [sampleSoundFrame, sampleWeaponAnimFrame, nextSectionFrame] ∧
    readFrameLoop (threeFrames.take 50).length ((threeFrames.take 50).length + 1)
        ((threeFrames.take 50).drop 0) [] = .done [sampleSoundFrame] ∧
    ((∃ fs', readFrameLoop (threeFrames.take 50).length ((threeFrames.take 50).length + 1)
        ((threeFrames.take 50).drop 0) [] = .done fs' ∧
      fs' <+: [sampleSoundFrame, sampleWeaponAnimFrame, nextSectionFrame]) ∧
    (∀ es : List DemoDirectoryEntry, (readEntries threeFrames es).1 = none →
      (readEntries (threeFrames.take 50) es).1 = none ∧
      List.Forall₂ (fun e' e => e'.record = e.record ∧ e'.frames <+: e.frames)
        (readEntries (threeFrames.take 50) es).2 (readEntries threeFrames es).2)) :=
  have h : readFrameLoop threeFrames.length (threeFrames.length + 1) (threeFrames.drop 0) [] =
        .done [sampleSoundFrame, sampleWeaponAnimFrame, nextSectionFrame] ∧
      readFrameLoop (threeFrames.take 50).length ((threeFrames.take 50).length + 1)
        ((threeFrames.take 50).drop 0) [] = .done [sampleSoundFrame] := by decide!
  ⟨List.take_prefix _ _, Nat.zero_le _, h.1, h.2,
    truncation_monotone threeFrames (threeFrames.take 50) 0 _ (List.take_prefix _ _)
      (Nat.zero_le _) h.1⟩

/-! ## Opening the output of `Save`, for any texts -/

theorem takeWhile_take {α : Type} (p : α → Bool) : ∀ (n : Nat) (l : List α),
    (l.take n).takeWhile p = (l.takeWhile p).take n := by
  intro n l
  induction l generalizing n with
  | nil => simp
  | cons x xs ih =>
    cases n with
    | zero => simp
    | succ n =>
      simp only [List.take_succ_cons, List.takeWhile_cons]
      split
      · simp only [List.take_succ_cons, ih]
      · simp

theorem cstr_take (n : Nat) (s : List Byte) : cstr (s.take n) = (cstr s).take n :=
  takeWhile_take _ n s

theorem cstr_append_nul (s z : List Byte) : cstr (s ++ 0 :: z) = cstr s := by
  unfold cstr
  induction s with
  | nil => simp
  | cons x xs ih =>
    simp only [List.cons_append, List.takeWhile_cons]
    split
    · rw [ih]
    · rfl

/-- What `read_text` finds in the bytes that `Save` writes for a text: the bytes of the
text before its first NUL, cut to the size of the buffer. -/
theorem cstr_write_text_any (N : Nat) (s : List Byte) :
    cstr (write_text N s) = (cstr s).take N := by
  rw [write_text_eq]
  unfold fixedText
  by_cases h : s.length < N
  · rw [if_pos h]
    have hl : (cstr s).length ≤ s.length := (List.takeWhile_sublist _).length_le
    have e : N - s.length = (N - s.length - 1) + 1 := by omega
    rw [e, List.replicate_succ, cstr_append_nul, List.take_of_length_le (by omega)]
  · rw [if_neg h, cstr_take]

theorem read_text_write_any (n : Nat) (s r : List Byte) :
    read_text n (write_text n s ++ r) = some (cstr (write_text n s), r) := by
  rw [read_text_eq n _ (by rw [List.length_append, write_text_length]; omega),
    take_append_of_length _ _ _ (write_text_length n s),
    drop_append_of_length _ _ _ (write_text_length n s)]

theorem readDirectoryEntry_write_any (e : DemoDirectoryEntry) (r : List Byte) :
    readDirectoryEntry (writeDirectoryEntry e ++ r) = some (e.reread, r) := by
  simp only [readDirectoryEntry, writeDirectoryEntry, List.append_assoc,
    bind_read_object32_write]
  rw [Reader.bind_of_eq _ (read_text_write_any _ _ _)]
  simp only [bind_read_object32_write, Reader.pure_apply]
  rfl

theorem readDirectoryEntry_of_take (e : DemoDirectoryEntry) (r : List Byte)
    (h : r.take 92 = writeDirectoryEntry e) :
    (readDirectoryEntry r).map Prod.fst = some e.reread := by
  obtain ⟨g, hg⟩ := readDirectoryEntry_fixed
  have hl : 92 ≤ r.length := by
    have := congrArg List.length h
    rw [List.length_take, writeDirectoryEntry_length] at this
    omega
  have h1 := hg r
  rw [if_pos hl, h] at h1
  have h2 := hg (writeDirectoryEntry e ++ [])
  rw [readDirectoryEntry_write_any, List.append_nil,
    if_pos (by rw [writeDirectoryEntry_length]),
    List.take_of_length_le (by rw [writeDirectoryEntry_length])] at h2
  simp only [Option.some.injEq, Prod.mk.injEq] at h2
  rw [h1, ← h2.1]
  rfl

theorem Save_writable (d : DemoFile) (B : List Byte) (d' : DemoFile)
    (h : d.Save = some (B, d')) : ∀ e ∈ d.directoryEntries, ∀ f ∈ e.frames, f.Writable := by
  by_contra hc
  rw [Save_none d hc] at h
  cases h

/-- C26 fails as stated: the object `nulDescriptionModel` has one entry, `Save` writes
649 bytes for it and the constructor accepts them, but the description of the entry read
back is the one byte `a`, not the three bytes `a`, NUL, `b` of the object. -/
theorem Save_reopenable_counterexample :
    1 ≤ nulDescriptionModel.directoryEntries.length ∧
    nulDescriptionModel.directoryEntries.length ≤ 1024 ∧
    nulDescriptionModel.Save = some nulDescriptionSaved ∧
    nulDescriptionSaved.1.length = 649 ∧
    DemoFile.DemoFile nulDescriptionSaved.1 = .ok (opened nulDescriptionSaved.1) ∧
    nulDescriptionModel.directoryEntries.map (fun e => e.description.take 64) =
      [[97, 0, 98]] ∧
    (opened nulDescriptionSaved.1).directoryEntries.map (fun e => e.description) =
      [[97]] := by
  decide!

/-- C26 (as amended). For an object with between 1 and 1024 entries for which `Save`
writes fewer than 2^31 bytes B: the length of B is D + 4 + 92 * C, with C the number of
entries and D the directory offset in bytes 540..543 of B, which is also the offset that
`Save` stores in the object; B has at least 544 bytes and the signature, 0 <= D <= |B| - 4,
the count at D is C, and the constructor accepts B.  The object it builds has C entries
without frames whose type, flags, CDTrack, trackTime, frameCount and fileLength are those of
the entries of the object saved, in the same order, and whose description is the
description of the object up to its first NUL, cut to 64 bytes: the first 64 bytes of the
description when these hold no NUL. -/
theorem Save_reopenable (d : DemoFile) (B : List Byte) (d' : DemoFile)
    (hsave : d.Save = some (B, d'))
    (h1 : 1 ≤ d.directoryEntries.length) (h2 : d.directoryEntries.length ≤ 1024)
    (hB : B.length < 2147483648) :
    (B.length : Int) = directoryOffsetField B + 4 + 92 * (d.directoryEntries.length : Int) ∧
    int32 d'.header.directoryOffset = directoryOffsetField B ∧
    544 ≤ B.length ∧ B.take 6 = ascii ['H', 'L', 'D', 'E', 'M', 'O'] ∧
    0 ≤ directoryOffsetField B ∧ directoryOffsetField B ≤ (B.length : Int) - 4 ∧
    entryCountField B = (d.directoryEntries.length : Int) ∧
    ∃ m, DemoFile.DemoFile B = .ok m ∧
      m.directoryEntries.length = d.directoryEntries.length ∧
      List.Forall₂ (fun e e' =>
          e'.type = e.type ∧ e'.description = (cstr e.description).take 64 ∧
          ((0 : Byte) ∉ e.description.take 64 → e'.description = e.description.take 64) ∧
          e'.flags = e.flags ∧ e'.CDTrack = e.CDTrack ∧ e'.trackTime = e.trackTime ∧
          e'.frameCount = e.frameCount ∧ e'.fileLength = e.fileLength ∧ e'.frames = [])
        d.directoryEntries m.directoryEntries := by
  have hw := Save_writable d B d' hsave
  have hs := Save_savedFile d hw
  rw [hsave] at hs
  simp only [Option.some.injEq, Prod.mk.injEq] at hs
  obtain ⟨hBeq, hd'⟩ := hs
  have hlen := savedFile_length d.header (d.directoryEntries.map entryStream).flatten
    (assignOffsets d.directoryEntries 544)
  rw [← hBeq, assignOffsets_length] at hlen
  have hX : 544 + ((d.directoryEntries.map entryStream).flatten).length < 2147483648 := by
    omega
  have hD := savedFile_directoryOffsetField d.header
    (d.directoryEntries.map entryStream).flatten (assignOffsets d.directoryEntries 544) hX
  rw [← hBeq] at hD
  have hC := savedFile_entryCountField d.header
    (d.directoryEntries.map entryStream).flatten (assignOffsets d.directoryEntries 544) hX
    (by rw [assignOffsets_length]; omega)
  rw [← hBeq, assignOffsets_length] at hC
  have hsig : B.take 6 = ascii ['H', 'L', 'D', 'E', 'M', 'O'] := by
    rw [hBeq, ← HLDEMO_eq_ascii]
    simp [savedFile, writeHeader, HLDEMO, List.append_assoc]
  have hoff : int32 d'.header.directoryOffset = directoryOffsetField B := by
    rw [hd', hD]
    exact int32_castInt32 _ hX
  obtain ⟨m, hm⟩ := (DemoFile_ok_iff B).1.2
    ⟨by omega, hsig, by rw [hD]; omega, by rw [hD]; omega, by rw [hC]; omega,
      by rw [hC]; omega, by rw [hC, hD]; omega⟩
  obtain ⟨mlen, _, midx⟩ := (DemoFile_ok_iff B).2 m hm
  rw [hC] at mlen
  have mlen' : m.directoryEntries.length = d.directoryEntries.length := by omega
  refine ⟨by rw [hD]; omega, hoff, by omega, hsig, by rw [hD]; omega, by rw [hD]; omega, hC,
    m, hm, mlen', ?_⟩
  rw [List.forall₂_iff_get]
  refine ⟨mlen'.symm, fun i hi hi' => ?_⟩
  have hget : d.directoryEntries[i]? = some (d.directoryEntries.get ⟨i, hi⟩) :=
    List.getElem?_eq_getElem hi
  have hrec := savedFile_record d.header (d.directoryEntries.map entryStream).flatten
    (assignOffsets d.directoryEntries 544) i _
    (assignOffsets_getElem d.directoryEntries 544 i _ hget)
  rw [← hBeq] at hrec
  have hread := midx i hi'
  rw [hD, Int.toNat_ofNat, readDirectoryEntry_of_take _ _ hrec,
    List.getElem?_eq_getElem hi'] at hread
  simp only [Option.some.injEq] at hread
  have hmi : m.directoryEntries.get ⟨i, hi'⟩ = m.directoryEntries[i] := rfl
  rw [hmi, ← hread]
  have hdesc : cstr (write_text DIR_ENTRY_DESCRIPTION_SIZE
      (d.directoryEntries.get ⟨i, hi⟩).description) =
      (cstr (d.directoryEntries.get ⟨i, hi⟩).description).take 64 :=
    cstr_write_text_any _ _
  refine ⟨rfl, hdesc, ?_, rfl, rfl, rfl, rfl, rfl, rfl⟩
  intro h0
  show cstr (write_text DIR_ENTRY_DESCRIPTION_SIZE
      (d.directoryEntries.get ⟨i, hi⟩).description) = _
  rw [hdesc, ← cstr_take, cstr_of_not_mem _ h0]

/-- C26 (as amended), instance: the object read from the sample file has two entries and
`Save` writes 1532 bytes for it. -/
theorem Save_reopenable_witness :
    sampleRead.Save = some sampleSaved ∧ 1 ≤ sampleRead.directoryEntries.length ∧
    sampleRead.directoryEntries.length ≤ 1024 ∧ sampleSaved.1.length < 2147483648 ∧
    ((sampleSaved.1.length : Int) =
        directoryOffsetField sampleSaved.1 + 4 + 92 * (sampleRead.directoryEntries.length : Int) ∧
    int32 sampleSaved.2.header.directoryOffset = directoryOffsetField sampleSaved.1 ∧
    544 ≤ sampleSaved.1.length ∧ sampleSaved.1.take 6 = ascii ['H', 'L', 'D', 'E', 'M', 'O'] ∧
    0 ≤ directoryOffsetField sampleSaved.1 ∧
    directoryOffsetField sampleSaved.1 ≤ (sampleSaved.1.length : Int) - 4 ∧
    entryCountField sampleSaved.1 = (sampleRead.directoryEntries.length : Int) ∧
    ∃ m, DemoFile.DemoFile sampleSaved.1 = .ok m ∧
      m.directoryEntries.length = sampleRead.directoryEntries.length ∧
      List.Forall₂ (fun e e' =>
          e'.type = e.type ∧ e'.description = (cstr e.description).take 64 ∧
          ((0 : Byte) ∉ e.description.take 64 → e'.description = e.description.take 64) ∧
          e'.flags = e.flags ∧ e'.CDTrack = e.CDTrack ∧ e'.trackTime = e.trackTime ∧
          e'.frameCount = e.frameCount ∧ e'.fileLength = e.fileLength ∧ e'.frames = [])
        sampleRead.directoryEntries m.directoryEntries) :=
  have hlen : sampleRead.directoryEntries.length = 2 := by
    have h := congrArg List.length sampleFile_facts.2.2.2.2.1
    rw [List.length_map] at h
    exact h
  have hB : sampleSaved.1.length < 2147483648 := by
    rw [sampleRead_facts.2.2.2.2.2.2]; omega
  ⟨sampleRead_facts.2.2.2.2.1, by rw [hlen]; omega, by rw [hlen]; omega, hB,
    Save_reopenable sampleRead sampleSaved.1 sampleSaved.2 sampleRead_facts.2.2.2.2.1
      (by rw [hlen]; omega) (by rw [hlen]; omega) hB⟩

/-- C21, instance: the sample file is opened, and neither the constructor nor `ReadFrames`
on the object reads past its end; the directory offset of the object is in
[0, size - 4]. -/
theorem no_over_read_witness :
    DemoFile.DemoFile sampleFile = .ok sampleOpened ∧
    DemoFile.DemoFile sampleFile ≠ .error .readFailure ∧
    ((sampleOpened.ReadFrames).1 ≠ some .readFailure ∧
      (sampleOpened.ReadFrames).1 ≠ some .outOfFuel ∧
      0 ≤ int32 sampleOpened.header.directoryOffset ∧
      int32 sampleOpened.header.directoryOffset ≤ (sampleFile.length : Int) - 4) :=
  ⟨sampleFile_facts.1, (no_over_read sampleFile).1,
    (no_over_read sampleFile).2.1 sampleOpened sampleFile_facts.1⟩

end HLDemo
